import Mathlib

/-!
The mcc compiler: IR construction, CFG leader partition, stack annotation and
semantic checks

A shallow embedding of the IR builder and of the AST rewrite that precedes it
(`src/ir.c`), of the CFG builder (`src/cfg.c`), of the stack annotator
(`src/stack_size.c`), of the semantic checks (`src/semantic_checks.c`), of the
constructor of string literals (`src/ast.c`) and of the entry point
`app/mc_asm.c` of the mcc compiler, with the properties the specification
states about them.

Conventions of the embedding.

* A linked list of C nodes is a Lean `List`; a pointer to a node of the IR list
  is the position of the row in that list, and a `NULL` pointer is `none`.
* Heap allocation (`malloc`, `strdup`) is taken to succeed.  The builder's
  `has_failed` flag is only ever set after a failed allocation, so it stays
  `false` throughout, and the early returns guarded by it are never taken; the
  flag is therefore left out of the builder state.
* The counters (`unsigned label_counter`, `int i` of `number_rows`) are natural
  numbers: they only ever count rows and labels of one compilation unit.
-/

namespace Mcc

/-! ## IR data model (`mcc/ir.h`, as used by `ir.c`, `cfg.c` and `stack_size.c`) -/

/-- Value of a C `double`, kept as an uninterpreted bit pattern: the IR only
carries float literals around. -/
structure c_double where
  bits : Nat
  deriving DecidableEq, Repr

/-- An AST identifier node (`struct mcc_ast_identifier`). -/
structure mcc_ast_identifier where
  identifier_name : String
  deriving DecidableEq, Repr

/-- Instruction tags of IR rows (`enum mcc_ir_instruction`): every tag that the
sources name.  `ir.c` emits array declarations as `MCC_IR_INSTR_ARRAY`, while
`stack_size.c` reads the four typed tags. -/
inductive mcc_ir_instruction where
  | MCC_IR_INSTR_ASSIGN
  | MCC_IR_INSTR_LABEL
  | MCC_IR_INSTR_FUNC_LABEL
  | MCC_IR_INSTR_JUMP
  | MCC_IR_INSTR_CALL
  | MCC_IR_INSTR_JUMPFALSE
  | MCC_IR_INSTR_PUSH
  | MCC_IR_INSTR_POP
  | MCC_IR_INSTR_EQUALS
  | MCC_IR_INSTR_NOTEQUALS
  | MCC_IR_INSTR_SMALLER
  | MCC_IR_INSTR_GREATER
  | MCC_IR_INSTR_SMALLEREQ
  | MCC_IR_INSTR_GREATEREQ
  | MCC_IR_INSTR_AND
  | MCC_IR_INSTR_OR
  | MCC_IR_INSTR_PLUS
  | MCC_IR_INSTR_MINUS
  | MCC_IR_INSTR_MULTIPLY
  | MCC_IR_INSTR_DIVIDE
  | MCC_IR_INSTR_MODULO
  | MCC_IR_INSTR_NEGATIV
  | MCC_IR_INSTR_NOT
  | MCC_IR_INSTR_RETURN
  | MCC_IR_INSTR_ARRAY
  | MCC_IR_INSTR_ARRAY_BOOL
  | MCC_IR_INSTR_ARRAY_INT
  | MCC_IR_INSTR_ARRAY_FLOAT
  | MCC_IR_INSTR_ARRAY_STRING
  | MCC_IR_INSTR_UNKNOWN
  deriving DecidableEq, Repr

open mcc_ir_instruction

/-- Arguments of IR rows (`struct mcc_ir_arg`), one constructor per value of
the `type` tag.  A row reference holds the position of the row it points to. -/
inductive mcc_ir_arg where
  | MCC_IR_TYPE_LIT_INT (lit_int : Int)
  | MCC_IR_TYPE_LIT_FLOAT (lit_float : c_double)
  | MCC_IR_TYPE_LIT_BOOL (lit_bool : Bool)
  | MCC_IR_TYPE_LIT_STRING (lit_string : String)
  | MCC_IR_TYPE_ROW (row : Nat)
  | MCC_IR_TYPE_LABEL (label : Nat)
  | MCC_IR_TYPE_IDENTIFIER (ident : mcc_ast_identifier)
  | MCC_IR_TYPE_ARR_ELEM (arr_ident : mcc_ast_identifier) (index : mcc_ir_arg)
  | MCC_IR_TYPE_FUNC_LABEL (func_label : String)
  deriving DecidableEq, Repr

open mcc_ir_arg

/-- One IR row (`struct mcc_ir_row`); `prev_row` and `next_row` are the
neighbours in the list that holds the row. -/
structure mcc_ir_row where
  row_no : Nat
  instr : mcc_ir_instruction
  arg1 : Option mcc_ir_arg
  arg2 : Option mcc_ir_arg
  deriving DecidableEq, Repr

/-- Instruction of the row at position `i` of an IR list, if there is one. -/
def instr_at (ir : List mcc_ir_row) (i : Nat) : Option mcc_ir_instruction :=
  (ir[i]?).map (fun r => r.instr)

/-! ## CFG builder (`src/cfg.c`) -/

/-- Node of the leader annotation (`struct annotated_ir` of `cfg.c`); `row` is
the position of the IR row the node points to. -/
structure annotated_ir where
  is_leader : Bool
  row : Nat
  deriving DecidableEq, Repr

/-- `new_annotated_ir` of `cfg.c`. -/
def new_annotated_ir (row : Nat) (is_leader : Bool) : annotated_ir :=
  { is_leader := is_leader, row := row }

/-- The `while (head)` loop of `annotate_ir`: the first argument is the IR
list from `head` on, `prev` is `head_an->row`, the row annotated last, and
`pos` is the position of `head` in the whole list. -/
def annotate_ir_loop : List mcc_ir_row → mcc_ir_row → Nat → List annotated_ir
  | [], _, _ => []
  | head :: rest, prev, pos =>
    let temp :=
      if head.instr = MCC_IR_INSTR_LABEL ∨ head.instr = MCC_IR_INSTR_FUNC_LABEL ∨
          prev.instr = MCC_IR_INSTR_JUMP ∨ prev.instr = MCC_IR_INSTR_JUMPFALSE ∨
          prev.instr = MCC_IR_INSTR_RETURN then
        new_annotated_ir pos true
      else
        new_annotated_ir pos false
    temp :: annotate_ir_loop rest head (pos + 1)

/-- `annotate_ir` of `cfg.c`.  The function asserts that the list is not
empty; the result is `none` there. -/
def annotate_ir : List mcc_ir_row → Option (List annotated_ir)
  | [] => none
  | head :: rest => some (new_annotated_ir 0 true :: annotate_ir_loop rest head 1)

/-- A basic block (`struct mcc_basic_block`).  `leader` is the position of the
leader row; the four links are addresses in the block heap. -/
structure mcc_basic_block where
  leader : Nat
  child_left : Option Nat
  child_right : Option Nat
  parent_left : Option Nat
  parent_right : Option Nat
  deriving DecidableEq, Repr

/-- `mcc_cfg_new_basic_block` of `cfg.c`. -/
def mcc_cfg_new_basic_block (leader : Nat) (child_left child_right parent_left
    parent_right : Option Nat) : mcc_basic_block :=
  { leader := leader, child_left := child_left, child_right := child_right,
    parent_left := parent_left, parent_right := parent_right }

/-- The `while (an_ir)` loop of `get_linear_bbs`.  The heap of blocks is a
list, the address of a block is its position, and a new block is allocated at
the end; `head` is the address of the block created last. -/
def get_linear_bbs_loop : List annotated_ir → Nat → List mcc_basic_block → List mcc_basic_block
  | [], _, heap => heap
  | an_ir :: rest, head, heap =>
    if an_ir.is_leader then
      let new := heap.length
      let heap1 := heap ++ [mcc_cfg_new_basic_block an_ir.row none none none none]
      let heap2 := heap1.modify (fun b => { b with child_right := some new }) head
      let heap3 := heap2.modify (fun b => { b with parent_left := some head }) new
      get_linear_bbs_loop rest new heap3
    else
      get_linear_bbs_loop rest head heap

/-- `get_linear_bbs` of `cfg.c`: the address of `bb_first` and the heap of
blocks.  The function reads `an_ir->row` at once, so there is no result for an
empty annotation. -/
def get_linear_bbs : List annotated_ir → Option (Nat × List mcc_basic_block)
  | [] => none
  | an_ir :: rest =>
    let bb_first := mcc_cfg_new_basic_block an_ir.row none none none none
    some (0, get_linear_bbs_loop rest 0 [bb_first])

/-- The blocks met when following `child_right` from the block at `start`, at
most `fuel` of them. -/
def child_right_chain (heap : List mcc_basic_block) : Nat → Option Nat → List mcc_basic_block
  | 0, _ => []
  | _, none => []
  | fuel + 1, some a =>
    match heap[a]? with
    | none => []
    | some b => b :: child_right_chain heap fuel b.child_right

/-- The heap of a linear chain over the leader rows `L`: block `k` owns the
`k`-th leader, its `child_right` is block `k + 1` and its `parent_left` is
block `k - 1`, where there is one; the other two links are `NULL`. -/
def linear_blocks (L : List Nat) : List mcc_basic_block :=
  L.mapIdx (fun k l =>
    { leader := l, child_left := none,
      child_right := if k + 1 < L.length then some (k + 1) else none,
      parent_left := if k = 0 then none else some (k - 1), parent_right := none })

/-- The positions of the rows that the annotation marks as leaders. -/
def leader_rows (an : List annotated_ir) : List Nat :=
  (an.filter (fun a => a.is_leader)).map (fun a => a.row)

/-- `mcc_delete_cfg` of `cfg.c`: the addresses released, in the order of the
calls to `free`, the recursion being cut after `fuel` nested calls. -/
def mcc_delete_cfg (heap : List mcc_basic_block) : Nat → Option Nat → List Nat
  | 0, _ => []
  | _, none => []
  | fuel + 1, some a =>
    match heap[a]? with
    | none => []
    | some b =>
      mcc_delete_cfg heap fuel b.child_left ++ mcc_delete_cfg heap fuel b.child_right ++ [a]

/-- What `mcc_cfg_generate` leaves behind: the pointer it returns, the blocks
that `get_linear_bbs` built, and the addresses it released with
`mcc_delete_cfg` before returning. -/
structure cfg_result where
  linear_bbs : Nat
  blocks : List mcc_basic_block
  released : List Nat
  deriving DecidableEq, Repr

/-- `mcc_cfg_generate` of `cfg.c` (the printing of the annotated IR left out).
The function builds the linear chain, releases it with `mcc_delete_cfg` and
returns the pointer to its first block all the same. -/
def mcc_cfg_generate (ir : List mcc_ir_row) : Option cfg_result :=
  match annotate_ir ir with
  | none => none
  | some an_ir =>
    match get_linear_bbs an_ir with
    | none => none
    | some (linear_bbs, heap) =>
      some { linear_bbs := linear_bbs, blocks := heap,
             released := mcc_delete_cfg heap heap.length (some linear_bbs) }

/-! ## AST data model (`mcc/ast.h`, as used by `ast.c` and `ir.c`) -/

/-- Type tags of the source language (`enum mcc_ast_types`). -/
inductive mcc_ast_types where
  | INT
  | FLOAT
  | BOOL
  | STRING
  | VOID
  deriving DecidableEq, Repr

/-- Literals (`struct mcc_ast_literal`), one constructor per literal type. -/
inductive mcc_ast_literal where
  | MCC_AST_LITERAL_TYPE_INT (i_value : Int)
  | MCC_AST_LITERAL_TYPE_FLOAT (f_value : c_double)
  | MCC_AST_LITERAL_TYPE_BOOL (bool_value : Bool)
  | MCC_AST_LITERAL_TYPE_STRING (string_value : String)
  deriving DecidableEq, Repr

/-- Binary operators (`enum mcc_ast_binary_op`). -/
inductive mcc_ast_binary_op where
  | MCC_AST_BINARY_OP_ADD
  | MCC_AST_BINARY_OP_SUB
  | MCC_AST_BINARY_OP_MUL
  | MCC_AST_BINARY_OP_DIV
  | MCC_AST_BINARY_OP_SMALLER
  | MCC_AST_BINARY_OP_GREATER
  | MCC_AST_BINARY_OP_SMALLEREQ
  | MCC_AST_BINARY_OP_GREATEREQ
  | MCC_AST_BINARY_OP_CONJ
  | MCC_AST_BINARY_OP_DISJ
  | MCC_AST_BINARY_OP_EQUAL
  | MCC_AST_BINARY_OP_NOTEQUAL
  deriving DecidableEq, Repr

/-- Unary operators (`enum mcc_ast_unary_op`). -/
inductive mcc_ast_unary_op where
  | MCC_AST_UNARY_OP_NEGATIV
  | MCC_AST_UNARY_OP_NOT
  deriving DecidableEq, Repr

mutual
/-- Expressions (`struct mcc_ast_expression`), one constructor per value of
the `type` tag. -/
inductive mcc_ast_expression where
  | MCC_AST_EXPRESSION_TYPE_LITERAL (literal : mcc_ast_literal)
  | MCC_AST_EXPRESSION_TYPE_BINARY_OP (op : mcc_ast_binary_op)
      (lhs rhs : mcc_ast_expression)
  | MCC_AST_EXPRESSION_TYPE_PARENTH (expression : mcc_ast_expression)
  | MCC_AST_EXPRESSION_TYPE_UNARY_OP (u_op : mcc_ast_unary_op) (child : mcc_ast_expression)
  | MCC_AST_EXPRESSION_TYPE_VARIABLE (identifier : mcc_ast_identifier)
  | MCC_AST_EXPRESSION_TYPE_ARRAY_ELEMENT (array_identifier : mcc_ast_identifier)
      (index : mcc_ast_expression)
  | MCC_AST_EXPRESSION_TYPE_FUNCTION_CALL (function_identifier : mcc_ast_identifier)
      (arguments : mcc_ast_arguments)
/-- A pointer to an argument node (`struct mcc_ast_arguments *`): `null`, a
node with `is_empty` set, or a node that holds an expression. -/
inductive mcc_ast_arguments where
  | null
  | empty (next_arguments : mcc_ast_arguments)
  | node (expression : mcc_ast_expression) (next_arguments : mcc_ast_arguments)
end

/-- Declarations (`struct mcc_ast_declaration`). -/
inductive mcc_ast_declaration where
  | MCC_AST_DECLARATION_TYPE_VARIABLE (variable_type : mcc_ast_types)
      (variable_identifier : mcc_ast_identifier)
  | MCC_AST_DECLARATION_TYPE_ARRAY (array_type : mcc_ast_types)
      (array_identifier : mcc_ast_identifier) (array_size : mcc_ast_literal)
  deriving DecidableEq, Repr

/-- Assignments (`struct mcc_ast_assignment`). -/
inductive mcc_ast_assignment where
  | MCC_AST_ASSIGNMENT_TYPE_VARIABLE (variable_identifier : mcc_ast_identifier)
      (variable_assigned_value : mcc_ast_expression)
  | MCC_AST_ASSIGNMENT_TYPE_ARRAY (array_identifier : mcc_ast_identifier)
      (array_index : mcc_ast_expression) (array_assigned_value : mcc_ast_expression)

mutual
/-- Statements (`struct mcc_ast_statement`), one constructor per value of the
`type` tag.  `ir.c` reads the condition of a while statement through the field
`if_condition`, which shares its place in the union. -/
inductive mcc_ast_statement where
  | MCC_AST_STATEMENT_TYPE_EXPRESSION (stmt_expression : mcc_ast_expression)
  | MCC_AST_STATEMENT_TYPE_COMPOUND_STMT (compound_statement : mcc_ast_compound_statement)
  | MCC_AST_STATEMENT_TYPE_ASSIGNMENT (assignment : mcc_ast_assignment)
  | MCC_AST_STATEMENT_TYPE_DECLARATION (declaration : mcc_ast_declaration)
  | MCC_AST_STATEMENT_TYPE_IF_ELSE_STMT (if_condition : mcc_ast_expression)
      (if_else_on_true if_else_on_false : mcc_ast_statement)
  | MCC_AST_STATEMENT_TYPE_IF_STMT (if_condition : mcc_ast_expression)
      (if_on_true : mcc_ast_statement)
  | MCC_AST_STATEMENT_TYPE_RETURN (return_value : Option mcc_ast_expression)
      (is_empty_return : Bool)
  | MCC_AST_STATEMENT_TYPE_WHILE (if_condition : mcc_ast_expression)
      (while_on_true : mcc_ast_statement)
/-- A pointer to a compound-statement node
(`struct mcc_ast_compound_statement *`): `null`, a node with `is_empty` set,
or a node that holds a statement. -/
inductive mcc_ast_compound_statement where
  | null
  | empty (next_compound_statement : mcc_ast_compound_statement)
  | node (statement : mcc_ast_statement)
      (next_compound_statement : mcc_ast_compound_statement)
end

/-- A pointer to a parameter node (`struct mcc_ast_parameters *`): `null`, a
node with `is_empty` set, or a node that holds a declaration. -/
inductive mcc_ast_parameters where
  | null
  | empty (next_parameters : mcc_ast_parameters)
  | node (declaration : mcc_ast_declaration) (next_parameters : mcc_ast_parameters)
  deriving DecidableEq, Repr

/-- Function definitions (`struct mcc_ast_function_definition`). -/
structure mcc_ast_function_definition where
  type : mcc_ast_types
  identifier : mcc_ast_identifier
  parameters : mcc_ast_parameters
  compound_stmt : mcc_ast_compound_statement

/-- A pointer to a program node (`struct mcc_ast_program *`): `null` or a node
with its function and the pointer `next_function`. -/
inductive mcc_ast_program where
  | null
  | node (function : mcc_ast_function_definition) (next_function : mcc_ast_program)

open mcc_ast_literal mcc_ast_binary_op mcc_ast_unary_op mcc_ast_expression
open mcc_ast_declaration mcc_ast_assignment mcc_ast_statement

/-! ## IR builder (`src/ir.c`) -/

/-- Builder state (`struct ir_generation_userdata`): `rows` is the list from
`head` to `current`. -/
structure ir_generation_userdata where
  rows : List mcc_ir_row
  label_counter : Nat
  deriving DecidableEq, Repr

/-- `new_row` of `ir.c`. -/
def new_row (arg1 arg2 : Option mcc_ir_arg) (instr : mcc_ir_instruction) : mcc_ir_row :=
  { row_no := 0, arg1 := arg1, arg2 := arg2, instr := instr }

/-- `append_row` of `ir.c`: the row becomes the new `current`. -/
def append_row (row : mcc_ir_row) (data : ir_generation_userdata) : ir_generation_userdata :=
  { data with rows := data.rows ++ [row] }

/-- The pointer to the row that the next `append_row` links in: its position
in the list. -/
def next_row_pointer (data : ir_generation_userdata) : Nat :=
  data.rows.length

/-- `new_arg_int` of `ir.c`. -/
def new_arg_int (lit : Int) : mcc_ir_arg := MCC_IR_TYPE_LIT_INT lit

/-- `new_arg_float` of `ir.c`. -/
def new_arg_float (lit : c_double) : mcc_ir_arg := MCC_IR_TYPE_LIT_FLOAT lit

/-- `new_arg_bool` of `ir.c`. -/
def new_arg_bool (lit : Bool) : mcc_ir_arg := MCC_IR_TYPE_LIT_BOOL lit

/-- `new_arg_string` of `ir.c`. -/
def new_arg_string (lit : String) : mcc_ir_arg := MCC_IR_TYPE_LIT_STRING lit

/-- `new_arg_row` of `ir.c`. -/
def new_arg_row (row : Nat) : mcc_ir_arg := MCC_IR_TYPE_ROW row

/-- `new_arg_identifier` of `ir.c`. -/
def new_arg_identifier (ident : mcc_ast_identifier) : mcc_ir_arg := MCC_IR_TYPE_IDENTIFIER ident

/-- `new_arg_arr_elem` of `ir.c`. -/
def new_arg_arr_elem (ident : mcc_ast_identifier) (index : mcc_ir_arg) : mcc_ir_arg :=
  MCC_IR_TYPE_ARR_ELEM ident index

/-- `new_arg_func_label` of `ir.c`: the label carries a copy of the name of
the function defined. -/
def new_arg_func_label (function : mcc_ast_function_definition) : mcc_ir_arg :=
  MCC_IR_TYPE_FUNC_LABEL function.identifier.identifier_name

/-- `new_arg_label` of `ir.c`: the argument and the state with the counter
advanced. -/
def new_arg_label (data : ir_generation_userdata) : mcc_ir_arg × ir_generation_userdata :=
  (MCC_IR_TYPE_LABEL data.label_counter, { data with label_counter := data.label_counter + 1 })

/-- `copy_arg` of `ir.c`; `none` is the `NULL` of its default branch. -/
def copy_arg : mcc_ir_arg → Option mcc_ir_arg
  | MCC_IR_TYPE_LIT_INT lit_int => some (new_arg_int lit_int)
  | MCC_IR_TYPE_LIT_BOOL lit_bool => some (new_arg_bool lit_bool)
  | MCC_IR_TYPE_LIT_FLOAT lit_float => some (new_arg_float lit_float)
  | MCC_IR_TYPE_LIT_STRING lit_string => some (new_arg_string lit_string)
  | MCC_IR_TYPE_IDENTIFIER ident => some (new_arg_identifier ident)
  | MCC_IR_TYPE_LABEL label => some (MCC_IR_TYPE_LABEL label)
  | MCC_IR_TYPE_ROW row => some (new_arg_row row)
  | _ => none

/-- `generate_arg_lit` of `ir.c`; `mcc_ir_new_arg` picks the constructor of
the literal's C type. -/
def generate_arg_lit : mcc_ast_literal → mcc_ir_arg
  | MCC_AST_LITERAL_TYPE_INT i_value => new_arg_int i_value
  | MCC_AST_LITERAL_TYPE_FLOAT f_value => new_arg_float f_value
  | MCC_AST_LITERAL_TYPE_BOOL bool_value => new_arg_bool bool_value
  | MCC_AST_LITERAL_TYPE_STRING string_value => new_arg_string string_value

/-- `arg_from_declaration` of `ir.c`. -/
def arg_from_declaration : mcc_ast_declaration → mcc_ir_arg
  | MCC_AST_DECLARATION_TYPE_ARRAY _ array_identifier _ => new_arg_identifier array_identifier
  | MCC_AST_DECLARATION_TYPE_VARIABLE _ variable_identifier => new_arg_identifier variable_identifier

/-- The `switch (expression->op)` of `generate_ir_expression_binary_op`. -/
def binary_op_instr : mcc_ast_binary_op → mcc_ir_instruction
  | MCC_AST_BINARY_OP_ADD => MCC_IR_INSTR_PLUS
  | MCC_AST_BINARY_OP_SUB => MCC_IR_INSTR_MINUS
  | MCC_AST_BINARY_OP_MUL => MCC_IR_INSTR_MULTIPLY
  | MCC_AST_BINARY_OP_DIV => MCC_IR_INSTR_DIVIDE
  | MCC_AST_BINARY_OP_SMALLER => MCC_IR_INSTR_SMALLER
  | MCC_AST_BINARY_OP_GREATER => MCC_IR_INSTR_GREATER
  | MCC_AST_BINARY_OP_SMALLEREQ => MCC_IR_INSTR_SMALLEREQ
  | MCC_AST_BINARY_OP_GREATEREQ => MCC_IR_INSTR_GREATEREQ
  | MCC_AST_BINARY_OP_CONJ => MCC_IR_INSTR_AND
  | MCC_AST_BINARY_OP_DISJ => MCC_IR_INSTR_OR
  | MCC_AST_BINARY_OP_EQUAL => MCC_IR_INSTR_EQUALS
  | MCC_AST_BINARY_OP_NOTEQUAL => MCC_IR_INSTR_NOTEQUALS

/-- The `switch (expression->u_op)` of `generate_ir_expression_unary_op`. -/
def unary_op_instr : mcc_ast_unary_op → mcc_ir_instruction
  | MCC_AST_UNARY_OP_NEGATIV => MCC_IR_INSTR_NEGATIV
  | MCC_AST_UNARY_OP_NOT => MCC_IR_INSTR_NOT

mutual
/-- `generate_ir_expression` of `ir.c`, with the bodies of the functions it
dispatches to (`generate_ir_expression_binary_op`, `_unary_op`, `_var`,
`_func_call`) written out in their case: the argument that names the value,
and the state after the rows of the expression are appended.  Where `ir.c`
builds an argument through the macro `mcc_ir_new_arg` of the header `mcc/ir.h`,
which is not among the sources, the constructor of `ir.c` for the C type of
the macro's operand stands here, as `generate_arg_lit` shows the macro to
select it: `new_arg_identifier` for a `struct mcc_ast_identifier *`, be it the
identifier of a variable or of the callee of a call, and `new_arg_row` for a
`struct mcc_ir_row *`. -/
def generate_ir_expression :
    mcc_ast_expression → ir_generation_userdata → mcc_ir_arg × ir_generation_userdata
  | MCC_AST_EXPRESSION_TYPE_LITERAL literal, data => (generate_arg_lit literal, data)
  | MCC_AST_EXPRESSION_TYPE_BINARY_OP op lhs rhs, data =>
    let l := generate_ir_expression lhs data
    let r := generate_ir_expression rhs l.2
    let instr := binary_op_instr op
    let row := new_row (some l.1) (some r.1) instr
    (new_arg_row (next_row_pointer r.2), append_row row r.2)
  | MCC_AST_EXPRESSION_TYPE_PARENTH expression, data => generate_ir_expression expression data
  | MCC_AST_EXPRESSION_TYPE_UNARY_OP u_op child, data =>
    let c := generate_ir_expression child data
    let instr := unary_op_instr u_op
    let row := new_row (some c.1) none instr
    (new_arg_row (next_row_pointer c.2), append_row row c.2)
  | MCC_AST_EXPRESSION_TYPE_VARIABLE identifier, data => (new_arg_identifier identifier, data)
  | MCC_AST_EXPRESSION_TYPE_ARRAY_ELEMENT array_identifier index, data =>
    let i := generate_ir_expression index data
    (new_arg_arr_elem array_identifier i.1, i.2)
  | MCC_AST_EXPRESSION_TYPE_FUNCTION_CALL function_identifier arguments, data =>
    let data1 := generate_ir_arguments arguments data
    let arg := new_arg_identifier function_identifier
    let row := new_row (some arg) none MCC_IR_INSTR_CALL
    (new_arg_row (next_row_pointer data1), append_row row data1)
/-- `generate_ir_arguments` of `ir.c`.  The function asserts that its argument
is not `NULL` and recurses only into a `next_arguments` that is not `NULL`, so
the `null` case stands for the recursion that is not entered. -/
def generate_ir_arguments : mcc_ast_arguments → ir_generation_userdata → ir_generation_userdata
  | mcc_ast_arguments.null, data => data
  | mcc_ast_arguments.empty next_arguments, data => generate_ir_arguments next_arguments data
  | mcc_ast_arguments.node expression next_arguments, data =>
    let data1 := generate_ir_arguments next_arguments data
    let arg_push := generate_ir_expression expression data1
    let row := new_row (some arg_push.1) none MCC_IR_INSTR_PUSH
    append_row row arg_push.2
end

/-- `generate_ir_expression_func_call` of `ir.c`: the case of
`generate_ir_expression` for a function call. -/
def generate_ir_expression_func_call (function_identifier : mcc_ast_identifier)
    (arguments : mcc_ast_arguments) (data : ir_generation_userdata) :
    mcc_ir_arg × ir_generation_userdata :=
  generate_ir_expression (MCC_AST_EXPRESSION_TYPE_FUNCTION_CALL function_identifier arguments) data

/-- `generate_ir_assignment` of `ir.c`. -/
def generate_ir_assignment : mcc_ast_assignment → ir_generation_userdata → ir_generation_userdata
  | MCC_AST_ASSIGNMENT_TYPE_VARIABLE variable_identifier variable_assigned_value, data =>
    let identifier := new_arg_identifier variable_identifier
    let exp := generate_ir_expression variable_assigned_value data
    let row := new_row (some identifier) (some exp.1) MCC_IR_INSTR_ASSIGN
    append_row row exp.2
  | MCC_AST_ASSIGNMENT_TYPE_ARRAY array_identifier array_index array_assigned_value, data =>
    let index := generate_ir_expression array_index data
    let identifier := new_arg_arr_elem array_identifier index.1
    let exp := generate_ir_expression array_assigned_value index.2
    let row := new_row (some identifier) (some exp.1) MCC_IR_INSTR_ASSIGN
    append_row row exp.2

/-- `generate_ir_statement_return` of `ir.c`. -/
def generate_ir_statement_return :
    Option mcc_ast_expression → ir_generation_userdata → ir_generation_userdata
  | some return_value, data =>
    let exp := generate_ir_expression return_value data
    let row := new_row (some exp.1) none MCC_IR_INSTR_RETURN
    append_row row exp.2
  | none, data =>
    let row := new_row none none MCC_IR_INSTR_RETURN
    append_row row data

/-- `generate_ir_declaration` of `ir.c`. -/
def generate_ir_declaration : mcc_ast_declaration → ir_generation_userdata → ir_generation_userdata
  | MCC_AST_DECLARATION_TYPE_VARIABLE _ _, data => data
  | MCC_AST_DECLARATION_TYPE_ARRAY _ array_identifier array_size, data =>
    let arg1 := new_arg_identifier array_identifier
    let arg2 := generate_arg_lit array_size
    let row := new_row (some arg1) (some arg2) MCC_IR_INSTR_ARRAY
    append_row row data

mutual
/-- `generate_ir_statement` of `ir.c`, with the bodies of
`generate_ir_statememt_if_else_stmt`, `generate_ir_statememt_if_stmt` and
`generate_ir_statememt_while_stmt` written out in their case. -/
def generate_ir_statement : mcc_ast_statement → ir_generation_userdata → ir_generation_userdata
  | MCC_AST_STATEMENT_TYPE_EXPRESSION stmt_expression, data =>
    (generate_ir_expression stmt_expression data).2
  | MCC_AST_STATEMENT_TYPE_COMPOUND_STMT compound_statement, data =>
    generate_ir_comp_statement compound_statement data
  | MCC_AST_STATEMENT_TYPE_ASSIGNMENT assignment, data => generate_ir_assignment assignment data
  | MCC_AST_STATEMENT_TYPE_DECLARATION declaration, data =>
    generate_ir_declaration declaration data
  | MCC_AST_STATEMENT_TYPE_IF_ELSE_STMT if_condition if_else_on_true if_else_on_false, data =>
    let cond := generate_ir_expression if_condition data
    let l1 := new_arg_label cond.2
    let jumpfalse := new_row (some cond.1) (some l1.1) MCC_IR_INSTR_JUMPFALSE
    let data1 := append_row jumpfalse l1.2
    let data2 := generate_ir_statement if_else_on_true data1
    let l2 := new_arg_label data2
    let jump_row := new_row (some l2.1) none MCC_IR_INSTR_JUMP
    let data3 := append_row jump_row l2.2
    let label_row := new_row (copy_arg l1.1) none MCC_IR_INSTR_LABEL
    let data4 := append_row label_row data3
    let data5 := generate_ir_statement if_else_on_false data4
    let label_row_2 := new_row (copy_arg l2.1) none MCC_IR_INSTR_LABEL
    append_row label_row_2 data5
  | MCC_AST_STATEMENT_TYPE_IF_STMT if_condition if_on_true, data =>
    let cond := generate_ir_expression if_condition data
    let label := new_arg_label cond.2
    let jumpfalse := new_row (some cond.1) (some label.1) MCC_IR_INSTR_JUMPFALSE
    let data1 := append_row jumpfalse label.2
    let data2 := generate_ir_statement if_on_true data1
    let label_row := new_row (copy_arg label.1) none MCC_IR_INSTR_LABEL
    append_row label_row data2
  | MCC_AST_STATEMENT_TYPE_RETURN return_value _, data =>
    generate_ir_statement_return return_value data
  | MCC_AST_STATEMENT_TYPE_WHILE if_condition while_on_true, data =>
    let l0 := new_arg_label data
    let label_row := new_row (some l0.1) none MCC_IR_INSTR_LABEL
    let data1 := append_row label_row l0.2
    let cond := generate_ir_expression if_condition data1
    let l1 := new_arg_label cond.2
    let jumpfalse := new_row (some cond.1) (some l1.1) MCC_IR_INSTR_JUMPFALSE
    let data2 := append_row jumpfalse l1.2
    let data3 := generate_ir_statement while_on_true data2
    let jump_row := new_row (copy_arg l0.1) none MCC_IR_INSTR_JUMP
    let data4 := append_row jump_row data3
    let label_row_2 := new_row (copy_arg l1.1) none MCC_IR_INSTR_LABEL
    append_row label_row_2 data4
/-- `generate_ir_comp_statement` of `ir.c`. -/
def generate_ir_comp_statement :
    mcc_ast_compound_statement → ir_generation_userdata → ir_generation_userdata
  | mcc_ast_compound_statement.null, data => data
  | mcc_ast_compound_statement.empty next_compound_statement, data =>
    generate_ir_comp_statement next_compound_statement data
  | mcc_ast_compound_statement.node statement next_compound_statement, data =>
    generate_ir_comp_statement next_compound_statement (generate_ir_statement statement data)
end

/-- `generate_ir_statememt_while_stmt` of `ir.c`: the case of
`generate_ir_statement` for a while statement. -/
def generate_ir_statememt_while_stmt (if_condition : mcc_ast_expression)
    (while_on_true : mcc_ast_statement) (data : ir_generation_userdata) : ir_generation_userdata :=
  generate_ir_statement (MCC_AST_STATEMENT_TYPE_WHILE if_condition while_on_true) data

/-- The `while (pars && !pars->is_empty)` loop of
`generate_ir_function_definition`. -/
def generate_ir_function_definition_loop :
    mcc_ast_parameters → ir_generation_userdata → ir_generation_userdata
  | mcc_ast_parameters.null, data => data
  | mcc_ast_parameters.empty _, data => data
  | mcc_ast_parameters.node declaration next_parameters, data =>
    let pop_row := new_row none none MCC_IR_INSTR_POP
    let pop_arg := new_arg_row (next_row_pointer data)
    let data1 := append_row pop_row data
    let var := arg_from_declaration declaration
    let assign := new_row (some var) (some pop_arg) MCC_IR_INSTR_ASSIGN
    generate_ir_function_definition_loop next_parameters (append_row assign data1)

/-- `generate_ir_function_definition` of `ir.c`. -/
def generate_ir_function_definition (function : mcc_ast_function_definition)
    (data : ir_generation_userdata) : ir_generation_userdata :=
  let func_label := new_arg_func_label function
  let label_row := new_row (some func_label) none MCC_IR_INSTR_FUNC_LABEL
  let data1 := append_row label_row data
  let data2 := generate_ir_function_definition_loop function.parameters data1
  generate_ir_comp_statement function.compound_stmt data2

/-- `generate_ir_program` of `ir.c`: it lowers the function of the node it is
given, and asserts that it is given one. -/
def generate_ir_program : mcc_ast_program → ir_generation_userdata → ir_generation_userdata
  | mcc_ast_program.null, data => data
  | mcc_ast_program.node function _, data => generate_ir_function_definition function data

/-- The `while (ast)` loop of `mcc_ir_generate`. -/
def mcc_ir_generate_loop : mcc_ast_program → ir_generation_userdata → ir_generation_userdata
  | mcc_ast_program.null, data => data
  | mcc_ast_program.node function next_function, data =>
    mcc_ir_generate_loop next_function
      (generate_ir_program (mcc_ast_program.node function next_function) data)

/-- The instructions of the `case` list of `number_rows`: those that produce a
temporary. -/
def produces_temporary : mcc_ir_instruction → Bool
  | MCC_IR_INSTR_AND => true
  | MCC_IR_INSTR_OR => true
  | MCC_IR_INSTR_PLUS => true
  | MCC_IR_INSTR_DIVIDE => true
  | MCC_IR_INSTR_MINUS => true
  | MCC_IR_INSTR_NEGATIV => true
  | MCC_IR_INSTR_MODULO => true
  | MCC_IR_INSTR_GREATER => true
  | MCC_IR_INSTR_MULTIPLY => true
  | MCC_IR_INSTR_SMALLER => true
  | MCC_IR_INSTR_SMALLEREQ => true
  | MCC_IR_INSTR_GREATEREQ => true
  | MCC_IR_INSTR_EQUALS => true
  | MCC_IR_INSTR_NOTEQUALS => true
  | MCC_IR_INSTR_NOT => true
  | MCC_IR_INSTR_CALL => true
  | MCC_IR_INSTR_POP => true
  | _ => false

/-- The `do ... while (head)` loop of `number_rows`, `i` being the counter. -/
def number_rows_loop : List mcc_ir_row → Nat → List mcc_ir_row
  | [], _ => []
  | head :: rest, i =>
    if produces_temporary head.instr then
      { head with row_no := i } :: number_rows_loop rest (i + 1)
    else
      head :: number_rows_loop rest i

/-- `number_rows` of `ir.c`; the empty list is the `NULL` it returns on at
once. -/
def number_rows (head : List mcc_ir_row) : List mcc_ir_row :=
  number_rows_loop head 0

/-- `mcc_ir_generate` of `ir.c`.  The two passes that rewrite the AST first are
parameters: `mcc_ast_remove_built_ins` is not among the sources, and
`modify_ast` runs its callbacks through the visitor of `ast_visit.c` and the
symbol table, which are not among them either.  The result is the list from
the head row on, empty for a `NULL` head. -/
def mcc_ir_generate (mcc_ast_remove_built_ins modify_ast : mcc_ast_program → mcc_ast_program)
    (ast : mcc_ast_program) : List mcc_ir_row :=
  let data : ir_generation_userdata := { rows := [], label_counter := 0 }
  let ast1 := mcc_ast_remove_built_ins ast
  let ast2 := modify_ast ast1
  let data1 := mcc_ir_generate_loop ast2 data
  number_rows data1.rows

/-! ## Example programs -/

/-- The identifier `i` of the examples. -/
def example_i : mcc_ast_identifier := { identifier_name := "i" }

/-- The function `int f(){ int i; i=0; while(i<10){ i=i+1; } return i; }`. -/
def example_while_function : mcc_ast_function_definition :=
  { type := mcc_ast_types.INT
    identifier := { identifier_name := "f" }
    parameters := mcc_ast_parameters.empty mcc_ast_parameters.null
    compound_stmt :=
      mcc_ast_compound_statement.node
        (MCC_AST_STATEMENT_TYPE_DECLARATION
          (MCC_AST_DECLARATION_TYPE_VARIABLE mcc_ast_types.INT example_i))
      (mcc_ast_compound_statement.node
        (MCC_AST_STATEMENT_TYPE_ASSIGNMENT
          (MCC_AST_ASSIGNMENT_TYPE_VARIABLE example_i
            (MCC_AST_EXPRESSION_TYPE_LITERAL (MCC_AST_LITERAL_TYPE_INT 0))))
      (mcc_ast_compound_statement.node
        (MCC_AST_STATEMENT_TYPE_WHILE
          (MCC_AST_EXPRESSION_TYPE_BINARY_OP MCC_AST_BINARY_OP_SMALLER
            (MCC_AST_EXPRESSION_TYPE_VARIABLE example_i)
            (MCC_AST_EXPRESSION_TYPE_LITERAL (MCC_AST_LITERAL_TYPE_INT 10)))
          (MCC_AST_STATEMENT_TYPE_COMPOUND_STMT
            (mcc_ast_compound_statement.node
              (MCC_AST_STATEMENT_TYPE_ASSIGNMENT
                (MCC_AST_ASSIGNMENT_TYPE_VARIABLE example_i
                  (MCC_AST_EXPRESSION_TYPE_BINARY_OP MCC_AST_BINARY_OP_ADD
                    (MCC_AST_EXPRESSION_TYPE_VARIABLE example_i)
                    (MCC_AST_EXPRESSION_TYPE_LITERAL (MCC_AST_LITERAL_TYPE_INT 1)))))
              mcc_ast_compound_statement.null)))
      (mcc_ast_compound_statement.node
        (MCC_AST_STATEMENT_TYPE_RETURN (some (MCC_AST_EXPRESSION_TYPE_VARIABLE example_i)) false)
        mcc_ast_compound_statement.null))) }

/-- The program that consists of `example_while_function`. -/
def example_while_program : mcc_ast_program :=
  mcc_ast_program.node example_while_function mcc_ast_program.null

/-- The IR of `example_while_program`; the AST has no built-in to strip, and it
needs neither a renaming nor an implicit return, so both passes leave it as it
is. -/
def example_while_ir : List mcc_ir_row :=
  mcc_ir_generate id id example_while_program

/-- A two-row IR list: a RETURN followed by a POP. -/
def example_return_pop : List mcc_ir_row :=
  [new_row none none MCC_IR_INSTR_RETURN, new_row none none MCC_IR_INSTR_POP]

/-- The rows of `example_while_program` as the builder leaves them, before
`number_rows` runs. -/
def example_while_rows : List mcc_ir_row :=
  (mcc_ir_generate_loop example_while_program { rows := [], label_counter := 0 }).rows

/-- The empty builder state, as `mcc_ir_generate` sets it up. -/
def example_empty_data : ir_generation_userdata :=
  { rows := [], label_counter := 0 }

/-- The condition `i < 10` of the while example. -/
def example_while_condition : mcc_ast_expression :=
  MCC_AST_EXPRESSION_TYPE_BINARY_OP MCC_AST_BINARY_OP_SMALLER
    (MCC_AST_EXPRESSION_TYPE_VARIABLE example_i)
    (MCC_AST_EXPRESSION_TYPE_LITERAL (MCC_AST_LITERAL_TYPE_INT 10))

/-- The body `{ i = i + 1; }` of the while example. -/
def example_while_body : mcc_ast_statement :=
  MCC_AST_STATEMENT_TYPE_COMPOUND_STMT
    (mcc_ast_compound_statement.node
      (MCC_AST_STATEMENT_TYPE_ASSIGNMENT
        (MCC_AST_ASSIGNMENT_TYPE_VARIABLE example_i
          (MCC_AST_EXPRESSION_TYPE_BINARY_OP MCC_AST_BINARY_OP_ADD
            (MCC_AST_EXPRESSION_TYPE_VARIABLE example_i)
            (MCC_AST_EXPRESSION_TYPE_LITERAL (MCC_AST_LITERAL_TYPE_INT 1)))))
      mcc_ast_compound_statement.null)

/-- The argument list `(1, 2)`. -/
def example_arguments : mcc_ast_arguments :=
  mcc_ast_arguments.node (MCC_AST_EXPRESSION_TYPE_LITERAL (MCC_AST_LITERAL_TYPE_INT 1))
    (mcc_ast_arguments.node (MCC_AST_EXPRESSION_TYPE_LITERAL (MCC_AST_LITERAL_TYPE_INT 2))
      mcc_ast_arguments.null)

/-- The function `int add(int a, int b) { return a + b; }`. -/
def example_add_function : mcc_ast_function_definition :=
  { type := mcc_ast_types.INT
    identifier := { identifier_name := "add" }
    parameters :=
      mcc_ast_parameters.node
        (MCC_AST_DECLARATION_TYPE_VARIABLE mcc_ast_types.INT { identifier_name := "a" })
        (mcc_ast_parameters.node
          (MCC_AST_DECLARATION_TYPE_VARIABLE mcc_ast_types.INT { identifier_name := "b" })
          mcc_ast_parameters.null)
    compound_stmt :=
      mcc_ast_compound_statement.node
        (MCC_AST_STATEMENT_TYPE_RETURN
          (some (MCC_AST_EXPRESSION_TYPE_BINARY_OP MCC_AST_BINARY_OP_ADD
            (MCC_AST_EXPRESSION_TYPE_VARIABLE { identifier_name := "a" })
            (MCC_AST_EXPRESSION_TYPE_VARIABLE { identifier_name := "b" }))) false)
        mcc_ast_compound_statement.null }

/-! ## Reading the CFG -/

/-- The label that a row jumps to, when the row is a `JUMP` with a label
argument. -/
def jump_target (r : mcc_ir_row) : Option Nat :=
  match r.instr, r.arg1 with
  | MCC_IR_INSTR_JUMP, some (MCC_IR_TYPE_LABEL label) => some label
  | _, _ => none

/-- Whether the row is the row `LABEL label`. -/
def is_label_row (r : mcc_ir_row) (label : Nat) : Bool :=
  r.instr = MCC_IR_INSTR_LABEL ∧ r.arg1 = some (MCC_IR_TYPE_LABEL label)

/-- The position of the last row of the block whose leader is at `leader`: the
rows that follow the leader belong to the block up to the next leader. -/
def block_last_row (an : List annotated_ir) (leader : Nat) : Nat :=
  leader + ((an.drop (leader + 1)).takeWhile (fun a => !a.is_leader)).length

/-- The successor rule that the specification states for a block that ends in
`JUMP L`: `child_left` is `NULL` and `child_right` is the block whose leader is
the row `LABEL L`.  Blocks that end otherwise pass. -/
def jump_successor_resolved (ir : List mcc_ir_row) (an : List annotated_ir)
    (blocks : List mcc_basic_block) (b : mcc_basic_block) : Bool :=
  match (ir[block_last_row an b.leader]?).bind jump_target with
  | none => true
  | some label =>
    b.child_left = none &&
      (match b.child_right.bind (fun a => blocks[a]?) with
      | none => false
      | some t => (ir[t.leader]?).map (fun r => is_label_row r label) == some true)

/-! ## Rows appended by one lowering step -/

/-- The rows that lowering the expression appends to the list of `data`. -/
def rows_of_expression (e : mcc_ast_expression) (data : ir_generation_userdata) :
    List mcc_ir_row :=
  (generate_ir_expression e data).2.rows.drop data.rows.length

/-- The rows that lowering the argument list appends to the list of `data`. -/
def rows_of_arguments (a : mcc_ast_arguments) (data : ir_generation_userdata) :
    List mcc_ir_row :=
  (generate_ir_arguments a data).rows.drop data.rows.length

/-- The rows that lowering the statement appends to the list of `data`. -/
def rows_of_statement (s : mcc_ast_statement) (data : ir_generation_userdata) :
    List mcc_ir_row :=
  (generate_ir_statement s data).rows.drop data.rows.length

/-- The rows that lowering the compound statement appends to the list of
`data`. -/
def rows_of_comp_statement (c : mcc_ast_compound_statement) (data : ir_generation_userdata) :
    List mcc_ir_row :=
  (generate_ir_comp_statement c data).rows.drop data.rows.length

/-- The row `LABEL(L label)`. -/
def label_row (label : Nat) : mcc_ir_row :=
  new_row (some (MCC_IR_TYPE_LABEL label)) none MCC_IR_INSTR_LABEL

/-- The row `JUMP(L label)`. -/
def jump_row (label : Nat) : mcc_ir_row :=
  new_row (some (MCC_IR_TYPE_LABEL label)) none MCC_IR_INSTR_JUMP

/-- The row `JUMPFALSE(cond, L label)`. -/
def jumpfalse_row (cond : mcc_ir_arg) (label : Nat) : mcc_ir_row :=
  new_row (some cond) (some (MCC_IR_TYPE_LABEL label)) MCC_IR_INSTR_JUMPFALSE

/-- The builder state of a while statement right after its first row,
`LABEL(L0)`, is appended (`data1` of the while case). -/
def after_while_label (data : ir_generation_userdata) : ir_generation_userdata :=
  append_row (new_row (some (new_arg_label data).1) none MCC_IR_INSTR_LABEL)
    (new_arg_label data).2

/-- The builder state of a while statement right after its `JUMPFALSE` row is
appended (`data2` of the while case). -/
def after_while_jumpfalse (c : mcc_ast_expression) (data : ir_generation_userdata) :
    ir_generation_userdata :=
  append_row
    (new_row (some (generate_ir_expression c (after_while_label data)).1)
      (some (new_arg_label (generate_ir_expression c (after_while_label data)).2).1)
      MCC_IR_INSTR_JUMPFALSE)
    (new_arg_label (generate_ir_expression c (after_while_label data)).2).2

/-- The builder state of an if or if-else statement right after its
`JUMPFALSE` row is appended (`data1` of both cases). -/
def after_if_jumpfalse (c : mcc_ast_expression) (data : ir_generation_userdata) :
    ir_generation_userdata :=
  append_row
    (new_row (some (generate_ir_expression c data).1)
      (some (new_arg_label (generate_ir_expression c data).2).1) MCC_IR_INSTR_JUMPFALSE)
    (new_arg_label (generate_ir_expression c data).2).2

/-- The builder state of an if-else statement right after the row `LABEL(L1)`
that opens the else branch is appended (`data4` of the if-else case). -/
def after_if_else_label (c : mcc_ast_expression) (s1 : mcc_ast_statement)
    (data : ir_generation_userdata) : ir_generation_userdata :=
  append_row
    (new_row (copy_arg (new_arg_label (generate_ir_expression c data).2).1) none
      MCC_IR_INSTR_LABEL)
    (append_row
      (new_row (some (new_arg_label (generate_ir_statement s1 (after_if_jumpfalse c data))).1)
        none MCC_IR_INSTR_JUMP)
      (new_arg_label (generate_ir_statement s1 (after_if_jumpfalse c data))).2)

/-! ## The lowering patterns in the words of the specification -/

/-- The arguments `a1, …, an` of a call in source order; a node with `is_empty`
set, the empty-argument sentinel, contributes none. -/
def source_arguments : mcc_ast_arguments → List mcc_ast_expression
  | mcc_ast_arguments.null => []
  | mcc_ast_arguments.empty next_arguments => source_arguments next_arguments
  | mcc_ast_arguments.node expression next_arguments =>
    expression :: source_arguments next_arguments

/-- The pattern of the specification for pushing arguments, taken in the order
of the list: the rows of the argument, then one PUSH row that carries its
value. -/
def push_each (arguments : List mcc_ast_expression) (data : ir_generation_userdata) :
    ir_generation_userdata :=
  arguments.foldl
    (fun d a =>
      append_row (new_row (some (generate_ir_expression a d).1) none MCC_IR_INSTR_PUSH)
        (generate_ir_expression a d).2)
    data

/-- The row `CALL` with a function-label argument that names `callee`, as the
specification describes the row of a call. -/
def call_row (callee : String) : mcc_ir_row :=
  new_row (some (MCC_IR_TYPE_FUNC_LABEL callee)) none MCC_IR_INSTR_CALL

/-- The row `CALL` with an identifier argument that holds the identifier of
the callee. -/
def call_identifier_row (function_identifier : mcc_ast_identifier) : mcc_ir_row :=
  new_row (some (MCC_IR_TYPE_IDENTIFIER function_identifier)) none MCC_IR_INSTR_CALL

/-- The row `FUNC_LABEL(name)`. -/
def func_label_row (name : String) : mcc_ir_row :=
  new_row (some (MCC_IR_TYPE_FUNC_LABEL name)) none MCC_IR_INSTR_FUNC_LABEL

/-- The parameters `p1, …, pn` of a function in declaration order, as the loop
of `generate_ir_function_definition` walks them: up to the end of the list or
to the first node with `is_empty` set.  For a list that is either the single
empty sentinel or without empty nodes, these are all the parameters. -/
def declared_parameters : mcc_ast_parameters → List mcc_ast_declaration
  | mcc_ast_parameters.null => []
  | mcc_ast_parameters.empty _ => []
  | mcc_ast_parameters.node declaration next_parameters =>
    declaration :: declared_parameters next_parameters

/-- The identifier that a declaration declares. -/
def declaration_identifier : mcc_ast_declaration → mcc_ast_identifier
  | MCC_AST_DECLARATION_TYPE_VARIABLE _ variable_identifier => variable_identifier
  | MCC_AST_DECLARATION_TYPE_ARRAY _ array_identifier _ => array_identifier

/-- The pattern of the specification for the parameters of a function, the
first row of it being at position `base`: for each parameter a POP row, then
the row `ASSIGN(parameter, reference to that POP row)`. -/
def pop_assign_rows : Nat → List mcc_ast_declaration → List mcc_ir_row
  | _, [] => []
  | base, p :: rest =>
    new_row none none MCC_IR_INSTR_POP ::
      new_row (some (MCC_IR_TYPE_IDENTIFIER (declaration_identifier p)))
        (some (MCC_IR_TYPE_ROW base)) MCC_IR_INSTR_ASSIGN ::
      pop_assign_rows (base + 2) rest

/-- The builder state of a function definition right before its body is
lowered: the FUNC_LABEL row and the rows of the parameters are appended. -/
def after_parameters (function : mcc_ast_function_definition) (data : ir_generation_userdata) :
    ir_generation_userdata :=
  generate_ir_function_definition_loop function.parameters
    (append_row (new_row (some (new_arg_func_label function)) none MCC_IR_INSTR_FUNC_LABEL) data)

/-! ## Labels and row references carried by rows -/

/-- The label numbers that an argument carries. -/
def arg_labels : mcc_ir_arg → List Nat
  | MCC_IR_TYPE_LABEL label => [label]
  | MCC_IR_TYPE_ARR_ELEM _ index => arg_labels index
  | _ => []

/-- The label numbers that occur in a row, in either argument. -/
def row_labels (r : mcc_ir_row) : List Nat :=
  (match r.arg1 with | some a => arg_labels a | none => []) ++
    (match r.arg2 with | some a => arg_labels a | none => [])

/-- The label that a row jumps to, when the row is a `JUMPFALSE` with a label
as its second argument. -/
def jumpfalse_target (r : mcc_ir_row) : Option Nat :=
  match r.instr, r.arg2 with
  | MCC_IR_INSTR_JUMPFALSE, some (MCC_IR_TYPE_LABEL label) => some label
  | _, _ => none

/-- Whether the row is a `JUMP` or `JUMPFALSE` whose label argument is
`label`. -/
def jumps_to (r : mcc_ir_row) (label : Nat) : Bool :=
  jump_target r = some label ∨ jumpfalse_target r = some label

/-- The instructions of the rows that lowering an expression appends. -/
def expression_instr : mcc_ir_instruction → Bool
  | MCC_IR_INSTR_PLUS => true
  | MCC_IR_INSTR_MINUS => true
  | MCC_IR_INSTR_MULTIPLY => true
  | MCC_IR_INSTR_DIVIDE => true
  | MCC_IR_INSTR_SMALLER => true
  | MCC_IR_INSTR_GREATER => true
  | MCC_IR_INSTR_SMALLEREQ => true
  | MCC_IR_INSTR_GREATEREQ => true
  | MCC_IR_INSTR_AND => true
  | MCC_IR_INSTR_OR => true
  | MCC_IR_INSTR_EQUALS => true
  | MCC_IR_INSTR_NOTEQUALS => true
  | MCC_IR_INSTR_NEGATIV => true
  | MCC_IR_INSTR_NOT => true
  | MCC_IR_INSTR_CALL => true
  | MCC_IR_INSTR_PUSH => true
  | _ => false

/-- The instructions of the rows that lowering a statement appends. -/
def statement_instr : mcc_ir_instruction → Bool
  | MCC_IR_INSTR_ASSIGN => true
  | MCC_IR_INSTR_ARRAY => true
  | MCC_IR_INSTR_RETURN => true
  | MCC_IR_INSTR_LABEL => true
  | MCC_IR_INSTR_JUMP => true
  | MCC_IR_INSTR_JUMPFALSE => true
  | i => expression_instr i

/-- Whether every row reference that the argument carries, directly or as the
index of an array element, points to a position below `n`. -/
def arg_rows_below (n : Nat) : mcc_ir_arg → Bool
  | MCC_IR_TYPE_ROW row => decide (row < n)
  | MCC_IR_TYPE_ARR_ELEM _ index => arg_rows_below n index
  | _ => true

/-- Whether every row reference of the row points to a position below `n`. -/
def row_refs_below (n : Nat) (r : mcc_ir_row) : Bool :=
  (match r.arg1 with | some a => arg_rows_below n a | none => true) &&
    (match r.arg2 with | some a => arg_rows_below n a | none => true)

/-- Whether every row of the segment, whose first row is at position `base`,
only refers to rows before itself. -/
def seg_refs_earlier : Nat → List mcc_ir_row → Bool
  | _, [] => true
  | base, r :: rest => row_refs_below base r && seg_refs_earlier (base + 1) rest

/-- 1 when `k ≤ l < k'`, else 0: how often a label number allocated while the
counter went from `k` to `k'` is to occur. -/
def in_range (k k' l : Nat) : Nat :=
  if k ≤ l ∧ l < k' then 1 else 0

/-- The label discipline of a segment of rows lowered while the label counter
went from `k` to `k'`: every label number of that range is defined by exactly
one LABEL row and is the target of exactly one JUMP or JUMPFALSE row, no other
number is defined or targeted, and no other number occurs in a row. -/
def labels_ok (k k' : Nat) (seg : List mcc_ir_row) : Prop :=
  (∀ l, seg.countP (fun r => is_label_row r l) = in_range k k' l) ∧
  (∀ l, seg.countP (fun r => jumps_to r l) = in_range k k' l) ∧
  (∀ r, r ∈ seg → ∀ l, l ∈ row_labels r → k ≤ l ∧ l < k')

/-- Whether every `JUMPFALSE` row of the segment has its `LABEL` row further
down in the segment. -/
def jumpfalse_resolved : List mcc_ir_row → Bool
  | [] => true
  | r :: rest =>
    (match jumpfalse_target r with
      | none => true
      | some label => rest.any (fun x => is_label_row x label)) &&
    jumpfalse_resolved rest

/-- The jump discipline of the rows of one function body: every `JUMPFALSE` has
its `LABEL` row further down, every `JUMP` has its `LABEL` row somewhere in the
body, and no row of the body is a `FUNC_LABEL`. -/
def jumps_closed (body : List mcc_ir_row) : Prop :=
  jumpfalse_resolved body = true ∧
  (∀ r, r ∈ body → ∀ l, jump_target r = some l → ∃ x, x ∈ body ∧ is_label_row x l = true) ∧
  (∀ r, r ∈ body → r.instr ≠ MCC_IR_INSTR_FUNC_LABEL)

/-- Whether a `JUMP` to `label` that stands behind the rows `before` and in
front of the rows `rest` closes a while loop: above it there is a row
`LABEL label`, and further down, still above the jump, a `JUMPFALSE` to
`label + 1`, and the row right behind the jump is `LABEL (label + 1)`. -/
def closes_while (before : List mcc_ir_row) (label : Nat) (rest : List mcc_ir_row) : Bool :=
  ((before.dropWhile (fun x => !is_label_row x label)).any
      (fun x => decide (jumpfalse_target x = some (label + 1)))) &&
    (match rest with
      | x :: _ => is_label_row x (label + 1)
      | [] => false)

/-- Whether every `JUMP` row of the segment, which stands behind the rows
`before`, has its `LABEL` row further down in the segment or closes a while
loop. -/
def jump_resolved : List mcc_ir_row → List mcc_ir_row → Bool
  | _, [] => true
  | before, r :: rest =>
    (match jump_target r with
      | none => true
      | some label =>
        rest.any (fun x => is_label_row x label) || closes_while before label rest) &&
    jump_resolved (before ++ [r]) rest

/-- The jump discipline of a whole IR list: the label of a `JUMPFALSE` row is
defined by a `LABEL` row further down; the label `l` of a `JUMP` row is defined
by a `LABEL` row further down, or else by a `LABEL` row above the jump, and
then the jump closes a while loop: between that `LABEL` row and the jump there
is a `JUMPFALSE` to `l + 1`, and the row right behind the jump is
`LABEL (l + 1)`.  In every case no `FUNC_LABEL` row lies from the one row to
the other, so that both belong to the same function. -/
def jumps_within_function (ir : List mcc_ir_row) : Prop :=
  ∀ (i : Nat) (r : mcc_ir_row) (l : Nat), ir[i]? = some r →
    (jumpfalse_target r = some l →
      ∃ j, i < j ∧ (ir[j]?).map (fun x => is_label_row x l) = some true ∧
        ∀ m, i ≤ m → m ≤ j → instr_at ir m ≠ some MCC_IR_INSTR_FUNC_LABEL) ∧
    (jump_target r = some l →
      ∃ j, (ir[j]?).map (fun x => is_label_row x l) = some true ∧
        (∀ m, min i j ≤ m → m ≤ max i j → instr_at ir m ≠ some MCC_IR_INSTR_FUNC_LABEL) ∧
        (i < j ∨
          (j < i ∧
            (∃ k, j < k ∧ k < i ∧ (ir[k]?).bind jumpfalse_target = some (l + 1)) ∧
            (ir[i + 1]?).map (fun x => is_label_row x (l + 1)) = some true)))

/-! ## The AST rewrite of `ir.c`: implicit returns

`cb_add_return` is the callback that `modify_ast` registers for function
definitions.  It changes the body in place; here it returns the changed body.
The flag `has_failed` is left out as everywhere else. -/

/-- The test `statement->type == MCC_AST_STATEMENT_TYPE_RETURN`. -/
def statement_is_return : mcc_ast_statement → Bool
  | MCC_AST_STATEMENT_TYPE_RETURN _ _ => true
  | _ => false

/-- The statement that `append_empty_return` allocates: type RETURN,
`is_empty_return = true`, `return_value = NULL`. -/
def empty_return : mcc_ast_statement := MCC_AST_STATEMENT_TYPE_RETURN none true

/-- `append_empty_return` of `ir.c`: the node `comp_stmt` gets, as its
`next_compound_statement`, a new node that holds `empty_return` and has no
successor.  `comp_stmt` is asserted not to be NULL. -/
def append_empty_return : mcc_ast_compound_statement → mcc_ast_compound_statement
  | mcc_ast_compound_statement.null => mcc_ast_compound_statement.null
  | mcc_ast_compound_statement.empty _ =>
    mcc_ast_compound_statement.empty
      (mcc_ast_compound_statement.node empty_return mcc_ast_compound_statement.null)
  | mcc_ast_compound_statement.node statement _ =>
    mcc_ast_compound_statement.node statement
      (mcc_ast_compound_statement.node empty_return mcc_ast_compound_statement.null)

/-- The `do … while (comp_stmt)` loop of `cb_add_return` from the node
`comp_stmt` on, with the call of `append_empty_return` that follows it; the
result is the list from that node on as the callback leaves it.  A node that
holds a return ends the callback at once; the node whose successor is NULL is
the `prev_stmt` that `append_empty_return` receives.  The loop body is never
entered with NULL. -/
def cb_add_return_loop : mcc_ast_compound_statement → mcc_ast_compound_statement
  | mcc_ast_compound_statement.null => mcc_ast_compound_statement.null
  | mcc_ast_compound_statement.empty next_compound_statement =>
    match next_compound_statement with
    | mcc_ast_compound_statement.null =>
      append_empty_return (mcc_ast_compound_statement.empty mcc_ast_compound_statement.null)
    | _ => mcc_ast_compound_statement.empty (cb_add_return_loop next_compound_statement)
  | mcc_ast_compound_statement.node statement next_compound_statement =>
    if statement_is_return statement then
      mcc_ast_compound_statement.node statement next_compound_statement
    else
      match next_compound_statement with
      | mcc_ast_compound_statement.null =>
        append_empty_return
          (mcc_ast_compound_statement.node statement mcc_ast_compound_statement.null)
      | _ => mcc_ast_compound_statement.node statement (cb_add_return_loop next_compound_statement)

/-- `cb_add_return` of `ir.c`.  The callback dereferences `def->compound_stmt`
at once, so a definition whose body pointer is NULL is outside its domain; the
model returns such a definition as it is. -/
def cb_add_return (d : mcc_ast_function_definition) : mcc_ast_function_definition :=
  { d with compound_stmt := cb_add_return_loop d.compound_stmt }

/-- The statements of the nodes of a compound-statement list in order, `none`
for a node with `is_empty` set. -/
def top_level_statements : mcc_ast_compound_statement → List (Option mcc_ast_statement)
  | mcc_ast_compound_statement.null => []
  | mcc_ast_compound_statement.empty next_compound_statement =>
    none :: top_level_statements next_compound_statement
  | mcc_ast_compound_statement.node statement next_compound_statement =>
    some statement :: top_level_statements next_compound_statement

/-- Whether a node of a compound-statement list holds a return statement. -/
def node_is_return : Option mcc_ast_statement → Bool
  | some statement => statement_is_return statement
  | none => false

/-- Whether some node of the list holds a return statement. -/
def has_return (c : mcc_ast_compound_statement) : Bool :=
  (top_level_statements c).any node_is_return

/-- Whether the last node of the list holds a return statement. -/
def last_statement_is_return (c : mcc_ast_compound_statement) : Bool :=
  match (top_level_statements c).getLast? with
  | some n => node_is_return n
  | none => false

/-- The function `int main(){ int i; return 0; i = 1; }`: a return that is not
the last statement of the body. -/
def example_return_first_function : mcc_ast_function_definition :=
  { type := mcc_ast_types.INT
    identifier := { identifier_name := "main" }
    parameters := mcc_ast_parameters.empty mcc_ast_parameters.null
    compound_stmt :=
      mcc_ast_compound_statement.node
        (MCC_AST_STATEMENT_TYPE_DECLARATION
          (MCC_AST_DECLARATION_TYPE_VARIABLE mcc_ast_types.INT example_i))
      (mcc_ast_compound_statement.node
        (MCC_AST_STATEMENT_TYPE_RETURN
          (some (MCC_AST_EXPRESSION_TYPE_LITERAL (MCC_AST_LITERAL_TYPE_INT 0))) false)
      (mcc_ast_compound_statement.node
        (MCC_AST_STATEMENT_TYPE_ASSIGNMENT
          (MCC_AST_ASSIGNMENT_TYPE_VARIABLE example_i
            (MCC_AST_EXPRESSION_TYPE_LITERAL (MCC_AST_LITERAL_TYPE_INT 1))))
        mcc_ast_compound_statement.null)) }

/-- The function `void h(){ int i; i = 1; }`: a body without a return. -/
def example_no_return_function : mcc_ast_function_definition :=
  { type := mcc_ast_types.VOID
    identifier := { identifier_name := "h" }
    parameters := mcc_ast_parameters.empty mcc_ast_parameters.null
    compound_stmt :=
      mcc_ast_compound_statement.node
        (MCC_AST_STATEMENT_TYPE_DECLARATION
          (MCC_AST_DECLARATION_TYPE_VARIABLE mcc_ast_types.INT example_i))
      (mcc_ast_compound_statement.node
        (MCC_AST_STATEMENT_TYPE_ASSIGNMENT
          (MCC_AST_ASSIGNMENT_TYPE_VARIABLE example_i
            (MCC_AST_EXPRESSION_TYPE_LITERAL (MCC_AST_LITERAL_TYPE_INT 1))))
        mcc_ast_compound_statement.null) }

/-! ## The AST rewrite of `ir.c`: shadowed declarations

`cb_variable_shadowing` is the callback that `modify_ast` registers for
compound statements.  It reads the symbol table and runs through the visitor
of `ast_visit.c`; neither is among the sources, so the lookup and the two
traversals are modelled from the specification.  The symbol table is not a
value of its own here: the row of a declaration carries the name of the
declaration's identifier (section 4.1 builds the rows from the declarations,
and the pass renames both together), and the rows that a lookup walks over are
handed to the callback as the list of their names. -/

/-- The number of times `num` can be divided by 10 before it is below 10, with
`fuel` bounding the number of steps: `floor(log10(num))` for `1 ≤ num ≤ fuel`,
the library function on doubles being taken to be exact. -/
def floor_log10 : Nat → Nat → Nat
  | 0, _ => 0
  | fuel + 1, num => if num < 10 then 0 else floor_log10 fuel (num / 10) + 1

/-- `length_of_int` of `ir.c`, for a counter value. -/
def length_of_int (num : Nat) : Nat :=
  if num = 0 then 1 else floor_log10 num num + 1

/-- The string that `snprintf(name, size, "_r%d", num)` leaves in a buffer of
`size = 3 + length_of_int(num)` bytes: at most `size - 1` characters of `_r`
followed by the decimal digits of `num`. -/
def renamed_name (num : Nat) : String :=
  String.mk ((("_r" ++ Nat.repr num).data).take (3 + length_of_int num - 1))

/-- `rename_ident` of `ir.c`. -/
def rename_ident (_ident : mcc_ast_identifier) (num : Nat) : mcc_ast_identifier :=
  { identifier_name := renamed_name num }

/-- `cb_rename_ident` of `ir.c`: `name` is `re_data->ident->identifier_name`,
the name of the declaration that is being renamed. -/
def cb_rename_ident (name : String) (num : Nat) (ident : mcc_ast_identifier) :
    mcc_ast_identifier :=
  if ident.identifier_name = name then rename_ident ident num else ident

mutual
/-- Modelled from the spec: `mcc_ast_visit_expression` of `ast_visit.c`, which is not among
the sources, run with `rename_ident_visitor`: the callback fires on every identifier node of
the expression (section 4.3: the pass visits every later use and renames the matching
identifier references). -/
def rename_ident_visitor_expression (name : String) (num : Nat) :
    mcc_ast_expression → mcc_ast_expression
  | MCC_AST_EXPRESSION_TYPE_LITERAL literal => MCC_AST_EXPRESSION_TYPE_LITERAL literal
  | MCC_AST_EXPRESSION_TYPE_BINARY_OP op lhs rhs =>
    MCC_AST_EXPRESSION_TYPE_BINARY_OP op (rename_ident_visitor_expression name num lhs)
      (rename_ident_visitor_expression name num rhs)
  | MCC_AST_EXPRESSION_TYPE_PARENTH expression =>
    MCC_AST_EXPRESSION_TYPE_PARENTH (rename_ident_visitor_expression name num expression)
  | MCC_AST_EXPRESSION_TYPE_UNARY_OP u_op child =>
    MCC_AST_EXPRESSION_TYPE_UNARY_OP u_op (rename_ident_visitor_expression name num child)
  | MCC_AST_EXPRESSION_TYPE_VARIABLE identifier =>
    MCC_AST_EXPRESSION_TYPE_VARIABLE (cb_rename_ident name num identifier)
  | MCC_AST_EXPRESSION_TYPE_ARRAY_ELEMENT array_identifier index =>
    MCC_AST_EXPRESSION_TYPE_ARRAY_ELEMENT (cb_rename_ident name num array_identifier)
      (rename_ident_visitor_expression name num index)
  | MCC_AST_EXPRESSION_TYPE_FUNCTION_CALL function_identifier arguments =>
    MCC_AST_EXPRESSION_TYPE_FUNCTION_CALL (cb_rename_ident name num function_identifier)
      (rename_ident_visitor_arguments name num arguments)
/-- Modelled from the spec: `mcc_ast_visit_arguments` of `ast_visit.c`, which is not among
the sources, run with `rename_ident_visitor`. -/
def rename_ident_visitor_arguments (name : String) (num : Nat) :
    mcc_ast_arguments → mcc_ast_arguments
  | mcc_ast_arguments.null => mcc_ast_arguments.null
  | mcc_ast_arguments.empty next_arguments =>
    mcc_ast_arguments.empty (rename_ident_visitor_arguments name num next_arguments)
  | mcc_ast_arguments.node expression next_arguments =>
    mcc_ast_arguments.node (rename_ident_visitor_expression name num expression)
      (rename_ident_visitor_arguments name num next_arguments)
end

/-- Modelled from the spec: `mcc_ast_visit_declaration` of `ast_visit.c`, which is not among
the sources, run with `rename_ident_visitor`. -/
def rename_ident_visitor_declaration (name : String) (num : Nat) :
    mcc_ast_declaration → mcc_ast_declaration
  | MCC_AST_DECLARATION_TYPE_VARIABLE variable_type variable_identifier =>
    MCC_AST_DECLARATION_TYPE_VARIABLE variable_type (cb_rename_ident name num variable_identifier)
  | MCC_AST_DECLARATION_TYPE_ARRAY array_type array_identifier array_size =>
    MCC_AST_DECLARATION_TYPE_ARRAY array_type (cb_rename_ident name num array_identifier)
      array_size

/-- Modelled from the spec: `mcc_ast_visit_assignment` of `ast_visit.c`, which is not among
the sources, run with `rename_ident_visitor`. -/
def rename_ident_visitor_assignment (name : String) (num : Nat) :
    mcc_ast_assignment → mcc_ast_assignment
  | MCC_AST_ASSIGNMENT_TYPE_VARIABLE variable_identifier variable_assigned_value =>
    MCC_AST_ASSIGNMENT_TYPE_VARIABLE (cb_rename_ident name num variable_identifier)
      (rename_ident_visitor_expression name num variable_assigned_value)
  | MCC_AST_ASSIGNMENT_TYPE_ARRAY array_identifier array_index array_assigned_value =>
    MCC_AST_ASSIGNMENT_TYPE_ARRAY (cb_rename_ident name num array_identifier)
      (rename_ident_visitor_expression name num array_index)
      (rename_ident_visitor_expression name num array_assigned_value)

mutual
/-- Modelled from the spec: `mcc_ast_visit_statement` of `ast_visit.c`, which is not among
the sources, run with `rename_ident_visitor`. -/
def rename_ident_visitor_statement (name : String) (num : Nat) :
    mcc_ast_statement → mcc_ast_statement
  | MCC_AST_STATEMENT_TYPE_EXPRESSION stmt_expression =>
    MCC_AST_STATEMENT_TYPE_EXPRESSION (rename_ident_visitor_expression name num stmt_expression)
  | MCC_AST_STATEMENT_TYPE_COMPOUND_STMT compound_statement =>
    MCC_AST_STATEMENT_TYPE_COMPOUND_STMT
      (rename_ident_visitor_compound_statement name num compound_statement)
  | MCC_AST_STATEMENT_TYPE_ASSIGNMENT assignment =>
    MCC_AST_STATEMENT_TYPE_ASSIGNMENT (rename_ident_visitor_assignment name num assignment)
  | MCC_AST_STATEMENT_TYPE_DECLARATION declaration =>
    MCC_AST_STATEMENT_TYPE_DECLARATION (rename_ident_visitor_declaration name num declaration)
  | MCC_AST_STATEMENT_TYPE_IF_ELSE_STMT if_condition if_else_on_true if_else_on_false =>
    MCC_AST_STATEMENT_TYPE_IF_ELSE_STMT (rename_ident_visitor_expression name num if_condition)
      (rename_ident_visitor_statement name num if_else_on_true)
      (rename_ident_visitor_statement name num if_else_on_false)
  | MCC_AST_STATEMENT_TYPE_IF_STMT if_condition if_on_true =>
    MCC_AST_STATEMENT_TYPE_IF_STMT (rename_ident_visitor_expression name num if_condition)
      (rename_ident_visitor_statement name num if_on_true)
  | MCC_AST_STATEMENT_TYPE_RETURN return_value is_empty_return =>
    MCC_AST_STATEMENT_TYPE_RETURN
      (match return_value with
        | some e => some (rename_ident_visitor_expression name num e)
        | none => none)
      is_empty_return
  | MCC_AST_STATEMENT_TYPE_WHILE if_condition while_on_true =>
    MCC_AST_STATEMENT_TYPE_WHILE (rename_ident_visitor_expression name num if_condition)
      (rename_ident_visitor_statement name num while_on_true)
/-- Modelled from the spec: `mcc_ast_visit_compound_statement` of `ast_visit.c`, which is not
among the sources, run with `rename_ident_visitor`. -/
def rename_ident_visitor_compound_statement (name : String) (num : Nat) :
    mcc_ast_compound_statement → mcc_ast_compound_statement
  | mcc_ast_compound_statement.null => mcc_ast_compound_statement.null
  | mcc_ast_compound_statement.empty next_compound_statement =>
    mcc_ast_compound_statement.empty
      (rename_ident_visitor_compound_statement name num next_compound_statement)
  | mcc_ast_compound_statement.node statement next_compound_statement =>
    mcc_ast_compound_statement.node (rename_ident_visitor_statement name num statement)
      (rename_ident_visitor_compound_statement name num next_compound_statement)
end

/-- Modelled from the spec: `mcc_symbol_table_check_upwards_for_declaration` of the symbol
table module, which is not among the sources.  Section 2 describes the lookup: the current
scope backward, then the parent row, then the parent scope, stopping at the function
boundary.  `rows_above` holds the names of the rows that this walk passes, starting from the
row before the declaration; the result tells whether a row of the name is found. -/
def mcc_symbol_table_check_upwards_for_declaration (name : String)
    (rows_above : List String) : Bool :=
  rows_above.contains name

/-- The renaming of the declaration itself in `cb_variable_shadowing`: the
calls `rename_ident(ident, re_data)` and `rename_row(row, re_data)`, the row
carrying the name of the identifier. -/
def rename_declaration (num : Nat) : mcc_ast_declaration → mcc_ast_declaration
  | MCC_AST_DECLARATION_TYPE_VARIABLE variable_type variable_identifier =>
    MCC_AST_DECLARATION_TYPE_VARIABLE variable_type (rename_ident variable_identifier num)
  | MCC_AST_DECLARATION_TYPE_ARRAY array_type array_identifier array_size =>
    MCC_AST_DECLARATION_TYPE_ARRAY array_type (rename_ident array_identifier num) array_size

/-- `cb_variable_shadowing` of `ir.c`, called on the node `comp_stmt` with the
counter `num`; `rows_above` are the names of the rows above the row of the
declaration (none if the declaration is the first row of the function).  The
result is the node and the counter as the callback leaves them. -/
def cb_variable_shadowing (rows_above : List String) (comp_stmt : mcc_ast_compound_statement)
    (num : Nat) : mcc_ast_compound_statement × Nat :=
  match comp_stmt with
  | mcc_ast_compound_statement.node (MCC_AST_STATEMENT_TYPE_DECLARATION decl)
      next_compound_statement =>
    let ident := declaration_identifier decl
    if mcc_symbol_table_check_upwards_for_declaration ident.identifier_name rows_above then
      (mcc_ast_compound_statement.node
          (MCC_AST_STATEMENT_TYPE_DECLARATION (rename_declaration num decl))
          (rename_ident_visitor_compound_statement ident.identifier_name num
            next_compound_statement),
        num + 1)
    else (comp_stmt, num)
  | _ => (comp_stmt, num)

mutual
/-- Modelled from the spec: `mcc_ast_visit_statement` of `ast_visit.c`, which is not among
the sources, run with `modifying_visitor`: depth first, the sub-statements in the order of
their fields. -/
def modifying_visitor_statement (rows_above : List String) :
    mcc_ast_statement → Nat → mcc_ast_statement × Nat
  | MCC_AST_STATEMENT_TYPE_COMPOUND_STMT compound_statement, num =>
    let r := modifying_visitor_compound_statement rows_above compound_statement num
    (MCC_AST_STATEMENT_TYPE_COMPOUND_STMT r.1, r.2)
  | MCC_AST_STATEMENT_TYPE_IF_ELSE_STMT if_condition if_else_on_true if_else_on_false, num =>
    let r1 := modifying_visitor_statement rows_above if_else_on_true num
    let r2 := modifying_visitor_statement rows_above if_else_on_false r1.2
    (MCC_AST_STATEMENT_TYPE_IF_ELSE_STMT if_condition r1.1 r2.1, r2.2)
  | MCC_AST_STATEMENT_TYPE_IF_STMT if_condition if_on_true, num =>
    let r := modifying_visitor_statement rows_above if_on_true num
    (MCC_AST_STATEMENT_TYPE_IF_STMT if_condition r.1, r.2)
  | MCC_AST_STATEMENT_TYPE_WHILE if_condition while_on_true, num =>
    let r := modifying_visitor_statement rows_above while_on_true num
    (MCC_AST_STATEMENT_TYPE_WHILE if_condition r.1, r.2)
  | MCC_AST_STATEMENT_TYPE_EXPRESSION stmt_expression, num =>
    (MCC_AST_STATEMENT_TYPE_EXPRESSION stmt_expression, num)
  | MCC_AST_STATEMENT_TYPE_ASSIGNMENT assignment, num =>
    (MCC_AST_STATEMENT_TYPE_ASSIGNMENT assignment, num)
  | MCC_AST_STATEMENT_TYPE_DECLARATION declaration, num =>
    (MCC_AST_STATEMENT_TYPE_DECLARATION declaration, num)
  | MCC_AST_STATEMENT_TYPE_RETURN return_value is_empty_return, num =>
    (MCC_AST_STATEMENT_TYPE_RETURN return_value is_empty_return, num)
/-- Modelled from the spec: `mcc_ast_visit_compound_statement` of `ast_visit.c`, which is not
among the sources, run with `modifying_visitor`: post-order (section 4.3), so the statement
of the node and the rest of the list are visited before `cb_variable_shadowing` is called on
the node.  The rows above the declarations further down the list are those above this node
and, if the node holds a declaration, the row of that declaration. -/
def modifying_visitor_compound_statement (rows_above : List String) :
    mcc_ast_compound_statement → Nat → mcc_ast_compound_statement × Nat
  | mcc_ast_compound_statement.null, num => (mcc_ast_compound_statement.null, num)
  | mcc_ast_compound_statement.empty next_compound_statement, num =>
    let r := modifying_visitor_compound_statement rows_above next_compound_statement num
    cb_variable_shadowing rows_above (mcc_ast_compound_statement.empty r.1) r.2
  | mcc_ast_compound_statement.node statement next_compound_statement, num =>
    let r1 := modifying_visitor_statement rows_above statement num
    let rows_next :=
      match statement with
      | MCC_AST_STATEMENT_TYPE_DECLARATION decl =>
        rows_above ++ [(declaration_identifier decl).identifier_name]
      | _ => rows_above
    let r2 := modifying_visitor_compound_statement rows_next next_compound_statement r1.2
    cb_variable_shadowing rows_above (mcc_ast_compound_statement.node r1.1 r2.1) r2.2
end

/-- Modelled from the spec: `mcc_ast_visit_function_definition` of `ast_visit.c`, which is
not among the sources, run with `modifying_visitor`: the body is visited, then
`cb_add_return` is called on the definition.  The rows above the body are those of the
parameters (section 4.1: parameters are inserted into the top scope of the function). -/
def modifying_visitor_function_definition (d : mcc_ast_function_definition) (num : Nat) :
    mcc_ast_function_definition × Nat :=
  let rows_above :=
    (declared_parameters d.parameters).map fun p => (declaration_identifier p).identifier_name
  let r := modifying_visitor_compound_statement rows_above d.compound_stmt num
  (cb_add_return { d with compound_stmt := r.1 }, r.2)

/-- Modelled from the spec: `mcc_ast_visit_program` of `ast_visit.c`, which is not among the
sources, run with `modifying_visitor`: the functions in program order, the counter being
shared by all of them. -/
def modifying_visitor_program : mcc_ast_program → Nat → mcc_ast_program × Nat
  | mcc_ast_program.null, num => (mcc_ast_program.null, num)
  | mcc_ast_program.node function next_function, num =>
    let r1 := modifying_visitor_function_definition function num
    let r2 := modifying_visitor_program next_function r1.2
    (mcc_ast_program.node r1.1 r2.1, r2.2)

/-- `modify_ast` of `ir.c`: the counter starts at 0 and the program is visited
with `modifying_visitor`. -/
def modify_ast (ast : mcc_ast_program) : mcc_ast_program :=
  (modifying_visitor_program ast 0).1

mutual
/-- The names of the declarations in a statement, in source order. -/
def declared_names_statement : mcc_ast_statement → List String
  | MCC_AST_STATEMENT_TYPE_COMPOUND_STMT compound_statement =>
    declared_names_compound_statement compound_statement
  | MCC_AST_STATEMENT_TYPE_IF_ELSE_STMT _ if_else_on_true if_else_on_false =>
    declared_names_statement if_else_on_true ++ declared_names_statement if_else_on_false
  | MCC_AST_STATEMENT_TYPE_IF_STMT _ if_on_true => declared_names_statement if_on_true
  | MCC_AST_STATEMENT_TYPE_WHILE _ while_on_true => declared_names_statement while_on_true
  | MCC_AST_STATEMENT_TYPE_DECLARATION declaration =>
    [(declaration_identifier declaration).identifier_name]
  | MCC_AST_STATEMENT_TYPE_EXPRESSION _ => []
  | MCC_AST_STATEMENT_TYPE_ASSIGNMENT _ => []
  | MCC_AST_STATEMENT_TYPE_RETURN _ _ => []
/-- The names of the declarations in a compound-statement list, nested ones
included, in source order. -/
def declared_names_compound_statement : mcc_ast_compound_statement → List String
  | mcc_ast_compound_statement.null => []
  | mcc_ast_compound_statement.empty next_compound_statement =>
    declared_names_compound_statement next_compound_statement
  | mcc_ast_compound_statement.node statement next_compound_statement =>
    declared_names_statement statement ++ declared_names_compound_statement next_compound_statement
end

/-- The names of the declarations in the bodies of the functions of a program,
in source order. -/
def declared_names_program : mcc_ast_program → List String
  | mcc_ast_program.null => []
  | mcc_ast_program.node function next_function =>
    declared_names_compound_statement function.compound_stmt ++ declared_names_program next_function

/-! ## The stack annotator (`src/stack_size.c`)

A row pointer is the position of the row in the IR list, as before.  The C
`int` and `long` values of the annotator are integers: they are sizes and
offsets inside the frames of one compilation unit, and signed overflow, which
C leaves undefined, is not modelled. -/

/-- How a call into the annotator ends: with a value, on an `assert` that does
not hold, on a read through a NULL pointer or through union data that is not an
identifier, or after more nested calls of `argument_size` than the fuel
allows. -/
inductive outcome (α : Type) where
  | result (value : α)
  | assertion_failed
  | invalid_read
  | out_of_fuel
  deriving DecidableEq, Repr

open outcome

/-- Sequencing of two steps: the second runs on the value of the first, and a
first step that ends without a value ends the whole computation the same
way. -/
def outcome.bind {α β : Type} : outcome α → (α → outcome β) → outcome β
  | result a, f => f a
  | assertion_failed, _ => assertion_failed
  | invalid_read, _ => invalid_read
  | out_of_fuel, _ => out_of_fuel

/-- Modelled from the spec: the macro `STACK_SIZE_INT`, defined in a header of `stack_size.c`
that is not among the sources; section 4.6 gives it the value 4. -/
def STACK_SIZE_INT : Int := 4

/-- Modelled from the spec: the macro `STACK_SIZE_BOOL`, defined in a header of `stack_size.c`
that is not among the sources; section 4.6 gives it the value 4. -/
def STACK_SIZE_BOOL : Int := 4

/-- Modelled from the spec: the macro `STACK_SIZE_STRING`, defined in a header of `stack_size.c`
that is not among the sources; section 4.6 gives it the value 4. -/
def STACK_SIZE_STRING : Int := 4

/-- Modelled from the spec: the macro `STACK_SIZE_FLOAT`, defined in a header of `stack_size.c`
that is not among the sources; section 4.6 gives it the value 8. -/
def STACK_SIZE_FLOAT : Int := 8

/-- Node of the annotated IR (`struct mcc_annotated_ir`); `row` is the position
of the IR row the node points to.  `stack_position` is `none` as long as
nothing has been stored in the field. -/
structure mcc_annotated_ir where
  stack_size : Int
  stack_position : Option Int
  row : Nat
  deriving DecidableEq, Repr

/-- `mcc_new_annotated_ir` of `stack_size.c`: it sets `stack_size` and `row` and
leaves `stack_position` as `malloc` returned it. -/
def mcc_new_annotated_ir (row : Nat) (stack_size : Int) : mcc_annotated_ir :=
  { stack_size := stack_size, stack_position := none, row := row }

/-- Modelled from the spec: the read `arg->ident->identifier_name` as `stack_size.c` does it
on the first argument of a row.  The declaration of `struct mcc_ir_arg` (header `mcc/ir.h`)
is not among the sources; section 2 gives an array-element argument an identifier and an
index, and that identifier is taken to share its place in the union with `ident`, so that
the read gives the name of the array on an array element.  On a missing argument and on
every other kind of argument the read has no defined value. -/
def arg_identifier_name : Option mcc_ir_arg → outcome String
  | some (MCC_IR_TYPE_IDENTIFIER ident) => result ident.identifier_name
  | some (MCC_IR_TYPE_ARR_ELEM arr_ident _) => result arr_ident.identifier_name
  | _ => invalid_read

/-- The `while (prev)` loop of `first_line_of_function`: the argument counts the
rows that lie before the row the search started at and are still to be looked
at, so the row looked at next is the one at position `prev`. -/
def first_line_of_function_loop (ir : List mcc_ir_row) : Nat → Option Nat
  | 0 => none
  | prev + 1 =>
    if instr_at ir prev = some MCC_IR_INSTR_FUNC_LABEL then some prev
    else first_line_of_function_loop ir prev

/-- `first_line_of_function` of `stack_size.c`, for a row `i` of the list: the
row itself if it is a FUNC_LABEL, else the nearest FUNC_LABEL before it, else
NULL. -/
def first_line_of_function (ir : List mcc_ir_row) (i : Nat) : Option Nat :=
  if instr_at ir i = some MCC_IR_INSTR_FUNC_LABEL then some i
  else first_line_of_function_loop ir i

/-- The `while (next)` loop of `last_line_of_function`: the list holds the rows
from `next` on, and `i` is the position of `ir`, the row before `next`. -/
def last_line_of_function_loop : List mcc_ir_row → Nat → Nat
  | [], i => i
  | next :: rest, i =>
    if next.instr = MCC_IR_INSTR_FUNC_LABEL then i else last_line_of_function_loop rest (i + 1)

/-- `last_line_of_function` of `stack_size.c`, for a FUNC_LABEL row `i`: the
last row before the next FUNC_LABEL, or the last row of the list. -/
def last_line_of_function (ir : List mcc_ir_row) (i : Nat) : Nat :=
  last_line_of_function_loop (ir.drop (i + 1)) i

/-- The instruction test of `find_first_occurence`: an ASSIGN or one of the
four typed array declarations. -/
def is_defining_instr : mcc_ir_instruction → Bool
  | MCC_IR_INSTR_ASSIGN => true
  | MCC_IR_INSTR_ARRAY_BOOL => true
  | MCC_IR_INSTR_ARRAY_FLOAT => true
  | MCC_IR_INSTR_ARRAY_INT => true
  | MCC_IR_INSTR_ARRAY_STRING => true
  | _ => false

/-- The `while (ir && (ir != last))` loop of `find_first_occurence`: the list
holds the rows from `ir` up to the row before `last`, and `i` is the position
of `ir`. -/
def find_first_occurence_loop (identifier : String) :
    List mcc_ir_row → Nat → outcome (Option Nat)
  | [], _ => result none
  | row :: rest, i =>
    if is_defining_instr row.instr then
      (arg_identifier_name row.arg1).bind fun name =>
        if identifier = name then result (some i)
        else find_first_occurence_loop identifier rest (i + 1)
    else find_first_occurence_loop identifier rest (i + 1)

/-- `find_first_occurence` of `stack_size.c`, called with the row `i`: the
first defining row of `identifier` among the rows of the function of `i`, its
last row left out, or NULL.  Without a FUNC_LABEL at or before `i` the call of
`last_line_of_function` reads through NULL. -/
def find_first_occurence (identifier : String) (ir : List mcc_ir_row) (i : Nat) :
    outcome (Option Nat) :=
  match first_line_of_function ir i with
  | none => invalid_read
  | some first =>
    find_first_occurence_loop identifier
      ((ir.drop first).take (last_line_of_function ir first - first)) first

/-- `get_array_type_size` of `stack_size.c`.  Its first assertion on the
instruction is a disjunction with enumeration constants as operands and cannot
fail; the second one requires an integer literal as second argument. -/
def get_array_type_size (ir : List mcc_ir_row) (i : Nat) : outcome Int :=
  match ir[i]? with
  | none => assertion_failed
  | some row =>
    match row.arg2 with
    | none => invalid_read
    | some (MCC_IR_TYPE_LIT_INT lit_int) =>
      match row.instr with
      | MCC_IR_INSTR_ARRAY_BOOL => result (STACK_SIZE_BOOL * lit_int)
      | MCC_IR_INSTR_ARRAY_FLOAT => result (STACK_SIZE_FLOAT * lit_int)
      | MCC_IR_INSTR_ARRAY_INT => result (STACK_SIZE_INT * lit_int)
      | MCC_IR_INSTR_ARRAY_STRING => result STACK_SIZE_STRING
      | _ => result 0
    | some _ => assertion_failed

/-- `get_array_size` of `stack_size.c`; its body is that of
`get_array_type_size`. -/
def get_array_size (ir : List mcc_ir_row) (i : Nat) : outcome Int :=
  match ir[i]? with
  | none => assertion_failed
  | some row =>
    match row.arg2 with
    | none => invalid_read
    | some (MCC_IR_TYPE_LIT_INT lit_int) =>
      match row.instr with
      | MCC_IR_INSTR_ARRAY_BOOL => result (STACK_SIZE_BOOL * lit_int)
      | MCC_IR_INSTR_ARRAY_FLOAT => result (STACK_SIZE_FLOAT * lit_int)
      | MCC_IR_INSTR_ARRAY_INT => result (STACK_SIZE_INT * lit_int)
      | MCC_IR_INSTR_ARRAY_STRING => result STACK_SIZE_STRING
      | _ => result 0
    | some _ => assertion_failed

/-- `argument_size` of `stack_size.c`, called with the argument `arg` and the
row `i`; the first argument bounds the depth of the nested calls.  The case of
a row reference is the body of `get_temporary_size` on the referenced row.  In
the case of an identifier the function looks up the first defining row and, if
there is one, calls itself on the second argument of the row `i` it was called
with. -/
def argument_size : Nat → List mcc_ir_row → Option mcc_ir_arg → Nat → outcome Int
  | 0, _, _, _ => out_of_fuel
  | _ + 1, _, none, _ => assertion_failed
  | fuel + 1, ir, some arg, i =>
    match arg with
    | MCC_IR_TYPE_LIT_STRING _ => result STACK_SIZE_STRING
    | MCC_IR_TYPE_LIT_INT _ => result STACK_SIZE_INT
    | MCC_IR_TYPE_LIT_FLOAT _ => result STACK_SIZE_FLOAT
    | MCC_IR_TYPE_LIT_BOOL _ => result STACK_SIZE_BOOL
    | MCC_IR_TYPE_IDENTIFIER ident =>
      (find_first_occurence ident.identifier_name ir i).bind fun ref =>
        match ref with
        | none => result 0
        | some _ =>
          match ir[i]? with
          | none => invalid_read
          | some row => argument_size fuel ir row.arg2 i
    | MCC_IR_TYPE_ARR_ELEM arr_ident _ =>
      (find_first_occurence arr_ident.identifier_name ir i).bind fun ref =>
        match ref with
        | none => result 0
        | some ref => get_array_type_size ir ref
    | MCC_IR_TYPE_ROW row =>
      match ir[row]? with
      | none => assertion_failed
      | some r =>
        match r.arg1 with
        | none => assertion_failed
        | some arg1 => argument_size fuel ir (some arg1) row
    | _ => result 0

/-- `get_temporary_size` of `stack_size.c`: it asserts that the row has a first
argument and returns the size of that argument. -/
def get_temporary_size (fuel : Nat) (ir : List mcc_ir_row) (i : Nat) : outcome Int :=
  match ir[i]? with
  | none => assertion_failed
  | some row =>
    match row.arg1 with
    | none => assertion_failed
    | some arg1 => argument_size fuel ir (some arg1) i

/-- The `while (head != ir)` loop of `assignment_is_first_occurence`: the list
holds the rows from `head` up to the row before `ir`. -/
def assignment_is_first_occurence_loop (id_name : String) : List mcc_ir_row → outcome Bool
  | [] => result true
  | head :: rest =>
    if head.instr ≠ MCC_IR_INSTR_ASSIGN then assignment_is_first_occurence_loop id_name rest
    else
      (arg_identifier_name head.arg1).bind fun name =>
        if name = id_name then result false
        else assignment_is_first_occurence_loop id_name rest

/-- `assignment_is_first_occurence` of `stack_size.c`, called with the result
`first` of `first_line_of_function` and the row `i`. -/
def assignment_is_first_occurence (ir : List mcc_ir_row) (first : Option Nat) (i : Nat) :
    outcome Bool :=
  match first with
  | none => assertion_failed
  | some first =>
    match ir[i]? with
    | none => assertion_failed
    | some row =>
      if row.instr ≠ MCC_IR_INSTR_ASSIGN then assertion_failed
      else
        match row.arg1 with
        | none => invalid_read
        | some (MCC_IR_TYPE_ARR_ELEM _ _) => result false
        | some (MCC_IR_TYPE_IDENTIFIER ident) =>
          assignment_is_first_occurence_loop ident.identifier_name
            ((ir.drop first).take (i - first))
        | some _ => invalid_read

/-- `get_var_size` of `stack_size.c`. -/
def get_var_size (fuel : Nat) (ir : List mcc_ir_row) (i : Nat) : outcome Int :=
  match ir[i]? with
  | none => assertion_failed
  | some row =>
    if row.instr ≠ MCC_IR_INSTR_ASSIGN then assertion_failed
    else
      (assignment_is_first_occurence ir (first_line_of_function ir i) i).bind fun is_first =>
        if !is_first then result 0 else argument_size fuel ir row.arg2 i

/-- `get_stack_frame_size` of `stack_size.c`: the `switch` on the instruction of
the row `i`.  POP and PUSH leave the `switch` by `break`, and MODULO and the
untyped `MCC_IR_INSTR_ARRAY` have no case, so all four reach the final
`return 0`. -/
def get_stack_frame_size (fuel : Nat) (ir : List mcc_ir_row) (i : Nat) : outcome Int :=
  match ir[i]? with
  | none => assertion_failed
  | some row =>
    match row.instr with
    | MCC_IR_INSTR_LABEL => result 0
    | MCC_IR_INSTR_JUMPFALSE => result 0
    | MCC_IR_INSTR_JUMP => result 0
    | MCC_IR_INSTR_FUNC_LABEL => result 0
    | MCC_IR_INSTR_ASSIGN => get_var_size fuel ir i
    | MCC_IR_INSTR_PLUS => get_temporary_size fuel ir i
    | MCC_IR_INSTR_DIVIDE => get_temporary_size fuel ir i
    | MCC_IR_INSTR_MINUS => get_temporary_size fuel ir i
    | MCC_IR_INSTR_MULTIPLY => get_temporary_size fuel ir i
    | MCC_IR_INSTR_NEGATIV => get_temporary_size fuel ir i
    | MCC_IR_INSTR_AND => result STACK_SIZE_BOOL
    | MCC_IR_INSTR_OR => result STACK_SIZE_BOOL
    | MCC_IR_INSTR_EQUALS => result STACK_SIZE_BOOL
    | MCC_IR_INSTR_NOTEQUALS => result STACK_SIZE_BOOL
    | MCC_IR_INSTR_GREATER => result STACK_SIZE_BOOL
    | MCC_IR_INSTR_GREATEREQ => result STACK_SIZE_BOOL
    | MCC_IR_INSTR_NOT => result STACK_SIZE_BOOL
    | MCC_IR_INSTR_SMALLER => result STACK_SIZE_BOOL
    | MCC_IR_INSTR_SMALLEREQ => result STACK_SIZE_BOOL
    | MCC_IR_INSTR_POP => result 0
    | MCC_IR_INSTR_PUSH => result 0
    | MCC_IR_INSTR_CALL => result 0
    | MCC_IR_INSTR_RETURN => result 0
    | MCC_IR_INSTR_ARRAY_BOOL => get_array_size ir i
    | MCC_IR_INSTR_ARRAY_INT => get_array_size ir i
    | MCC_IR_INSTR_ARRAY_FLOAT => get_array_size ir i
    | MCC_IR_INSTR_ARRAY_STRING => get_array_size ir i
    | MCC_IR_INSTR_UNKNOWN => result 0
    | MCC_IR_INSTR_MODULO => result 0
    | MCC_IR_INSTR_ARRAY => result 0

/-- The `while (ir)` loop of `add_stack_sizes`: the list holds the rows from
`ir` on, `i` is the position of `ir`; the result is the chain of the nodes the
loop creates, one for each row, in order. -/
def add_stack_sizes_loop (fuel : Nat) (ir : List mcc_ir_row) :
    List mcc_ir_row → Nat → outcome (List mcc_annotated_ir)
  | [], _ => result []
  | _ :: rest, i =>
    (get_stack_frame_size fuel ir i).bind fun size =>
      (add_stack_sizes_loop fuel ir rest (i + 1)).bind fun chain =>
        result (mcc_new_annotated_ir i size :: chain)

/-- `add_stack_sizes` of `stack_size.c`.  Before the loop the function creates
a node for the first row with size 0 and returns that node as the head of the
list; the loop then hangs a node for every row behind it, the first row
included. -/
def add_stack_sizes (fuel : Nat) (ir : List mcc_ir_row) : outcome (List mcc_annotated_ir) :=
  match ir with
  | [] => assertion_failed
  | first :: _ =>
    if first.instr ≠ MCC_IR_INSTR_FUNC_LABEL then assertion_failed
    else
      (add_stack_sizes_loop fuel ir ir 0).bind fun chain =>
        result (mcc_new_annotated_ir 0 0 :: chain)

/-- The `while (head->row != last)` loop of `get_frame_size_of_function`: the
list holds the nodes from `head` on; running off the end of the list reads
through NULL. -/
def get_frame_size_of_function_loop (last : Nat) : List mcc_annotated_ir → Int → outcome Int
  | [], _ => invalid_read
  | head :: rest, frame_size =>
    if head.row ≠ last then get_frame_size_of_function_loop last rest (frame_size + head.stack_size)
    else result frame_size

/-- `get_frame_size_of_function` of `stack_size.c`, called with the nodes from
`head` on.  The local `frame_size` is declared without an initial value and is
read before it is written; the value it starts with is the argument
`frame_size`. -/
def get_frame_size_of_function (ir : List mcc_ir_row) (frame_size : Int) :
    List mcc_annotated_ir → outcome Int
  | [] => assertion_failed
  | head :: rest =>
    if instr_at ir head.row ≠ some MCC_IR_INSTR_FUNC_LABEL then assertion_failed
    else
      get_frame_size_of_function_loop (last_line_of_function ir head.row) (head :: rest)
        frame_size

/-- The `while (head)` loop of `add_stack_positions`: the list holds the nodes
from `head` on; the result is that list as the loop leaves it. -/
def add_stack_positions_loop (ir : List mcc_ir_row) (frame_size : Int) :
    List mcc_annotated_ir → Int → outcome (List mcc_annotated_ir)
  | [], _ => result []
  | head :: rest, current_position =>
    if instr_at ir head.row = some MCC_IR_INSTR_FUNC_LABEL then
      (get_frame_size_of_function ir frame_size (head :: rest)).bind fun size =>
        (add_stack_positions_loop ir frame_size rest 0).bind fun chain =>
          result ({ head with stack_size := size } :: chain)
    else
      (add_stack_positions_loop ir frame_size rest (current_position - head.stack_size)).bind
        fun chain =>
          result ({ head with stack_position := some (current_position - head.stack_size) }
            :: chain)

/-- `add_stack_positions` of `stack_size.c`: the frame size is stored in the
head node once before the loop and again by the first turn of the loop. -/
def add_stack_positions (ir : List mcc_ir_row) (frame_size : Int) :
    List mcc_annotated_ir → outcome (List mcc_annotated_ir)
  | [] => assertion_failed
  | head :: rest =>
    if instr_at ir head.row ≠ some MCC_IR_INSTR_FUNC_LABEL then assertion_failed
    else
      (get_frame_size_of_function ir frame_size (head :: rest)).bind fun size =>
        add_stack_positions_loop ir frame_size ({ head with stack_size := size } :: rest) 0

/-- `mcc_annotate_ir` of `stack_size.c`.  `fuel` bounds the depth of the nested
calls of `argument_size` for each row, and `frame_size` is the value the
uninitialised local of `get_frame_size_of_function` starts with. -/
def mcc_annotate_ir (fuel : Nat) (frame_size : Int) (ir : List mcc_ir_row) :
    outcome (List mcc_annotated_ir) :=
  match ir with
  | [] => assertion_failed
  | first :: _ =>
    if first.instr ≠ MCC_IR_INSTR_FUNC_LABEL then assertion_failed
    else (add_stack_sizes fuel ir).bind (add_stack_positions ir frame_size)

/-! ## Example inputs of the stack annotator -/

/-- The identifier `x` of the examples. -/
def example_x : mcc_ast_identifier := { identifier_name := "x" }

/-- The identifier `y` of the examples. -/
def example_y : mcc_ast_identifier := { identifier_name := "y" }

/-- The IR of `int main(){ int i; return 0; i = 1; }`: the rows
`FUNC_LABEL main`, `RETURN 0`, `ASSIGN i 1`.  The program has no built-in to
strip, no declaration shadows another, and `cb_add_return` leaves the body as
it is, so both passes are the identity on it. -/
def example_return_first_ir : List mcc_ir_row :=
  mcc_ir_generate id id
    (mcc_ast_program.node example_return_first_function mcc_ast_program.null)

/-- The function `int main(){ int x; int y; x = 1; y = 2; x = 3; return x; }`. -/
def example_reassign_function : mcc_ast_function_definition :=
  { type := mcc_ast_types.INT
    identifier := { identifier_name := "main" }
    parameters := mcc_ast_parameters.empty mcc_ast_parameters.null
    compound_stmt :=
      mcc_ast_compound_statement.node
        (MCC_AST_STATEMENT_TYPE_DECLARATION
          (MCC_AST_DECLARATION_TYPE_VARIABLE mcc_ast_types.INT example_x))
      (mcc_ast_compound_statement.node
        (MCC_AST_STATEMENT_TYPE_DECLARATION
          (MCC_AST_DECLARATION_TYPE_VARIABLE mcc_ast_types.INT example_y))
      (mcc_ast_compound_statement.node
        (MCC_AST_STATEMENT_TYPE_ASSIGNMENT
          (MCC_AST_ASSIGNMENT_TYPE_VARIABLE example_x
            (MCC_AST_EXPRESSION_TYPE_LITERAL (MCC_AST_LITERAL_TYPE_INT 1))))
      (mcc_ast_compound_statement.node
        (MCC_AST_STATEMENT_TYPE_ASSIGNMENT
          (MCC_AST_ASSIGNMENT_TYPE_VARIABLE example_y
            (MCC_AST_EXPRESSION_TYPE_LITERAL (MCC_AST_LITERAL_TYPE_INT 2))))
      (mcc_ast_compound_statement.node
        (MCC_AST_STATEMENT_TYPE_ASSIGNMENT
          (MCC_AST_ASSIGNMENT_TYPE_VARIABLE example_x
            (MCC_AST_EXPRESSION_TYPE_LITERAL (MCC_AST_LITERAL_TYPE_INT 3))))
      (mcc_ast_compound_statement.node
        (MCC_AST_STATEMENT_TYPE_RETURN (some (MCC_AST_EXPRESSION_TYPE_VARIABLE example_x)) false)
        mcc_ast_compound_statement.null))))) }

/-- The IR of `example_reassign_function`: the rows `FUNC_LABEL main`,
`ASSIGN x 1`, `ASSIGN y 2`, `ASSIGN x 3`, `RETURN x`. -/
def example_reassign_ir : List mcc_ir_row :=
  mcc_ir_generate id id (mcc_ast_program.node example_reassign_function mcc_ast_program.null)

/-- The function `int main(){ int x; int y; x = 1; y = x; return y; }`. -/
def example_copy_function : mcc_ast_function_definition :=
  { type := mcc_ast_types.INT
    identifier := { identifier_name := "main" }
    parameters := mcc_ast_parameters.empty mcc_ast_parameters.null
    compound_stmt :=
      mcc_ast_compound_statement.node
        (MCC_AST_STATEMENT_TYPE_DECLARATION
          (MCC_AST_DECLARATION_TYPE_VARIABLE mcc_ast_types.INT example_x))
      (mcc_ast_compound_statement.node
        (MCC_AST_STATEMENT_TYPE_DECLARATION
          (MCC_AST_DECLARATION_TYPE_VARIABLE mcc_ast_types.INT example_y))
      (mcc_ast_compound_statement.node
        (MCC_AST_STATEMENT_TYPE_ASSIGNMENT
          (MCC_AST_ASSIGNMENT_TYPE_VARIABLE example_x
            (MCC_AST_EXPRESSION_TYPE_LITERAL (MCC_AST_LITERAL_TYPE_INT 1))))
      (mcc_ast_compound_statement.node
        (MCC_AST_STATEMENT_TYPE_ASSIGNMENT
          (MCC_AST_ASSIGNMENT_TYPE_VARIABLE example_y
            (MCC_AST_EXPRESSION_TYPE_VARIABLE example_x)))
      (mcc_ast_compound_statement.node
        (MCC_AST_STATEMENT_TYPE_RETURN (some (MCC_AST_EXPRESSION_TYPE_VARIABLE example_y)) false)
        mcc_ast_compound_statement.null)))) }

/-- The IR of `example_copy_function`: the rows `FUNC_LABEL main`, `ASSIGN x 1`,
`ASSIGN y x`, `RETURN y`. -/
def example_copy_ir : List mcc_ir_row :=
  mcc_ir_generate id id (mcc_ast_program.node example_copy_function mcc_ast_program.null)

/-- The annotated list of `example_reassign_ir`, for a local `frame_size` that
starts at 0: the extra head node and one node for each of the five rows. -/
def example_reassign_annotated : List mcc_annotated_ir :=
  [{ stack_size := 16, stack_position := none, row := 0 },
   { stack_size := 8, stack_position := none, row := 0 },
   { stack_size := 4, stack_position := some (-4), row := 1 },
   { stack_size := 4, stack_position := some (-8), row := 2 },
   { stack_size := 0, stack_position := some (-8), row := 3 },
   { stack_size := 0, stack_position := some (-8), row := 4 }]

/-! ## Example input of the renaming pass -/

/-- The program `int main(){ int x; { int x; { int _r1; } { int x; } } return 0; }`. -/
def example_shadow_program : mcc_ast_program :=
  mcc_ast_program.node
    { type := mcc_ast_types.INT
      identifier := { identifier_name := "main" }
      parameters := mcc_ast_parameters.empty mcc_ast_parameters.null
      compound_stmt :=
        mcc_ast_compound_statement.node
          (MCC_AST_STATEMENT_TYPE_DECLARATION
            (MCC_AST_DECLARATION_TYPE_VARIABLE mcc_ast_types.INT example_x))
        (mcc_ast_compound_statement.node
          (MCC_AST_STATEMENT_TYPE_COMPOUND_STMT
            (mcc_ast_compound_statement.node
              (MCC_AST_STATEMENT_TYPE_DECLARATION
                (MCC_AST_DECLARATION_TYPE_VARIABLE mcc_ast_types.INT example_x))
            (mcc_ast_compound_statement.node
              (MCC_AST_STATEMENT_TYPE_COMPOUND_STMT
                (mcc_ast_compound_statement.node
                  (MCC_AST_STATEMENT_TYPE_DECLARATION
                    (MCC_AST_DECLARATION_TYPE_VARIABLE mcc_ast_types.INT
                      { identifier_name := "_r1" }))
                  mcc_ast_compound_statement.null))
            (mcc_ast_compound_statement.node
              (MCC_AST_STATEMENT_TYPE_COMPOUND_STMT
                (mcc_ast_compound_statement.node
                  (MCC_AST_STATEMENT_TYPE_DECLARATION
                    (MCC_AST_DECLARATION_TYPE_VARIABLE mcc_ast_types.INT example_x))
                  mcc_ast_compound_statement.null))
              mcc_ast_compound_statement.null))))
        (mcc_ast_compound_statement.node
          (MCC_AST_STATEMENT_TYPE_RETURN
            (some (MCC_AST_EXPRESSION_TYPE_LITERAL (MCC_AST_LITERAL_TYPE_INT 0))) false)
          mcc_ast_compound_statement.null)) }
    mcc_ast_program.null

/-! ## Notions used to state the properties of the stack annotator -/

/-- Sum of the `stack_size` of the `len` nodes of an annotated list that start
at position `lo`. -/
def stack_size_sum (an : List mcc_annotated_ir) (lo : Nat) : Nat → Int
  | 0 => 0
  | len + 1 =>
    stack_size_sum an lo len + ((an[lo + len]?).map (fun a => a.stack_size)).getD 0

/-- Whether the node points to a FUNC_LABEL row. -/
def is_func_label_node (ir : List mcc_ir_row) (a : mcc_annotated_ir) : Bool :=
  instr_at ir a.row = some MCC_IR_INSTR_FUNC_LABEL

/-- The offset that the walk of `add_stack_positions` holds after a node: 0
after a FUNC_LABEL node, else the position stored in the node. -/
def offset_after (ir : List mcc_ir_row) (a : mcc_annotated_ir) : Option Int :=
  if is_func_label_node ir a then some 0 else a.stack_position

/-- Whether the row is an ASSIGN whose first argument carries the name `name`:
the assigned variable, or the array of the assigned element. -/
def assigns_name (name : String) (row : mcc_ir_row) : Bool :=
  decide (row.instr = MCC_IR_INSTR_ASSIGN) && decide (arg_identifier_name row.arg1 = result name)

/-- Whether one of the rows `first ≤ k < i` is an ASSIGN of the name `name`. -/
def assigned_before (ir : List mcc_ir_row) (first i : Nat) (name : String) : Bool :=
  ((ir.drop first).take (i - first)).any (assigns_name name)

/-- Whether the argument is a variable or an array element. -/
def is_named_target : Option mcc_ir_arg → Bool
  | some (MCC_IR_TYPE_IDENTIFIER _) => true
  | some (MCC_IR_TYPE_ARR_ELEM _ _) => true
  | _ => false

/-- Every ASSIGN row of the list has a variable or an array element as its
first argument, as the rows that `generate_ir_assignment` and
`generate_ir_function_definition` build have. -/
def assign_targets_named (rows : List mcc_ir_row) : Bool :=
  rows.all fun r => decide (r.instr ≠ MCC_IR_INSTR_ASSIGN) || is_named_target r.arg1

/-- Whether the row, if it is an ASSIGN, has a variable or an array element as
its first argument. -/
def assign_target_named (r : mcc_ir_row) : Bool :=
  decide (r.instr ≠ MCC_IR_INSTR_ASSIGN) || is_named_target r.arg1

/-! ## The semantic checks (`src/semantic_checks.c`)

The check record, the data type and the return codes are declared in a version
of `mcc/semantic_checks.h` that is not among the sources; they are given here
with the fields and constants that `semantic_checks.c` uses.  Allocations are
taken to succeed and to give a whole object. -/

/-- Status of a check record (`enum mcc_semantic_check_status`). -/
inductive mcc_semantic_check_status where
  | MCC_SEMANTIC_CHECK_OK
  | MCC_SEMANTIC_CHECK_FAIL
  deriving DecidableEq, Repr

open mcc_semantic_check_status

/-- Return codes of the checks (`enum mcc_semantic_check_error_code`), as
`semantic_checks.c` names them. -/
inductive mcc_semantic_check_error_code where
  | MCC_SEMANTIC_CHECK_ERROR_OK
  | MCC_SEMANTIC_CHECK_ERROR_MALLOC_FAILED
  | MCC_SEMANTIC_CHECK_ERROR_SNPRINTF_FAILED
  deriving DecidableEq, Repr

open mcc_semantic_check_error_code

/-- The check record (`struct mcc_semantic_check`) with the two fields that
`semantic_checks.c` reads and writes; `error_buffer` is `none` for NULL. -/
structure mcc_semantic_check where
  status : mcc_semantic_check_status
  error_buffer : Option String
  deriving DecidableEq, Repr

/-- How a check leaves: the record as the call leaves it, and the return code
of the call, or the way the call ends without returning. -/
abbrev semantic_run := mcc_semantic_check × outcome mcc_semantic_check_error_code

/-- Type tags of `struct mcc_semantic_check_data_type`, as `semantic_checks.c`
names them. -/
inductive mcc_semantic_check_data_types where
  | MCC_SEMANTIC_CHECK_INT
  | MCC_SEMANTIC_CHECK_FLOAT
  | MCC_SEMANTIC_CHECK_BOOL
  | MCC_SEMANTIC_CHECK_STRING
  | MCC_SEMANTIC_CHECK_VOID
  | MCC_SEMANTIC_CHECK_UNKNOWN
  deriving DecidableEq, Repr

open mcc_semantic_check_data_types

/-- The type of an expression (`struct mcc_semantic_check_data_type`). -/
structure mcc_semantic_check_data_type where
  type : mcc_semantic_check_data_types
  is_array : Bool
  array_size : Int
  deriving DecidableEq, Repr

/-- Type tags of the rows of the symbol table
(`enum mcc_symbol_table_row_type`): the five that `semantic_checks.c` names and
any further value, which `get_data_type_from_row` sends to its `default`
case. -/
inductive mcc_symbol_table_row_type where
  | MCC_SYMBOL_TABLE_ROW_TYPE_INT
  | MCC_SYMBOL_TABLE_ROW_TYPE_FLOAT
  | MCC_SYMBOL_TABLE_ROW_TYPE_BOOL
  | MCC_SYMBOL_TABLE_ROW_TYPE_STRING
  | MCC_SYMBOL_TABLE_ROW_TYPE_VOID
  | other (value : Nat)
  deriving DecidableEq, Repr

open mcc_symbol_table_row_type

/-- A row of the symbol table (`struct mcc_symbol_table_row`) with the fields
that `semantic_checks.c` reads; `array_size` is -1 for what is no array. -/
structure mcc_symbol_table_row where
  name : String
  row_type : mcc_symbol_table_row_type
  array_size : Int
  deriving DecidableEq, Repr

/-- The symbol table as one statement sees it.  The symbol table module is not
among the sources, so its two lookup functions are parameters:
`check_upwards_for_declaration name` is the result of
`mcc_symbol_table_check_upwards_for_declaration(name, row)` and
`check_for_function_declaration name` the result of
`mcc_symbol_table_check_for_function_declaration(name, row)`, `row` being the
row that the builder of the table stored in the AST node; `none` is NULL.  The
nodes of one statement are taken to hold the same row. -/
structure mcc_symbol_table_lookup where
  check_upwards_for_declaration : String → Option mcc_symbol_table_row
  check_for_function_declaration : String → Option mcc_symbol_table_row

/-- The symbol table as the type check uses it (`struct mcc_symbol_table`):
for the assignment statement that the visitor reaches as number `k`, counted
from 0, the lookups from the rows stored in the nodes of that statement. -/
structure mcc_symbol_table where
  at_assignment : Nat → mcc_symbol_table_lookup

/-- What `snprintf(buffer, size, string)` leaves in the buffer for a format
without conversions: at most `size - 1` characters. -/
def snprintf_buffer (size : Nat) (string : String) : String :=
  String.mk (string.data.take (size - 1))

/-- `write_error_message_to_check` of `semantic_checks.c`: it asserts that the
record has no message and has status OK, sets the status to FAIL and stores a
copy of the string. -/
def write_error_message_to_check (check : mcc_semantic_check) (string : String) :
    semantic_run :=
  if check.error_buffer ≠ none then (check, assertion_failed)
  else if check.status ≠ MCC_SEMANTIC_CHECK_OK then (check, assertion_failed)
  else
    ({ status := MCC_SEMANTIC_CHECK_FAIL, error_buffer := some string },
      result MCC_SEMANTIC_CHECK_ERROR_OK)

/-- `mcc_semantic_check_initialize_check` of `semantic_checks.c`. -/
def mcc_semantic_check_initialize_check : mcc_semantic_check :=
  { status := MCC_SEMANTIC_CHECK_OK, error_buffer := none }

/-- The block with which the type check records a failure: the status becomes
FAIL, a buffer of `size` bytes is filled with the message, and the buffer
becomes the message of the record if the record has none. -/
def record_failure (size : Nat) (message : String) (check : mcc_semantic_check) :
    mcc_semantic_check :=
  { status := MCC_SEMANTIC_CHECK_FAIL
    error_buffer :=
      match check.error_buffer with
      | none => some (snprintf_buffer size message)
      | some buffer => some buffer }

/-- `get_new_data_type` of `semantic_checks.c`. -/
def get_new_data_type : mcc_semantic_check_data_type :=
  { type := MCC_SEMANTIC_CHECK_UNKNOWN, is_array := false, array_size := -1 }

/-- `get_data_type_from_row` of `semantic_checks.c`. -/
def get_data_type_from_row (row : mcc_symbol_table_row) : mcc_semantic_check_data_type :=
  { type :=
      match row.row_type with
      | MCC_SYMBOL_TABLE_ROW_TYPE_INT => MCC_SEMANTIC_CHECK_INT
      | MCC_SYMBOL_TABLE_ROW_TYPE_FLOAT => MCC_SEMANTIC_CHECK_FLOAT
      | MCC_SYMBOL_TABLE_ROW_TYPE_BOOL => MCC_SEMANTIC_CHECK_BOOL
      | MCC_SYMBOL_TABLE_ROW_TYPE_STRING => MCC_SEMANTIC_CHECK_STRING
      | MCC_SYMBOL_TABLE_ROW_TYPE_VOID => MCC_SEMANTIC_CHECK_VOID
      | other _ => MCC_SEMANTIC_CHECK_UNKNOWN
    is_array := decide (row.array_size ≠ -1)
    array_size := row.array_size }

/-- `is_int` of `semantic_checks.c`. -/
def is_int (type : mcc_semantic_check_data_type) : Bool :=
  decide (type.type = MCC_SEMANTIC_CHECK_INT) && !type.is_array

/-- `is_bool` of `semantic_checks.c`. -/
def is_bool (type : mcc_semantic_check_data_type) : Bool :=
  decide (type.type = MCC_SEMANTIC_CHECK_BOOL) && !type.is_array

/-- `is_string` of `semantic_checks.c`. -/
def is_string (type : mcc_semantic_check_data_type) : Bool :=
  decide (type.type = MCC_SEMANTIC_CHECK_STRING) && !type.is_array

/-- `types_equal` of `semantic_checks.c`. -/
def types_equal (first second : mcc_semantic_check_data_type) : Bool :=
  decide (first.type = second.type) && decide (first.array_size = second.array_size)

/-- The `switch (op)` of `check_and_get_type_binary_expression`, which sets
`success`. -/
def binary_op_success (op : mcc_ast_binary_op) (lhs rhs : mcc_semantic_check_data_type) :
    Bool :=
  match op with
  | MCC_AST_BINARY_OP_ADD => types_equal lhs rhs && !is_bool lhs
  | MCC_AST_BINARY_OP_SUB => types_equal lhs rhs && !is_bool lhs
  | MCC_AST_BINARY_OP_MUL => types_equal lhs rhs && !is_bool lhs
  | MCC_AST_BINARY_OP_DIV => types_equal lhs rhs && !is_bool lhs
  | MCC_AST_BINARY_OP_SMALLER => types_equal lhs rhs && !is_bool lhs
  | MCC_AST_BINARY_OP_GREATER => types_equal lhs rhs && !is_bool lhs
  | MCC_AST_BINARY_OP_SMALLEREQ => types_equal lhs rhs && !is_bool lhs
  | MCC_AST_BINARY_OP_GREATEREQ => types_equal lhs rhs && !is_bool lhs
  | MCC_AST_BINARY_OP_CONJ => is_bool lhs && is_bool rhs
  | MCC_AST_BINARY_OP_DISJ => is_bool lhs && is_bool rhs
  | MCC_AST_BINARY_OP_EQUAL => types_equal lhs rhs
  | MCC_AST_BINARY_OP_NOTEQUAL => types_equal lhs rhs

/-- The test `op == ADD || op == SUB || op == MUL || op == DIV` at the end of
`check_and_get_type_binary_expression`. -/
def is_arithmetic_op : mcc_ast_binary_op → Bool
  | MCC_AST_BINARY_OP_ADD => true
  | MCC_AST_BINARY_OP_SUB => true
  | MCC_AST_BINARY_OP_MUL => true
  | MCC_AST_BINARY_OP_DIV => true
  | _ => false

/-- The part of `check_and_get_type_binary_expression` that follows the typing
of the two operands: `lhs` and `rhs` are their types, the result is the object
`lhs` as the function returns it, and the record. -/
def check_and_get_type_binary_expression_operands (op : mcc_ast_binary_op)
    (lhs rhs : mcc_semantic_check_data_type) (check : mcc_semantic_check) :
    mcc_semantic_check_data_type × mcc_semantic_check :=
  let success := binary_op_success op lhs rhs
  let first :=
    if !success || lhs.is_array || rhs.is_array || is_string lhs || is_string rhs then
      ({ lhs with type := MCC_SEMANTIC_CHECK_UNKNOWN },
        record_failure 49 "operation on incompatible types 'lhs' and 'rhs'." check)
    else (lhs, check)
  let second :=
    if success && decide (first.1.type = MCC_SEMANTIC_CHECK_UNKNOWN) then
      record_failure 50 "error: operation on unknown type" first.2
    else first.2
  let lhs_returned :=
    if !is_arithmetic_op op then { first.1 with type := MCC_SEMANTIC_CHECK_BOOL } else first.1
  (lhs_returned, second)

/-- The part of `check_and_get_type_unary_expression` that follows the typing
of the operand. -/
def check_and_get_type_unary_expression_operand (u_op : mcc_ast_unary_op)
    (child : mcc_semantic_check_data_type) (check : mcc_semantic_check) :
    mcc_semantic_check_data_type × mcc_semantic_check :=
  if child.is_array || is_string child ||
      (decide (u_op = MCC_AST_UNARY_OP_NEGATIV) && is_bool child) ||
      (decide (u_op = MCC_AST_UNARY_OP_NOT) && !is_bool child) then
    ({ child with type := MCC_SEMANTIC_CHECK_UNKNOWN },
      record_failure 70 "unary operation not compatible with 'child'." check)
  else (child, check)

/-- `check_and_get_type_identifier` of `semantic_checks.c`; the row stored in
the node is taken not to be NULL, as the function asserts. -/
def check_and_get_type_identifier (table : mcc_symbol_table_lookup)
    (identifier : mcc_ast_identifier) (check : mcc_semantic_check) :
    mcc_semantic_check_data_type × mcc_semantic_check :=
  match table.check_upwards_for_declaration identifier.identifier_name with
  | none =>
    (get_new_data_type,
      record_failure 50 "'name' undeclared (first use in this function)." check)
  | some row => (get_data_type_from_row row, check)

/-- The part of `check_and_get_type_array_element` that follows the typing of
the index and of the identifier. -/
def check_and_get_type_array_element_operands (index identifier : mcc_semantic_check_data_type)
    (check : mcc_semantic_check) : mcc_semantic_check_data_type × mcc_semantic_check :=
  let first :=
    if !is_int index then
      ({ identifier with type := MCC_SEMANTIC_CHECK_UNKNOWN },
        record_failure 37 "expected type 'INT' but was 'index'." check)
    else (identifier, check)
  let second :=
    if !first.1.is_array then
      ({ first.1 with type := MCC_SEMANTIC_CHECK_UNKNOWN },
        record_failure 42 "subscripted value 'name' is not an array." first.2)
    else first
  ({ second.1 with is_array := false, array_size := -1 }, second.2)

/-- `get_type_function_call` of `semantic_checks.c`, for the identifier of the
called function; the function reads nothing else of the call. -/
def get_type_function_call (table : mcc_symbol_table_lookup)
    (function_identifier : mcc_ast_identifier) (check : mcc_semantic_check) :
    mcc_semantic_check_data_type × mcc_semantic_check :=
  match table.check_for_function_declaration function_identifier.identifier_name with
  | none =>
    (get_new_data_type,
      record_failure 48 "'name' undeclared (first use in this function)." check)
  | some row => (get_data_type_from_row row, check)

/-- `check_and_get_type_literal` of `semantic_checks.c`. -/
def check_and_get_type_literal : mcc_ast_literal → mcc_semantic_check_data_type
  | MCC_AST_LITERAL_TYPE_INT _ => { get_new_data_type with type := MCC_SEMANTIC_CHECK_INT }
  | MCC_AST_LITERAL_TYPE_FLOAT _ => { get_new_data_type with type := MCC_SEMANTIC_CHECK_FLOAT }
  | MCC_AST_LITERAL_TYPE_BOOL _ => { get_new_data_type with type := MCC_SEMANTIC_CHECK_BOOL }
  | MCC_AST_LITERAL_TYPE_STRING _ => { get_new_data_type with type := MCC_SEMANTIC_CHECK_STRING }

/-- `check_and_get_type_expression` of `semantic_checks.c`, with the functions
for binary and unary expressions and for array elements, which call it on
their operands, written into its cases: the left operand of a binary
expression is typed before the right one, the index of an array element before
its identifier.  The macro `check_and_get_type` of the absent header selects
the function for the kind of its argument. -/
def check_and_get_type_expression (table : mcc_symbol_table_lookup) :
    mcc_ast_expression → mcc_semantic_check →
      mcc_semantic_check_data_type × mcc_semantic_check
  | MCC_AST_EXPRESSION_TYPE_LITERAL literal, check => (check_and_get_type_literal literal, check)
  | MCC_AST_EXPRESSION_TYPE_BINARY_OP op lhs rhs, check =>
    let l := check_and_get_type_expression table lhs check
    let r := check_and_get_type_expression table rhs l.2
    check_and_get_type_binary_expression_operands op l.1 r.1 r.2
  | MCC_AST_EXPRESSION_TYPE_PARENTH expression, check =>
    check_and_get_type_expression table expression check
  | MCC_AST_EXPRESSION_TYPE_UNARY_OP u_op child, check =>
    let c := check_and_get_type_expression table child check
    check_and_get_type_unary_expression_operand u_op c.1 c.2
  | MCC_AST_EXPRESSION_TYPE_VARIABLE identifier, check =>
    check_and_get_type_identifier table identifier check
  | MCC_AST_EXPRESSION_TYPE_ARRAY_ELEMENT array_identifier index, check =>
    let i := check_and_get_type_expression table index check
    let a := check_and_get_type_identifier table array_identifier i.2
    check_and_get_type_array_element_operands i.1 a.1 a.2
  | MCC_AST_EXPRESSION_TYPE_FUNCTION_CALL function_identifier _, check =>
    get_type_function_call table function_identifier check

/-- The three tests at the end of `cb_type_conversion_assignment`; `index` is
`none` for the NULL that the pointer holds in an assignment to a variable. -/
def cb_type_conversion_assignment_types (index : Option mcc_semantic_check_data_type)
    (lhs_type rhs_type : mcc_semantic_check_data_type) (check : mcc_semantic_check) :
    mcc_semantic_check :=
  let first :=
    match index with
    | some i =>
      if !is_int i then record_failure 35 "array subscript is not an integer." check else check
    | none => check
  let second :=
    if !types_equal lhs_type rhs_type then
      record_failure 65 "implicit type conversion. Expected 'lhs_type' but was 'rhs_type'" first
    else first
  if lhs_type.is_array then
    record_failure 50 "Assignment to Variable of array type not possible" second
  else second

/-- `cb_type_conversion_assignment` of `semantic_checks.c`, the callback of the
type check for assignment statements; it is not called on other
statements. -/
def cb_type_conversion_assignment (table : mcc_symbol_table_lookup)
    (statement : mcc_ast_statement) (check : mcc_semantic_check) : mcc_semantic_check :=
  match statement with
  | MCC_AST_STATEMENT_TYPE_ASSIGNMENT
      (MCC_AST_ASSIGNMENT_TYPE_VARIABLE variable_identifier variable_assigned_value) =>
    let lhs := check_and_get_type_identifier table variable_identifier check
    let rhs := check_and_get_type_expression table variable_assigned_value lhs.2
    cb_type_conversion_assignment_types none lhs.1 rhs.1 rhs.2
  | MCC_AST_STATEMENT_TYPE_ASSIGNMENT
      (MCC_AST_ASSIGNMENT_TYPE_ARRAY array_identifier array_index array_assigned_value) =>
    let lhs := check_and_get_type_identifier table array_identifier check
    let rhs := check_and_get_type_expression table array_assigned_value lhs.2
    let index := check_and_get_type_expression table array_index rhs.2
    cb_type_conversion_assignment_types (some index.1)
      { lhs.1 with is_array := false, array_size := -1 } rhs.1 index.2
  | _ => check

mutual
/-- Modelled from the spec: `mcc_ast_visit_statement` of `ast_visit.c`, which is not among
the sources, run with `type_checking_visitor`: depth first, the sub-statements in the order
of their fields; the one callback of the visitor, `cb_type_conversion_assignment`, is called
on every assignment statement.  `k` counts the assignment statements reached so far. -/
def type_checking_visitor_statement (symbol_table : mcc_symbol_table) :
    mcc_ast_statement → Nat → mcc_semantic_check → Nat × mcc_semantic_check
  | MCC_AST_STATEMENT_TYPE_ASSIGNMENT assignment, k, check =>
    (k + 1, cb_type_conversion_assignment (symbol_table.at_assignment k)
      (MCC_AST_STATEMENT_TYPE_ASSIGNMENT assignment) check)
  | MCC_AST_STATEMENT_TYPE_COMPOUND_STMT compound_statement, k, check =>
    type_checking_visitor_compound_statement symbol_table compound_statement k check
  | MCC_AST_STATEMENT_TYPE_IF_ELSE_STMT _ if_else_on_true if_else_on_false, k, check =>
    let r := type_checking_visitor_statement symbol_table if_else_on_true k check
    type_checking_visitor_statement symbol_table if_else_on_false r.1 r.2
  | MCC_AST_STATEMENT_TYPE_IF_STMT _ if_on_true, k, check =>
    type_checking_visitor_statement symbol_table if_on_true k check
  | MCC_AST_STATEMENT_TYPE_WHILE _ while_on_true, k, check =>
    type_checking_visitor_statement symbol_table while_on_true k check
  | MCC_AST_STATEMENT_TYPE_EXPRESSION _, k, check => (k, check)
  | MCC_AST_STATEMENT_TYPE_DECLARATION _, k, check => (k, check)
  | MCC_AST_STATEMENT_TYPE_RETURN _ _, k, check => (k, check)
/-- Modelled from the spec: `mcc_ast_visit_compound_statement` of `ast_visit.c`, which is not
among the sources, run with `type_checking_visitor`. -/
def type_checking_visitor_compound_statement (symbol_table : mcc_symbol_table) :
    mcc_ast_compound_statement → Nat → mcc_semantic_check → Nat × mcc_semantic_check
  | mcc_ast_compound_statement.null, k, check => (k, check)
  | mcc_ast_compound_statement.empty next_compound_statement, k, check =>
    type_checking_visitor_compound_statement symbol_table next_compound_statement k check
  | mcc_ast_compound_statement.node statement next_compound_statement, k, check =>
    let r := type_checking_visitor_statement symbol_table statement k check
    type_checking_visitor_compound_statement symbol_table next_compound_statement r.1 r.2
end

/-- Modelled from the spec: `mcc_ast_visit_program` of `ast_visit.c`, which is not among the
sources, run with `type_checking_visitor`: the bodies of the functions in program order. -/
def type_checking_visitor_program (symbol_table : mcc_symbol_table) :
    mcc_ast_program → Nat → mcc_semantic_check → Nat × mcc_semantic_check
  | mcc_ast_program.null, k, check => (k, check)
  | mcc_ast_program.node function next_function, k, check =>
    let r := type_checking_visitor_compound_statement symbol_table function.compound_stmt k check
    type_checking_visitor_program symbol_table next_function r.1 r.2

/-- `mcc_semantic_check_run_type_check` of `semantic_checks.c`: the record is
set to status OK without message, then the program is visited. -/
def mcc_semantic_check_run_type_check (ast : mcc_ast_program)
    (symbol_table : mcc_symbol_table) (_check : mcc_semantic_check) : semantic_run :=
  ((type_checking_visitor_program symbol_table ast 0
      { status := MCC_SEMANTIC_CHECK_OK, error_buffer := none }).2,
    result MCC_SEMANTIC_CHECK_ERROR_OK)

/-- `mcc_semantic_check_run_nonvoid_check` of `semantic_checks.c`: program and
symbol table are marked `UNUSED`. -/
def mcc_semantic_check_run_nonvoid_check (_ast : mcc_ast_program)
    (_symbol_table : mcc_symbol_table) (_check : mcc_semantic_check) : semantic_run :=
  ({ status := MCC_SEMANTIC_CHECK_OK, error_buffer := none }, result MCC_SEMANTIC_CHECK_ERROR_OK)

/-- The reads `ast->function->parameters->is_empty`: NULL has no flag to
read. -/
def parameters_is_empty : mcc_ast_parameters → Option Bool
  | mcc_ast_parameters.null => none
  | mcc_ast_parameters.empty _ => some true
  | mcc_ast_parameters.node _ _ => some false

/-- The `while (ast->has_next_function)` loop of
`mcc_semantic_check_run_main_function`: the program argument is
`ast->next_function`, and the flag `has_next_function` is taken to be set
exactly if that pointer is not NULL, `ir.c` walking the same list by the
pointer.  After the loop comes the test for no main at all. -/
def mcc_semantic_check_run_main_function_loop :
    mcc_ast_program → Nat → mcc_semantic_check → semantic_run
  | mcc_ast_program.null, number_of_mains, check =>
    if number_of_mains = 0 then write_error_message_to_check check "No main function defined."
    else (check, result MCC_SEMANTIC_CHECK_ERROR_OK)
  | mcc_ast_program.node function next_function, number_of_mains, check =>
    if function.identifier.identifier_name = "main" then
      let too_many :=
        if number_of_mains + 1 > 1 then
          write_error_message_to_check check "Too many main functions defined."
        else (check, result MCC_SEMANTIC_CHECK_ERROR_OK)
      match too_many.2 with
      | result _ =>
        match parameters_is_empty function.parameters with
        | none => (too_many.1, invalid_read)
        | some false =>
          write_error_message_to_check too_many.1
            "Main has wrong signature. Must be `int main()`"
        | some true =>
          mcc_semantic_check_run_main_function_loop next_function (number_of_mains + 1)
            too_many.1
      | _ => too_many
    else mcc_semantic_check_run_main_function_loop next_function number_of_mains check

/-- `mcc_semantic_check_run_main_function` of `semantic_checks.c`. -/
def mcc_semantic_check_run_main_function (ast : mcc_ast_program)
    (_symbol_table : mcc_symbol_table) (check : mcc_semantic_check) : semantic_run :=
  match ast with
  | mcc_ast_program.null => (check, assertion_failed)
  | mcc_ast_program.node function next_function =>
    if check.status ≠ MCC_SEMANTIC_CHECK_OK then (check, assertion_failed)
    else
      let start : mcc_semantic_check := { status := MCC_SEMANTIC_CHECK_OK, error_buffer := none }
      if function.identifier.identifier_name = "main" then
        match parameters_is_empty function.parameters with
        | none => (start, invalid_read)
        | some false =>
          write_error_message_to_check start "Main has wrong signature. Must be `int main()`"
        | some true => mcc_semantic_check_run_main_function_loop next_function 1 start
      else mcc_semantic_check_run_main_function_loop next_function 0 start

/-- `mcc_semantic_check_run_multiple_function_definitions` of
`semantic_checks.c`: program and symbol table are marked `UNUSED`. -/
def mcc_semantic_check_run_multiple_function_definitions (_ast : mcc_ast_program)
    (_symbol_table : mcc_symbol_table) (_check : mcc_semantic_check) : semantic_run :=
  ({ status := MCC_SEMANTIC_CHECK_OK, error_buffer := none }, result MCC_SEMANTIC_CHECK_ERROR_OK)

/-- `mcc_semantic_check_run_multiple_variable_declarations` of
`semantic_checks.c`: program and symbol table are marked `UNUSED`. -/
def mcc_semantic_check_run_multiple_variable_declarations (_ast : mcc_ast_program)
    (_symbol_table : mcc_symbol_table) (_check : mcc_semantic_check) : semantic_run :=
  ({ status := MCC_SEMANTIC_CHECK_OK, error_buffer := none }, result MCC_SEMANTIC_CHECK_ERROR_OK)

/-- `mcc_semantic_check_early_abort_wrapper` of `semantic_checks.c`. -/
def mcc_semantic_check_early_abort_wrapper
    (fctptr : mcc_ast_program → mcc_symbol_table → mcc_semantic_check → semantic_run)
    (ast : mcc_ast_program) (table : mcc_symbol_table) (check : mcc_semantic_check)
    (previous_return : mcc_semantic_check_error_code) : semantic_run :=
  match ast with
  | mcc_ast_program.null => (check, assertion_failed)
  | _ =>
    if previous_return ≠ MCC_SEMANTIC_CHECK_ERROR_OK then (check, result previous_return)
    else if check.status ≠ MCC_SEMANTIC_CHECK_OK then (check, result MCC_SEMANTIC_CHECK_ERROR_OK)
    else fctptr ast table check

/-- One line `error = mcc_semantic_check_early_abort_wrapper(…, check, error)`
of `mcc_semantic_check_run_all`: `state` holds the record and the value of
`error` before the line; a call that did not return leaves nothing to go on
with. -/
def mcc_semantic_check_run_all_step
    (fctptr : mcc_ast_program → mcc_symbol_table → mcc_semantic_check → semantic_run)
    (ast : mcc_ast_program) (table : mcc_symbol_table) (state : semantic_run) : semantic_run :=
  match state.2 with
  | result error => mcc_semantic_check_early_abort_wrapper fctptr ast table state.1 error
  | _ => state

/-- The record and the value of `error` after the five wrapper calls of
`mcc_semantic_check_run_all`. -/
def mcc_semantic_check_run_all_checks (ast : mcc_ast_program)
    (symbol_table : mcc_symbol_table) : semantic_run :=
  let s0 : semantic_run :=
    (mcc_semantic_check_initialize_check, result MCC_SEMANTIC_CHECK_ERROR_OK)
  let s1 := mcc_semantic_check_run_all_step mcc_semantic_check_run_type_check ast symbol_table s0
  let s2 := mcc_semantic_check_run_all_step mcc_semantic_check_run_nonvoid_check ast
    symbol_table s1
  let s3 := mcc_semantic_check_run_all_step mcc_semantic_check_run_main_function ast
    symbol_table s2
  let s4 := mcc_semantic_check_run_all_step mcc_semantic_check_run_multiple_function_definitions
    ast symbol_table s3
  mcc_semantic_check_run_all_step mcc_semantic_check_run_multiple_variable_declarations ast
    symbol_table s4

/-- `mcc_semantic_check_run_all` of `semantic_checks.c`: the record, or NULL
if the last return code is not OK. -/
def mcc_semantic_check_run_all (ast : mcc_ast_program) (symbol_table : mcc_symbol_table) :
    outcome (Option mcc_semantic_check) :=
  match ast with
  | mcc_ast_program.null => assertion_failed
  | _ =>
    let s := mcc_semantic_check_run_all_checks ast symbol_table
    s.2.bind fun error =>
      if error ≠ MCC_SEMANTIC_CHECK_ERROR_OK then result none else result (some s.1)

/-! ## Notions and example inputs of the semantic checks -/

/-- For each function of the program that is named `main`, in program order,
whether its parameter list is empty (`none` for a NULL parameter pointer). -/
def main_parameters : mcc_ast_program → List (Option Bool)
  | mcc_ast_program.null => []
  | mcc_ast_program.node function next_function =>
    if function.identifier.identifier_name = "main" then
      parameters_is_empty function.parameters :: main_parameters next_function
    else main_parameters next_function

/-- The names of the functions of a program, in program order. -/
def function_names : mcc_ast_program → List String
  | mcc_ast_program.null => []
  | mcc_ast_program.node function next_function =>
    function.identifier.identifier_name :: function_names next_function

/-- The return types of the functions of a program, in program order. -/
def function_types : mcc_ast_program → List mcc_ast_types
  | mcc_ast_program.null => []
  | mcc_ast_program.node function next_function =>
    function.type :: function_types next_function

mutual
/-- The number of assignment statements in a statement. -/
def assignment_count_statement : mcc_ast_statement → Nat
  | MCC_AST_STATEMENT_TYPE_ASSIGNMENT _ => 1
  | MCC_AST_STATEMENT_TYPE_COMPOUND_STMT compound_statement =>
    assignment_count_compound_statement compound_statement
  | MCC_AST_STATEMENT_TYPE_IF_ELSE_STMT _ if_else_on_true if_else_on_false =>
    assignment_count_statement if_else_on_true + assignment_count_statement if_else_on_false
  | MCC_AST_STATEMENT_TYPE_IF_STMT _ if_on_true => assignment_count_statement if_on_true
  | MCC_AST_STATEMENT_TYPE_WHILE _ while_on_true => assignment_count_statement while_on_true
  | MCC_AST_STATEMENT_TYPE_EXPRESSION _ => 0
  | MCC_AST_STATEMENT_TYPE_DECLARATION _ => 0
  | MCC_AST_STATEMENT_TYPE_RETURN _ _ => 0
/-- The number of assignment statements in a compound-statement list. -/
def assignment_count_compound_statement : mcc_ast_compound_statement → Nat
  | mcc_ast_compound_statement.null => 0
  | mcc_ast_compound_statement.empty next_compound_statement =>
    assignment_count_compound_statement next_compound_statement
  | mcc_ast_compound_statement.node statement next_compound_statement =>
    assignment_count_statement statement
      + assignment_count_compound_statement next_compound_statement
end

/-- The number of assignment statements in the bodies of a program. -/
def assignment_count_program : mcc_ast_program → Nat
  | mcc_ast_program.null => 0
  | mcc_ast_program.node function next_function =>
    assignment_count_compound_statement function.compound_stmt
      + assignment_count_program next_function

/-- The body `{ return 0; }`. -/
def example_return_zero_body : mcc_ast_compound_statement :=
  mcc_ast_compound_statement.node
    (MCC_AST_STATEMENT_TYPE_RETURN
      (some (MCC_AST_EXPRESSION_TYPE_LITERAL (MCC_AST_LITERAL_TYPE_INT 0))) false)
    mcc_ast_compound_statement.null

/-- The function `type main(){ return 0; }`. -/
def example_main_function (type : mcc_ast_types) : mcc_ast_function_definition :=
  { type := type
    identifier := { identifier_name := "main" }
    parameters := mcc_ast_parameters.empty mcc_ast_parameters.null
    compound_stmt := example_return_zero_body }

/-- The program `int main(){ return 0; }`. -/
def example_main_program : mcc_ast_program :=
  mcc_ast_program.node (example_main_function mcc_ast_types.INT) mcc_ast_program.null

/-- The program `float main(){ return 0; }`. -/
def example_float_main_program : mcc_ast_program :=
  mcc_ast_program.node (example_main_function mcc_ast_types.FLOAT) mcc_ast_program.null

/-- The function `void foo(){ }`. -/
def example_foo_function : mcc_ast_function_definition :=
  { type := mcc_ast_types.VOID
    identifier := { identifier_name := "foo" }
    parameters := mcc_ast_parameters.empty mcc_ast_parameters.null
    compound_stmt := mcc_ast_compound_statement.empty mcc_ast_compound_statement.null }

/-- The program `void foo(){ } void foo(){ } int main(){ return 0; }`. -/
def example_two_foo_program : mcc_ast_program :=
  mcc_ast_program.node example_foo_function
    (mcc_ast_program.node example_foo_function example_main_program)

/-- The program `int main(){ if (true) return 0; }`: a path through the body
that ends without a return. -/
def example_if_return_program : mcc_ast_program :=
  mcc_ast_program.node
    { type := mcc_ast_types.INT
      identifier := { identifier_name := "main" }
      parameters := mcc_ast_parameters.empty mcc_ast_parameters.null
      compound_stmt :=
        mcc_ast_compound_statement.node
          (MCC_AST_STATEMENT_TYPE_IF_STMT
            (MCC_AST_EXPRESSION_TYPE_LITERAL (MCC_AST_LITERAL_TYPE_BOOL true))
            (MCC_AST_STATEMENT_TYPE_RETURN
              (some (MCC_AST_EXPRESSION_TYPE_LITERAL (MCC_AST_LITERAL_TYPE_INT 0))) false))
          mcc_ast_compound_statement.null }
    mcc_ast_program.null

/-- The program `int main(){ }`: a non-void function with an empty body. -/
def example_empty_main_program : mcc_ast_program :=
  mcc_ast_program.node
    { type := mcc_ast_types.INT
      identifier := { identifier_name := "main" }
      parameters := mcc_ast_parameters.empty mcc_ast_parameters.null
      compound_stmt := mcc_ast_compound_statement.empty mcc_ast_compound_statement.null }
    mcc_ast_program.null

/-- The program `int main(int i){ return 0; }`. -/
def example_main_parameter_program : mcc_ast_program :=
  mcc_ast_program.node
    { type := mcc_ast_types.INT
      identifier := { identifier_name := "main" }
      parameters :=
        mcc_ast_parameters.node
          (MCC_AST_DECLARATION_TYPE_VARIABLE mcc_ast_types.INT example_i)
          mcc_ast_parameters.null
      compound_stmt := example_return_zero_body }
    mcc_ast_program.null

/-- A symbol table for the examples: at every statement the variables `x` and
`i` of type int, `b` of type bool, `s` of type string and the array `a` of 10
int are declared, and the function `f` with return type int. -/
def example_symbol_table : mcc_symbol_table :=
  { at_assignment := fun _ =>
      { check_upwards_for_declaration := fun name =>
          if name = "x" then some { name := "x", row_type := MCC_SYMBOL_TABLE_ROW_TYPE_INT,
                                    array_size := -1 }
          else if name = "i" then some { name := "i", row_type := MCC_SYMBOL_TABLE_ROW_TYPE_INT,
                                         array_size := -1 }
          else if name = "b" then some { name := "b", row_type := MCC_SYMBOL_TABLE_ROW_TYPE_BOOL,
                                         array_size := -1 }
          else if name = "s" then some { name := "s",
                                         row_type := MCC_SYMBOL_TABLE_ROW_TYPE_STRING,
                                         array_size := -1 }
          else if name = "a" then some { name := "a", row_type := MCC_SYMBOL_TABLE_ROW_TYPE_INT,
                                         array_size := 10 }
          else none
        check_for_function_declaration := fun name =>
          if name = "f" then some { name := "f", row_type := MCC_SYMBOL_TABLE_ROW_TYPE_INT,
                                    array_size := -1 }
          else none } }

/-- The expression `1 + true`. -/
def example_one_plus_true : mcc_ast_expression :=
  MCC_AST_EXPRESSION_TYPE_BINARY_OP MCC_AST_BINARY_OP_ADD
    (MCC_AST_EXPRESSION_TYPE_LITERAL (MCC_AST_LITERAL_TYPE_INT 1))
    (MCC_AST_EXPRESSION_TYPE_LITERAL (MCC_AST_LITERAL_TYPE_BOOL true))

/-- The program `int main(){ if (1 + true) { } while (y) { } f(1 + true); return 1 + true; }`
with an undeclared `y`: four expressions outside of assignments. -/
def example_untyped_program : mcc_ast_program :=
  mcc_ast_program.node
    { type := mcc_ast_types.INT
      identifier := { identifier_name := "main" }
      parameters := mcc_ast_parameters.empty mcc_ast_parameters.null
      compound_stmt :=
        mcc_ast_compound_statement.node
          (MCC_AST_STATEMENT_TYPE_IF_STMT example_one_plus_true
            (MCC_AST_STATEMENT_TYPE_COMPOUND_STMT
              (mcc_ast_compound_statement.empty mcc_ast_compound_statement.null)))
          (mcc_ast_compound_statement.node
            (MCC_AST_STATEMENT_TYPE_WHILE (MCC_AST_EXPRESSION_TYPE_VARIABLE example_y)
              (MCC_AST_STATEMENT_TYPE_COMPOUND_STMT
                (mcc_ast_compound_statement.empty mcc_ast_compound_statement.null)))
            (mcc_ast_compound_statement.node
              (MCC_AST_STATEMENT_TYPE_EXPRESSION
                (MCC_AST_EXPRESSION_TYPE_FUNCTION_CALL { identifier_name := "f" }
                  (mcc_ast_arguments.node example_one_plus_true mcc_ast_arguments.null)))
              (mcc_ast_compound_statement.node
                (MCC_AST_STATEMENT_TYPE_RETURN (some example_one_plus_true) false)
                mcc_ast_compound_statement.null))) }
    mcc_ast_program.null

/-- The program `void foo(){ x = true; }`, with `x` an int variable of the example symbol
table: an assignment of a bool to an int, and no function `main`. -/
def example_type_error_program : mcc_ast_program :=
  mcc_ast_program.node
    { type := mcc_ast_types.VOID
      identifier := { identifier_name := "foo" }
      parameters := mcc_ast_parameters.empty mcc_ast_parameters.null
      compound_stmt :=
        mcc_ast_compound_statement.node
          (MCC_AST_STATEMENT_TYPE_ASSIGNMENT (MCC_AST_ASSIGNMENT_TYPE_VARIABLE example_x
            (MCC_AST_EXPRESSION_TYPE_LITERAL (MCC_AST_LITERAL_TYPE_BOOL true))))
          mcc_ast_compound_statement.null }
    mcc_ast_program.null

/-- A record that has failed with the message `m`. -/
def example_failed_check : mcc_semantic_check :=
  { status := MCC_SEMANTIC_CHECK_FAIL, error_buffer := some "m" }

/-- The operators of the cases `MCC_AST_BINARY_OP_EQUAL` and
`MCC_AST_BINARY_OP_NOTEQUAL` of the switch in
`check_and_get_type_binary_expression`. -/
def is_equality_op : mcc_ast_binary_op → Bool
  | MCC_AST_BINARY_OP_EQUAL => true
  | MCC_AST_BINARY_OP_NOTEQUAL => true
  | _ => false

/-! ## String literals (`src/ast.c`)

A C string is given by the list of its characters before the terminator; a
block of memory is the list of the bytes it holds. -/

/-- The terminator of a C string. -/
def NUL : Char := Char.ofNat 0

/-- `strlen` of the C library on a string given by its characters. -/
def strlen (string : List Char) : Nat := string.length

/-- The block that `malloc(size)` returns: `size` bytes whose content is
indeterminate; `heap k` is the byte the block holds at offset `k` when it is
handed out. -/
def malloc (size : Nat) (heap : Nat → Char) : List Char :=
  (List.range size).map heap

/-- `strncpy(dest, src, n)` of the C library on the block `dest`: the first `n`
bytes of the block become the first `n` characters of `src`, followed by
terminators if `src` has fewer than `n` characters; no terminator is written
after them, and the rest of the block stays as it is.  `none` if the block has
fewer than `n` bytes, so that the copy runs past its end. -/
def strncpy (dest src : List Char) (n : Nat) : Option (List Char) :=
  if dest.length < n then none
  else some (src.take n ++ List.replicate (n - src.length) NUL ++ dest.drop n)

/-- The C string that starts at the first byte of a block: the characters
before the first terminator; `none` if the block holds no terminator, so that
reading the string runs past its end. -/
def c_string : List Char → Option (List Char)
  | [] => none
  | c :: rest => if c = NUL then some [] else (c_string rest).map fun s => c :: s

/-- `mcc_remove_quotes_from_string` of `ast.c`: a block of `strlen(string)`
bytes is allocated and `strlen(string) - 2` characters are copied into it from
the second character of the string on.  The result is the block.  For a string
of fewer than two characters the unsigned length `strlen(string) - 2` wraps
around and the copy runs past the block. -/
def mcc_remove_quotes_from_string (string : List Char) (heap : Nat → Char) :
    Option (List Char) :=
  if strlen string < 2 then none
  else strncpy (malloc (strlen string) heap) (string.drop 1) (strlen string - 2)

/-- `mcc_ast_new_literal_string` of `ast.c`: the literal has type STRING and its
`string_value` points to the block that `mcc_remove_quotes_from_string`
returns; the value of the literal is the C string that starts there. -/
def mcc_ast_new_literal_string (value : List Char) (heap : Nat → Char) :
    Option mcc_ast_literal :=
  (mcc_remove_quotes_from_string value heap).bind fun block =>
    (c_string block).map fun s => MCC_AST_LITERAL_TYPE_STRING (String.mk s)

/-- The token of the string literal with content `a`: a quote, the letter, a
quote. -/
def example_string_token : List Char := [Char.ofNat 34, 'a', Char.ofNat 34]

/-! ## The entry point `mc_asm` (`app/mc_asm.c`)

The command-line parser (`mc_cl_parser.inc`) and the stages that `main` calls
are not part of `mc_asm.c`; what they return is given to the model of `main`
as its arguments. -/

/-- The values of `argument_status` that `mc_asm.c` names, and any further
value of the enumeration of `mc_cl_parser.inc`, which is not among the
sources. -/
inductive mc_cl_parser_argument_status where
  | MC_CL_PARSER_ARGSTAT_STDIN
  | MC_CL_PARSER_ARGSTAT_FILES
  | MC_CL_PARSER_ARGSTAT_ERROR
  | MC_CL_PARSER_ARGSTAT_FILE_NOT_FOUND
  | other (value : Nat)
  deriving DecidableEq, Repr

open mc_cl_parser_argument_status

/-- The options of the command line with the fields that `mc_asm.c` reads. -/
structure mc_cl_parser_options where
  print_help : Bool
  quiet : Bool
  write_to_file : Bool
  deriving DecidableEq, Repr

/-- What `mc_cl_parser_parse` returns (the struct that `mc_asm.c` calls
`mc_cl_parser_command_line_parser`), with the fields that `mc_asm.c` reads. -/
structure mc_cl_parser_command_line where
  options : mc_cl_parser_options
  argument_status : mc_cl_parser_argument_status
  deriving DecidableEq, Repr

/-- `EXIT_SUCCESS` of `stdlib.h`. -/
def EXIT_SUCCESS : Int := 0

/-- `EXIT_FAILURE` of `stdlib.h`. -/
def EXIT_FAILURE : Int := 1

/-- What the calls of `main` after the command line return: whether the parser
result has status `MCC_PARSER_STATUS_OK`, whether the symbol table, the IR and
the assembly code are not NULL, the record of the semantic checks (`none` for
NULL), and whether `fopen` gave a file. -/
structure mc_asm_calls where
  parser_status_ok : Bool
  table : Bool
  semantic_check : Option mcc_semantic_check
  ir : Bool
  code : Bool
  out : Bool

/-- `main` of `app/mc_asm.c`: the value it returns, for the command line that
`mc_cl_parser_parse` returned (`none` for NULL) and the results of the calls it
makes afterwards. -/
def main (command_line : Option mc_cl_parser_command_line) (calls : mc_asm_calls) :
    Int :=
  match command_line with
  | none => EXIT_FAILURE
  | some command_line =>
    if command_line.options.print_help ||
        decide (command_line.argument_status = MC_CL_PARSER_ARGSTAT_ERROR) ||
        decide (command_line.argument_status = MC_CL_PARSER_ARGSTAT_FILE_NOT_FOUND) then
      EXIT_FAILURE
    else
      match command_line.argument_status with
      | MC_CL_PARSER_ARGSTAT_STDIN | MC_CL_PARSER_ARGSTAT_FILES =>
        if !calls.parser_status_ok then EXIT_FAILURE
        else if !calls.table then EXIT_FAILURE
        else
          match calls.semantic_check with
          | none => EXIT_FAILURE
          | some semantic_check =>
            if semantic_check.error_buffer ≠ none then EXIT_FAILURE
            else if !calls.ir then EXIT_FAILURE
            else if !calls.code then EXIT_FAILURE
            else if command_line.options.write_to_file && !calls.out then EXIT_FAILURE
            else EXIT_SUCCESS
      | _ => EXIT_FAILURE

/-- A command line that carries the help option and an input file. -/
def example_help_command_line : mc_cl_parser_command_line :=
  { options := { print_help := true, quiet := false, write_to_file := false }
    argument_status := MC_CL_PARSER_ARGSTAT_FILES }

/-- Calls that all succeed, the semantic checks with status OK. -/
def example_successful_calls : mc_asm_calls :=
  { parser_status_ok := true
    table := true
    semantic_check := some mcc_semantic_check_initialize_check
    ir := true
    code := true
    out := true }

/-! ## Further notions and example inputs -/

/-- The program `int main(){ return 0; } int main(){ return 0; } int main(){ return 0; }`. -/
def example_three_main_program : mcc_ast_program :=
  mcc_ast_program.node (example_main_function mcc_ast_types.INT)
    (mcc_ast_program.node (example_main_function mcc_ast_types.INT) example_main_program)

/-- The program `int main(){ return 0; } int main(int i){ return 0; }`. -/
def example_main_main_parameter_program : mcc_ast_program :=
  mcc_ast_program.node (example_main_function mcc_ast_types.INT) example_main_parameter_program

/-- `rename_row` of `ir.c`: the name of the row becomes the string that
`snprintf` leaves in the buffer. -/
def rename_row (row : mcc_symbol_table_row) (num : Nat) : mcc_symbol_table_row :=
  { row with name := renamed_name num }

/-- The number that a list of decimal digit characters stands for. -/
def decimal_value (digits : List Char) : Nat :=
  digits.foldl (fun value c => 10 * value + (c.toNat - 48)) 0

/-- Whether a row type is one of the five that `get_data_type_from_row`
names. -/
def row_type_named : mcc_symbol_table_row_type → Bool
  | mcc_symbol_table_row_type.other _ => false
  | _ => true

/-- A symbol table in which, at every statement, the variables `x` and `y` of
type int are declared, and the functions `f` and `id` with return type int. -/
def example_xy_symbol_table : mcc_symbol_table :=
  { at_assignment := fun _ =>
      { check_upwards_for_declaration := fun name =>
          if name = "x" then some { name := "x", row_type := MCC_SYMBOL_TABLE_ROW_TYPE_INT,
                                    array_size := -1 }
          else if name = "y" then some { name := "y", row_type := MCC_SYMBOL_TABLE_ROW_TYPE_INT,
                                         array_size := -1 }
          else none
        check_for_function_declaration := fun name =>
          if name = "f" then some { name := "f", row_type := MCC_SYMBOL_TABLE_ROW_TYPE_INT,
                                    array_size := -1 }
          else if name = "id" then some { name := "id",
                                          row_type := MCC_SYMBOL_TABLE_ROW_TYPE_INT,
                                          array_size := -1 }
          else none } }

/-- The function `int main(){ int x; int y; x = 1; y = 2; x = x + y; return x; }`. -/
def example_sum_function : mcc_ast_function_definition :=
  { type := mcc_ast_types.INT
    identifier := { identifier_name := "main" }
    parameters := mcc_ast_parameters.empty mcc_ast_parameters.null
    compound_stmt :=
      mcc_ast_compound_statement.node
        (MCC_AST_STATEMENT_TYPE_DECLARATION
          (MCC_AST_DECLARATION_TYPE_VARIABLE mcc_ast_types.INT example_x))
      (mcc_ast_compound_statement.node
        (MCC_AST_STATEMENT_TYPE_DECLARATION
          (MCC_AST_DECLARATION_TYPE_VARIABLE mcc_ast_types.INT example_y))
      (mcc_ast_compound_statement.node
        (MCC_AST_STATEMENT_TYPE_ASSIGNMENT
          (MCC_AST_ASSIGNMENT_TYPE_VARIABLE example_x
            (MCC_AST_EXPRESSION_TYPE_LITERAL (MCC_AST_LITERAL_TYPE_INT 1))))
      (mcc_ast_compound_statement.node
        (MCC_AST_STATEMENT_TYPE_ASSIGNMENT
          (MCC_AST_ASSIGNMENT_TYPE_VARIABLE example_y
            (MCC_AST_EXPRESSION_TYPE_LITERAL (MCC_AST_LITERAL_TYPE_INT 2))))
      (mcc_ast_compound_statement.node
        (MCC_AST_STATEMENT_TYPE_ASSIGNMENT
          (MCC_AST_ASSIGNMENT_TYPE_VARIABLE example_x
            (MCC_AST_EXPRESSION_TYPE_BINARY_OP MCC_AST_BINARY_OP_ADD
              (MCC_AST_EXPRESSION_TYPE_VARIABLE example_x)
              (MCC_AST_EXPRESSION_TYPE_VARIABLE example_y))))
      (mcc_ast_compound_statement.node
        (MCC_AST_STATEMENT_TYPE_RETURN (some (MCC_AST_EXPRESSION_TYPE_VARIABLE example_x)) false)
        mcc_ast_compound_statement.null))))) }

/-- The IR of `example_sum_function`: the rows `FUNC_LABEL main`, `ASSIGN x 1`,
`ASSIGN y 2`, `PLUS x y`, `ASSIGN x (row 3)`, `RETURN x`. -/
def example_sum_ir : List mcc_ir_row :=
  mcc_ir_generate id id (mcc_ast_program.node example_sum_function mcc_ast_program.null)

/-- The function `int main(){ int x; x = 1; x = -x; return x; }`. -/
def example_negate_function : mcc_ast_function_definition :=
  { type := mcc_ast_types.INT
    identifier := { identifier_name := "main" }
    parameters := mcc_ast_parameters.empty mcc_ast_parameters.null
    compound_stmt :=
      mcc_ast_compound_statement.node
        (MCC_AST_STATEMENT_TYPE_DECLARATION
          (MCC_AST_DECLARATION_TYPE_VARIABLE mcc_ast_types.INT example_x))
      (mcc_ast_compound_statement.node
        (MCC_AST_STATEMENT_TYPE_ASSIGNMENT
          (MCC_AST_ASSIGNMENT_TYPE_VARIABLE example_x
            (MCC_AST_EXPRESSION_TYPE_LITERAL (MCC_AST_LITERAL_TYPE_INT 1))))
      (mcc_ast_compound_statement.node
        (MCC_AST_STATEMENT_TYPE_ASSIGNMENT
          (MCC_AST_ASSIGNMENT_TYPE_VARIABLE example_x
            (MCC_AST_EXPRESSION_TYPE_UNARY_OP MCC_AST_UNARY_OP_NEGATIV
              (MCC_AST_EXPRESSION_TYPE_VARIABLE example_x))))
      (mcc_ast_compound_statement.node
        (MCC_AST_STATEMENT_TYPE_RETURN (some (MCC_AST_EXPRESSION_TYPE_VARIABLE example_x)) false)
        mcc_ast_compound_statement.null))) }

/-- The IR of `example_negate_function`: the rows `FUNC_LABEL main`,
`ASSIGN x 1`, `NEGATIV x`, `ASSIGN x (row 2)`, `RETURN x`. -/
def example_negate_ir : List mcc_ir_row :=
  mcc_ir_generate id id (mcc_ast_program.node example_negate_function mcc_ast_program.null)

/-- The program `int id(int x){ return x; } int main(){ return id(1); }`. -/
def example_parameter_program : mcc_ast_program :=
  mcc_ast_program.node
    { type := mcc_ast_types.INT
      identifier := { identifier_name := "id" }
      parameters :=
        mcc_ast_parameters.node
          (MCC_AST_DECLARATION_TYPE_VARIABLE mcc_ast_types.INT example_x)
          mcc_ast_parameters.null
      compound_stmt :=
        mcc_ast_compound_statement.node
          (MCC_AST_STATEMENT_TYPE_RETURN (some (MCC_AST_EXPRESSION_TYPE_VARIABLE example_x))
            false)
          mcc_ast_compound_statement.null }
    (mcc_ast_program.node
      { type := mcc_ast_types.INT
        identifier := { identifier_name := "main" }
        parameters := mcc_ast_parameters.empty mcc_ast_parameters.null
        compound_stmt :=
          mcc_ast_compound_statement.node
            (MCC_AST_STATEMENT_TYPE_RETURN
              (some (MCC_AST_EXPRESSION_TYPE_FUNCTION_CALL { identifier_name := "id" }
                (mcc_ast_arguments.node
                  (MCC_AST_EXPRESSION_TYPE_LITERAL (MCC_AST_LITERAL_TYPE_INT 1))
                  mcc_ast_arguments.null)))
              false)
            mcc_ast_compound_statement.null }
      mcc_ast_program.null)

/-- The IR of `example_parameter_program`: the rows `FUNC_LABEL id`, `POP`,
`ASSIGN x (row 1)`, `RETURN x`, `FUNC_LABEL main`, `PUSH 1`, `CALL id`,
`RETURN (row 6)`. -/
def example_parameter_ir : List mcc_ir_row :=
  mcc_ir_generate id id example_parameter_program

/-- The program `int f(){ return 1; } int main(){ int x; x = f(); return x; }`. -/
def example_call_program : mcc_ast_program :=
  mcc_ast_program.node
    { type := mcc_ast_types.INT
      identifier := { identifier_name := "f" }
      parameters := mcc_ast_parameters.empty mcc_ast_parameters.null
      compound_stmt :=
        mcc_ast_compound_statement.node
          (MCC_AST_STATEMENT_TYPE_RETURN
            (some (MCC_AST_EXPRESSION_TYPE_LITERAL (MCC_AST_LITERAL_TYPE_INT 1))) false)
          mcc_ast_compound_statement.null }
    (mcc_ast_program.node
      { type := mcc_ast_types.INT
        identifier := { identifier_name := "main" }
        parameters := mcc_ast_parameters.empty mcc_ast_parameters.null
        compound_stmt :=
          mcc_ast_compound_statement.node
            (MCC_AST_STATEMENT_TYPE_DECLARATION
              (MCC_AST_DECLARATION_TYPE_VARIABLE mcc_ast_types.INT example_x))
          (mcc_ast_compound_statement.node
            (MCC_AST_STATEMENT_TYPE_ASSIGNMENT
              (MCC_AST_ASSIGNMENT_TYPE_VARIABLE example_x
                (MCC_AST_EXPRESSION_TYPE_FUNCTION_CALL { identifier_name := "f" }
                  (mcc_ast_arguments.empty mcc_ast_arguments.null))))
          (mcc_ast_compound_statement.node
            (MCC_AST_STATEMENT_TYPE_RETURN
              (some (MCC_AST_EXPRESSION_TYPE_VARIABLE example_x)) false)
            mcc_ast_compound_statement.null)) }
      mcc_ast_program.null)

/-- The IR of `example_call_program`: the rows `FUNC_LABEL f`, `RETURN 1`,
`FUNC_LABEL main`, `CALL f` with the identifier `f` as argument,
`ASSIGN x (row 3)`, `RETURN x`. -/
def example_call_ir : List mcc_ir_row :=
  mcc_ir_generate id id example_call_program

/-- The identifier `a` of the examples. -/
def example_a : mcc_ast_identifier := { identifier_name := "a" }

/-- The function `int main(){ int a[10]; int x; x = a[0]; return x; }`. -/
def example_element_function : mcc_ast_function_definition :=
  { type := mcc_ast_types.INT
    identifier := { identifier_name := "main" }
    parameters := mcc_ast_parameters.empty mcc_ast_parameters.null
    compound_stmt :=
      mcc_ast_compound_statement.node
        (MCC_AST_STATEMENT_TYPE_DECLARATION
          (MCC_AST_DECLARATION_TYPE_ARRAY mcc_ast_types.INT example_a
            (MCC_AST_LITERAL_TYPE_INT 10)))
      (mcc_ast_compound_statement.node
        (MCC_AST_STATEMENT_TYPE_DECLARATION
          (MCC_AST_DECLARATION_TYPE_VARIABLE mcc_ast_types.INT example_x))
      (mcc_ast_compound_statement.node
        (MCC_AST_STATEMENT_TYPE_ASSIGNMENT
          (MCC_AST_ASSIGNMENT_TYPE_VARIABLE example_x
            (MCC_AST_EXPRESSION_TYPE_ARRAY_ELEMENT example_a
              (MCC_AST_EXPRESSION_TYPE_LITERAL (MCC_AST_LITERAL_TYPE_INT 0)))))
      (mcc_ast_compound_statement.node
        (MCC_AST_STATEMENT_TYPE_RETURN (some (MCC_AST_EXPRESSION_TYPE_VARIABLE example_x)) false)
        mcc_ast_compound_statement.null))) }

/-- The IR of `example_element_function`: the rows `FUNC_LABEL main`,
`ARRAY a 10`, `ASSIGN x a[0]`, `RETURN x`. -/
def example_element_ir : List mcc_ir_row :=
  mcc_ir_generate id id (mcc_ast_program.node example_element_function mcc_ast_program.null)

/-- The rows of `example_element_ir` with the declaration of the array given
the typed instruction that `stack_size.c` looks for: `FUNC_LABEL main`,
`ARRAY_INT a 10`, `ASSIGN x a[0]`, `RETURN x`. -/
def example_typed_element_ir : List mcc_ir_row :=
  [new_row (some (MCC_IR_TYPE_FUNC_LABEL "main")) none MCC_IR_INSTR_FUNC_LABEL,
   new_row (some (MCC_IR_TYPE_IDENTIFIER example_a)) (some (MCC_IR_TYPE_LIT_INT 10))
     MCC_IR_INSTR_ARRAY_INT,
   new_row (some (MCC_IR_TYPE_IDENTIFIER example_x))
     (some (MCC_IR_TYPE_ARR_ELEM example_a (MCC_IR_TYPE_LIT_INT 0))) MCC_IR_INSTR_ASSIGN,
   new_row (some (MCC_IR_TYPE_IDENTIFIER example_x)) none MCC_IR_INSTR_RETURN]

/-- The rows of `example_call_ir` with the callee of the CALL row given as a
function label, as the specification describes the row, instead of the
identifier argument that the builder gives it. -/
def example_call_label_ir : List mcc_ir_row :=
  [new_row (some (MCC_IR_TYPE_FUNC_LABEL "f")) none MCC_IR_INSTR_FUNC_LABEL,
   new_row (some (MCC_IR_TYPE_LIT_INT 1)) none MCC_IR_INSTR_RETURN,
   new_row (some (MCC_IR_TYPE_FUNC_LABEL "main")) none MCC_IR_INSTR_FUNC_LABEL,
   new_row (some (MCC_IR_TYPE_FUNC_LABEL "f")) none MCC_IR_INSTR_CALL,
   new_row (some (MCC_IR_TYPE_IDENTIFIER example_x)) (some (MCC_IR_TYPE_ROW 3))
     MCC_IR_INSTR_ASSIGN,
   new_row (some (MCC_IR_TYPE_IDENTIFIER example_x)) none MCC_IR_INSTR_RETURN]

/-! ## Properties -/

/-! ### Leader annotation -/

theorem annotate_ir_loop_length (rest : List mcc_ir_row) :
    ∀ (prev : mcc_ir_row) (pos : Nat), (annotate_ir_loop rest prev pos).length = rest.length := by
  induction rest with
  | nil => intro prev pos; rfl
  | cons head rest ih => intro prev pos; simp [annotate_ir_loop, ih]

/-- Entry `j` of the loop's output points to row `pos + j`, and its flag is the
test of the loop on row `j` and the row before it. -/
theorem annotate_ir_loop_get (rest : List mcc_ir_row) :
    ∀ (prev : mcc_ir_row) (pos j : Nat) (head before : mcc_ir_row),
      rest[j]? = some head → (prev :: rest)[j]? = some before →
      ∃ a, (annotate_ir_loop rest prev pos)[j]? = some a ∧ a.row = pos + j ∧
        (a.is_leader = true ↔
          (head.instr = MCC_IR_INSTR_LABEL ∨ head.instr = MCC_IR_INSTR_FUNC_LABEL ∨
            before.instr = MCC_IR_INSTR_JUMP ∨ before.instr = MCC_IR_INSTR_JUMPFALSE ∨
            before.instr = MCC_IR_INSTR_RETURN)) := by
  induction rest with
  | nil => intro prev pos j head before h; simp at h
  | cons r rest ih =>
    intro prev pos j head before h1 h2
    cases j with
    | zero =>
      simp at h1 h2
      subst h1; subst h2
      by_cases hc : r.instr = MCC_IR_INSTR_LABEL ∨ r.instr = MCC_IR_INSTR_FUNC_LABEL ∨
          prev.instr = MCC_IR_INSTR_JUMP ∨ prev.instr = MCC_IR_INSTR_JUMPFALSE ∨
          prev.instr = MCC_IR_INSTR_RETURN
      · refine ⟨new_annotated_ir pos true, ?_, rfl, ?_⟩
        · simp [annotate_ir_loop, hc]
        · simp [new_annotated_ir, hc]
      · refine ⟨new_annotated_ir pos false, ?_, rfl, ?_⟩
        · simp [annotate_ir_loop, hc]
        · simp [new_annotated_ir, hc]
    | succ j =>
      simp only [List.getElem?_cons_succ] at h1 h2
      obtain ⟨a, ha, hrow, hl⟩ := ih r (pos + 1) j head before h1 h2
      refine ⟨a, ?_, ?_, hl⟩
      · simp [annotate_ir_loop, ha]
      · omega

/-- What `annotate_ir` computes on a non-empty list: one node per row, the
node at position `i` pointing to row `i` and flagged by the leader test. -/
theorem annotate_ir_get (ir : List mcc_ir_row) (h : ir ≠ []) :
    ∃ an, annotate_ir ir = some an ∧ an.length = ir.length ∧
      ∀ i, i < ir.length → ∃ a, an[i]? = some a ∧ a.row = i ∧
        (a.is_leader = true ↔
          (i = 0 ∨ instr_at ir i = some MCC_IR_INSTR_LABEL ∨
            instr_at ir i = some MCC_IR_INSTR_FUNC_LABEL ∨
            (0 < i ∧ (instr_at ir (i - 1) = some MCC_IR_INSTR_JUMP ∨
              instr_at ir (i - 1) = some MCC_IR_INSTR_JUMPFALSE ∨
              instr_at ir (i - 1) = some MCC_IR_INSTR_RETURN)))) := by
  cases ir with
  | nil => exact absurd rfl h
  | cons first rest =>
    refine ⟨_, rfl, by simp [annotate_ir_loop_length], ?_⟩
    intro i hi
    cases i with
    | zero => exact ⟨new_annotated_ir 0 true, by simp, rfl, by simp [new_annotated_ir]⟩
    | succ j =>
      have hj : j < rest.length := by simpa using hi
      have h1 : rest[j]? = some rest[j] := List.getElem?_eq_getElem hj
      have h2 : (first :: rest)[j]? = some (first :: rest)[j] :=
        List.getElem?_eq_getElem (by simp; omega)
      obtain ⟨a, ha, hrow, hl⟩ := annotate_ir_loop_get rest first 1 j _ _ h1 h2
      refine ⟨a, by simpa using ha, by omega, ?_⟩
      simp only [instr_at, List.getElem?_cons_succ, h1, Nat.add_sub_cancel, h2, Option.map_some']
      simp [hl]

/-- C1. For a non-empty IR list `annotate_ir` yields one node per row, in
order, and the node of the row at position `i` is flagged as leader iff `i` is
the first position, or the row is a LABEL or FUNC_LABEL, or the row at
position `i - 1` is a JUMP, JUMPFALSE or RETURN. -/
theorem annotate_ir_leader_iff (ir : List mcc_ir_row) (h : ir ≠ []) :
    ∃ an, annotate_ir ir = some an ∧ an.length = ir.length ∧
      ∀ i, i < ir.length →
        (an[i]?).map (fun a => a.row) = some i ∧
        ((an[i]?).map (fun a => a.is_leader) = some true ↔
          (i = 0 ∨ instr_at ir i = some MCC_IR_INSTR_LABEL ∨
            instr_at ir i = some MCC_IR_INSTR_FUNC_LABEL ∨
            (0 < i ∧ (instr_at ir (i - 1) = some MCC_IR_INSTR_JUMP ∨
              instr_at ir (i - 1) = some MCC_IR_INSTR_JUMPFALSE ∨
              instr_at ir (i - 1) = some MCC_IR_INSTR_RETURN)))) := by
  obtain ⟨an, h1, h2, h3⟩ := annotate_ir_get ir h
  refine ⟨an, h1, h2, ?_⟩
  intro i hi
  obtain ⟨a, ha, hrow, hl⟩ := h3 i hi
  simp only [ha, Option.map_some', hrow, Option.some.injEq, true_and]
  exact hl

/-- C1 at the list RETURN, POP: both rows are leaders, the second one because
it follows a RETURN. -/
theorem annotate_ir_leader_iff_witness :
    example_return_pop ≠ [] ∧
    ∃ an, annotate_ir example_return_pop = some an ∧ an.length = example_return_pop.length ∧
      ∀ i, i < example_return_pop.length →
        (an[i]?).map (fun a => a.row) = some i ∧
        ((an[i]?).map (fun a => a.is_leader) = some true ↔
          (i = 0 ∨ instr_at example_return_pop i = some MCC_IR_INSTR_LABEL ∨
            instr_at example_return_pop i = some MCC_IR_INSTR_FUNC_LABEL ∨
            (0 < i ∧ (instr_at example_return_pop (i - 1) = some MCC_IR_INSTR_JUMP ∨
              instr_at example_return_pop (i - 1) = some MCC_IR_INSTR_JUMPFALSE ∨
              instr_at example_return_pop (i - 1) = some MCC_IR_INSTR_RETURN)))) :=
  ⟨by decide, annotate_ir_leader_iff example_return_pop (by decide)⟩

/-! ### The linear chain of basic blocks -/

theorem linear_blocks_length (L : List Nat) : (linear_blocks L).length = L.length := by
  simp [linear_blocks]

theorem linear_blocks_get (L : List Nat) (k : Nat) :
    (linear_blocks L)[k]? = (L[k]?).map (fun l =>
      { leader := l, child_left := none,
        child_right := if k + 1 < L.length then some (k + 1) else none,
        parent_left := if k = 0 then none else some (k - 1), parent_right := none }) := by
  simp [linear_blocks, List.getElem?_mapIdx]

theorem linear_blocks_map_leader (L : List Nat) :
    (linear_blocks L).map (fun b => b.leader) = L := by
  apply List.ext_getElem?
  intro k
  rw [List.getElem?_map, linear_blocks_get]
  cases L[k]? <;> simp

/-- One step of the loop of `get_linear_bbs` on a linear chain: the new block
is linked behind the last one. -/
theorem linear_blocks_step (L : List Nat) (l : Nat) (hL : L ≠ []) :
    ((linear_blocks L ++ [mcc_cfg_new_basic_block l none none none none]).modify
        (fun b => { b with child_right := some (linear_blocks L).length })
        (L.length - 1)).modify
      (fun b => { b with parent_left := some (L.length - 1) }) (linear_blocks L).length
    = linear_blocks (L ++ [l]) := by
  have hpos : 0 < L.length := List.length_pos.mpr hL
  apply List.ext_getElem?
  intro n
  rw [List.getElem?_modify, List.getElem?_modify, linear_blocks_get, linear_blocks_length,
    List.getElem?_append]
  by_cases h1 : n < L.length
  · have h1' : n < (linear_blocks L).length := by rw [linear_blocks_length]; exact h1
    have hne : L.length ≠ n := by omega
    rw [if_pos h1', linear_blocks_get, List.getElem?_append_left h1,
      List.getElem?_eq_getElem h1]
    by_cases h2 : L.length - 1 = n
    · have h3 : ¬ (n + 1 < L.length) := by omega
      simp [hne, h2, h3, List.length_append]
      omega
    · have h3 : n + 1 < L.length := by omega
      simp [hne, h2, h3, List.length_append]
      omega
  · have h1' : ¬ n < (linear_blocks L).length := by rw [linear_blocks_length]; exact h1
    rw [if_neg h1', linear_blocks_length]
    by_cases h2 : n = L.length
    · subst h2
      have h4 : ¬ (L.length - 1 = L.length) := by omega
      have h5 : L.length ≠ 0 := by omega
      simp [mcc_cfg_new_basic_block, h4, h5, List.length_append]
    · have h3 : L.length < n := by omega
      have h4 : (L ++ [l])[n]? = none := by
        apply List.getElem?_eq_none
        simp; omega
      have h5 : ([mcc_cfg_new_basic_block l none none none none] : List mcc_basic_block)[n - L.length]? = none := by
        apply List.getElem?_eq_none
        simp; omega
      simp [h4, h5]

/-- The loop of `get_linear_bbs` extends a linear chain by the leaders of the
rest of the annotation. -/
theorem get_linear_bbs_loop_linear (rest : List annotated_ir) :
    ∀ L : List Nat, L ≠ [] →
      get_linear_bbs_loop rest (L.length - 1) (linear_blocks L)
        = linear_blocks (L ++ leader_rows rest) := by
  induction rest with
  | nil => intro L _; simp [get_linear_bbs_loop, leader_rows]
  | cons a rest ih =>
    intro L hL
    by_cases ha : a.is_leader = true
    · have hstep := linear_blocks_step L a.row hL
      have hne : L ++ [a.row] ≠ [] := by simp
      have hih := ih (L ++ [a.row]) hne
      simp only [List.length_append, List.length_singleton, Nat.add_sub_cancel] at hih
      simp only [get_linear_bbs_loop, ha, if_true]
      rw [hstep, linear_blocks_length, hih]
      simp [leader_rows, ha]
    · have hih := ih L hL
      simp only [get_linear_bbs_loop, ha]
      simp only [Bool.false_eq_true, if_false]
      rw [hih]
      simp [leader_rows, ha]

/-- The chain that `get_linear_bbs` builds is the linear chain over the leader
rows of the annotation, and `bb_first` is its first block. -/
theorem get_linear_bbs_linear (a : annotated_ir) (rest : List annotated_ir) :
    get_linear_bbs (a :: rest) = some (0, linear_blocks (a.row :: leader_rows rest)) := by
  have h := get_linear_bbs_loop_linear rest [a.row] (by simp)
  simp only [List.length_singleton, Nat.sub_self, List.singleton_append] at h
  have h0 : linear_blocks [a.row] = [mcc_cfg_new_basic_block a.row none none none none] := by
    simp [linear_blocks, mcc_cfg_new_basic_block]
  rw [h0] at h
  simp [get_linear_bbs, h]

/-- Following `child_right` through a linear chain from block `k` on lists the
blocks from `k` on, in heap order. -/
theorem child_right_chain_linear (L : List Nat) :
    ∀ (fuel k : Nat), k + fuel = L.length →
      child_right_chain (linear_blocks L) fuel (some k) = (linear_blocks L).drop k := by
  intro fuel
  induction fuel with
  | zero =>
    intro k hk
    have : (linear_blocks L).length ≤ k := by rw [linear_blocks_length]; omega
    simp [child_right_chain, List.drop_eq_nil_of_le this]
  | succ fuel ih =>
    intro k hk
    have hk' : k < L.length := by omega
    have hk'' : k < (linear_blocks L).length := by rw [linear_blocks_length]; exact hk'
    have hget := linear_blocks_get L k
    rw [List.getElem?_eq_getElem hk', Option.map_some'] at hget
    have hdrop := List.drop_eq_getElem_cons hk''
    have hb : (linear_blocks L)[k] =
        { leader := L[k], child_left := none,
          child_right := if k + 1 < L.length then some (k + 1) else none,
          parent_left := if k = 0 then none else some (k - 1), parent_right := none } := by
      have := List.getElem?_eq_getElem hk''
      rw [hget] at this
      exact (Option.some.inj this).symm
    rw [hdrop]
    simp only [child_right_chain, hget]
    by_cases hlast : k + 1 < L.length
    · have := ih (k + 1) (by omega)
      simp only [hlast, if_true]
      rw [this, hb]
      simp [hlast]
    · have hnil : (linear_blocks L).drop (k + 1) = [] := by
        apply List.drop_eq_nil_of_le
        rw [linear_blocks_length]; omega
      have hf : fuel = 0 := by omega
      subst hf
      simp [hlast, hnil, hb, child_right_chain]

/-- In a list of nodes that point to the rows in order, the leader rows are
strictly increasing. -/
theorem leader_rows_pairwise (an : List annotated_ir)
    (hrow : ∀ (i : Nat) (a : annotated_ir), an[i]? = some a → a.row = i) :
    (leader_rows an).Pairwise (fun x y => x < y) := by
  have hmap : an.map (fun a => a.row) = List.range an.length := by
    apply List.ext_getElem?
    intro i
    rw [List.getElem?_map]
    by_cases hi : i < an.length
    · rw [List.getElem?_eq_getElem hi, List.getElem?_range hi, Option.map_some',
        hrow i _ (List.getElem?_eq_getElem hi)]
    · have h1 : an[i]? = none := List.getElem?_eq_none (by omega)
      have h2 : (List.range an.length)[i]? = none := List.getElem?_eq_none (by simp; omega)
      rw [h1, h2]; rfl
  have hsub : (leader_rows an).Sublist (List.range an.length) := by
    rw [← hmap]
    exact List.Sublist.map _ (List.filter_sublist an)
  exact List.Pairwise.sublist hsub (List.pairwise_lt_range an.length)

/-- In a list of nodes that point to the rows in order, the leader rows are the
positions of the nodes flagged as leaders. -/
theorem mem_leader_rows (an : List annotated_ir)
    (hrow : ∀ (i : Nat) (a : annotated_ir), an[i]? = some a → a.row = i) (l : Nat) :
    l ∈ leader_rows an ↔ (an[l]?).map (fun a => a.is_leader) = some true := by
  constructor
  · intro hl
    obtain ⟨a, ha, hal⟩ := List.mem_map.mp hl
    obtain ⟨hmem, hp⟩ := List.mem_filter.mp ha
    obtain ⟨n, hn⟩ := List.mem_iff_getElem?.mp hmem
    have := hrow n a hn
    have hnl : n = l := by omega
    subst hnl
    simp [hn, hp]
  · intro hl
    cases hget : an[l]? with
    | none => simp [hget] at hl
    | some a =>
      simp only [hget, Option.map_some', Option.some.injEq] at hl
      exact List.mem_map.mpr
        ⟨a, List.mem_filter.mpr ⟨List.getElem?_mem hget, hl⟩, hrow l a hget⟩

/-- Two blocks of a linear chain over distinct leaders that own the same
leader are the same block. -/
theorem linear_blocks_leader_inj (L : List Nat) (hL : L.Nodup) (b b' : mcc_basic_block)
    (hb : b ∈ linear_blocks L) (hb' : b' ∈ linear_blocks L) (h : b.leader = b'.leader) :
    b = b' := by
  obtain ⟨k, hk, rfl⟩ := List.mem_mapIdx.mp hb
  obtain ⟨k', hk', rfl⟩ := List.mem_mapIdx.mp hb'
  have hkk : k = k' := (List.Nodup.getElem_inj_iff hL).mp h
  subst hkk
  rfl

/-- Among the members of a list that are at most `i` there is a greatest one,
as soon as there is one at all. -/
theorem exists_greatest_le (L : List Nat) (i : Nat) :
    (∃ x, x ∈ L ∧ x ≤ i) → ∃ l, l ∈ L ∧ l ≤ i ∧ ∀ l', l' ∈ L → l' ≤ i → l' ≤ l := by
  induction L with
  | nil => rintro ⟨x, hx, _⟩; simp at hx
  | cons y L ih =>
    rintro ⟨x, hx, hxi⟩
    by_cases hex : ∃ x, x ∈ L ∧ x ≤ i
    · obtain ⟨l, hl, hli, hmax⟩ := ih hex
      by_cases hy : y ≤ i ∧ l < y
      · refine ⟨y, by simp, hy.1, ?_⟩
        intro l' hl' hl'i
        rcases List.mem_cons.mp hl' with h | h
        · omega
        · have := hmax l' h hl'i; omega
      · refine ⟨l, by simp [hl], hli, ?_⟩
        intro l' hl' hl'i
        rcases List.mem_cons.mp hl' with h | h
        · subst h; omega
        · exact hmax l' h hl'i
    · have hxy : x = y := by
        rcases List.mem_cons.mp hx with h | h
        · exact h
        · exact absurd ⟨x, h, hxi⟩ hex
      subst hxy
      refine ⟨x, by simp, hxi, ?_⟩
      intro l' hl' hl'i
      rcases List.mem_cons.mp hl' with h | h
      · omega
      · exact absurd ⟨l', h, hl'i⟩ hex

/-- C2. For a non-empty IR list, the chain that `get_linear_bbs` builds from
the leader annotation, followed through `child_right` from the first block,
owns exactly the leader rows, in IR order (strictly increasing, so without
duplicates), a row being a leader row iff its node is flagged; and every row
belongs to exactly one block of the chain, the one with the greatest leader at
or before the row. -/
theorem get_linear_bbs_partition (ir : List mcc_ir_row) (h : ir ≠ []) :
    ∃ an bb_first heap, annotate_ir ir = some an ∧ get_linear_bbs an = some (bb_first, heap) ∧
      (child_right_chain heap heap.length (some bb_first)).map (fun b => b.leader)
        = leader_rows an ∧
      (leader_rows an).Pairwise (fun x y => x < y) ∧
      (∀ l, l ∈ leader_rows an ↔ (an[l]?).map (fun a => a.is_leader) = some true) ∧
      ∀ i, i < ir.length →
        ∃! b, b ∈ child_right_chain heap heap.length (some bb_first) ∧ b.leader ≤ i ∧
          ∀ b', b' ∈ child_right_chain heap heap.length (some bb_first) →
            b'.leader ≤ i → b'.leader ≤ b.leader := by
  obtain ⟨an, han, hlen, hget⟩ := annotate_ir_get ir h
  have hrow : ∀ (i : Nat) (a : annotated_ir), an[i]? = some a → a.row = i := by
    intro i a hia
    have hi : i < ir.length := by
      have := (List.getElem?_eq_some.mp hia).1
      omega
    obtain ⟨a', ha', hr, _⟩ := hget i hi
    rw [hia] at ha'
    cases ha'
    exact hr
  have hpw := leader_rows_pairwise an hrow
  cases an with
  | nil =>
    have : ir.length = 0 := by simpa using hlen.symm
    exact absurd (List.length_eq_zero.mp this) h
  | cons a rest =>
    have ha0 : a.row = 0 ∧ a.is_leader = true := by
      have hpos : 0 < ir.length := List.length_pos.mpr h
      obtain ⟨a', ha', hr, hl⟩ := hget 0 hpos
      simp at ha'
      subst ha'
      exact ⟨hr, hl.mpr (Or.inl rfl)⟩
    have hlr : leader_rows (a :: rest) = a.row :: leader_rows rest := by
      simp [leader_rows, ha0.2]
    have hchain : child_right_chain (linear_blocks (a.row :: leader_rows rest))
        (linear_blocks (a.row :: leader_rows rest)).length (some 0)
        = linear_blocks (a.row :: leader_rows rest) := by
      have := child_right_chain_linear (a.row :: leader_rows rest)
        (a.row :: leader_rows rest).length 0 (by simp)
      rw [linear_blocks_length]
      simpa using this
    refine ⟨a :: rest, 0, linear_blocks (a.row :: leader_rows rest), han,
      get_linear_bbs_linear a rest, ?_, hpw, mem_leader_rows (a :: rest) hrow, ?_⟩
    · rw [hchain, linear_blocks_map_leader, hlr]
    · intro i _
      rw [hchain]
      rw [hlr] at hpw
      have hnodup : (a.row :: leader_rows rest).Nodup :=
        List.Pairwise.imp (fun hxy => Nat.ne_of_lt hxy) hpw
      obtain ⟨l, hl, hli, hmax⟩ := exists_greatest_le (a.row :: leader_rows rest) i
        ⟨a.row, by simp, by omega⟩
      have hl' : l ∈ (linear_blocks (a.row :: leader_rows rest)).map (fun b => b.leader) := by
        rw [linear_blocks_map_leader]; exact hl
      obtain ⟨b, hb, hbl⟩ := List.mem_map.mp hl'
      have hmem : ∀ b', b' ∈ linear_blocks (a.row :: leader_rows rest) →
          b'.leader ∈ a.row :: leader_rows rest := by
        intro b' hb'
        have : b'.leader ∈ (linear_blocks (a.row :: leader_rows rest)).map
            (fun b => b.leader) := List.mem_map.mpr ⟨b', hb', rfl⟩
        rwa [linear_blocks_map_leader] at this
      refine ⟨b, ⟨hb, by omega, ?_⟩, ?_⟩
      · intro b' hb' hb'i
        have := hmax b'.leader (hmem b' hb') hb'i
        omega
      · rintro b2 ⟨hb2, hb2i, hb2max⟩
        have h1 := hb2max b hb (by omega)
        have h2 := hmax b2.leader (hmem b2 hb2) hb2i
        exact linear_blocks_leader_inj _ hnodup b2 b hb2 hb (by omega)

/-- C2 at the IR of the while example: its four blocks partition the ten
rows. -/
theorem get_linear_bbs_partition_witness :
    example_while_ir ≠ [] ∧
    ∃ an bb_first heap, annotate_ir example_while_ir = some an ∧
      get_linear_bbs an = some (bb_first, heap) ∧
      (child_right_chain heap heap.length (some bb_first)).map (fun b => b.leader)
        = leader_rows an ∧
      (leader_rows an).Pairwise (fun x y => x < y) ∧
      (∀ l, l ∈ leader_rows an ↔ (an[l]?).map (fun a => a.is_leader) = some true) ∧
      ∀ i, i < example_while_ir.length →
        ∃! b, b ∈ child_right_chain heap heap.length (some bb_first) ∧ b.leader ≤ i ∧
          ∀ b', b' ∈ child_right_chain heap heap.length (some bb_first) →
            b'.leader ≤ i → b'.leader ≤ b.leader :=
  ⟨by decide, get_linear_bbs_partition example_while_ir (by decide)⟩

/-! ### Successors in the generated CFG -/

/-- C3, as stated, fails on the while example: in the CFG that
`mcc_cfg_generate` builds for it, the third block ends in `JUMP L0`, and its
`child_right` is the fourth block, whose leader is `LABEL L1`. -/
theorem mcc_cfg_generate_jump_successor_counterexample :
    ∃ cfg an b, mcc_cfg_generate example_while_ir = some cfg ∧
      annotate_ir example_while_ir = some an ∧ cfg.blocks.length = 4 ∧
      cfg.blocks[2]? = some b ∧
      (example_while_ir[block_last_row an b.leader]?).bind jump_target = some 0 ∧
      jump_successor_resolved example_while_ir an cfg.blocks b = false := by
  refine ⟨{ linear_bbs := 0, blocks := linear_blocks [0, 2, 5, 8], released := [3, 2, 1, 0] },
    [⟨true, 0⟩, ⟨false, 1⟩, ⟨true, 2⟩, ⟨false, 3⟩, ⟨false, 4⟩, ⟨true, 5⟩, ⟨false, 6⟩,
      ⟨false, 7⟩, ⟨true, 8⟩, ⟨false, 9⟩],
    { leader := 5, child_left := none, child_right := some 3, parent_left := some 1,
      parent_right := none }, ?_, ?_, ?_, ?_, ?_, ?_⟩ <;> decide

/-- C3, amended. For a non-empty IR list, `mcc_cfg_generate` builds the linear
chain of `get_linear_bbs` and resolves no jump target: the first block is at
address 0, block `k` owns the `k`-th leader row, its `child_left` is `NULL`,
and its `child_right` is block `k + 1`, the block of the next leader in IR
order, or `NULL` for the last block. -/
theorem mcc_cfg_generate_linear_chain (ir : List mcc_ir_row) (h : ir ≠ []) :
    ∃ cfg an, mcc_cfg_generate ir = some cfg ∧ annotate_ir ir = some an ∧
      cfg.linear_bbs = 0 ∧ cfg.blocks.length = (leader_rows an).length ∧
      ∀ (k : Nat) (b : mcc_basic_block), cfg.blocks[k]? = some b →
        (leader_rows an)[k]? = some b.leader ∧ b.child_left = none ∧
        b.child_right = (if k + 1 < cfg.blocks.length then some (k + 1) else none) := by
  obtain ⟨an, han, hlen, hget⟩ := annotate_ir_get ir h
  cases an with
  | nil =>
    have : ir.length = 0 := by simpa using hlen.symm
    exact absurd (List.length_eq_zero.mp this) h
  | cons a rest =>
    have ha0 : a.is_leader = true := by
      have hpos : 0 < ir.length := List.length_pos.mpr h
      obtain ⟨a', ha', _, hl⟩ := hget 0 hpos
      simp at ha'
      subst ha'
      exact hl.mpr (Or.inl rfl)
    have hlr : leader_rows (a :: rest) = a.row :: leader_rows rest := by
      simp [leader_rows, ha0]
    refine ⟨{ linear_bbs := 0, blocks := linear_blocks (a.row :: leader_rows rest),
              released := mcc_delete_cfg (linear_blocks (a.row :: leader_rows rest))
                (linear_blocks (a.row :: leader_rows rest)).length (some 0) },
      a :: rest, ?_, han, rfl, ?_, ?_⟩
    · simp [mcc_cfg_generate, han, get_linear_bbs_linear]
    · simp [linear_blocks_length, hlr]
    · intro k b hb
      simp only [linear_blocks_get] at hb
      rw [hlr, linear_blocks_length]
      cases hk : (a.row :: leader_rows rest)[k]? with
      | none => simp [hk] at hb
      | some l =>
        simp only [hk, Option.map_some', Option.some.injEq] at hb
        subst hb
        exact ⟨rfl, rfl, rfl⟩

/-- C3, amended, at the while example: the CFG has four blocks, and the block
that ends in `JUMP L0` has one successor, the block of `LABEL L1`. -/
theorem mcc_cfg_generate_linear_chain_witness :
    example_while_ir ≠ [] ∧
    (∃ cfg an, mcc_cfg_generate example_while_ir = some cfg ∧
      annotate_ir example_while_ir = some an ∧
      cfg.linear_bbs = 0 ∧ cfg.blocks.length = (leader_rows an).length ∧
      ∀ (k : Nat) (b : mcc_basic_block), cfg.blocks[k]? = some b →
        (leader_rows an)[k]? = some b.leader ∧ b.child_left = none ∧
        b.child_right = (if k + 1 < cfg.blocks.length then some (k + 1) else none)) ∧
    (mcc_cfg_generate example_while_ir).map (fun cfg => cfg.blocks.map (fun b => b.leader))
      = some [0, 2, 5, 8] ∧
    (example_while_ir[7]?).bind jump_target = some 0 ∧
    (example_while_ir[8]?).map (fun r => is_label_row r 1) = some true :=
  ⟨by decide, mcc_cfg_generate_linear_chain example_while_ir (by decide), by decide, by decide,
    by decide⟩

/-! ### The builder only appends rows -/

theorem append_row_rows (row : mcc_ir_row) (data : ir_generation_userdata) :
    (append_row row data).rows = data.rows ++ [row] := rfl

theorem append_row_label_counter (row : mcc_ir_row) (data : ir_generation_userdata) :
    (append_row row data).label_counter = data.label_counter := rfl

theorem new_arg_label_rows (data : ir_generation_userdata) :
    (new_arg_label data).2.rows = data.rows := rfl

theorem new_arg_label_counter (data : ir_generation_userdata) :
    (new_arg_label data).2.label_counter = data.label_counter + 1 := rfl

theorem new_arg_label_arg (data : ir_generation_userdata) :
    (new_arg_label data).1 = MCC_IR_TYPE_LABEL data.label_counter := rfl

mutual
/-- Lowering an expression leaves the label counter alone and extends the row
list at its end. -/
theorem generate_ir_expression_extends : ∀ (e : mcc_ast_expression)
    (data : ir_generation_userdata),
    (generate_ir_expression e data).2.label_counter = data.label_counter ∧
      ∃ seg, (generate_ir_expression e data).2.rows = data.rows ++ seg
  | MCC_AST_EXPRESSION_TYPE_LITERAL _, data => ⟨rfl, [], by simp [generate_ir_expression]⟩
  | MCC_AST_EXPRESSION_TYPE_BINARY_OP _ lhs rhs, data => by
    obtain ⟨hl, sl, hsl⟩ := generate_ir_expression_extends lhs data
    obtain ⟨hr, sr, hsr⟩ := generate_ir_expression_extends rhs (generate_ir_expression lhs data).2
    refine ⟨by simp [generate_ir_expression, append_row, hl, hr], ?_⟩
    simp only [generate_ir_expression, append_row_rows, hsr, hsl, List.append_assoc]
    exact ⟨_, rfl⟩
  | MCC_AST_EXPRESSION_TYPE_PARENTH e, data => by
    simpa [generate_ir_expression] using generate_ir_expression_extends e data
  | MCC_AST_EXPRESSION_TYPE_UNARY_OP _ child, data => by
    obtain ⟨hc, sc, hsc⟩ := generate_ir_expression_extends child data
    refine ⟨by simp [generate_ir_expression, append_row, hc], ?_⟩
    simp only [generate_ir_expression, append_row_rows, hsc, List.append_assoc]
    exact ⟨_, rfl⟩
  | MCC_AST_EXPRESSION_TYPE_VARIABLE _, data => ⟨rfl, [], by simp [generate_ir_expression]⟩
  | MCC_AST_EXPRESSION_TYPE_ARRAY_ELEMENT _ index, data => by
    simpa [generate_ir_expression] using generate_ir_expression_extends index data
  | MCC_AST_EXPRESSION_TYPE_FUNCTION_CALL _ arguments, data => by
    obtain ⟨ha, sa, hsa⟩ := generate_ir_arguments_extends arguments data
    refine ⟨by simp [generate_ir_expression, append_row, ha], ?_⟩
    simp only [generate_ir_expression, append_row_rows, hsa, List.append_assoc]
    exact ⟨_, rfl⟩
/-- Lowering an argument list leaves the label counter alone and extends the
row list at its end. -/
theorem generate_ir_arguments_extends : ∀ (a : mcc_ast_arguments)
    (data : ir_generation_userdata),
    (generate_ir_arguments a data).label_counter = data.label_counter ∧
      ∃ seg, (generate_ir_arguments a data).rows = data.rows ++ seg
  | mcc_ast_arguments.null, data => ⟨rfl, [], by simp [generate_ir_arguments]⟩
  | mcc_ast_arguments.empty next, data => by
    simpa [generate_ir_arguments] using generate_ir_arguments_extends next data
  | mcc_ast_arguments.node e next, data => by
    obtain ⟨hn, sn, hsn⟩ := generate_ir_arguments_extends next data
    obtain ⟨he, se, hse⟩ := generate_ir_expression_extends e (generate_ir_arguments next data)
    refine ⟨by simp [generate_ir_arguments, append_row, he, hn], ?_⟩
    simp only [generate_ir_arguments, append_row_rows, hse, hsn, List.append_assoc]
    exact ⟨_, rfl⟩
end

theorem generate_ir_expression_label_counter (e : mcc_ast_expression)
    (data : ir_generation_userdata) :
    (generate_ir_expression e data).2.label_counter = data.label_counter :=
  (generate_ir_expression_extends e data).1

theorem generate_ir_arguments_label_counter (a : mcc_ast_arguments)
    (data : ir_generation_userdata) :
    (generate_ir_arguments a data).label_counter = data.label_counter :=
  (generate_ir_arguments_extends a data).1

/-- The row list after an expression is the list before it followed by the rows
of the expression. -/
theorem generate_ir_expression_rows (e : mcc_ast_expression) (data : ir_generation_userdata) :
    (generate_ir_expression e data).2.rows = data.rows ++ rows_of_expression e data := by
  obtain ⟨_, seg, hseg⟩ := generate_ir_expression_extends e data
  simp [rows_of_expression, hseg]

theorem generate_ir_arguments_rows (a : mcc_ast_arguments) (data : ir_generation_userdata) :
    (generate_ir_arguments a data).rows = data.rows ++ rows_of_arguments a data := by
  obtain ⟨_, seg, hseg⟩ := generate_ir_arguments_extends a data
  simp [rows_of_arguments, hseg]

theorem generate_ir_assignment_extends (a : mcc_ast_assignment) (data : ir_generation_userdata) :
    (generate_ir_assignment a data).label_counter = data.label_counter ∧
      ∃ seg, (generate_ir_assignment a data).rows = data.rows ++ seg := by
  cases a with
  | MCC_AST_ASSIGNMENT_TYPE_VARIABLE ident value =>
    refine ⟨by simp [generate_ir_assignment, append_row, generate_ir_expression_label_counter],
      ?_⟩
    simp only [generate_ir_assignment, append_row_rows, generate_ir_expression_rows,
      List.append_assoc]
    exact ⟨_, rfl⟩
  | MCC_AST_ASSIGNMENT_TYPE_ARRAY ident index value =>
    refine ⟨by simp [generate_ir_assignment, append_row, generate_ir_expression_label_counter],
      ?_⟩
    simp only [generate_ir_assignment, append_row_rows, generate_ir_expression_rows,
      List.append_assoc]
    exact ⟨_, rfl⟩

theorem generate_ir_statement_return_extends (v : Option mcc_ast_expression)
    (data : ir_generation_userdata) :
    (generate_ir_statement_return v data).label_counter = data.label_counter ∧
      ∃ seg, (generate_ir_statement_return v data).rows = data.rows ++ seg := by
  cases v with
  | none => exact ⟨rfl, _, rfl⟩
  | some e =>
    refine ⟨by simp [generate_ir_statement_return, append_row,
      generate_ir_expression_label_counter], ?_⟩
    simp only [generate_ir_statement_return, append_row_rows, generate_ir_expression_rows,
      List.append_assoc]
    exact ⟨_, rfl⟩

theorem generate_ir_declaration_extends (d : mcc_ast_declaration)
    (data : ir_generation_userdata) :
    (generate_ir_declaration d data).label_counter = data.label_counter ∧
      ∃ seg, (generate_ir_declaration d data).rows = data.rows ++ seg := by
  cases d with
  | MCC_AST_DECLARATION_TYPE_VARIABLE _ _ => exact ⟨rfl, [], by simp [generate_ir_declaration]⟩
  | MCC_AST_DECLARATION_TYPE_ARRAY _ _ _ => exact ⟨rfl, _, rfl⟩

mutual
/-- Lowering a statement never lowers the label counter and extends the row
list at its end. -/
theorem generate_ir_statement_extends : ∀ (s : mcc_ast_statement)
    (data : ir_generation_userdata),
    data.label_counter ≤ (generate_ir_statement s data).label_counter ∧
      ∃ seg, (generate_ir_statement s data).rows = data.rows ++ seg
  | MCC_AST_STATEMENT_TYPE_EXPRESSION e, data => by
    refine ⟨by simp [generate_ir_statement, generate_ir_expression_label_counter], ?_⟩
    simp only [generate_ir_statement, generate_ir_expression_rows]
    exact ⟨_, rfl⟩
  | MCC_AST_STATEMENT_TYPE_COMPOUND_STMT c, data => by
    simpa [generate_ir_statement] using generate_ir_comp_statement_extends c data
  | MCC_AST_STATEMENT_TYPE_ASSIGNMENT a, data => by
    obtain ⟨h1, h2⟩ := generate_ir_assignment_extends a data
    exact ⟨by simp [generate_ir_statement, h1], by simpa [generate_ir_statement] using h2⟩
  | MCC_AST_STATEMENT_TYPE_DECLARATION d, data => by
    obtain ⟨h1, h2⟩ := generate_ir_declaration_extends d data
    exact ⟨by simp [generate_ir_statement, h1], by simpa [generate_ir_statement] using h2⟩
  | MCC_AST_STATEMENT_TYPE_IF_ELSE_STMT c s1 s2, data => by
    obtain ⟨h1, t1, ht1⟩ := generate_ir_statement_extends s1
      (append_row (new_row (some (generate_ir_expression c data).1)
        (some (new_arg_label (generate_ir_expression c data).2).1) MCC_IR_INSTR_JUMPFALSE)
        (new_arg_label (generate_ir_expression c data).2).2)
    obtain ⟨h2, t2, ht2⟩ := generate_ir_statement_extends s2
      (append_row (new_row (copy_arg (new_arg_label (generate_ir_expression c data).2).1) none
          MCC_IR_INSTR_LABEL)
        (append_row (new_row (some (new_arg_label (generate_ir_statement s1
            (append_row (new_row (some (generate_ir_expression c data).1)
              (some (new_arg_label (generate_ir_expression c data).2).1) MCC_IR_INSTR_JUMPFALSE)
              (new_arg_label (generate_ir_expression c data).2).2))).1) none MCC_IR_INSTR_JUMP)
          (new_arg_label (generate_ir_statement s1
            (append_row (new_row (some (generate_ir_expression c data).1)
              (some (new_arg_label (generate_ir_expression c data).2).1) MCC_IR_INSTR_JUMPFALSE)
              (new_arg_label (generate_ir_expression c data).2).2))).2))
    simp only [append_row_label_counter, new_arg_label_counter,
      generate_ir_expression_label_counter] at h1 h2
    simp only [append_row_rows, new_arg_label_rows, generate_ir_expression_rows] at ht1 ht2
    refine ⟨?_, ?_⟩
    · simp only [generate_ir_statement, append_row_label_counter]
      omega
    · simp only [generate_ir_statement, append_row_rows, ht2, ht1, List.append_assoc]
      exact ⟨_, rfl⟩
  | MCC_AST_STATEMENT_TYPE_IF_STMT c s1, data => by
    obtain ⟨h1, t1, ht1⟩ := generate_ir_statement_extends s1
      (append_row (new_row (some (generate_ir_expression c data).1)
        (some (new_arg_label (generate_ir_expression c data).2).1) MCC_IR_INSTR_JUMPFALSE)
        (new_arg_label (generate_ir_expression c data).2).2)
    simp only [append_row_label_counter, new_arg_label_counter,
      generate_ir_expression_label_counter] at h1
    simp only [append_row_rows, new_arg_label_rows, generate_ir_expression_rows] at ht1
    refine ⟨?_, ?_⟩
    · simp only [generate_ir_statement, append_row_label_counter]
      omega
    · simp only [generate_ir_statement, append_row_rows, ht1, List.append_assoc]
      exact ⟨_, rfl⟩
  | MCC_AST_STATEMENT_TYPE_RETURN v _, data => by
    obtain ⟨h1, h2⟩ := generate_ir_statement_return_extends v data
    exact ⟨by simp [generate_ir_statement, h1], by simpa [generate_ir_statement] using h2⟩
  | MCC_AST_STATEMENT_TYPE_WHILE c s1, data => by
    obtain ⟨h1, t1, ht1⟩ := generate_ir_statement_extends s1
      (append_row (new_row (some (generate_ir_expression c
          (append_row (new_row (some (new_arg_label data).1) none MCC_IR_INSTR_LABEL)
            (new_arg_label data).2)).1)
        (some (new_arg_label (generate_ir_expression c
          (append_row (new_row (some (new_arg_label data).1) none MCC_IR_INSTR_LABEL)
            (new_arg_label data).2)).2).1) MCC_IR_INSTR_JUMPFALSE)
        (new_arg_label (generate_ir_expression c
          (append_row (new_row (some (new_arg_label data).1) none MCC_IR_INSTR_LABEL)
            (new_arg_label data).2)).2).2)
    simp only [append_row_label_counter, new_arg_label_counter,
      generate_ir_expression_label_counter] at h1
    simp only [append_row_rows, new_arg_label_rows, generate_ir_expression_rows] at ht1
    refine ⟨?_, ?_⟩
    · simp only [generate_ir_statement, append_row_label_counter]
      omega
    · simp only [generate_ir_statement, append_row_rows, ht1, List.append_assoc]
      exact ⟨_, rfl⟩
/-- Lowering a compound statement never lowers the label counter and extends
the row list at its end. -/
theorem generate_ir_comp_statement_extends : ∀ (c : mcc_ast_compound_statement)
    (data : ir_generation_userdata),
    data.label_counter ≤ (generate_ir_comp_statement c data).label_counter ∧
      ∃ seg, (generate_ir_comp_statement c data).rows = data.rows ++ seg
  | mcc_ast_compound_statement.null, data => ⟨Nat.le_refl _, [], by simp [generate_ir_comp_statement]⟩
  | mcc_ast_compound_statement.empty next, data => by
    simpa [generate_ir_comp_statement] using generate_ir_comp_statement_extends next data
  | mcc_ast_compound_statement.node s next, data => by
    obtain ⟨h1, t1, ht1⟩ := generate_ir_statement_extends s data
    obtain ⟨h2, t2, ht2⟩ := generate_ir_comp_statement_extends next (generate_ir_statement s data)
    refine ⟨?_, ?_⟩
    · simp only [generate_ir_comp_statement]
      omega
    · simp only [generate_ir_comp_statement, ht2, ht1, List.append_assoc]
      exact ⟨_, rfl⟩
end

theorem generate_ir_statement_rows (s : mcc_ast_statement) (data : ir_generation_userdata) :
    (generate_ir_statement s data).rows = data.rows ++ rows_of_statement s data := by
  obtain ⟨_, seg, hseg⟩ := generate_ir_statement_extends s data
  simp [rows_of_statement, hseg]

theorem generate_ir_comp_statement_rows (c : mcc_ast_compound_statement)
    (data : ir_generation_userdata) :
    (generate_ir_comp_statement c data).rows = data.rows ++ rows_of_comp_statement c data := by
  obtain ⟨_, seg, hseg⟩ := generate_ir_comp_statement_extends c data
  simp [rows_of_comp_statement, hseg]

theorem generate_ir_statement_label_counter_le (s : mcc_ast_statement)
    (data : ir_generation_userdata) :
    data.label_counter ≤ (generate_ir_statement s data).label_counter :=
  (generate_ir_statement_extends s data).1

theorem generate_ir_comp_statement_label_counter_le (c : mcc_ast_compound_statement)
    (data : ir_generation_userdata) :
    data.label_counter ≤ (generate_ir_comp_statement c data).label_counter :=
  (generate_ir_comp_statement_extends c data).1

/-! ### The rows of each construct -/

theorem drop_length_append (l seg : List mcc_ir_row) : (l ++ seg).drop l.length = seg :=
  List.drop_left l seg

theorem rows_of_expression_literal (l : mcc_ast_literal) (data : ir_generation_userdata) :
    rows_of_expression (MCC_AST_EXPRESSION_TYPE_LITERAL l) data = [] := by
  simp [rows_of_expression, generate_ir_expression]

theorem rows_of_expression_variable (i : mcc_ast_identifier) (data : ir_generation_userdata) :
    rows_of_expression (MCC_AST_EXPRESSION_TYPE_VARIABLE i) data = [] := by
  simp [rows_of_expression, generate_ir_expression]

theorem rows_of_expression_parenth (e : mcc_ast_expression) (data : ir_generation_userdata) :
    rows_of_expression (MCC_AST_EXPRESSION_TYPE_PARENTH e) data = rows_of_expression e data := by
  simp [rows_of_expression, generate_ir_expression]

theorem rows_of_expression_array_element (i : mcc_ast_identifier) (index : mcc_ast_expression)
    (data : ir_generation_userdata) :
    rows_of_expression (MCC_AST_EXPRESSION_TYPE_ARRAY_ELEMENT i index) data
      = rows_of_expression index data := by
  simp [rows_of_expression, generate_ir_expression]

theorem rows_of_expression_binary_op (op : mcc_ast_binary_op) (lhs rhs : mcc_ast_expression)
    (data : ir_generation_userdata) :
    rows_of_expression (MCC_AST_EXPRESSION_TYPE_BINARY_OP op lhs rhs) data
      = rows_of_expression lhs data
        ++ rows_of_expression rhs (generate_ir_expression lhs data).2
        ++ [new_row (some (generate_ir_expression lhs data).1)
              (some (generate_ir_expression rhs (generate_ir_expression lhs data).2).1)
              (binary_op_instr op)] := by
  rw [rows_of_expression]
  simp only [generate_ir_expression, append_row_rows, generate_ir_expression_rows,
    List.append_assoc, drop_length_append]

theorem rows_of_expression_unary_op (u_op : mcc_ast_unary_op) (child : mcc_ast_expression)
    (data : ir_generation_userdata) :
    rows_of_expression (MCC_AST_EXPRESSION_TYPE_UNARY_OP u_op child) data
      = rows_of_expression child data
        ++ [new_row (some (generate_ir_expression child data).1) none (unary_op_instr u_op)] := by
  rw [rows_of_expression]
  simp only [generate_ir_expression, append_row_rows, generate_ir_expression_rows,
    List.append_assoc, drop_length_append]

theorem rows_of_expression_function_call (f : mcc_ast_identifier) (a : mcc_ast_arguments)
    (data : ir_generation_userdata) :
    rows_of_expression (MCC_AST_EXPRESSION_TYPE_FUNCTION_CALL f a) data
      = rows_of_arguments a data
        ++ [new_row (some (new_arg_identifier f)) none MCC_IR_INSTR_CALL] := by
  rw [rows_of_expression]
  simp only [generate_ir_expression, append_row_rows, generate_ir_arguments_rows,
    List.append_assoc, drop_length_append]

theorem rows_of_arguments_null (data : ir_generation_userdata) :
    rows_of_arguments mcc_ast_arguments.null data = [] := by
  simp [rows_of_arguments, generate_ir_arguments]

theorem rows_of_arguments_empty (next : mcc_ast_arguments) (data : ir_generation_userdata) :
    rows_of_arguments (mcc_ast_arguments.empty next) data = rows_of_arguments next data := by
  simp [rows_of_arguments, generate_ir_arguments]

theorem rows_of_arguments_node (e : mcc_ast_expression) (next : mcc_ast_arguments)
    (data : ir_generation_userdata) :
    rows_of_arguments (mcc_ast_arguments.node e next) data
      = rows_of_arguments next data
        ++ rows_of_expression e (generate_ir_arguments next data)
        ++ [new_row (some (generate_ir_expression e (generate_ir_arguments next data)).1) none
              MCC_IR_INSTR_PUSH] := by
  rw [rows_of_arguments]
  simp only [generate_ir_arguments, append_row_rows, generate_ir_expression_rows,
    generate_ir_arguments_rows, List.append_assoc, drop_length_append]

theorem rows_of_statement_expression (e : mcc_ast_expression) (data : ir_generation_userdata) :
    rows_of_statement (MCC_AST_STATEMENT_TYPE_EXPRESSION e) data = rows_of_expression e data := by
  simp [rows_of_statement, rows_of_expression, generate_ir_statement]

theorem rows_of_statement_compound (c : mcc_ast_compound_statement)
    (data : ir_generation_userdata) :
    rows_of_statement (MCC_AST_STATEMENT_TYPE_COMPOUND_STMT c) data
      = rows_of_comp_statement c data := by
  simp [rows_of_statement, rows_of_comp_statement, generate_ir_statement]

theorem rows_of_statement_assignment_variable (i : mcc_ast_identifier) (v : mcc_ast_expression)
    (data : ir_generation_userdata) :
    rows_of_statement (MCC_AST_STATEMENT_TYPE_ASSIGNMENT
        (MCC_AST_ASSIGNMENT_TYPE_VARIABLE i v)) data
      = rows_of_expression v data
        ++ [new_row (some (new_arg_identifier i)) (some (generate_ir_expression v data).1)
              MCC_IR_INSTR_ASSIGN] := by
  rw [rows_of_statement]
  simp only [generate_ir_statement, generate_ir_assignment, append_row_rows,
    generate_ir_expression_rows, List.append_assoc, drop_length_append]

theorem rows_of_statement_assignment_array (i : mcc_ast_identifier)
    (index v : mcc_ast_expression) (data : ir_generation_userdata) :
    rows_of_statement (MCC_AST_STATEMENT_TYPE_ASSIGNMENT
        (MCC_AST_ASSIGNMENT_TYPE_ARRAY i index v)) data
      = rows_of_expression index data
        ++ rows_of_expression v (generate_ir_expression index data).2
        ++ [new_row (some (new_arg_arr_elem i (generate_ir_expression index data).1))
              (some (generate_ir_expression v (generate_ir_expression index data).2).1)
              MCC_IR_INSTR_ASSIGN] := by
  rw [rows_of_statement]
  simp only [generate_ir_statement, generate_ir_assignment, append_row_rows,
    generate_ir_expression_rows, List.append_assoc, drop_length_append]

theorem rows_of_statement_declaration_variable (t : mcc_ast_types) (i : mcc_ast_identifier)
    (data : ir_generation_userdata) :
    rows_of_statement (MCC_AST_STATEMENT_TYPE_DECLARATION
        (MCC_AST_DECLARATION_TYPE_VARIABLE t i)) data = [] := by
  simp [rows_of_statement, generate_ir_statement, generate_ir_declaration]

theorem rows_of_statement_declaration_array (t : mcc_ast_types) (i : mcc_ast_identifier)
    (size : mcc_ast_literal) (data : ir_generation_userdata) :
    rows_of_statement (MCC_AST_STATEMENT_TYPE_DECLARATION
        (MCC_AST_DECLARATION_TYPE_ARRAY t i size)) data
      = [new_row (some (new_arg_identifier i)) (some (generate_arg_lit size))
          MCC_IR_INSTR_ARRAY] := by
  rw [rows_of_statement]
  simp only [generate_ir_statement, generate_ir_declaration, append_row_rows,
    drop_length_append]

theorem rows_of_statement_return_none (b : Bool) (data : ir_generation_userdata) :
    rows_of_statement (MCC_AST_STATEMENT_TYPE_RETURN none b) data
      = [new_row none none MCC_IR_INSTR_RETURN] := by
  rw [rows_of_statement]
  simp only [generate_ir_statement, generate_ir_statement_return, append_row_rows,
    drop_length_append]

theorem rows_of_statement_return_some (e : mcc_ast_expression) (b : Bool)
    (data : ir_generation_userdata) :
    rows_of_statement (MCC_AST_STATEMENT_TYPE_RETURN (some e) b) data
      = rows_of_expression e data
        ++ [new_row (some (generate_ir_expression e data).1) none MCC_IR_INSTR_RETURN] := by
  rw [rows_of_statement]
  simp only [generate_ir_statement, generate_ir_statement_return, append_row_rows,
    generate_ir_expression_rows, List.append_assoc, drop_length_append]

theorem after_while_label_rows (data : ir_generation_userdata) :
    (after_while_label data).rows = data.rows ++ [label_row data.label_counter] := rfl

theorem after_while_label_counter (data : ir_generation_userdata) :
    (after_while_label data).label_counter = data.label_counter + 1 := rfl

theorem after_while_jumpfalse_rows (c : mcc_ast_expression) (data : ir_generation_userdata) :
    (after_while_jumpfalse c data).rows
      = data.rows ++ [label_row data.label_counter]
        ++ rows_of_expression c (after_while_label data)
        ++ [jumpfalse_row (generate_ir_expression c (after_while_label data)).1
              (data.label_counter + 1)] := by
  simp only [after_while_jumpfalse, append_row_rows, new_arg_label_rows,
    generate_ir_expression_rows, after_while_label_rows, new_arg_label_arg,
    generate_ir_expression_label_counter, after_while_label_counter, jumpfalse_row]

theorem after_while_jumpfalse_counter (c : mcc_ast_expression) (data : ir_generation_userdata) :
    (after_while_jumpfalse c data).label_counter = data.label_counter + 2 := by
  simp only [after_while_jumpfalse, append_row_label_counter, new_arg_label_counter,
    generate_ir_expression_label_counter, after_while_label_counter]

theorem after_if_jumpfalse_rows (c : mcc_ast_expression) (data : ir_generation_userdata) :
    (after_if_jumpfalse c data).rows
      = data.rows ++ rows_of_expression c data
        ++ [jumpfalse_row (generate_ir_expression c data).1 data.label_counter] := by
  simp only [after_if_jumpfalse, append_row_rows, new_arg_label_rows,
    generate_ir_expression_rows, new_arg_label_arg, generate_ir_expression_label_counter,
    jumpfalse_row]

theorem after_if_jumpfalse_counter (c : mcc_ast_expression) (data : ir_generation_userdata) :
    (after_if_jumpfalse c data).label_counter = data.label_counter + 1 := by
  simp only [after_if_jumpfalse, append_row_label_counter, new_arg_label_counter,
    generate_ir_expression_label_counter]

theorem after_if_else_label_rows (c : mcc_ast_expression) (s1 : mcc_ast_statement)
    (data : ir_generation_userdata) :
    (after_if_else_label c s1 data).rows
      = data.rows ++ rows_of_expression c data
        ++ [jumpfalse_row (generate_ir_expression c data).1 data.label_counter]
        ++ rows_of_statement s1 (after_if_jumpfalse c data)
        ++ [jump_row (generate_ir_statement s1 (after_if_jumpfalse c data)).label_counter,
            label_row data.label_counter] := by
  simp only [after_if_else_label, append_row_rows, new_arg_label_rows,
    generate_ir_statement_rows, after_if_jumpfalse_rows, new_arg_label_arg,
    generate_ir_expression_label_counter, copy_arg, jump_row, label_row, List.append_assoc,
    List.singleton_append]

theorem after_if_else_label_counter (c : mcc_ast_expression) (s1 : mcc_ast_statement)
    (data : ir_generation_userdata) :
    (after_if_else_label c s1 data).label_counter
      = (generate_ir_statement s1 (after_if_jumpfalse c data)).label_counter + 1 := by
  simp only [after_if_else_label, append_row_label_counter, new_arg_label_counter]

theorem generate_ir_statement_while_eq (c : mcc_ast_expression) (s : mcc_ast_statement)
    (data : ir_generation_userdata) :
    generate_ir_statement (MCC_AST_STATEMENT_TYPE_WHILE c s) data
      = append_row (label_row (data.label_counter + 1))
          (append_row (jump_row data.label_counter)
            (generate_ir_statement s (after_while_jumpfalse c data))) := by
  simp only [generate_ir_statement, after_while_jumpfalse, after_while_label, new_arg_label_arg,
    copy_arg, label_row, jump_row, generate_ir_expression_label_counter,
    append_row_label_counter, new_arg_label_counter]

theorem generate_ir_statement_if_eq (c : mcc_ast_expression) (s : mcc_ast_statement)
    (data : ir_generation_userdata) :
    generate_ir_statement (MCC_AST_STATEMENT_TYPE_IF_STMT c s) data
      = append_row (label_row data.label_counter)
          (generate_ir_statement s (after_if_jumpfalse c data)) := by
  simp only [generate_ir_statement, after_if_jumpfalse, new_arg_label_arg, copy_arg, label_row,
    generate_ir_expression_label_counter]

theorem generate_ir_statement_if_else_eq (c : mcc_ast_expression) (s1 s2 : mcc_ast_statement)
    (data : ir_generation_userdata) :
    generate_ir_statement (MCC_AST_STATEMENT_TYPE_IF_ELSE_STMT c s1 s2) data
      = append_row
          (label_row (generate_ir_statement s1 (after_if_jumpfalse c data)).label_counter)
          (generate_ir_statement s2 (after_if_else_label c s1 data)) := by
  simp only [generate_ir_statement, after_if_else_label, after_if_jumpfalse, new_arg_label_arg,
    copy_arg, label_row]

theorem rows_of_statement_while (c : mcc_ast_expression) (s : mcc_ast_statement)
    (data : ir_generation_userdata) :
    rows_of_statement (MCC_AST_STATEMENT_TYPE_WHILE c s) data
      = [label_row data.label_counter]
        ++ rows_of_expression c (after_while_label data)
        ++ [jumpfalse_row (generate_ir_expression c (after_while_label data)).1
              (data.label_counter + 1)]
        ++ rows_of_statement s (after_while_jumpfalse c data)
        ++ [jump_row data.label_counter, label_row (data.label_counter + 1)] := by
  rw [rows_of_statement, generate_ir_statement_while_eq]
  simp only [append_row_rows, generate_ir_statement_rows, after_while_jumpfalse_rows,
    List.append_assoc, drop_length_append, List.singleton_append]

theorem rows_of_statement_if (c : mcc_ast_expression) (s : mcc_ast_statement)
    (data : ir_generation_userdata) :
    rows_of_statement (MCC_AST_STATEMENT_TYPE_IF_STMT c s) data
      = rows_of_expression c data
        ++ [jumpfalse_row (generate_ir_expression c data).1 data.label_counter]
        ++ rows_of_statement s (after_if_jumpfalse c data)
        ++ [label_row data.label_counter] := by
  rw [rows_of_statement, generate_ir_statement_if_eq]
  simp only [append_row_rows, generate_ir_statement_rows, after_if_jumpfalse_rows,
    List.append_assoc, drop_length_append]

theorem rows_of_statement_if_else (c : mcc_ast_expression) (s1 s2 : mcc_ast_statement)
    (data : ir_generation_userdata) :
    rows_of_statement (MCC_AST_STATEMENT_TYPE_IF_ELSE_STMT c s1 s2) data
      = rows_of_expression c data
        ++ [jumpfalse_row (generate_ir_expression c data).1 data.label_counter]
        ++ rows_of_statement s1 (after_if_jumpfalse c data)
        ++ [jump_row (generate_ir_statement s1 (after_if_jumpfalse c data)).label_counter,
            label_row data.label_counter]
        ++ rows_of_statement s2 (after_if_else_label c s1 data)
        ++ [label_row (generate_ir_statement s1 (after_if_jumpfalse c data)).label_counter] := by
  rw [rows_of_statement, generate_ir_statement_if_else_eq]
  simp only [append_row_rows, generate_ir_statement_rows, after_if_else_label_rows,
    List.append_assoc, drop_length_append]

theorem rows_of_comp_statement_null (data : ir_generation_userdata) :
    rows_of_comp_statement mcc_ast_compound_statement.null data = [] := by
  simp [rows_of_comp_statement, generate_ir_comp_statement]

theorem rows_of_comp_statement_empty (next : mcc_ast_compound_statement)
    (data : ir_generation_userdata) :
    rows_of_comp_statement (mcc_ast_compound_statement.empty next) data
      = rows_of_comp_statement next data := by
  simp [rows_of_comp_statement, generate_ir_comp_statement]

theorem rows_of_comp_statement_node (s : mcc_ast_statement) (next : mcc_ast_compound_statement)
    (data : ir_generation_userdata) :
    rows_of_comp_statement (mcc_ast_compound_statement.node s next) data
      = rows_of_statement s data
        ++ rows_of_comp_statement next (generate_ir_statement s data) := by
  rw [rows_of_comp_statement]
  simp only [generate_ir_comp_statement, generate_ir_comp_statement_rows,
    generate_ir_statement_rows, List.append_assoc, drop_length_append]

/-! ### The while pattern -/

/-- C7. A while statement with condition `c` and body `s`, lowered when the
label counter is `k`, appends exactly `LABEL(k)`, the rows of `c`,
`JUMPFALSE(value of c, k+1)`, the rows of `s`, `JUMP(k)`, `LABEL(k+1)`, in
that order; `c` is lowered right after `LABEL(k)` with the counter at `k+1`,
`s` right after the `JUMPFALSE` with the counter at `k+2`, and the counter
ends where the body leaves it. -/
theorem generate_ir_statememt_while_stmt_rows (c : mcc_ast_expression) (s : mcc_ast_statement)
    (data : ir_generation_userdata) :
    (generate_ir_statememt_while_stmt c s data).rows
      = data.rows
        ++ [label_row data.label_counter]
        ++ rows_of_expression c (after_while_label data)
        ++ [jumpfalse_row (generate_ir_expression c (after_while_label data)).1
              (data.label_counter + 1)]
        ++ rows_of_statement s (after_while_jumpfalse c data)
        ++ [jump_row data.label_counter, label_row (data.label_counter + 1)] ∧
    (after_while_label data).rows = data.rows ++ [label_row data.label_counter] ∧
    (after_while_label data).label_counter = data.label_counter + 1 ∧
    (after_while_jumpfalse c data).rows
      = data.rows ++ [label_row data.label_counter]
        ++ rows_of_expression c (after_while_label data)
        ++ [jumpfalse_row (generate_ir_expression c (after_while_label data)).1
              (data.label_counter + 1)] ∧
    (after_while_jumpfalse c data).label_counter = data.label_counter + 2 ∧
    (generate_ir_statememt_while_stmt c s data).label_counter
      = (generate_ir_statement s (after_while_jumpfalse c data)).label_counter := by
  refine ⟨?_, after_while_label_rows data, after_while_label_counter data,
    after_while_jumpfalse_rows c data, after_while_jumpfalse_counter c data, ?_⟩
  · rw [generate_ir_statememt_while_stmt, generate_ir_statement_rows, rows_of_statement_while]
    simp only [List.append_assoc]
  · rw [generate_ir_statememt_while_stmt, generate_ir_statement_while_eq]
    rfl

/-- C7 at `while (i < 10) { i = i + 1; }`, lowered into the empty list with the
counter at 0: the six rows LABEL(L0), SMALLER, JUMPFALSE(t, L1), PLUS, ASSIGN,
JUMP(L0), LABEL(L1). -/
theorem generate_ir_statememt_while_stmt_rows_witness :
    (generate_ir_statememt_while_stmt example_while_condition example_while_body
        example_empty_data).rows
      = [label_row 0,
         new_row (some (MCC_IR_TYPE_IDENTIFIER example_i)) (some (MCC_IR_TYPE_LIT_INT 10))
           MCC_IR_INSTR_SMALLER,
         jumpfalse_row (MCC_IR_TYPE_ROW 1) 1,
         new_row (some (MCC_IR_TYPE_IDENTIFIER example_i)) (some (MCC_IR_TYPE_LIT_INT 1))
           MCC_IR_INSTR_PLUS,
         new_row (some (MCC_IR_TYPE_IDENTIFIER example_i)) (some (MCC_IR_TYPE_ROW 3))
           MCC_IR_INSTR_ASSIGN,
         jump_row 0, label_row 1] ∧
    (generate_ir_statememt_while_stmt example_while_condition example_while_body
        example_empty_data).rows
      = example_empty_data.rows
        ++ [label_row example_empty_data.label_counter]
        ++ rows_of_expression example_while_condition (after_while_label example_empty_data)
        ++ [jumpfalse_row
              (generate_ir_expression example_while_condition
                (after_while_label example_empty_data)).1
              (example_empty_data.label_counter + 1)]
        ++ rows_of_statement example_while_body
            (after_while_jumpfalse example_while_condition example_empty_data)
        ++ [jump_row example_empty_data.label_counter,
            label_row (example_empty_data.label_counter + 1)] :=
  ⟨by decide,
    (generate_ir_statememt_while_stmt_rows example_while_condition example_while_body
      example_empty_data).1⟩

/-! ### The call pattern -/

/-- `generate_ir_arguments` pushes the arguments from the last to the first. -/
theorem generate_ir_arguments_eq_push_each : ∀ (a : mcc_ast_arguments)
    (data : ir_generation_userdata),
    generate_ir_arguments a data = push_each (source_arguments a).reverse data
  | mcc_ast_arguments.null, data => by
    simp [generate_ir_arguments, source_arguments, push_each]
  | mcc_ast_arguments.empty next, data => by
    simpa [generate_ir_arguments, source_arguments] using
      generate_ir_arguments_eq_push_each next data
  | mcc_ast_arguments.node e next, data => by
    have ih := generate_ir_arguments_eq_push_each next data
    simp only [generate_ir_arguments, source_arguments, List.reverse_cons, push_each,
      List.foldl_append, List.foldl_cons, List.foldl_nil]
    simp only [push_each] at ih
    rw [ih]

/-- The call `add(1, 2)`, lowered into the empty list, gives the rows PUSH 2, PUSH 1 and a
CALL row whose argument is an identifier argument holding the identifier `add`, not a
function-label argument: the row differs from the row `CALL` with the function label
`add`. -/
theorem generate_ir_expression_func_call_label_counterexample :
    ((generate_ir_expression_func_call { identifier_name := "add" } example_arguments
        example_empty_data).2.rows)[2]?
      = some (new_row (some (MCC_IR_TYPE_IDENTIFIER { identifier_name := "add" })) none
          MCC_IR_INSTR_CALL) ∧
    ((generate_ir_expression_func_call { identifier_name := "add" } example_arguments
        example_empty_data).2.rows)[2]? ≠ some (call_row "add") ∧
    (generate_ir_expression_func_call { identifier_name := "add" } example_arguments
        example_empty_data).2.rows.length = 3 := by
  decide

/-- C8, amended. A function call with the arguments `a1, …, an` (in source order, the
empty sentinel left out) is lowered by pushing the arguments from `an` down to
`a1`, each as its rows followed by one PUSH row with its value, then appending
one CALL row whose argument is an identifier argument that holds the identifier of the
callee; the value returned is the reference to that CALL row, the last row of the list. -/
theorem generate_ir_expression_func_call_pattern (function_identifier : mcc_ast_identifier)
    (arguments : mcc_ast_arguments) (data : ir_generation_userdata) :
    generate_ir_arguments arguments data
      = push_each (source_arguments arguments).reverse data ∧
    (generate_ir_expression_func_call function_identifier arguments data).2
      = append_row (call_identifier_row function_identifier)
          (push_each (source_arguments arguments).reverse data) ∧
    (generate_ir_expression_func_call function_identifier arguments data).1
      = MCC_IR_TYPE_ROW (push_each (source_arguments arguments).reverse data).rows.length ∧
    ((generate_ir_expression_func_call function_identifier arguments data).2.rows)[
        (push_each (source_arguments arguments).reverse data).rows.length]?
      = some (call_identifier_row function_identifier) ∧
    (generate_ir_expression_func_call function_identifier arguments data).2.rows.length
      = (push_each (source_arguments arguments).reverse data).rows.length + 1 := by
  have h := generate_ir_arguments_eq_push_each arguments data
  refine ⟨h, ?_, ?_, ?_, ?_⟩
  · simp only [generate_ir_expression_func_call, generate_ir_expression, h, call_identifier_row,
      new_arg_identifier]
  · simp only [generate_ir_expression_func_call, generate_ir_expression, h, new_arg_row,
      next_row_pointer]
  · simp [generate_ir_expression_func_call, generate_ir_expression, h, call_identifier_row,
      new_arg_identifier, append_row]
  · simp [generate_ir_expression_func_call, generate_ir_expression, h, append_row]

/-- C8, amended, at the call `add(1, 2)`, lowered into the empty list: PUSH 2, PUSH 1,
CALL add, and the value is the reference to row 2, the CALL row. -/
theorem generate_ir_expression_func_call_pattern_witness :
    (generate_ir_expression_func_call { identifier_name := "add" } example_arguments
        example_empty_data).2.rows
      = [new_row (some (MCC_IR_TYPE_LIT_INT 2)) none MCC_IR_INSTR_PUSH,
         new_row (some (MCC_IR_TYPE_LIT_INT 1)) none MCC_IR_INSTR_PUSH,
         call_identifier_row { identifier_name := "add" }] ∧
    (generate_ir_expression_func_call { identifier_name := "add" } example_arguments
        example_empty_data).1 = MCC_IR_TYPE_ROW 2 ∧
    generate_ir_arguments example_arguments example_empty_data
      = push_each (source_arguments example_arguments).reverse example_empty_data :=
  ⟨by decide, by decide,
    (generate_ir_expression_func_call_pattern { identifier_name := "add" } example_arguments
      example_empty_data).1⟩

/-! ### What kind of rows each construct appends -/

theorem binary_op_instr_expression (op : mcc_ast_binary_op) :
    expression_instr (binary_op_instr op) = true := by
  cases op <;> rfl

theorem unary_op_instr_expression (op : mcc_ast_unary_op) :
    expression_instr (unary_op_instr op) = true := by
  cases op <;> rfl

theorem generate_arg_lit_labels (l : mcc_ast_literal) : arg_labels (generate_arg_lit l) = [] := by
  cases l <;> rfl

theorem row_labels_new_row (a b : Option mcc_ir_arg) (i : mcc_ir_instruction) :
    row_labels (new_row a b i)
      = (match a with | some x => arg_labels x | none => []) ++
        (match b with | some x => arg_labels x | none => []) := rfl

mutual
/-- The value of an expression carries no label, and the rows of an expression
have expression instructions and carry no label. -/
theorem rows_of_expression_kind : ∀ (e : mcc_ast_expression) (data : ir_generation_userdata),
    arg_labels (generate_ir_expression e data).1 = [] ∧
      ∀ r, r ∈ rows_of_expression e data → expression_instr r.instr = true ∧ row_labels r = []
  | MCC_AST_EXPRESSION_TYPE_LITERAL l, data => by
    simp [rows_of_expression_literal, generate_ir_expression, generate_arg_lit_labels]
  | MCC_AST_EXPRESSION_TYPE_BINARY_OP op lhs rhs, data => by
    obtain ⟨hl, hlr⟩ := rows_of_expression_kind lhs data
    obtain ⟨hr, hrr⟩ := rows_of_expression_kind rhs (generate_ir_expression lhs data).2
    refine ⟨by simp [generate_ir_expression, new_arg_row, arg_labels], ?_⟩
    intro r hmem
    rw [rows_of_expression_binary_op] at hmem
    simp only [List.mem_append, List.mem_singleton] at hmem
    rcases hmem with (h | h) | h
    · exact hlr r h
    · exact hrr r h
    · subst h
      exact ⟨binary_op_instr_expression op, by simp [row_labels_new_row, hl, hr]⟩
  | MCC_AST_EXPRESSION_TYPE_PARENTH e, data => by
    have := rows_of_expression_kind e data
    simpa [rows_of_expression_parenth, generate_ir_expression] using this
  | MCC_AST_EXPRESSION_TYPE_UNARY_OP op child, data => by
    obtain ⟨hc, hcr⟩ := rows_of_expression_kind child data
    refine ⟨by simp [generate_ir_expression, new_arg_row, arg_labels], ?_⟩
    intro r hmem
    rw [rows_of_expression_unary_op] at hmem
    simp only [List.mem_append, List.mem_singleton] at hmem
    rcases hmem with h | h
    · exact hcr r h
    · subst h
      exact ⟨unary_op_instr_expression op, by simp [row_labels_new_row, hc]⟩
  | MCC_AST_EXPRESSION_TYPE_VARIABLE i, data => by
    simp [rows_of_expression_variable, generate_ir_expression, new_arg_identifier, arg_labels]
  | MCC_AST_EXPRESSION_TYPE_ARRAY_ELEMENT i index, data => by
    obtain ⟨hi, hir⟩ := rows_of_expression_kind index data
    refine ⟨by simpa [generate_ir_expression, new_arg_arr_elem, arg_labels] using hi, ?_⟩
    intro r hmem
    rw [rows_of_expression_array_element] at hmem
    exact hir r hmem
  | MCC_AST_EXPRESSION_TYPE_FUNCTION_CALL f a, data => by
    have ha := rows_of_arguments_kind a data
    refine ⟨by simp [generate_ir_expression, new_arg_row, arg_labels], ?_⟩
    intro r hmem
    rw [rows_of_expression_function_call] at hmem
    simp only [List.mem_append, List.mem_singleton] at hmem
    rcases hmem with h | h
    · exact ha r h
    · subst h
      exact ⟨rfl, by simp [row_labels_new_row, new_arg_identifier, arg_labels]⟩
/-- The rows of an argument list have expression instructions and carry no
label. -/
theorem rows_of_arguments_kind : ∀ (a : mcc_ast_arguments) (data : ir_generation_userdata),
    ∀ r, r ∈ rows_of_arguments a data → expression_instr r.instr = true ∧ row_labels r = []
  | mcc_ast_arguments.null, data => by simp [rows_of_arguments_null]
  | mcc_ast_arguments.empty next, data => by
    simpa [rows_of_arguments_empty] using rows_of_arguments_kind next data
  | mcc_ast_arguments.node e next, data => by
    have hn := rows_of_arguments_kind next data
    obtain ⟨he, her⟩ := rows_of_expression_kind e (generate_ir_arguments next data)
    intro r hmem
    rw [rows_of_arguments_node] at hmem
    simp only [List.mem_append, List.mem_singleton] at hmem
    rcases hmem with (h | h) | h
    · exact hn r h
    · exact her r h
    · subst h
      exact ⟨rfl, by simp [row_labels_new_row, he]⟩
end

theorem expression_instr_statement (i : mcc_ir_instruction) (h : expression_instr i = true) :
    statement_instr i = true := by
  cases i <;> first | rfl | exact h

theorem statement_instr_not_boundary (i : mcc_ir_instruction) (h : statement_instr i = true) :
    i ≠ MCC_IR_INSTR_POP ∧ i ≠ MCC_IR_INSTR_FUNC_LABEL := by
  cases i <;> first | exact ⟨by decide, by decide⟩ | exact absurd h (by decide)

mutual
/-- The rows of a statement have statement instructions. -/
theorem rows_of_statement_instr : ∀ (s : mcc_ast_statement) (data : ir_generation_userdata),
    ∀ r, r ∈ rows_of_statement s data → statement_instr r.instr = true
  | MCC_AST_STATEMENT_TYPE_EXPRESSION e, data => by
    intro r hmem
    rw [rows_of_statement_expression] at hmem
    exact expression_instr_statement _ ((rows_of_expression_kind e data).2 r hmem).1
  | MCC_AST_STATEMENT_TYPE_COMPOUND_STMT c, data => by
    intro r hmem
    rw [rows_of_statement_compound] at hmem
    exact rows_of_comp_statement_instr c data r hmem
  | MCC_AST_STATEMENT_TYPE_ASSIGNMENT (MCC_AST_ASSIGNMENT_TYPE_VARIABLE i v), data => by
    intro r hmem
    rw [rows_of_statement_assignment_variable] at hmem
    simp only [List.mem_append, List.mem_singleton] at hmem
    rcases hmem with h | h
    · exact expression_instr_statement _ ((rows_of_expression_kind v data).2 r h).1
    · subst h; rfl
  | MCC_AST_STATEMENT_TYPE_ASSIGNMENT (MCC_AST_ASSIGNMENT_TYPE_ARRAY i index v), data => by
    intro r hmem
    rw [rows_of_statement_assignment_array] at hmem
    simp only [List.mem_append, List.mem_singleton] at hmem
    rcases hmem with (h | h) | h
    · exact expression_instr_statement _ ((rows_of_expression_kind index data).2 r h).1
    · exact expression_instr_statement _ ((rows_of_expression_kind v _).2 r h).1
    · subst h; rfl
  | MCC_AST_STATEMENT_TYPE_DECLARATION (MCC_AST_DECLARATION_TYPE_VARIABLE t i), data => by
    simp [rows_of_statement_declaration_variable]
  | MCC_AST_STATEMENT_TYPE_DECLARATION (MCC_AST_DECLARATION_TYPE_ARRAY t i n), data => by
    intro r hmem
    rw [rows_of_statement_declaration_array] at hmem
    simp only [List.mem_singleton] at hmem
    subst hmem; rfl
  | MCC_AST_STATEMENT_TYPE_IF_ELSE_STMT c s1 s2, data => by
    intro r hmem
    rw [rows_of_statement_if_else] at hmem
    simp only [List.mem_append, List.mem_singleton, List.mem_cons, List.mem_nil_iff,
      or_false] at hmem
    rcases hmem with ((((h | h) | h) | h) | h) | h
    · exact expression_instr_statement _ ((rows_of_expression_kind c data).2 r h).1
    · subst h; rfl
    · exact rows_of_statement_instr s1 _ r h
    · rcases h with h | h <;> (subst h; rfl)
    · exact rows_of_statement_instr s2 _ r h
    · subst h; rfl
  | MCC_AST_STATEMENT_TYPE_IF_STMT c s1, data => by
    intro r hmem
    rw [rows_of_statement_if] at hmem
    simp only [List.mem_append, List.mem_singleton] at hmem
    rcases hmem with ((h | h) | h) | h
    · exact expression_instr_statement _ ((rows_of_expression_kind c data).2 r h).1
    · subst h; rfl
    · exact rows_of_statement_instr s1 _ r h
    · subst h; rfl
  | MCC_AST_STATEMENT_TYPE_RETURN none b, data => by
    intro r hmem
    rw [rows_of_statement_return_none] at hmem
    simp only [List.mem_singleton] at hmem
    subst hmem; rfl
  | MCC_AST_STATEMENT_TYPE_RETURN (some e) b, data => by
    intro r hmem
    rw [rows_of_statement_return_some] at hmem
    simp only [List.mem_append, List.mem_singleton] at hmem
    rcases hmem with h | h
    · exact expression_instr_statement _ ((rows_of_expression_kind e data).2 r h).1
    · subst h; rfl
  | MCC_AST_STATEMENT_TYPE_WHILE c s1, data => by
    intro r hmem
    rw [rows_of_statement_while] at hmem
    simp only [List.mem_append, List.mem_singleton, List.mem_cons, List.mem_nil_iff,
      or_false] at hmem
    rcases hmem with (((h | h) | h) | h) | h
    · subst h; rfl
    · exact expression_instr_statement _ ((rows_of_expression_kind c _).2 r h).1
    · subst h; rfl
    · exact rows_of_statement_instr s1 _ r h
    · rcases h with h | h <;> (subst h; rfl)
/-- The rows of a compound statement have statement instructions. -/
theorem rows_of_comp_statement_instr : ∀ (c : mcc_ast_compound_statement)
    (data : ir_generation_userdata),
    ∀ r, r ∈ rows_of_comp_statement c data → statement_instr r.instr = true
  | mcc_ast_compound_statement.null, data => by simp [rows_of_comp_statement_null]
  | mcc_ast_compound_statement.empty next, data => by
    simpa [rows_of_comp_statement_empty] using rows_of_comp_statement_instr next data
  | mcc_ast_compound_statement.node s next, data => by
    intro r hmem
    rw [rows_of_comp_statement_node] at hmem
    simp only [List.mem_append] at hmem
    rcases hmem with h | h
    · exact rows_of_statement_instr s data r h
    · exact rows_of_comp_statement_instr next _ r h
end

/-! ### The function pattern -/

theorem arg_from_declaration_eq (d : mcc_ast_declaration) :
    arg_from_declaration d = MCC_IR_TYPE_IDENTIFIER (declaration_identifier d) := by
  cases d <;> rfl

/-- The parameter loop appends one POP/ASSIGN pair per parameter and leaves
the label counter alone. -/
theorem generate_ir_function_definition_loop_eq (p : mcc_ast_parameters) :
    ∀ data : ir_generation_userdata,
      generate_ir_function_definition_loop p data
        = { rows := data.rows ++ pop_assign_rows data.rows.length (declared_parameters p),
            label_counter := data.label_counter } := by
  induction p with
  | null => intro data; simp [generate_ir_function_definition_loop, declared_parameters,
      pop_assign_rows]
  | empty _ _ => intro data; simp [generate_ir_function_definition_loop, declared_parameters,
      pop_assign_rows]
  | node d next ih =>
    intro data
    simp only [generate_ir_function_definition_loop, ih, declared_parameters, pop_assign_rows,
      append_row_rows, append_row_label_counter, arg_from_declaration_eq, new_arg_row,
      next_row_pointer, List.length_append, List.length_singleton, List.append_assoc,
      List.singleton_append, Nat.add_assoc]
    rfl

theorem after_parameters_rows (f : mcc_ast_function_definition) (data : ir_generation_userdata) :
    (after_parameters f data).rows
      = data.rows ++ [func_label_row f.identifier.identifier_name]
        ++ pop_assign_rows (data.rows.length + 1) (declared_parameters f.parameters) := by
  simp [after_parameters, generate_ir_function_definition_loop_eq, append_row_rows,
    func_label_row, new_arg_func_label]

theorem after_parameters_label_counter (f : mcc_ast_function_definition)
    (data : ir_generation_userdata) :
    (after_parameters f data).label_counter = data.label_counter := by
  simp [after_parameters, generate_ir_function_definition_loop_eq, append_row_label_counter]

theorem generate_ir_function_definition_eq (f : mcc_ast_function_definition)
    (data : ir_generation_userdata) :
    generate_ir_function_definition f data
      = generate_ir_comp_statement f.compound_stmt (after_parameters f data) := rfl

/-- C9. Lowering a function definition appends `FUNC_LABEL(name)` first, then
for each parameter in declaration order a POP row immediately followed by
`ASSIGN(parameter, reference to that POP row)`, and only then the rows of the
body; no row of the body is a POP or a FUNC_LABEL, so the function starts with
FUNC_LABEL followed by exactly as many POP/ASSIGN pairs as it has
parameters. -/
theorem generate_ir_function_definition_rows (function : mcc_ast_function_definition)
    (data : ir_generation_userdata) :
    (generate_ir_function_definition function data).rows
      = data.rows
        ++ [func_label_row function.identifier.identifier_name]
        ++ pop_assign_rows (data.rows.length + 1) (declared_parameters function.parameters)
        ++ rows_of_comp_statement function.compound_stmt (after_parameters function data) ∧
    (after_parameters function data).rows
      = data.rows ++ [func_label_row function.identifier.identifier_name]
        ++ pop_assign_rows (data.rows.length + 1) (declared_parameters function.parameters) ∧
    (pop_assign_rows (data.rows.length + 1) (declared_parameters function.parameters)).length
      = 2 * (declared_parameters function.parameters).length ∧
    ∀ r, r ∈ rows_of_comp_statement function.compound_stmt (after_parameters function data) →
      r.instr ≠ MCC_IR_INSTR_POP ∧ r.instr ≠ MCC_IR_INSTR_FUNC_LABEL := by
  refine ⟨?_, after_parameters_rows function data, ?_, ?_⟩
  · rw [generate_ir_function_definition_eq, generate_ir_comp_statement_rows,
      after_parameters_rows]
  · generalize data.rows.length + 1 = base
    induction declared_parameters function.parameters generalizing base with
    | nil => rfl
    | cons p rest ih => simp only [pop_assign_rows, List.length_cons, ih]; omega
  · intro r hr
    exact statement_instr_not_boundary _ (rows_of_comp_statement_instr _ _ r hr)

/-- C9 at `int add(int a, int b) { return a + b; }`, lowered into the empty
list: FUNC_LABEL add, POP, ASSIGN a, POP, ASSIGN b, then the two rows of the
body. -/
theorem generate_ir_function_definition_rows_witness :
    (generate_ir_function_definition example_add_function example_empty_data).rows
      = [func_label_row "add",
         new_row none none MCC_IR_INSTR_POP,
         new_row (some (MCC_IR_TYPE_IDENTIFIER { identifier_name := "a" }))
           (some (MCC_IR_TYPE_ROW 1)) MCC_IR_INSTR_ASSIGN,
         new_row none none MCC_IR_INSTR_POP,
         new_row (some (MCC_IR_TYPE_IDENTIFIER { identifier_name := "b" }))
           (some (MCC_IR_TYPE_ROW 3)) MCC_IR_INSTR_ASSIGN,
         new_row (some (MCC_IR_TYPE_IDENTIFIER { identifier_name := "a" }))
           (some (MCC_IR_TYPE_IDENTIFIER { identifier_name := "b" })) MCC_IR_INSTR_PLUS,
         new_row (some (MCC_IR_TYPE_ROW 5)) none MCC_IR_INSTR_RETURN] ∧
    (generate_ir_function_definition example_add_function example_empty_data).rows
      = example_empty_data.rows
        ++ [func_label_row example_add_function.identifier.identifier_name]
        ++ pop_assign_rows (example_empty_data.rows.length + 1)
            (declared_parameters example_add_function.parameters)
        ++ rows_of_comp_statement example_add_function.compound_stmt
            (after_parameters example_add_function example_empty_data) :=
  ⟨by decide,
    (generate_ir_function_definition_rows example_add_function example_empty_data).1⟩

/-! ### Row numbering -/

theorem number_rows_loop_length (rows : List mcc_ir_row) :
    ∀ i : Nat, (number_rows_loop rows i).length = rows.length := by
  induction rows with
  | nil => intro i; rfl
  | cons head rest ih =>
    intro i
    by_cases h : produces_temporary head.instr = true <;> simp [number_rows_loop, h, ih]

/-- Row `j` after the numbering loop: the row it was, with the counter value of
that moment as `row_no` when the row produces a temporary. -/
theorem number_rows_loop_get (rows : List mcc_ir_row) :
    ∀ (i j : Nat) (r : mcc_ir_row), rows[j]? = some r →
      (number_rows_loop rows i)[j]? = some
        { r with row_no :=
            if produces_temporary r.instr then
              i + (rows.take j).countP (fun x => produces_temporary x.instr)
            else r.row_no } := by
  induction rows with
  | nil => intro i j r h; simp at h
  | cons head rest ih =>
    intro i j r h
    cases j with
    | zero =>
      simp only [List.getElem?_cons_zero, Option.some.injEq] at h
      subst h
      by_cases hp : produces_temporary head.instr = true <;> simp [number_rows_loop, hp]
    | succ j =>
      simp only [List.getElem?_cons_succ] at h
      have hc : (head :: rest.take j).countP (fun x => produces_temporary x.instr)
          = (rest.take j).countP (fun x => produces_temporary x.instr)
            + (if produces_temporary head.instr then 1 else 0) := by
        rw [List.countP_cons]
      by_cases hp : produces_temporary head.instr = true
      · have e : (number_rows_loop (head :: rest) i)[j + 1]?
            = (number_rows_loop rest (i + 1))[j]? := by
          simp [number_rows_loop, hp]
        rw [e, ih (i + 1) j r h, List.take_succ_cons, hc]
        simp only [hp, if_true]
        by_cases hr : produces_temporary r.instr = true
        · simp only [hr, if_true]
          congr 2
          omega
        · simp [hr]
      · have e : (number_rows_loop (head :: rest) i)[j + 1]? = (number_rows_loop rest i)[j]? := by
          simp [number_rows_loop, hp]
        rw [e, ih i j r h, List.take_succ_cons, hc]
        simp [hp]

/-- The numbering changes nothing of a row but its `row_no`. -/
theorem number_rows_loop_map (rows : List mcc_ir_row) :
    ∀ i : Nat, (number_rows_loop rows i).map (fun r => (r.instr, r.arg1, r.arg2))
      = rows.map (fun r => (r.instr, r.arg1, r.arg2)) := by
  induction rows with
  | nil => intro i; rfl
  | cons head rest ih =>
    intro i
    by_cases h : produces_temporary head.instr = true <;> simp [number_rows_loop, h, ih]

/-- C10. On an IR list as the builder makes it (`new_row` sets every `row_no`
to 0), `number_rows` keeps the rows and their order, gives the row at position
`i` the number of temporary-producing rows before it when its instruction
produces a temporary, and leaves 0 on every other row; the instructions that
produce a temporary are PLUS, MINUS, MULTIPLY, DIVIDE, NEGATIV, MODULO, the six
comparisons, AND, OR, NOT, CALL and POP. -/
theorem number_rows_contiguous (ir : List mcc_ir_row) (h : ∀ r, r ∈ ir → r.row_no = 0) :
    (number_rows ir).length = ir.length ∧
    (∀ (i : Nat) (r : mcc_ir_row), ir[i]? = some r →
      (number_rows ir)[i]? = some
        { r with row_no :=
            if produces_temporary r.instr then
              (ir.take i).countP (fun x => produces_temporary x.instr)
            else 0 }) ∧
    ∀ instr : mcc_ir_instruction, produces_temporary instr = true ↔
      instr ∈ [MCC_IR_INSTR_PLUS, MCC_IR_INSTR_MINUS, MCC_IR_INSTR_MULTIPLY,
        MCC_IR_INSTR_DIVIDE, MCC_IR_INSTR_NEGATIV, MCC_IR_INSTR_MODULO, MCC_IR_INSTR_SMALLER,
        MCC_IR_INSTR_GREATER, MCC_IR_INSTR_SMALLEREQ, MCC_IR_INSTR_GREATEREQ,
        MCC_IR_INSTR_EQUALS, MCC_IR_INSTR_NOTEQUALS, MCC_IR_INSTR_AND, MCC_IR_INSTR_OR,
        MCC_IR_INSTR_NOT, MCC_IR_INSTR_CALL, MCC_IR_INSTR_POP] := by
  refine ⟨number_rows_loop_length ir 0, ?_, ?_⟩
  · intro i r hr
    have h0 : r.row_no = 0 := h r (List.getElem?_mem hr)
    rw [number_rows, number_rows_loop_get ir 0 i r hr]
    simp [h0]
  · intro instr
    cases instr <;> decide

/-- C10 at the rows of the while example: the comparison gets number 0 and the
addition number 1. -/
theorem number_rows_contiguous_witness :
    (∀ r, r ∈ example_while_rows → r.row_no = 0) ∧
    ((number_rows example_while_rows).length = example_while_rows.length ∧
    (∀ (i : Nat) (r : mcc_ir_row), example_while_rows[i]? = some r →
      (number_rows example_while_rows)[i]? = some
        { r with row_no :=
            if produces_temporary r.instr then
              (example_while_rows.take i).countP (fun x => produces_temporary x.instr)
            else 0 }) ∧
    ∀ instr : mcc_ir_instruction, produces_temporary instr = true ↔
      instr ∈ [MCC_IR_INSTR_PLUS, MCC_IR_INSTR_MINUS, MCC_IR_INSTR_MULTIPLY,
        MCC_IR_INSTR_DIVIDE, MCC_IR_INSTR_NEGATIV, MCC_IR_INSTR_MODULO, MCC_IR_INSTR_SMALLER,
        MCC_IR_INSTR_GREATER, MCC_IR_INSTR_SMALLEREQ, MCC_IR_INSTR_GREATEREQ,
        MCC_IR_INSTR_EQUALS, MCC_IR_INSTR_NOTEQUALS, MCC_IR_INSTR_AND, MCC_IR_INSTR_OR,
        MCC_IR_INSTR_NOT, MCC_IR_INSTR_CALL, MCC_IR_INSTR_POP]) ∧
    (number_rows example_while_rows).map (fun r => r.row_no) = [0, 0, 0, 0, 0, 1, 0, 0, 0, 0] :=
  ⟨by decide, number_rows_contiguous example_while_rows (by decide), by decide⟩

/-- A row of the numbered list is the row of the list before at the same
position, up to its `row_no`. -/
theorem number_rows_get_inv (rows : List mcc_ir_row) (i : Nat) (r' : mcc_ir_row)
    (h : (number_rows rows)[i]? = some r') :
    ∃ r, rows[i]? = some r ∧ r.instr = r'.instr ∧ r.arg1 = r'.arg1 ∧ r.arg2 = r'.arg2 := by
  have hmap := number_rows_loop_map rows 0
  have h1 : ((number_rows rows).map (fun r => (r.instr, r.arg1, r.arg2)))[i]?
      = some (r'.instr, r'.arg1, r'.arg2) := by
    rw [List.getElem?_map, h]; rfl
  rw [number_rows, hmap, List.getElem?_map] at h1
  cases hr : rows[i]? with
  | none => rw [hr] at h1; simp at h1
  | some r =>
    rw [hr] at h1
    simp only [Option.map_some', Option.some.injEq, Prod.mk.injEq] at h1
    exact ⟨r, rfl, h1.1, h1.2.1, h1.2.2⟩

/-! ### Every row of the builder comes from `new_row` -/

mutual
/-- What holds of every row that `new_row` makes holds of the rows of an
expression. -/
theorem rows_of_expression_forall (P : mcc_ir_row → Prop)
    (hP : ∀ a b i, P (new_row a b i)) : ∀ (e : mcc_ast_expression)
    (data : ir_generation_userdata), ∀ r, r ∈ rows_of_expression e data → P r
  | MCC_AST_EXPRESSION_TYPE_LITERAL l, data => by simp [rows_of_expression_literal]
  | MCC_AST_EXPRESSION_TYPE_BINARY_OP op lhs rhs, data => by
    intro r hmem
    rw [rows_of_expression_binary_op] at hmem
    simp only [List.mem_append, List.mem_singleton] at hmem
    rcases hmem with (h | h) | h
    · exact rows_of_expression_forall P hP lhs data r h
    · exact rows_of_expression_forall P hP rhs _ r h
    · subst h; exact hP _ _ _
  | MCC_AST_EXPRESSION_TYPE_PARENTH e, data => by
    intro r hmem
    rw [rows_of_expression_parenth] at hmem
    exact rows_of_expression_forall P hP e data r hmem
  | MCC_AST_EXPRESSION_TYPE_UNARY_OP op child, data => by
    intro r hmem
    rw [rows_of_expression_unary_op] at hmem
    simp only [List.mem_append, List.mem_singleton] at hmem
    rcases hmem with h | h
    · exact rows_of_expression_forall P hP child data r h
    · subst h; exact hP _ _ _
  | MCC_AST_EXPRESSION_TYPE_VARIABLE i, data => by simp [rows_of_expression_variable]
  | MCC_AST_EXPRESSION_TYPE_ARRAY_ELEMENT i index, data => by
    intro r hmem
    rw [rows_of_expression_array_element] at hmem
    exact rows_of_expression_forall P hP index data r hmem
  | MCC_AST_EXPRESSION_TYPE_FUNCTION_CALL f a, data => by
    intro r hmem
    rw [rows_of_expression_function_call] at hmem
    simp only [List.mem_append, List.mem_singleton] at hmem
    rcases hmem with h | h
    · exact rows_of_arguments_forall P hP a data r h
    · subst h; exact hP _ _ _
/-- What holds of every row that `new_row` makes holds of the rows of an
argument list. -/
theorem rows_of_arguments_forall (P : mcc_ir_row → Prop)
    (hP : ∀ a b i, P (new_row a b i)) : ∀ (a : mcc_ast_arguments)
    (data : ir_generation_userdata), ∀ r, r ∈ rows_of_arguments a data → P r
  | mcc_ast_arguments.null, data => by simp [rows_of_arguments_null]
  | mcc_ast_arguments.empty next, data => by
    intro r hmem
    rw [rows_of_arguments_empty] at hmem
    exact rows_of_arguments_forall P hP next data r hmem
  | mcc_ast_arguments.node e next, data => by
    intro r hmem
    rw [rows_of_arguments_node] at hmem
    simp only [List.mem_append, List.mem_singleton] at hmem
    rcases hmem with (h | h) | h
    · exact rows_of_arguments_forall P hP next data r h
    · exact rows_of_expression_forall P hP e _ r h
    · subst h; exact hP _ _ _
end

mutual
/-- What holds of every row that `new_row` makes holds of the rows of a
statement. -/
theorem rows_of_statement_forall (P : mcc_ir_row → Prop)
    (hP : ∀ a b i, P (new_row a b i)) : ∀ (s : mcc_ast_statement)
    (data : ir_generation_userdata), ∀ r, r ∈ rows_of_statement s data → P r
  | MCC_AST_STATEMENT_TYPE_EXPRESSION e, data => by
    intro r hmem
    rw [rows_of_statement_expression] at hmem
    exact rows_of_expression_forall P hP e data r hmem
  | MCC_AST_STATEMENT_TYPE_COMPOUND_STMT c, data => by
    intro r hmem
    rw [rows_of_statement_compound] at hmem
    exact rows_of_comp_statement_forall P hP c data r hmem
  | MCC_AST_STATEMENT_TYPE_ASSIGNMENT (MCC_AST_ASSIGNMENT_TYPE_VARIABLE i v), data => by
    intro r hmem
    rw [rows_of_statement_assignment_variable] at hmem
    simp only [List.mem_append, List.mem_singleton] at hmem
    rcases hmem with h | h
    · exact rows_of_expression_forall P hP v data r h
    · subst h; exact hP _ _ _
  | MCC_AST_STATEMENT_TYPE_ASSIGNMENT (MCC_AST_ASSIGNMENT_TYPE_ARRAY i index v), data => by
    intro r hmem
    rw [rows_of_statement_assignment_array] at hmem
    simp only [List.mem_append, List.mem_singleton] at hmem
    rcases hmem with (h | h) | h
    · exact rows_of_expression_forall P hP index data r h
    · exact rows_of_expression_forall P hP v _ r h
    · subst h; exact hP _ _ _
  | MCC_AST_STATEMENT_TYPE_DECLARATION (MCC_AST_DECLARATION_TYPE_VARIABLE t i), data => by
    simp [rows_of_statement_declaration_variable]
  | MCC_AST_STATEMENT_TYPE_DECLARATION (MCC_AST_DECLARATION_TYPE_ARRAY t i n), data => by
    intro r hmem
    rw [rows_of_statement_declaration_array] at hmem
    simp only [List.mem_singleton] at hmem
    subst hmem; exact hP _ _ _
  | MCC_AST_STATEMENT_TYPE_IF_ELSE_STMT c s1 s2, data => by
    intro r hmem
    rw [rows_of_statement_if_else] at hmem
    simp only [List.mem_append, List.mem_singleton, List.mem_cons, List.mem_nil_iff,
      or_false] at hmem
    rcases hmem with ((((h | h) | h) | h) | h) | h
    · exact rows_of_expression_forall P hP c data r h
    · subst h; exact hP _ _ _
    · exact rows_of_statement_forall P hP s1 _ r h
    · rcases h with h | h <;> (subst h; exact hP _ _ _)
    · exact rows_of_statement_forall P hP s2 _ r h
    · subst h; exact hP _ _ _
  | MCC_AST_STATEMENT_TYPE_IF_STMT c s1, data => by
    intro r hmem
    rw [rows_of_statement_if] at hmem
    simp only [List.mem_append, List.mem_singleton] at hmem
    rcases hmem with ((h | h) | h) | h
    · exact rows_of_expression_forall P hP c data r h
    · subst h; exact hP _ _ _
    · exact rows_of_statement_forall P hP s1 _ r h
    · subst h; exact hP _ _ _
  | MCC_AST_STATEMENT_TYPE_RETURN none b, data => by
    intro r hmem
    rw [rows_of_statement_return_none] at hmem
    simp only [List.mem_singleton] at hmem
    subst hmem; exact hP _ _ _
  | MCC_AST_STATEMENT_TYPE_RETURN (some e) b, data => by
    intro r hmem
    rw [rows_of_statement_return_some] at hmem
    simp only [List.mem_append, List.mem_singleton] at hmem
    rcases hmem with h | h
    · exact rows_of_expression_forall P hP e data r h
    · subst h; exact hP _ _ _
  | MCC_AST_STATEMENT_TYPE_WHILE c s1, data => by
    intro r hmem
    rw [rows_of_statement_while] at hmem
    simp only [List.mem_append, List.mem_singleton, List.mem_cons, List.mem_nil_iff,
      or_false] at hmem
    rcases hmem with (((h | h) | h) | h) | h
    · subst h; exact hP _ _ _
    · exact rows_of_expression_forall P hP c _ r h
    · subst h; exact hP _ _ _
    · exact rows_of_statement_forall P hP s1 _ r h
    · rcases h with h | h <;> (subst h; exact hP _ _ _)
/-- What holds of every row that `new_row` makes holds of the rows of a
compound statement. -/
theorem rows_of_comp_statement_forall (P : mcc_ir_row → Prop)
    (hP : ∀ a b i, P (new_row a b i)) : ∀ (c : mcc_ast_compound_statement)
    (data : ir_generation_userdata), ∀ r, r ∈ rows_of_comp_statement c data → P r
  | mcc_ast_compound_statement.null, data => by simp [rows_of_comp_statement_null]
  | mcc_ast_compound_statement.empty next, data => by
    intro r hmem
    rw [rows_of_comp_statement_empty] at hmem
    exact rows_of_comp_statement_forall P hP next data r hmem
  | mcc_ast_compound_statement.node s next, data => by
    intro r hmem
    rw [rows_of_comp_statement_node] at hmem
    simp only [List.mem_append] at hmem
    rcases hmem with h | h
    · exact rows_of_statement_forall P hP s data r h
    · exact rows_of_comp_statement_forall P hP next _ r h
end

theorem pop_assign_rows_forall (P : mcc_ir_row → Prop) (hP : ∀ a b i, P (new_row a b i))
    (ps : List mcc_ast_declaration) :
    ∀ (base : Nat) (r : mcc_ir_row), r ∈ pop_assign_rows base ps → P r := by
  induction ps with
  | nil => intro base r h; simp [pop_assign_rows] at h
  | cons p rest ih =>
    intro base r h
    simp only [pop_assign_rows, List.mem_cons] at h
    rcases h with h | h | h
    · subst h; exact hP _ _ _
    · subst h; exact hP _ _ _
    · exact ih (base + 2) r h

/-- What holds of every row that `new_row` makes, and of the rows that are in
the list already, holds of all rows once a program is lowered. -/
theorem mcc_ir_generate_loop_forall (P : mcc_ir_row → Prop) (hP : ∀ a b i, P (new_row a b i))
    (p : mcc_ast_program) :
    ∀ data : ir_generation_userdata, (∀ r, r ∈ data.rows → P r) →
      ∀ r, r ∈ (mcc_ir_generate_loop p data).rows → P r := by
  induction p with
  | null => intro data h; exact h
  | node f next ih =>
    intro data h
    apply ih
    intro r hr
    rw [generate_ir_program, generate_ir_function_definition_eq,
      generate_ir_comp_statement_rows, after_parameters_rows] at hr
    simp only [List.mem_append, List.mem_singleton] at hr
    rcases hr with ((hr | hr) | hr) | hr
    · exact h r hr
    · subst hr; exact hP _ _ _
    · exact pop_assign_rows_forall P hP _ _ r hr
    · exact rows_of_comp_statement_forall P hP _ _ r hr

/-- The rows that `mcc_ir_generate` hands to `number_rows` all carry the
`row_no` 0 that `new_row` gave them. -/
theorem mcc_ir_generate_loop_row_no (p : mcc_ast_program) :
    ∀ r, r ∈ (mcc_ir_generate_loop p { rows := [], label_counter := 0 }).rows →
      r.row_no = 0 :=
  mcc_ir_generate_loop_forall (fun r => r.row_no = 0) (fun _ _ _ => rfl) p
    { rows := [], label_counter := 0 } (by simp)

/-! ### Row references point backwards -/

theorem arg_rows_below_mono (a : mcc_ir_arg) :
    ∀ n m : Nat, n ≤ m → arg_rows_below n a = true → arg_rows_below m a = true := by
  induction a with
  | MCC_IR_TYPE_ROW row =>
    intro n m hnm h
    simp only [arg_rows_below, decide_eq_true_eq] at h ⊢
    omega
  | MCC_IR_TYPE_ARR_ELEM _ index ih =>
    intro n m hnm h
    simp only [arg_rows_below] at h ⊢
    exact ih n m hnm h
  | _ => intro n m _ _; rfl

theorem seg_refs_earlier_append (a : List mcc_ir_row) :
    ∀ (base : Nat) (b : List mcc_ir_row),
      seg_refs_earlier base (a ++ b)
        = (seg_refs_earlier base a && seg_refs_earlier (base + a.length) b) := by
  induction a with
  | nil => intro base b; simp [seg_refs_earlier]
  | cons r rest ih =>
    intro base b
    have e : base + 1 + rest.length = base + (rest.length + 1) := by omega
    have h := ih (base + 1) b
    rw [e] at h
    show (row_refs_below base r && seg_refs_earlier (base + 1) (rest ++ b)) = _
    rw [h]
    simp only [seg_refs_earlier, List.length_cons, Bool.and_assoc]

theorem seg_refs_earlier_singleton (base : Nat) (r : mcc_ir_row) :
    seg_refs_earlier base [r] = row_refs_below base r := by
  simp [seg_refs_earlier]

theorem seg_refs_earlier_get (seg : List mcc_ir_row) :
    ∀ (base j : Nat) (r : mcc_ir_row), seg_refs_earlier base seg = true → seg[j]? = some r →
      row_refs_below (base + j) r = true := by
  induction seg with
  | nil => intro base j r _ h; simp at h
  | cons x rest ih =>
    intro base j r hseg h
    simp only [seg_refs_earlier, Bool.and_eq_true] at hseg
    cases j with
    | zero =>
      simp only [List.getElem?_cons_zero, Option.some.injEq] at h
      subst h
      exact hseg.1
    | succ j =>
      simp only [List.getElem?_cons_succ] at h
      have := ih (base + 1) j r hseg.2 h
      have e : base + (j + 1) = base + 1 + j := by omega
      rw [e]
      exact this

theorem row_refs_below_new_row (n : Nat) (a b : Option mcc_ir_arg) (i : mcc_ir_instruction) :
    row_refs_below n (new_row a b i)
      = ((match a with | some x => arg_rows_below n x | none => true) &&
          (match b with | some x => arg_rows_below n x | none => true)) := rfl

theorem generate_ir_expression_length (e : mcc_ast_expression) (data : ir_generation_userdata) :
    (generate_ir_expression e data).2.rows.length
      = data.rows.length + (rows_of_expression e data).length := by
  rw [generate_ir_expression_rows, List.length_append]

theorem generate_ir_arguments_length (a : mcc_ast_arguments) (data : ir_generation_userdata) :
    (generate_ir_arguments a data).rows.length
      = data.rows.length + (rows_of_arguments a data).length := by
  rw [generate_ir_arguments_rows, List.length_append]

theorem generate_ir_statement_length (s : mcc_ast_statement) (data : ir_generation_userdata) :
    (generate_ir_statement s data).rows.length
      = data.rows.length + (rows_of_statement s data).length := by
  rw [generate_ir_statement_rows, List.length_append]

theorem generate_arg_lit_rows_below (n : Nat) (l : mcc_ast_literal) :
    arg_rows_below n (generate_arg_lit l) = true := by
  cases l <;> rfl

mutual
/-- The rows of an expression only refer to rows before themselves, and the
value of the expression only refers to rows that exist once it is lowered. -/
theorem rows_of_expression_refs : ∀ (e : mcc_ast_expression) (data : ir_generation_userdata),
    seg_refs_earlier data.rows.length (rows_of_expression e data) = true ∧
      arg_rows_below (data.rows.length + (rows_of_expression e data).length)
        (generate_ir_expression e data).1 = true
  | MCC_AST_EXPRESSION_TYPE_LITERAL l, data => by
    simp [rows_of_expression_literal, seg_refs_earlier, generate_ir_expression,
      generate_arg_lit_rows_below]
  | MCC_AST_EXPRESSION_TYPE_BINARY_OP op lhs rhs, data => by
    obtain ⟨hl1, hl2⟩ := rows_of_expression_refs lhs data
    obtain ⟨hr1, hr2⟩ := rows_of_expression_refs rhs (generate_ir_expression lhs data).2
    rw [generate_ir_expression_length] at hr1 hr2
    rw [rows_of_expression_binary_op]
    refine ⟨?_, ?_⟩
    · simp only [seg_refs_earlier_append, seg_refs_earlier_singleton, row_refs_below_new_row,
        Bool.and_eq_true, List.length_append]
      refine ⟨⟨hl1, hr1⟩, ?_, by rw [← Nat.add_assoc]; exact hr2⟩
      exact arg_rows_below_mono _ _ _ (by omega) hl2
    · simp [generate_ir_expression, new_arg_row, next_row_pointer, arg_rows_below,
        generate_ir_expression_length]
      omega
  | MCC_AST_EXPRESSION_TYPE_PARENTH e, data => by
    simpa [rows_of_expression_parenth, generate_ir_expression] using
      rows_of_expression_refs e data
  | MCC_AST_EXPRESSION_TYPE_UNARY_OP op child, data => by
    obtain ⟨hc1, hc2⟩ := rows_of_expression_refs child data
    rw [rows_of_expression_unary_op]
    refine ⟨?_, ?_⟩
    · simp only [seg_refs_earlier_append, seg_refs_earlier_singleton, row_refs_below_new_row,
        Bool.and_eq_true]
      exact ⟨hc1, hc2, trivial⟩
    · simp [generate_ir_expression, new_arg_row, next_row_pointer, arg_rows_below,
        generate_ir_expression_length]
  | MCC_AST_EXPRESSION_TYPE_VARIABLE i, data => by
    simp [rows_of_expression_variable, seg_refs_earlier, generate_ir_expression,
      new_arg_identifier, arg_rows_below]
  | MCC_AST_EXPRESSION_TYPE_ARRAY_ELEMENT i index, data => by
    obtain ⟨hi1, hi2⟩ := rows_of_expression_refs index data
    rw [rows_of_expression_array_element]
    exact ⟨hi1, by simpa [generate_ir_expression, new_arg_arr_elem, arg_rows_below] using hi2⟩
  | MCC_AST_EXPRESSION_TYPE_FUNCTION_CALL f a, data => by
    have ha := rows_of_arguments_refs a data
    rw [rows_of_expression_function_call]
    refine ⟨?_, ?_⟩
    · simp only [seg_refs_earlier_append, seg_refs_earlier_singleton, row_refs_below_new_row,
        Bool.and_eq_true]
      exact ⟨ha, rfl, trivial⟩
    · simp [generate_ir_expression, new_arg_row, next_row_pointer, arg_rows_below,
        generate_ir_arguments_length]
/-- The rows of an argument list only refer to rows before themselves. -/
theorem rows_of_arguments_refs : ∀ (a : mcc_ast_arguments) (data : ir_generation_userdata),
    seg_refs_earlier data.rows.length (rows_of_arguments a data) = true
  | mcc_ast_arguments.null, data => by simp [rows_of_arguments_null, seg_refs_earlier]
  | mcc_ast_arguments.empty next, data => by
    simpa [rows_of_arguments_empty] using rows_of_arguments_refs next data
  | mcc_ast_arguments.node e next, data => by
    have hn := rows_of_arguments_refs next data
    obtain ⟨he1, he2⟩ := rows_of_expression_refs e (generate_ir_arguments next data)
    rw [generate_ir_arguments_length] at he1 he2
    rw [rows_of_arguments_node]
    simp only [seg_refs_earlier_append, seg_refs_earlier_singleton, row_refs_below_new_row,
      Bool.and_eq_true, List.length_append]
    exact ⟨⟨hn, he1⟩, by rw [← Nat.add_assoc]; exact he2, trivial⟩
end

theorem seg_refs_earlier_congr (n m : Nat) (seg : List mcc_ir_row) (h : n = m)
    (hs : seg_refs_earlier n seg = true) : seg_refs_earlier m seg = true := h ▸ hs

theorem arg_rows_below_congr (n m : Nat) (a : mcc_ir_arg) (h : n = m)
    (hs : arg_rows_below n a = true) : arg_rows_below m a = true := h ▸ hs

theorem after_if_jumpfalse_length (c : mcc_ast_expression) (data : ir_generation_userdata) :
    (after_if_jumpfalse c data).rows.length
      = data.rows.length + (rows_of_expression c data).length + 1 := by
  simp only [after_if_jumpfalse_rows, List.length_append, List.length_singleton]

theorem after_while_label_length (data : ir_generation_userdata) :
    (after_while_label data).rows.length = data.rows.length + 1 := by
  simp [after_while_label_rows]

theorem after_while_jumpfalse_length (c : mcc_ast_expression) (data : ir_generation_userdata) :
    (after_while_jumpfalse c data).rows.length
      = data.rows.length + 1 + (rows_of_expression c (after_while_label data)).length + 1 := by
  simp only [after_while_jumpfalse_rows, List.length_append, List.length_singleton]

theorem after_if_else_label_length (c : mcc_ast_expression) (s1 : mcc_ast_statement)
    (data : ir_generation_userdata) :
    (after_if_else_label c s1 data).rows.length
      = data.rows.length + (rows_of_expression c data).length + 1
        + (rows_of_statement s1 (after_if_jumpfalse c data)).length + 2 := by
  simp only [after_if_else_label_rows, List.length_append, List.length_singleton,
    List.length_cons, List.length_nil]

mutual
/-- The rows of a statement only refer to rows before themselves. -/
theorem rows_of_statement_refs : ∀ (s : mcc_ast_statement) (data : ir_generation_userdata),
    seg_refs_earlier data.rows.length (rows_of_statement s data) = true
  | MCC_AST_STATEMENT_TYPE_EXPRESSION e, data => by
    rw [rows_of_statement_expression]
    exact (rows_of_expression_refs e data).1
  | MCC_AST_STATEMENT_TYPE_COMPOUND_STMT c, data => by
    rw [rows_of_statement_compound]
    exact rows_of_comp_statement_refs c data
  | MCC_AST_STATEMENT_TYPE_ASSIGNMENT (MCC_AST_ASSIGNMENT_TYPE_VARIABLE i v), data => by
    obtain ⟨hv1, hv2⟩ := rows_of_expression_refs v data
    rw [rows_of_statement_assignment_variable]
    simp only [seg_refs_earlier_append, seg_refs_earlier_singleton, row_refs_below_new_row,
      Bool.and_eq_true]
    exact ⟨hv1, rfl, hv2⟩
  | MCC_AST_STATEMENT_TYPE_ASSIGNMENT (MCC_AST_ASSIGNMENT_TYPE_ARRAY i index v), data => by
    obtain ⟨hi1, hi2⟩ := rows_of_expression_refs index data
    obtain ⟨hv1, hv2⟩ := rows_of_expression_refs v (generate_ir_expression index data).2
    rw [generate_ir_expression_length] at hv1 hv2
    rw [rows_of_statement_assignment_array]
    simp only [seg_refs_earlier_append, seg_refs_earlier_singleton, row_refs_below_new_row,
      Bool.and_eq_true, List.length_append, new_arg_arr_elem, arg_rows_below]
    refine ⟨⟨hi1, hv1⟩, ?_, by rw [← Nat.add_assoc]; exact hv2⟩
    exact arg_rows_below_mono _ _ _ (by omega) hi2
  | MCC_AST_STATEMENT_TYPE_DECLARATION (MCC_AST_DECLARATION_TYPE_VARIABLE t i), data => by
    simp [rows_of_statement_declaration_variable, seg_refs_earlier]
  | MCC_AST_STATEMENT_TYPE_DECLARATION (MCC_AST_DECLARATION_TYPE_ARRAY t i n), data => by
    rw [rows_of_statement_declaration_array]
    simp [seg_refs_earlier_singleton, row_refs_below_new_row, new_arg_identifier,
      arg_rows_below, generate_arg_lit_rows_below]
  | MCC_AST_STATEMENT_TYPE_IF_ELSE_STMT c s1 s2, data => by
    obtain ⟨hc1, hc2⟩ := rows_of_expression_refs c data
    have h1 := rows_of_statement_refs s1 (after_if_jumpfalse c data)
    have h2 := rows_of_statement_refs s2 (after_if_else_label c s1 data)
    rw [after_if_jumpfalse_length] at h1
    rw [after_if_else_label_length] at h2
    rw [rows_of_statement_if_else]
    simp only [seg_refs_earlier_append, seg_refs_earlier_singleton, Bool.and_eq_true,
      List.length_append, List.length_singleton, List.length_cons, List.length_nil]
    refine ⟨⟨⟨⟨⟨hc1, ?_⟩, h1⟩, ?_⟩, ?_⟩, ?_⟩
    · simp [jumpfalse_row, row_refs_below_new_row, arg_rows_below, hc2]
    · simp [seg_refs_earlier, jump_row, label_row, row_refs_below_new_row, arg_rows_below]
    · exact seg_refs_earlier_congr _ _ _ (by omega) h2
    · simp [label_row, row_refs_below_new_row, arg_rows_below]
  | MCC_AST_STATEMENT_TYPE_IF_STMT c s1, data => by
    obtain ⟨hc1, hc2⟩ := rows_of_expression_refs c data
    have h1 := rows_of_statement_refs s1 (after_if_jumpfalse c data)
    rw [after_if_jumpfalse_length] at h1
    rw [rows_of_statement_if]
    simp only [seg_refs_earlier_append, seg_refs_earlier_singleton, Bool.and_eq_true,
      List.length_append, List.length_singleton]
    refine ⟨⟨⟨hc1, ?_⟩, h1⟩, ?_⟩
    · simp [jumpfalse_row, row_refs_below_new_row, arg_rows_below, hc2]
    · simp [label_row, row_refs_below_new_row, arg_rows_below]
  | MCC_AST_STATEMENT_TYPE_RETURN none b, data => by
    rw [rows_of_statement_return_none]
    rfl
  | MCC_AST_STATEMENT_TYPE_RETURN (some e) b, data => by
    obtain ⟨he1, he2⟩ := rows_of_expression_refs e data
    rw [rows_of_statement_return_some]
    simp only [seg_refs_earlier_append, seg_refs_earlier_singleton, row_refs_below_new_row,
      Bool.and_eq_true]
    exact ⟨he1, he2, trivial⟩
  | MCC_AST_STATEMENT_TYPE_WHILE c s1, data => by
    obtain ⟨hc1, hc2⟩ := rows_of_expression_refs c (after_while_label data)
    have h1 := rows_of_statement_refs s1 (after_while_jumpfalse c data)
    rw [after_while_label_length] at hc1 hc2
    rw [after_while_jumpfalse_length] at h1
    rw [rows_of_statement_while]
    simp only [seg_refs_earlier_append, seg_refs_earlier_singleton, Bool.and_eq_true,
      List.length_append, List.length_singleton]
    refine ⟨⟨⟨⟨?_, hc1⟩, ?_⟩, ?_⟩, ?_⟩
    · simp [label_row, row_refs_below_new_row, arg_rows_below]
    · have hc3 := arg_rows_below_congr _
        (data.rows.length + (1 + (rows_of_expression c (after_while_label data)).length)) _
        (by omega) hc2
      simp [jumpfalse_row, row_refs_below_new_row, arg_rows_below, hc3]
    · exact seg_refs_earlier_congr _ _ _ (by omega) h1
    · simp [seg_refs_earlier, jump_row, label_row, row_refs_below_new_row, arg_rows_below]
/-- The rows of a compound statement only refer to rows before themselves. -/
theorem rows_of_comp_statement_refs : ∀ (c : mcc_ast_compound_statement)
    (data : ir_generation_userdata),
    seg_refs_earlier data.rows.length (rows_of_comp_statement c data) = true
  | mcc_ast_compound_statement.null, data => by
    simp [rows_of_comp_statement_null, seg_refs_earlier]
  | mcc_ast_compound_statement.empty next, data => by
    simpa [rows_of_comp_statement_empty] using rows_of_comp_statement_refs next data
  | mcc_ast_compound_statement.node s next, data => by
    have h1 := rows_of_statement_refs s data
    have h2 := rows_of_comp_statement_refs next (generate_ir_statement s data)
    rw [generate_ir_statement_length] at h2
    rw [rows_of_comp_statement_node]
    simp only [seg_refs_earlier_append, Bool.and_eq_true]
    exact ⟨h1, h2⟩
end

theorem pop_assign_rows_refs (ps : List mcc_ast_declaration) :
    ∀ base : Nat, seg_refs_earlier base (pop_assign_rows base ps) = true := by
  induction ps with
  | nil => intro base; rfl
  | cons p rest ih =>
    intro base
    simp only [pop_assign_rows, seg_refs_earlier, Bool.and_eq_true]
    refine ⟨rfl, ?_, ih (base + 2)⟩
    simp [row_refs_below_new_row, arg_rows_below]

theorem after_parameters_length (f : mcc_ast_function_definition)
    (data : ir_generation_userdata) :
    (after_parameters f data).rows.length
      = data.rows.length + 1
        + (pop_assign_rows (data.rows.length + 1) (declared_parameters f.parameters)).length := by
  simp only [after_parameters_rows, List.length_append, List.length_singleton]

/-- Lowering a function keeps the row list one whose rows only refer to rows
before themselves. -/
theorem generate_ir_function_definition_refs (f : mcc_ast_function_definition)
    (data : ir_generation_userdata) (h : seg_refs_earlier 0 data.rows = true) :
    seg_refs_earlier 0 (generate_ir_function_definition f data).rows = true := by
  have hb := rows_of_comp_statement_refs f.compound_stmt (after_parameters f data)
  rw [after_parameters_length] at hb
  have hp := pop_assign_rows_refs (declared_parameters f.parameters) (data.rows.length + 1)
  rw [generate_ir_function_definition_eq, generate_ir_comp_statement_rows,
    after_parameters_rows]
  simp only [seg_refs_earlier_append, seg_refs_earlier_singleton, Bool.and_eq_true,
    List.length_append, List.length_singleton, Nat.zero_add]
  exact ⟨⟨⟨h, rfl⟩, hp⟩, hb⟩

theorem mcc_ir_generate_loop_refs (p : mcc_ast_program) :
    ∀ data : ir_generation_userdata, seg_refs_earlier 0 data.rows = true →
      seg_refs_earlier 0 (mcc_ir_generate_loop p data).rows = true := by
  induction p with
  | null => intro data h; exact h
  | node f next ih =>
    intro data h
    exact ih _ (generate_ir_function_definition_refs f data h)

/-- C6. In the IR that `mcc_ir_generate` returns, every row reference that the
row at position `i` carries, directly in one of its two arguments or nested as
the index of an array-element argument, refers to a position `j < i`. -/
theorem mcc_ir_generate_row_refs_earlier
    (mcc_ast_remove_built_ins modify_ast : mcc_ast_program → mcc_ast_program)
    (ast : mcc_ast_program) (i : Nat) (r : mcc_ir_row) :
    (mcc_ir_generate mcc_ast_remove_built_ins modify_ast ast)[i]? = some r →
      row_refs_below i r = true := by
  intro h
  obtain ⟨r0, hr0, _, h1, h2⟩ := number_rows_get_inv _ i r h
  have hseg := mcc_ir_generate_loop_refs (modify_ast (mcc_ast_remove_built_ins ast))
    { rows := [], label_counter := 0 } rfl
  have := seg_refs_earlier_get _ 0 i r0 hseg hr0
  simp only [Nat.zero_add] at this
  simpa [row_refs_below, h1, h2] using this

/-- C6 at row 6 of the while example, `ASSIGN i, t` with `t` the PLUS row at
position 5. -/
theorem mcc_ir_generate_row_refs_earlier_witness :
    (mcc_ir_generate id id example_while_program)[6]?
      = some (new_row (some (MCC_IR_TYPE_IDENTIFIER example_i)) (some (MCC_IR_TYPE_ROW 5))
          MCC_IR_INSTR_ASSIGN) ∧
    row_refs_below 6 (new_row (some (MCC_IR_TYPE_IDENTIFIER example_i))
      (some (MCC_IR_TYPE_ROW 5)) MCC_IR_INSTR_ASSIGN) = true :=
  ⟨by decide, mcc_ir_generate_row_refs_earlier id id example_while_program 6 _ (by decide)⟩

/-! ### Label numbers -/

theorem is_label_row_label_row (k l : Nat) : is_label_row (label_row k) l = decide (k = l) := by
  simp [is_label_row, label_row, new_row]

theorem is_label_row_jump_row (k l : Nat) : is_label_row (jump_row k) l = false := by
  simp [is_label_row, jump_row, new_row]

theorem is_label_row_jumpfalse_row (c : mcc_ir_arg) (k l : Nat) :
    is_label_row (jumpfalse_row c k) l = false := by
  simp [is_label_row, jumpfalse_row, new_row]

theorem jumps_to_label_row (k l : Nat) : jumps_to (label_row k) l = false := by
  simp [jumps_to, jump_target, jumpfalse_target, label_row, new_row]

theorem jumps_to_jump_row (k l : Nat) : jumps_to (jump_row k) l = decide (k = l) := by
  simp [jumps_to, jump_target, jumpfalse_target, jump_row, new_row]

theorem jumps_to_jumpfalse_row (c : mcc_ir_arg) (k l : Nat) :
    jumps_to (jumpfalse_row c k) l = decide (k = l) := by
  simp [jumps_to, jump_target, jumpfalse_target, jumpfalse_row, new_row]

theorem row_labels_label_row (k : Nat) : row_labels (label_row k) = [k] := rfl

theorem row_labels_jump_row (k : Nat) : row_labels (jump_row k) = [k] := rfl

theorem row_labels_jumpfalse_row (c : mcc_ir_arg) (k : Nat) :
    row_labels (jumpfalse_row c k) = arg_labels c ++ [k] := rfl

/-- A row that is no LABEL, JUMP or JUMPFALSE neither defines nor targets a
label. -/
theorem plain_row_no_label (r : mcc_ir_row) (h1 : r.instr ≠ MCC_IR_INSTR_LABEL)
    (h2 : r.instr ≠ MCC_IR_INSTR_JUMP) (h3 : r.instr ≠ MCC_IR_INSTR_JUMPFALSE) (l : Nat) :
    is_label_row r l = false ∧ jumps_to r l = false := by
  refine ⟨by simp [is_label_row, h1], ?_⟩
  have e1 : jump_target r = none := by
    unfold jump_target
    split
    · rename_i h _; exact absurd h h2
    · rfl
  have e2 : jumpfalse_target r = none := by
    unfold jumpfalse_target
    split
    · rename_i h _; exact absurd h h3
    · rfl
  simp [jumps_to, e1, e2]

theorem in_range_self (k l : Nat) : in_range k k l = 0 := by
  unfold in_range
  split
  · omega
  · rfl

/-- Rows that carry no label and are no LABEL, JUMP or JUMPFALSE keep the label
discipline, whatever the counter. -/
theorem labels_ok_plain (k : Nat) (seg : List mcc_ir_row)
    (h : ∀ r, r ∈ seg → row_labels r = [] ∧ r.instr ≠ MCC_IR_INSTR_LABEL ∧
      r.instr ≠ MCC_IR_INSTR_JUMP ∧ r.instr ≠ MCC_IR_INSTR_JUMPFALSE) :
    labels_ok k k seg := by
  refine ⟨?_, ?_, ?_⟩
  · intro l
    rw [in_range_self, List.countP_eq_zero]
    intro r hr
    obtain ⟨_, h1, h2, h3⟩ := h r hr
    simp [(plain_row_no_label r h1 h2 h3 l).1]
  · intro l
    rw [in_range_self, List.countP_eq_zero]
    intro r hr
    obtain ⟨_, h1, h2, h3⟩ := h r hr
    simp [(plain_row_no_label r h1 h2 h3 l).2]
  · intro r hr l hl
    rw [(h r hr).1] at hl
    simp at hl

theorem expression_instr_plain (i : mcc_ir_instruction) (h : expression_instr i = true) :
    i ≠ MCC_IR_INSTR_LABEL ∧ i ≠ MCC_IR_INSTR_JUMP ∧ i ≠ MCC_IR_INSTR_JUMPFALSE ∧
      i ≠ MCC_IR_INSTR_FUNC_LABEL := by
  cases i <;> first | exact ⟨by decide, by decide, by decide, by decide⟩
                    | exact absurd h (by decide)

theorem labels_ok_expression (k : Nat) (e : mcc_ast_expression) (data : ir_generation_userdata) :
    labels_ok k k (rows_of_expression e data) := by
  apply labels_ok_plain
  intro r hr
  obtain ⟨h1, h2⟩ := (rows_of_expression_kind e data).2 r hr
  obtain ⟨a, b, c, _⟩ := expression_instr_plain _ h1
  exact ⟨h2, a, b, c⟩

theorem labels_ok_nil (k : Nat) : labels_ok k k [] :=
  labels_ok_plain k [] (by simp)

/-- Two segments lowered one after the other keep the label discipline. -/
theorem labels_ok_append (k m k' : Nat) (a b : List mcc_ir_row) (h1 : k ≤ m) (h2 : m ≤ k')
    (ha : labels_ok k m a) (hb : labels_ok m k' b) : labels_ok k k' (a ++ b) := by
  obtain ⟨ha1, ha2, ha3⟩ := ha
  obtain ⟨hb1, hb2, hb3⟩ := hb
  have harith : ∀ l, in_range k m l + in_range m k' l = in_range k k' l := by
    intro l
    unfold in_range
    split <;> split <;> split <;> omega
  refine ⟨?_, ?_, ?_⟩
  · intro l; rw [List.countP_append, ha1, hb1, harith]
  · intro l; rw [List.countP_append, ha2, hb2, harith]
  · intro r hr l hl
    rcases List.mem_append.mp hr with h | h
    · have := ha3 r h l hl; omega
    · have := hb3 r h l hl; omega

/-- The rows of an if statement keep the label discipline. -/
theorem labels_ok_if (k k1 : Nat) (rc rs : List mcc_ir_row) (c : mcc_ir_arg)
    (hk : k + 1 ≤ k1) (hc : labels_ok k k rc) (hcl : arg_labels c = [])
    (hs : labels_ok (k + 1) k1 rs) :
    labels_ok k k1 (rc ++ [jumpfalse_row c k] ++ rs ++ [label_row k]) := by
  obtain ⟨hc1, hc2, hc3⟩ := hc
  obtain ⟨hs1, hs2, hs3⟩ := hs
  refine ⟨?_, ?_, ?_⟩
  · intro l
    simp only [List.countP_append, List.countP_cons, List.countP_nil, hc1, hs1, in_range_self,
      is_label_row_jumpfalse_row, is_label_row_label_row]
    simp only [decide_eq_true_eq, Bool.false_eq_true, if_false, in_range]
    split_ifs <;> omega
  · intro l
    simp only [List.countP_append, List.countP_cons, List.countP_nil, hc2, hs2, in_range_self,
      jumps_to_jumpfalse_row, jumps_to_label_row]
    simp only [decide_eq_true_eq, Bool.false_eq_true, if_false, in_range]
    split_ifs <;> omega
  · intro r hr l hl
    simp only [List.mem_append, List.mem_singleton] at hr
    rcases hr with ((h | h) | h) | h
    · have := hc3 r h l hl; omega
    · subst h
      simp [row_labels_jumpfalse_row, hcl] at hl
      omega
    · have := hs3 r h l hl; omega
    · subst h
      simp [row_labels_label_row] at hl
      omega

/-- The rows of a while statement keep the label discipline. -/
theorem labels_ok_while (k k1 : Nat) (rc rs : List mcc_ir_row) (c : mcc_ir_arg)
    (hk : k + 2 ≤ k1) (hc : labels_ok (k + 1) (k + 1) rc) (hcl : arg_labels c = [])
    (hs : labels_ok (k + 2) k1 rs) :
    labels_ok k k1
      ([label_row k] ++ rc ++ [jumpfalse_row c (k + 1)] ++ rs
        ++ [jump_row k, label_row (k + 1)]) := by
  obtain ⟨hc1, hc2, hc3⟩ := hc
  obtain ⟨hs1, hs2, hs3⟩ := hs
  refine ⟨?_, ?_, ?_⟩
  · intro l
    simp only [List.countP_append, List.countP_cons, List.countP_nil, hc1, hs1, in_range_self,
      is_label_row_jumpfalse_row, is_label_row_label_row, is_label_row_jump_row]
    simp only [decide_eq_true_eq, Bool.false_eq_true, if_false, in_range]
    split_ifs <;> omega
  · intro l
    simp only [List.countP_append, List.countP_cons, List.countP_nil, hc2, hs2, in_range_self,
      jumps_to_jumpfalse_row, jumps_to_label_row, jumps_to_jump_row]
    simp only [decide_eq_true_eq, Bool.false_eq_true, if_false, in_range]
    split_ifs <;> omega
  · intro r hr l hl
    simp only [List.mem_append, List.mem_singleton, List.mem_cons, List.mem_nil_iff,
      or_false] at hr
    rcases hr with (((h | h) | h) | h) | h | h
    · subst h
      simp [row_labels_label_row] at hl
      omega
    · have := hc3 r h l hl; omega
    · subst h
      simp [row_labels_jumpfalse_row, hcl] at hl
      omega
    · have := hs3 r h l hl; omega
    · subst h
      simp [row_labels_jump_row] at hl
      omega
    · subst h
      simp [row_labels_label_row] at hl
      omega

/-- The rows of an if-else statement keep the label discipline. -/
theorem labels_ok_if_else (k k1 k2 : Nat) (rc rs1 rs2 : List mcc_ir_row) (c : mcc_ir_arg)
    (hk1 : k + 1 ≤ k1) (hk2 : k1 + 1 ≤ k2) (hc : labels_ok k k rc) (hcl : arg_labels c = [])
    (hs1 : labels_ok (k + 1) k1 rs1) (hs2 : labels_ok (k1 + 1) k2 rs2) :
    labels_ok k k2
      (rc ++ [jumpfalse_row c k] ++ rs1 ++ [jump_row k1, label_row k] ++ rs2
        ++ [label_row k1]) := by
  obtain ⟨hc1, hc2, hc3⟩ := hc
  obtain ⟨hs11, hs12, hs13⟩ := hs1
  obtain ⟨hs21, hs22, hs23⟩ := hs2
  refine ⟨?_, ?_, ?_⟩
  · intro l
    simp only [List.countP_append, List.countP_cons, List.countP_nil, hc1, hs11, hs21,
      in_range_self, is_label_row_jumpfalse_row, is_label_row_label_row, is_label_row_jump_row]
    simp only [decide_eq_true_eq, Bool.false_eq_true, if_false, in_range]
    split_ifs <;> omega
  · intro l
    simp only [List.countP_append, List.countP_cons, List.countP_nil, hc2, hs12, hs22,
      in_range_self, jumps_to_jumpfalse_row, jumps_to_label_row, jumps_to_jump_row]
    simp only [decide_eq_true_eq, Bool.false_eq_true, if_false, in_range]
    split_ifs <;> omega
  · intro r hr l hl
    simp only [List.mem_append, List.mem_singleton, List.mem_cons, List.mem_nil_iff,
      or_false] at hr
    rcases hr with ((((h | h) | h) | h | h) | h) | h
    · have := hc3 r h l hl; omega
    · subst h
      simp [row_labels_jumpfalse_row, hcl] at hl
      omega
    · have := hs13 r h l hl; omega
    · subst h
      simp [row_labels_jump_row] at hl
      omega
    · subst h
      simp [row_labels_label_row] at hl
      omega
    · have := hs23 r h l hl; omega
    · subst h
      simp [row_labels_label_row] at hl
      omega

theorem generate_ir_statement_while_counter (c : mcc_ast_expression) (s : mcc_ast_statement)
    (data : ir_generation_userdata) :
    (generate_ir_statement (MCC_AST_STATEMENT_TYPE_WHILE c s) data).label_counter
      = (generate_ir_statement s (after_while_jumpfalse c data)).label_counter := by
  rw [generate_ir_statement_while_eq]; rfl

theorem generate_ir_statement_if_counter (c : mcc_ast_expression) (s : mcc_ast_statement)
    (data : ir_generation_userdata) :
    (generate_ir_statement (MCC_AST_STATEMENT_TYPE_IF_STMT c s) data).label_counter
      = (generate_ir_statement s (after_if_jumpfalse c data)).label_counter := by
  rw [generate_ir_statement_if_eq]; rfl

theorem generate_ir_statement_if_else_counter (c : mcc_ast_expression)
    (s1 s2 : mcc_ast_statement) (data : ir_generation_userdata) :
    (generate_ir_statement (MCC_AST_STATEMENT_TYPE_IF_ELSE_STMT c s1 s2) data).label_counter
      = (generate_ir_statement s2 (after_if_else_label c s1 data)).label_counter := by
  rw [generate_ir_statement_if_else_eq]; rfl

/-- A single row that carries no label and is no LABEL, JUMP or JUMPFALSE,
behind the rows of expressions, keeps the label discipline. -/
theorem labels_ok_expressions_row (k : Nat) (seg : List mcc_ir_row) (r : mcc_ir_row)
    (hseg : labels_ok k k seg) (hl : row_labels r = [])
    (h1 : r.instr ≠ MCC_IR_INSTR_LABEL) (h2 : r.instr ≠ MCC_IR_INSTR_JUMP)
    (h3 : r.instr ≠ MCC_IR_INSTR_JUMPFALSE) : labels_ok k k (seg ++ [r]) := by
  apply labels_ok_append k k k _ _ (Nat.le_refl _) (Nat.le_refl _) hseg
  apply labels_ok_plain
  intro x hx
  simp only [List.mem_singleton] at hx
  subst hx
  exact ⟨hl, h1, h2, h3⟩

mutual
/-- The rows of a statement keep the label discipline, for the label counter
before and after the statement. -/
theorem rows_of_statement_labels : ∀ (s : mcc_ast_statement) (data : ir_generation_userdata),
    labels_ok data.label_counter (generate_ir_statement s data).label_counter
      (rows_of_statement s data)
  | MCC_AST_STATEMENT_TYPE_EXPRESSION e, data => by
    rw [rows_of_statement_expression]
    simp only [generate_ir_statement, generate_ir_expression_label_counter]
    exact labels_ok_expression _ e data
  | MCC_AST_STATEMENT_TYPE_COMPOUND_STMT c, data => by
    rw [rows_of_statement_compound]
    simp only [generate_ir_statement]
    exact rows_of_comp_statement_labels c data
  | MCC_AST_STATEMENT_TYPE_ASSIGNMENT (MCC_AST_ASSIGNMENT_TYPE_VARIABLE i v), data => by
    rw [rows_of_statement_assignment_variable]
    simp only [generate_ir_statement, generate_ir_assignment, append_row_label_counter,
      generate_ir_expression_label_counter]
    apply labels_ok_expressions_row _ _ _ (labels_ok_expression _ v data)
    · simp [row_labels_new_row, new_arg_identifier, arg_labels,
        (rows_of_expression_kind v data).1]
    all_goals (simp [new_row])
  | MCC_AST_STATEMENT_TYPE_ASSIGNMENT (MCC_AST_ASSIGNMENT_TYPE_ARRAY i index v), data => by
    rw [rows_of_statement_assignment_array]
    simp only [generate_ir_statement, generate_ir_assignment, append_row_label_counter,
      generate_ir_expression_label_counter]
    apply labels_ok_expressions_row
    · exact labels_ok_append _ _ _ _ _ (Nat.le_refl _) (Nat.le_refl _)
        (labels_ok_expression _ index data) (labels_ok_expression _ v _)
    · simp [row_labels_new_row, new_arg_arr_elem, arg_labels,
        (rows_of_expression_kind index data).1, (rows_of_expression_kind v _).1]
    all_goals (simp [new_row])
  | MCC_AST_STATEMENT_TYPE_DECLARATION (MCC_AST_DECLARATION_TYPE_VARIABLE t i), data => by
    rw [rows_of_statement_declaration_variable]
    exact labels_ok_nil _
  | MCC_AST_STATEMENT_TYPE_DECLARATION (MCC_AST_DECLARATION_TYPE_ARRAY t i n), data => by
    rw [rows_of_statement_declaration_array]
    simp only [generate_ir_statement, generate_ir_declaration, append_row_label_counter]
    have := labels_ok_expressions_row data.label_counter []
      (new_row (some (new_arg_identifier i)) (some (generate_arg_lit n)) MCC_IR_INSTR_ARRAY)
      (labels_ok_nil _)
      (by simp [row_labels_new_row, new_arg_identifier, arg_labels, generate_arg_lit_labels])
      (by simp [new_row]) (by simp [new_row]) (by simp [new_row])
    simpa using this
  | MCC_AST_STATEMENT_TYPE_IF_ELSE_STMT c s1 s2, data => by
    have h1 := rows_of_statement_labels s1 (after_if_jumpfalse c data)
    have h2 := rows_of_statement_labels s2 (after_if_else_label c s1 data)
    have m1 := generate_ir_statement_label_counter_le s1 (after_if_jumpfalse c data)
    have m2 := generate_ir_statement_label_counter_le s2 (after_if_else_label c s1 data)
    rw [after_if_jumpfalse_counter] at h1 m1
    rw [after_if_else_label_counter] at h2 m2
    rw [rows_of_statement_if_else, generate_ir_statement_if_else_counter]
    exact labels_ok_if_else _ _ _ _ _ _ _ m1 m2 (labels_ok_expression _ c data)
      (rows_of_expression_kind c data).1 h1 h2
  | MCC_AST_STATEMENT_TYPE_IF_STMT c s1, data => by
    have h1 := rows_of_statement_labels s1 (after_if_jumpfalse c data)
    have m1 := generate_ir_statement_label_counter_le s1 (after_if_jumpfalse c data)
    rw [after_if_jumpfalse_counter] at h1 m1
    rw [rows_of_statement_if, generate_ir_statement_if_counter]
    exact labels_ok_if _ _ _ _ _ m1 (labels_ok_expression _ c data)
      (rows_of_expression_kind c data).1 h1
  | MCC_AST_STATEMENT_TYPE_RETURN none b, data => by
    rw [rows_of_statement_return_none]
    simp only [generate_ir_statement, generate_ir_statement_return, append_row_label_counter]
    have := labels_ok_expressions_row data.label_counter []
      (new_row none none MCC_IR_INSTR_RETURN) (labels_ok_nil _) rfl
      (by simp [new_row]) (by simp [new_row]) (by simp [new_row])
    simpa using this
  | MCC_AST_STATEMENT_TYPE_RETURN (some e) b, data => by
    rw [rows_of_statement_return_some]
    simp only [generate_ir_statement, generate_ir_statement_return, append_row_label_counter,
      generate_ir_expression_label_counter]
    apply labels_ok_expressions_row _ _ _ (labels_ok_expression _ e data)
    · simp [row_labels_new_row, (rows_of_expression_kind e data).1]
    all_goals (simp [new_row])
  | MCC_AST_STATEMENT_TYPE_WHILE c s1, data => by
    have h1 := rows_of_statement_labels s1 (after_while_jumpfalse c data)
    have m1 := generate_ir_statement_label_counter_le s1 (after_while_jumpfalse c data)
    rw [after_while_jumpfalse_counter] at h1 m1
    rw [rows_of_statement_while, generate_ir_statement_while_counter]
    exact labels_ok_while _ _ _ _ _ m1 (labels_ok_expression _ c _)
      (rows_of_expression_kind c _).1 h1
/-- The rows of a compound statement keep the label discipline. -/
theorem rows_of_comp_statement_labels : ∀ (c : mcc_ast_compound_statement)
    (data : ir_generation_userdata),
    labels_ok data.label_counter (generate_ir_comp_statement c data).label_counter
      (rows_of_comp_statement c data)
  | mcc_ast_compound_statement.null, data => by
    rw [rows_of_comp_statement_null]
    exact labels_ok_nil _
  | mcc_ast_compound_statement.empty next, data => by
    rw [rows_of_comp_statement_empty]
    simp only [generate_ir_comp_statement]
    exact rows_of_comp_statement_labels next data
  | mcc_ast_compound_statement.node s next, data => by
    rw [rows_of_comp_statement_node]
    simp only [generate_ir_comp_statement]
    exact labels_ok_append _ _ _ _ _ (generate_ir_statement_label_counter_le s data)
      (generate_ir_comp_statement_label_counter_le next _)
      (rows_of_statement_labels s data) (rows_of_comp_statement_labels next _)
end

theorem pop_assign_rows_plain (ps : List mcc_ast_declaration) :
    ∀ (base : Nat) (r : mcc_ir_row), r ∈ pop_assign_rows base ps →
      row_labels r = [] ∧ (r.instr = MCC_IR_INSTR_POP ∨ r.instr = MCC_IR_INSTR_ASSIGN) := by
  induction ps with
  | nil => intro base r h; simp [pop_assign_rows] at h
  | cons p rest ih =>
    intro base r h
    simp only [pop_assign_rows, List.mem_cons] at h
    rcases h with h | h | h
    · subst h; exact ⟨rfl, Or.inl rfl⟩
    · subst h; exact ⟨rfl, Or.inr rfl⟩
    · exact ih (base + 2) r h

/-- Lowering a function keeps the label discipline of the whole row list. -/
theorem generate_ir_function_definition_labels (f : mcc_ast_function_definition)
    (data : ir_generation_userdata) (h : labels_ok 0 data.label_counter data.rows) :
    labels_ok 0 (generate_ir_function_definition f data).label_counter
        (generate_ir_function_definition f data).rows ∧
      data.label_counter ≤ (generate_ir_function_definition f data).label_counter := by
  have hb := rows_of_comp_statement_labels f.compound_stmt (after_parameters f data)
  have hm := generate_ir_comp_statement_label_counter_le f.compound_stmt
    (after_parameters f data)
  rw [after_parameters_label_counter] at hb hm
  refine ⟨?_, hm⟩
  rw [generate_ir_function_definition_eq, generate_ir_comp_statement_rows,
    after_parameters_rows]
  apply labels_ok_append 0 data.label_counter _ _ _ (Nat.zero_le _) hm _ hb
  rw [List.append_assoc]
  apply labels_ok_append 0 data.label_counter _ _ _ (Nat.zero_le _) (Nat.le_refl _) h
  apply labels_ok_plain
  intro r hr
  simp only [List.mem_append, List.mem_singleton] at hr
  rcases hr with hr | hr
  · subst hr
    exact ⟨rfl, by simp [func_label_row, new_row], by simp [func_label_row, new_row],
      by simp [func_label_row, new_row]⟩
  · obtain ⟨h1, h2⟩ := pop_assign_rows_plain _ _ r hr
    rcases h2 with h2 | h2 <;> exact ⟨h1, by simp [h2], by simp [h2], by simp [h2]⟩

theorem mcc_ir_generate_loop_labels (p : mcc_ast_program) :
    ∀ data : ir_generation_userdata, labels_ok 0 data.label_counter data.rows →
      labels_ok 0 (mcc_ir_generate_loop p data).label_counter (mcc_ir_generate_loop p data).rows := by
  induction p with
  | null => intro data h; exact h
  | node f next ih =>
    intro data h
    exact ih _ (generate_ir_function_definition_labels f data h).1

/-- A count over the rows that does not look at `row_no` is the same before and
after the numbering. -/
theorem number_rows_loop_countP (p : mcc_ir_row → Bool)
    (hp : ∀ (r : mcc_ir_row) (n : Nat), p { r with row_no := n } = p r)
    (rows : List mcc_ir_row) :
    ∀ i : Nat, (number_rows_loop rows i).countP p = rows.countP p := by
  induction rows with
  | nil => intro i; rfl
  | cons head rest ih =>
    intro i
    by_cases h : produces_temporary head.instr = true
    · simp only [number_rows_loop, h, if_true, List.countP_cons, ih, hp]
    · have e : number_rows_loop (head :: rest) i = head :: number_rows_loop rest i := by
        simp [number_rows_loop, h]
      rw [e, List.countP_cons, List.countP_cons, ih]

/-- C4. Label allocation hands out the counter value and advances the counter
by one, so distinct allocations get distinct numbers: with `K` the number of
labels allocated while a program is lowered, a label number occurs in the IR
that `mcc_ir_generate` returns only if it is below `K`, and each number below
`K` is the label of exactly one LABEL row and the label argument of exactly one
JUMP or JUMPFALSE row. -/
theorem mcc_ir_generate_labels_unique
    (mcc_ast_remove_built_ins modify_ast : mcc_ast_program → mcc_ast_program)
    (ast : mcc_ast_program) :
    (∀ data : ir_generation_userdata,
      (new_arg_label data).1 = MCC_IR_TYPE_LABEL data.label_counter ∧
      (new_arg_label data).2.label_counter = data.label_counter + 1) ∧
    ∀ l : Nat,
      ((∃ r, r ∈ mcc_ir_generate mcc_ast_remove_built_ins modify_ast ast ∧ l ∈ row_labels r) →
        l < (mcc_ir_generate_loop (modify_ast (mcc_ast_remove_built_ins ast))
              { rows := [], label_counter := 0 }).label_counter) ∧
      (l < (mcc_ir_generate_loop (modify_ast (mcc_ast_remove_built_ins ast))
              { rows := [], label_counter := 0 }).label_counter →
        (mcc_ir_generate mcc_ast_remove_built_ins modify_ast ast).countP
            (fun r => is_label_row r l) = 1 ∧
        (mcc_ir_generate mcc_ast_remove_built_ins modify_ast ast).countP
            (fun r => jumps_to r l) = 1) := by
  refine ⟨fun data => ⟨rfl, rfl⟩, ?_⟩
  intro l
  obtain ⟨h1, h2, h3⟩ := mcc_ir_generate_loop_labels
    (modify_ast (mcc_ast_remove_built_ins ast)) { rows := [], label_counter := 0 }
    (labels_ok_nil 0)
  refine ⟨?_, ?_⟩
  · rintro ⟨r, hr, hl⟩
    obtain ⟨n, hn⟩ := List.mem_iff_getElem?.mp hr
    obtain ⟨r0, hr0, _, e1, e2⟩ := number_rows_get_inv _ n r hn
    have hl0 : l ∈ row_labels r0 := by
      simpa [row_labels, e1, e2] using hl
    exact (h3 r0 (List.getElem?_mem hr0) l hl0).2
  · intro hl
    have c1 := number_rows_loop_countP (fun r => is_label_row r l) (fun r n => rfl)
      (mcc_ir_generate_loop (modify_ast (mcc_ast_remove_built_ins ast))
        { rows := [], label_counter := 0 }).rows 0
    have c2 := number_rows_loop_countP (fun r => jumps_to r l) (fun r n => rfl)
      (mcc_ir_generate_loop (modify_ast (mcc_ast_remove_built_ins ast))
        { rows := [], label_counter := 0 }).rows 0
    have e : in_range 0 (mcc_ir_generate_loop (modify_ast (mcc_ast_remove_built_ins ast))
        { rows := [], label_counter := 0 }).label_counter l = 1 := by
      simp [in_range, hl]
    refine ⟨?_, ?_⟩
    · show (number_rows _).countP _ = 1
      rw [number_rows, c1, h1 l, e]
    · show (number_rows _).countP _ = 1
      rw [number_rows, c2, h2 l, e]

/-- C4 at the while example: two labels are allocated, and each of `L0` and
`L1` has one LABEL row and one jump. -/
theorem mcc_ir_generate_labels_unique_witness :
    (mcc_ir_generate_loop example_while_program example_empty_data).label_counter = 2 ∧
    (example_while_ir.countP (fun r => is_label_row r 0) = 1 ∧
      example_while_ir.countP (fun r => jumps_to r 0) = 1) ∧
    (example_while_ir.countP (fun r => is_label_row r 1) = 1 ∧
      example_while_ir.countP (fun r => jumps_to r 1) = 1) :=
  ⟨by decide,
    ((mcc_ir_generate_labels_unique id id example_while_program).2 0).2 (by decide),
    ((mcc_ir_generate_labels_unique id id example_while_program).2 1).2 (by decide)⟩

/-! ### Jump targets -/

theorem jumpfalse_resolved_append (a : List mcc_ir_row) :
    ∀ b : List mcc_ir_row, jumpfalse_resolved a = true → jumpfalse_resolved b = true →
      jumpfalse_resolved (a ++ b) = true := by
  induction a with
  | nil => intro b _ hb; exact hb
  | cons r rest ih =>
    intro b ha hb
    simp only [jumpfalse_resolved, Bool.and_eq_true] at ha
    simp only [List.cons_append, jumpfalse_resolved, Bool.and_eq_true]
    refine ⟨?_, ih b ha.2 hb⟩
    cases ht : jumpfalse_target r with
    | none => rfl
    | some l =>
      have h1 := ha.1
      simp only [ht] at h1
      show (rest ++ b).any (fun x => is_label_row x l) = true
      rw [List.any_append, h1]
      rfl

theorem jumpfalse_resolved_plain (seg : List mcc_ir_row)
    (h : ∀ r, r ∈ seg → jumpfalse_target r = none) : jumpfalse_resolved seg = true := by
  induction seg with
  | nil => rfl
  | cons r rest ih =>
    simp only [jumpfalse_resolved, Bool.and_eq_true]
    refine ⟨?_, ih (fun x hx => h x (List.mem_cons_of_mem _ hx))⟩
    rw [h r (List.mem_cons_self _ _)]

/-- A `JUMPFALSE` row of a resolved segment has its `LABEL` row further
down. -/
theorem jumpfalse_resolved_get (seg : List mcc_ir_row) :
    ∀ (i : Nat) (r : mcc_ir_row) (l : Nat), jumpfalse_resolved seg = true → seg[i]? = some r →
      jumpfalse_target r = some l →
      ∃ j, i < j ∧ (seg[j]?).map (fun x => is_label_row x l) = some true := by
  induction seg with
  | nil => intro i r l _ h; simp at h
  | cons x rest ih =>
    intro i r l hseg hi ht
    simp only [jumpfalse_resolved, Bool.and_eq_true] at hseg
    cases i with
    | zero =>
      simp only [List.getElem?_cons_zero, Option.some.injEq] at hi
      subst hi
      have h1 := hseg.1
      rw [ht] at h1
      obtain ⟨y, hy, hyl⟩ := List.any_eq_true.mp h1
      obtain ⟨n, hn⟩ := List.mem_iff_getElem?.mp hy
      exact ⟨n + 1, by omega, by simp [hn, hyl]⟩
    | succ i =>
      simp only [List.getElem?_cons_succ] at hi
      obtain ⟨j, hj, hjl⟩ := ih i r l hseg.2 hi ht
      exact ⟨j + 1, by omega, by simpa using hjl⟩

theorem jump_target_none_of_instr (r : mcc_ir_row) (h : r.instr ≠ MCC_IR_INSTR_JUMP) :
    jump_target r = none := by
  unfold jump_target
  split
  · rename_i h1 _; exact absurd h1 h
  · rfl

theorem jumpfalse_target_none_of_instr (r : mcc_ir_row) (h : r.instr ≠ MCC_IR_INSTR_JUMPFALSE) :
    jumpfalse_target r = none := by
  unfold jumpfalse_target
  split
  · rename_i h1 _; exact absurd h1 h
  · rfl

/-- Rows that are no JUMP, JUMPFALSE or FUNC_LABEL keep the jump discipline. -/
theorem jumps_closed_plain (seg : List mcc_ir_row)
    (h : ∀ r, r ∈ seg → r.instr ≠ MCC_IR_INSTR_JUMP ∧ r.instr ≠ MCC_IR_INSTR_JUMPFALSE ∧
      r.instr ≠ MCC_IR_INSTR_FUNC_LABEL) : jumps_closed seg := by
  refine ⟨jumpfalse_resolved_plain seg
    (fun r hr => jumpfalse_target_none_of_instr r (h r hr).2.1), ?_, fun r hr => (h r hr).2.2⟩
  intro r hr l hl
  rw [jump_target_none_of_instr r (h r hr).1] at hl
  exact absurd hl (by simp)

theorem jumps_closed_append (a b : List mcc_ir_row) (ha : jumps_closed a)
    (hb : jumps_closed b) : jumps_closed (a ++ b) := by
  obtain ⟨ha1, ha2, ha3⟩ := ha
  obtain ⟨hb1, hb2, hb3⟩ := hb
  refine ⟨jumpfalse_resolved_append a b ha1 hb1, ?_, ?_⟩
  · intro r hr l hl
    rcases List.mem_append.mp hr with h | h
    · obtain ⟨x, hx, hxl⟩ := ha2 r h l hl
      exact ⟨x, List.mem_append_left _ hx, hxl⟩
    · obtain ⟨x, hx, hxl⟩ := hb2 r h l hl
      exact ⟨x, List.mem_append_right _ hx, hxl⟩
  · intro r hr
    rcases List.mem_append.mp hr with h | h
    · exact ha3 r h
    · exact hb3 r h

theorem jumps_closed_expression (e : mcc_ast_expression) (data : ir_generation_userdata) :
    jumps_closed (rows_of_expression e data) := by
  apply jumps_closed_plain
  intro r hr
  obtain ⟨_, b, c, d⟩ := expression_instr_plain _ ((rows_of_expression_kind e data).2 r hr).1
  exact ⟨b, c, d⟩

theorem jumps_closed_nil : jumps_closed [] :=
  jumps_closed_plain [] (by simp)

theorem jumps_closed_singleton (r : mcc_ir_row) (h1 : r.instr ≠ MCC_IR_INSTR_JUMP)
    (h2 : r.instr ≠ MCC_IR_INSTR_JUMPFALSE) (h3 : r.instr ≠ MCC_IR_INSTR_FUNC_LABEL) :
    jumps_closed [r] := by
  apply jumps_closed_plain
  intro x hx
  simp only [List.mem_singleton] at hx
  subst hx
  exact ⟨h1, h2, h3⟩

theorem jumpfalse_target_jumpfalse_row (c : mcc_ir_arg) (k : Nat) :
    jumpfalse_target (jumpfalse_row c k) = some k := rfl

theorem jump_target_jumpfalse_row (c : mcc_ir_arg) (k : Nat) :
    jump_target (jumpfalse_row c k) = none := rfl

theorem jump_target_jump_row (k : Nat) : jump_target (jump_row k) = some k := rfl

theorem jump_target_label_row (k : Nat) : jump_target (label_row k) = none := rfl

theorem jumpfalse_target_label_row (k : Nat) : jumpfalse_target (label_row k) = none := rfl

theorem jumpfalse_target_jump_row (k : Nat) : jumpfalse_target (jump_row k) = none := rfl

theorem jumpfalse_resolved_cons_jumpfalse (c : mcc_ir_arg) (k : Nat) (rest : List mcc_ir_row)
    (h1 : rest.any (fun x => is_label_row x k) = true) (h2 : jumpfalse_resolved rest = true) :
    jumpfalse_resolved (jumpfalse_row c k :: rest) = true := by
  simp only [jumpfalse_resolved, jumpfalse_target_jumpfalse_row, Bool.and_eq_true]
  exact ⟨h1, h2⟩

/-- The rows of an if statement keep the jump discipline. -/
theorem jumps_closed_if (c : mcc_ir_arg) (k : Nat) (rc rs : List mcc_ir_row)
    (hc : jumps_closed rc) (hs : jumps_closed rs) :
    jumps_closed (rc ++ [jumpfalse_row c k] ++ rs ++ [label_row k]) := by
  obtain ⟨hc1, hc2, hc3⟩ := hc
  obtain ⟨hs1, hs2, hs3⟩ := hs
  refine ⟨?_, ?_, ?_⟩
  · have e : rc ++ [jumpfalse_row c k] ++ rs ++ [label_row k]
        = rc ++ (jumpfalse_row c k :: (rs ++ [label_row k])) := by simp
    rw [e]
    apply jumpfalse_resolved_append _ _ hc1
    apply jumpfalse_resolved_cons_jumpfalse
    · simp [List.any_append, is_label_row_label_row]
    · exact jumpfalse_resolved_append _ _ hs1 rfl
  · intro r hr l hl
    simp only [List.mem_append, List.mem_singleton] at hr
    rcases hr with ((h | h) | h) | h
    · obtain ⟨x, hx, hxl⟩ := hc2 r h l hl
      exact ⟨x, by simp [hx], hxl⟩
    · subst h
      rw [jump_target_jumpfalse_row] at hl
      exact absurd hl (by simp)
    · obtain ⟨x, hx, hxl⟩ := hs2 r h l hl
      exact ⟨x, by simp [hx], hxl⟩
    · subst h
      rw [jump_target_label_row] at hl
      exact absurd hl (by simp)
  · intro r hr
    simp only [List.mem_append, List.mem_singleton] at hr
    rcases hr with ((h | h) | h) | h
    · exact hc3 r h
    · subst h; simp [jumpfalse_row, new_row]
    · exact hs3 r h
    · subst h; simp [label_row, new_row]

/-- The rows of an if-else statement keep the jump discipline. -/
theorem jumps_closed_if_else (c : mcc_ir_arg) (k k1 : Nat) (rc rs1 rs2 : List mcc_ir_row)
    (hc : jumps_closed rc) (hs1 : jumps_closed rs1) (hs2 : jumps_closed rs2) :
    jumps_closed
      (rc ++ [jumpfalse_row c k] ++ rs1 ++ [jump_row k1, label_row k] ++ rs2
        ++ [label_row k1]) := by
  obtain ⟨hc1, hc2, hc3⟩ := hc
  obtain ⟨hs11, hs12, hs13⟩ := hs1
  obtain ⟨hs21, hs22, hs23⟩ := hs2
  refine ⟨?_, ?_, ?_⟩
  · have e : rc ++ [jumpfalse_row c k] ++ rs1 ++ [jump_row k1, label_row k] ++ rs2
          ++ [label_row k1]
        = rc ++ (jumpfalse_row c k ::
            (rs1 ++ ([jump_row k1, label_row k] ++ (rs2 ++ [label_row k1])))) := by simp
    rw [e]
    apply jumpfalse_resolved_append _ _ hc1
    apply jumpfalse_resolved_cons_jumpfalse
    · simp [List.any_append, is_label_row_label_row]
    · apply jumpfalse_resolved_append _ _ hs11
      apply jumpfalse_resolved_append [jump_row k1, label_row k] _ rfl
      exact jumpfalse_resolved_append _ _ hs21 rfl
  · intro r hr l hl
    simp only [List.mem_append, List.mem_singleton, List.mem_cons, List.mem_nil_iff,
      or_false] at hr
    rcases hr with ((((h | h) | h) | h | h) | h) | h
    · obtain ⟨x, hx, hxl⟩ := hc2 r h l hl
      exact ⟨x, by simp [hx], hxl⟩
    · subst h
      rw [jump_target_jumpfalse_row] at hl
      exact absurd hl (by simp)
    · obtain ⟨x, hx, hxl⟩ := hs12 r h l hl
      exact ⟨x, by simp [hx], hxl⟩
    · subst h
      rw [jump_target_jump_row] at hl
      simp only [Option.some.injEq] at hl
      subst hl
      exact ⟨label_row k1, by simp, by simp [is_label_row_label_row]⟩
    · subst h
      rw [jump_target_label_row] at hl
      exact absurd hl (by simp)
    · obtain ⟨x, hx, hxl⟩ := hs22 r h l hl
      exact ⟨x, by simp [hx], hxl⟩
    · subst h
      rw [jump_target_label_row] at hl
      exact absurd hl (by simp)
  · intro r hr
    simp only [List.mem_append, List.mem_singleton, List.mem_cons, List.mem_nil_iff,
      or_false] at hr
    rcases hr with ((((h | h) | h) | h | h) | h) | h
    · exact hc3 r h
    · subst h; simp [jumpfalse_row, new_row]
    · exact hs13 r h
    · subst h; simp [jump_row, new_row]
    · subst h; simp [label_row, new_row]
    · exact hs23 r h
    · subst h; simp [label_row, new_row]

/-- The rows of a while statement keep the jump discipline: the `JUMP` that
closes the loop has its `LABEL` row at the head of the loop. -/
theorem jumps_closed_while (c : mcc_ir_arg) (k : Nat) (rc rs : List mcc_ir_row)
    (hc : jumps_closed rc) (hs : jumps_closed rs) :
    jumps_closed
      ([label_row k] ++ rc ++ [jumpfalse_row c (k + 1)] ++ rs
        ++ [jump_row k, label_row (k + 1)]) := by
  obtain ⟨hc1, hc2, hc3⟩ := hc
  obtain ⟨hs1, hs2, hs3⟩ := hs
  refine ⟨?_, ?_, ?_⟩
  · have e : [label_row k] ++ rc ++ [jumpfalse_row c (k + 1)] ++ rs
          ++ [jump_row k, label_row (k + 1)]
        = [label_row k] ++ (rc ++ (jumpfalse_row c (k + 1) ::
            (rs ++ [jump_row k, label_row (k + 1)]))) := by simp
    rw [e]
    apply jumpfalse_resolved_append [label_row k] _ rfl
    apply jumpfalse_resolved_append _ _ hc1
    apply jumpfalse_resolved_cons_jumpfalse
    · simp [List.any_append, is_label_row_label_row]
    · exact jumpfalse_resolved_append _ _ hs1 rfl
  · intro r hr l hl
    simp only [List.mem_append, List.mem_singleton, List.mem_cons, List.mem_nil_iff,
      or_false] at hr
    rcases hr with (((h | h) | h) | h) | h | h
    · subst h
      rw [jump_target_label_row] at hl
      exact absurd hl (by simp)
    · obtain ⟨x, hx, hxl⟩ := hc2 r h l hl
      exact ⟨x, by simp [hx], hxl⟩
    · subst h
      rw [jump_target_jumpfalse_row] at hl
      exact absurd hl (by simp)
    · obtain ⟨x, hx, hxl⟩ := hs2 r h l hl
      exact ⟨x, by simp [hx], hxl⟩
    · subst h
      rw [jump_target_jump_row] at hl
      simp only [Option.some.injEq] at hl
      subst hl
      exact ⟨label_row k, by simp, by simp [is_label_row_label_row]⟩
    · subst h
      rw [jump_target_label_row] at hl
      exact absurd hl (by simp)
  · intro r hr
    simp only [List.mem_append, List.mem_singleton, List.mem_cons, List.mem_nil_iff,
      or_false] at hr
    rcases hr with (((h | h) | h) | h) | h | h
    · subst h; simp [label_row, new_row]
    · exact hc3 r h
    · subst h; simp [jumpfalse_row, new_row]
    · exact hs3 r h
    · subst h; simp [jump_row, new_row]
    · subst h; simp [label_row, new_row]

mutual
/-- The rows of a statement keep the jump discipline. -/
theorem rows_of_statement_jumps : ∀ (s : mcc_ast_statement) (data : ir_generation_userdata),
    jumps_closed (rows_of_statement s data)
  | MCC_AST_STATEMENT_TYPE_EXPRESSION e, data => by
    rw [rows_of_statement_expression]
    exact jumps_closed_expression e data
  | MCC_AST_STATEMENT_TYPE_COMPOUND_STMT c, data => by
    rw [rows_of_statement_compound]
    exact rows_of_comp_statement_jumps c data
  | MCC_AST_STATEMENT_TYPE_ASSIGNMENT (MCC_AST_ASSIGNMENT_TYPE_VARIABLE i v), data => by
    rw [rows_of_statement_assignment_variable]
    exact jumps_closed_append _ _ (jumps_closed_expression v data)
      (jumps_closed_singleton _ (by simp [new_row]) (by simp [new_row]) (by simp [new_row]))
  | MCC_AST_STATEMENT_TYPE_ASSIGNMENT (MCC_AST_ASSIGNMENT_TYPE_ARRAY i index v), data => by
    rw [rows_of_statement_assignment_array]
    exact jumps_closed_append _ _
      (jumps_closed_append _ _ (jumps_closed_expression index data)
        (jumps_closed_expression v _))
      (jumps_closed_singleton _ (by simp [new_row]) (by simp [new_row]) (by simp [new_row]))
  | MCC_AST_STATEMENT_TYPE_DECLARATION (MCC_AST_DECLARATION_TYPE_VARIABLE t i), data => by
    rw [rows_of_statement_declaration_variable]
    exact jumps_closed_nil
  | MCC_AST_STATEMENT_TYPE_DECLARATION (MCC_AST_DECLARATION_TYPE_ARRAY t i n), data => by
    rw [rows_of_statement_declaration_array]
    exact jumps_closed_singleton _ (by simp [new_row]) (by simp [new_row]) (by simp [new_row])
  | MCC_AST_STATEMENT_TYPE_IF_ELSE_STMT c s1 s2, data => by
    rw [rows_of_statement_if_else]
    exact jumps_closed_if_else _ _ _ _ _ _ (jumps_closed_expression c data)
      (rows_of_statement_jumps s1 _) (rows_of_statement_jumps s2 _)
  | MCC_AST_STATEMENT_TYPE_IF_STMT c s1, data => by
    rw [rows_of_statement_if]
    exact jumps_closed_if _ _ _ _ (jumps_closed_expression c data)
      (rows_of_statement_jumps s1 _)
  | MCC_AST_STATEMENT_TYPE_RETURN none b, data => by
    rw [rows_of_statement_return_none]
    exact jumps_closed_singleton _ (by simp [new_row]) (by simp [new_row]) (by simp [new_row])
  | MCC_AST_STATEMENT_TYPE_RETURN (some e) b, data => by
    rw [rows_of_statement_return_some]
    exact jumps_closed_append _ _ (jumps_closed_expression e data)
      (jumps_closed_singleton _ (by simp [new_row]) (by simp [new_row]) (by simp [new_row]))
  | MCC_AST_STATEMENT_TYPE_WHILE c s1, data => by
    rw [rows_of_statement_while]
    exact jumps_closed_while _ _ _ _ (jumps_closed_expression c _)
      (rows_of_statement_jumps s1 _)
/-- The rows of a compound statement keep the jump discipline. -/
theorem rows_of_comp_statement_jumps : ∀ (c : mcc_ast_compound_statement)
    (data : ir_generation_userdata), jumps_closed (rows_of_comp_statement c data)
  | mcc_ast_compound_statement.null, data => by
    rw [rows_of_comp_statement_null]
    exact jumps_closed_nil
  | mcc_ast_compound_statement.empty next, data => by
    rw [rows_of_comp_statement_empty]
    exact rows_of_comp_statement_jumps next data
  | mcc_ast_compound_statement.node s next, data => by
    rw [rows_of_comp_statement_node]
    exact jumps_closed_append _ _ (rows_of_statement_jumps s data)
      (rows_of_comp_statement_jumps next _)
end

/-! ### The direction of JUMP rows -/

theorem jump_resolved_plain (seg : List mcc_ir_row) :
    ∀ (before : List mcc_ir_row), (∀ r, r ∈ seg → jump_target r = none) →
      jump_resolved before seg = true := by
  induction seg with
  | nil => intro _ _; rfl
  | cons r rest ih =>
    intro before h
    simp only [jump_resolved, Bool.and_eq_true]
    refine ⟨?_, ih _ (fun x hx => h x (List.mem_cons_of_mem _ hx))⟩
    rw [h r (List.mem_cons_self _ _)]

theorem jump_resolved_append (a : List mcc_ir_row) :
    ∀ (before b : List mcc_ir_row), jump_resolved before a = true →
      jump_resolved (before ++ a) b = true → jump_resolved before (a ++ b) = true := by
  induction a with
  | nil => intro before b _ hb; simpa using hb
  | cons r rest ih =>
    intro before b ha hb
    simp only [jump_resolved, Bool.and_eq_true] at ha
    simp only [List.cons_append, jump_resolved, Bool.and_eq_true]
    refine ⟨?_, ih (before ++ [r]) b ha.2 (by simpa using hb)⟩
    cases ht : jump_target r with
    | none => rfl
    | some l =>
      have h1 := ha.1
      simp only [ht, Bool.or_eq_true] at h1
      show ((rest ++ b).any (fun x => is_label_row x l) || closes_while before l (rest ++ b))
        = true
      rcases h1 with h1 | h1
      · rw [List.any_append, h1]
        rfl
      · cases rest with
        | nil => simp [closes_while] at h1
        | cons x rest' =>
          have h2 : closes_while before l (x :: rest' ++ b) = true := by
            simpa [closes_while] using h1
          rw [h2, Bool.or_true]

theorem jump_resolved_expression (e : mcc_ast_expression) (data : ir_generation_userdata)
    (before : List mcc_ir_row) : jump_resolved before (rows_of_expression e data) = true := by
  apply jump_resolved_plain
  intro r hr
  obtain ⟨_, b, _, _⟩ := expression_instr_plain _ ((rows_of_expression_kind e data).2 r hr).1
  exact jump_target_none_of_instr r b

theorem jump_resolved_singleton (r : mcc_ir_row) (before : List mcc_ir_row)
    (h : r.instr ≠ MCC_IR_INSTR_JUMP) : jump_resolved before [r] = true := by
  apply jump_resolved_plain
  intro x hx
  simp only [List.mem_singleton] at hx
  subst hx
  exact jump_target_none_of_instr _ h

theorem jump_resolved_label_row (k : Nat) (before : List mcc_ir_row) :
    jump_resolved before [label_row k] = true := rfl

theorem jump_resolved_jumpfalse_row (c : mcc_ir_arg) (k : Nat) (before : List mcc_ir_row) :
    jump_resolved before [jumpfalse_row c k] = true := rfl

/-- Behind a row `LABEL l` that is followed by a `JUMPFALSE` to `l + 1`, the search that
`closes_while` makes above a jump succeeds, whatever rows stand in front. -/
theorem dropWhile_any_of_mem (p q : mcc_ir_row → Bool) (x y : mcc_ir_row)
    (Q : List mcc_ir_row) (hx : p x = false) (hy : y ∈ Q) (hq : q y = true) :
    ∀ (P : List mcc_ir_row), ((P ++ x :: Q).dropWhile p).any q = true := by
  intro P
  induction P with
  | nil =>
    simp only [List.nil_append, List.dropWhile_cons, hx]
    exact List.any_eq_true.mpr ⟨y, List.mem_cons_of_mem _ hy, hq⟩
  | cons z P ih =>
    simp only [List.cons_append, List.dropWhile_cons]
    cases hz : p z with
    | true => simpa using ih
    | false =>
      simp only [Bool.false_eq_true, if_false]
      exact List.any_eq_true.mpr ⟨y, by simp [hy], hq⟩

/-- What the search of `closes_while` finds: a row on which the first test fails, and at or
behind it a row on which the second test holds. -/
theorem dropWhile_any_get (p q : mcc_ir_row → Bool) :
    ∀ (L : List mcc_ir_row), (L.dropWhile p).any q = true →
      ∃ (j k : Nat) (x y : mcc_ir_row), j ≤ k ∧ L[j]? = some x ∧ p x = false ∧
        L[k]? = some y ∧ q y = true := by
  intro L
  induction L with
  | nil => intro h; simp at h
  | cons z L ih =>
    intro h
    simp only [List.dropWhile_cons] at h
    cases hz : p z with
    | true =>
      simp only [hz, if_true] at h
      obtain ⟨j, k, x, y, hjk, hj, hx, hk, hy⟩ := ih h
      exact ⟨j + 1, k + 1, x, y, by omega, by simpa using hj, hx, by simpa using hk, hy⟩
    | false =>
      simp only [hz, Bool.false_eq_true, if_false] at h
      obtain ⟨y, hy, hq⟩ := List.any_eq_true.mp h
      obtain ⟨k, hk⟩ := List.mem_iff_getElem?.mp hy
      exact ⟨0, k, z, y, by omega, by simp, hz, hk, hq⟩

/-- The rows of an if statement keep the direction of jumps. -/
theorem jump_resolved_if (c : mcc_ir_arg) (k : Nat) (rc rs : List mcc_ir_row)
    (hc : ∀ before, jump_resolved before rc = true)
    (hs : ∀ before, jump_resolved before rs = true) (before : List mcc_ir_row) :
    jump_resolved before (rc ++ [jumpfalse_row c k] ++ rs ++ [label_row k]) = true := by
  exact jump_resolved_append _ _ _
    (jump_resolved_append _ _ _
      (jump_resolved_append _ _ _ (hc _) (jump_resolved_jumpfalse_row _ _ _)) (hs _))
    (jump_resolved_label_row _ _)

/-- The rows of an if-else statement keep the direction of jumps: the `JUMP` in front of the
else branch has its `LABEL` row at the end of the statement. -/
theorem jump_resolved_if_else (c : mcc_ir_arg) (k k1 : Nat) (rc rs1 rs2 : List mcc_ir_row)
    (hc : ∀ before, jump_resolved before rc = true)
    (hs1 : ∀ before, jump_resolved before rs1 = true)
    (hs2 : ∀ before, jump_resolved before rs2 = true) (before : List mcc_ir_row) :
    jump_resolved before
      (rc ++ [jumpfalse_row c k] ++ rs1 ++ [jump_row k1, label_row k] ++ rs2
        ++ [label_row k1]) = true := by
  have e : rc ++ [jumpfalse_row c k] ++ rs1 ++ [jump_row k1, label_row k] ++ rs2
        ++ [label_row k1]
      = (rc ++ [jumpfalse_row c k] ++ rs1)
        ++ (jump_row k1 :: ([label_row k] ++ rs2 ++ [label_row k1])) := by simp
  rw [e]
  apply jump_resolved_append
  · exact jump_resolved_append _ _ _
      (jump_resolved_append _ _ _ (hc _) (jump_resolved_jumpfalse_row _ _ _)) (hs1 _)
  · have hrest : jump_resolved (before ++ (rc ++ [jumpfalse_row c k] ++ rs1) ++ [jump_row k1])
        ([label_row k] ++ rs2 ++ [label_row k1]) = true :=
      jump_resolved_append _ _ _
        (jump_resolved_append _ _ _ (jump_resolved_label_row _ _) (hs2 _))
        (jump_resolved_label_row _ _)
    have hany : ([label_row k] ++ rs2 ++ [label_row k1]).any
        (fun x => is_label_row x k1) = true := by
      simp [List.any_append, is_label_row_label_row]
    show ((match jump_target (jump_row k1) with
      | none => true
      | some label =>
        ([label_row k] ++ rs2 ++ [label_row k1]).any (fun x => is_label_row x label) ||
          closes_while (before ++ (rc ++ [jumpfalse_row c k] ++ rs1)) label
            ([label_row k] ++ rs2 ++ [label_row k1])) &&
      jump_resolved (before ++ (rc ++ [jumpfalse_row c k] ++ rs1) ++ [jump_row k1])
        ([label_row k] ++ rs2 ++ [label_row k1])) = true
    rw [hrest, jump_target_jump_row]
    simp only [hany, Bool.true_or, Bool.and_true]

/-- The rows of a while statement keep the direction of jumps: the `JUMP` at the end closes
the loop. -/
theorem jump_resolved_while (c : mcc_ir_arg) (k : Nat) (rc rs : List mcc_ir_row)
    (hc : ∀ before, jump_resolved before rc = true)
    (hs : ∀ before, jump_resolved before rs = true) (before : List mcc_ir_row) :
    jump_resolved before
      ([label_row k] ++ rc ++ [jumpfalse_row c (k + 1)] ++ rs
        ++ [jump_row k, label_row (k + 1)]) = true := by
  apply jump_resolved_append
  · exact jump_resolved_append _ _ _
      (jump_resolved_append _ _ _
        (jump_resolved_append _ _ _ (jump_resolved_label_row _ _) (hc _))
        (jump_resolved_jumpfalse_row _ _ _)) (hs _)
  · have hcl : closes_while (before ++ ([label_row k] ++ rc ++ [jumpfalse_row c (k + 1)] ++ rs))
        k [label_row (k + 1)] = true := ?_
    · show ((match jump_target (jump_row k) with
        | none => true
        | some label =>
          [label_row (k + 1)].any (fun x => is_label_row x label) ||
            closes_while (before ++ ([label_row k] ++ rc ++ [jumpfalse_row c (k + 1)] ++ rs))
              label [label_row (k + 1)]) &&
        jump_resolved (before ++ ([label_row k] ++ rc ++ [jumpfalse_row c (k + 1)] ++ rs)
          ++ [jump_row k]) [label_row (k + 1)]) = true
      rw [jump_target_jump_row, jump_resolved_label_row]
      simp only [hcl, Bool.or_true, Bool.and_true]
    simp only [closes_while, Bool.and_eq_true]
    refine ⟨?_, by simp [is_label_row_label_row]⟩
    have e : before ++ ([label_row k] ++ rc ++ [jumpfalse_row c (k + 1)] ++ rs)
        = before ++ label_row k :: (rc ++ [jumpfalse_row c (k + 1)] ++ rs) := by simp
    rw [e]
    exact dropWhile_any_of_mem _ _ (label_row k) (jumpfalse_row c (k + 1)) _
      (by simp [is_label_row_label_row]) (by simp)
      (by simp [jumpfalse_target_jumpfalse_row]) before

mutual
/-- The rows of a statement keep the direction of jumps. -/
theorem rows_of_statement_jump_resolved : ∀ (s : mcc_ast_statement)
    (data : ir_generation_userdata) (before : List mcc_ir_row),
    jump_resolved before (rows_of_statement s data) = true
  | MCC_AST_STATEMENT_TYPE_EXPRESSION e, data, before => by
    rw [rows_of_statement_expression]
    exact jump_resolved_expression e data before
  | MCC_AST_STATEMENT_TYPE_COMPOUND_STMT c, data, before => by
    rw [rows_of_statement_compound]
    exact rows_of_comp_statement_jump_resolved c data before
  | MCC_AST_STATEMENT_TYPE_ASSIGNMENT (MCC_AST_ASSIGNMENT_TYPE_VARIABLE i v), data, before => by
    rw [rows_of_statement_assignment_variable]
    exact jump_resolved_append _ _ _ (jump_resolved_expression v data _)
      (jump_resolved_singleton _ _ (by simp [new_row]))
  | MCC_AST_STATEMENT_TYPE_ASSIGNMENT (MCC_AST_ASSIGNMENT_TYPE_ARRAY i index v), data,
      before => by
    rw [rows_of_statement_assignment_array]
    exact jump_resolved_append _ _ _
      (jump_resolved_append _ _ _ (jump_resolved_expression index data _)
        (jump_resolved_expression v _ _))
      (jump_resolved_singleton _ _ (by simp [new_row]))
  | MCC_AST_STATEMENT_TYPE_DECLARATION (MCC_AST_DECLARATION_TYPE_VARIABLE t i), data, before => by
    rw [rows_of_statement_declaration_variable]
    rfl
  | MCC_AST_STATEMENT_TYPE_DECLARATION (MCC_AST_DECLARATION_TYPE_ARRAY t i n), data, before => by
    rw [rows_of_statement_declaration_array]
    exact jump_resolved_singleton _ _ (by simp [new_row])
  | MCC_AST_STATEMENT_TYPE_IF_ELSE_STMT c s1 s2, data, before => by
    rw [rows_of_statement_if_else]
    exact jump_resolved_if_else _ _ _ _ _ _ (jump_resolved_expression c data)
      (rows_of_statement_jump_resolved s1 _) (rows_of_statement_jump_resolved s2 _) before
  | MCC_AST_STATEMENT_TYPE_IF_STMT c s1, data, before => by
    rw [rows_of_statement_if]
    exact jump_resolved_if _ _ _ _ (jump_resolved_expression c data)
      (rows_of_statement_jump_resolved s1 _) before
  | MCC_AST_STATEMENT_TYPE_RETURN none b, data, before => by
    rw [rows_of_statement_return_none]
    exact jump_resolved_singleton _ _ (by simp [new_row])
  | MCC_AST_STATEMENT_TYPE_RETURN (some e) b, data, before => by
    rw [rows_of_statement_return_some]
    exact jump_resolved_append _ _ _ (jump_resolved_expression e data _)
      (jump_resolved_singleton _ _ (by simp [new_row]))
  | MCC_AST_STATEMENT_TYPE_WHILE c s1, data, before => by
    rw [rows_of_statement_while]
    exact jump_resolved_while _ _ _ _ (jump_resolved_expression c _)
      (rows_of_statement_jump_resolved s1 _) before
/-- The rows of a compound statement keep the direction of jumps. -/
theorem rows_of_comp_statement_jump_resolved : ∀ (c : mcc_ast_compound_statement)
    (data : ir_generation_userdata) (before : List mcc_ir_row),
    jump_resolved before (rows_of_comp_statement c data) = true
  | mcc_ast_compound_statement.null, data, before => by
    rw [rows_of_comp_statement_null]
    rfl
  | mcc_ast_compound_statement.empty next, data, before => by
    rw [rows_of_comp_statement_empty]
    exact rows_of_comp_statement_jump_resolved next data before
  | mcc_ast_compound_statement.node s next, data, before => by
    rw [rows_of_comp_statement_node]
    exact jump_resolved_append _ _ _ (rows_of_statement_jump_resolved s data _)
      (rows_of_comp_statement_jump_resolved next _ _)
end

/-- A `JUMP` row of a segment that keeps the direction of jumps has its `LABEL` row further
down, or it closes a while loop among the rows above and the rows of the segment. -/
theorem jump_resolved_get (seg : List mcc_ir_row) :
    ∀ (before : List mcc_ir_row) (i : Nat) (r : mcc_ir_row) (l : Nat),
      jump_resolved before seg = true → seg[i]? = some r → jump_target r = some l →
      (∃ j, i < j ∧ (seg[j]?).map (fun x => is_label_row x l) = some true) ∨
        closes_while (before ++ seg.take i) l (seg.drop (i + 1)) = true := by
  induction seg with
  | nil => intro _ i r l _ h; simp at h
  | cons x rest ih =>
    intro before i r l hseg hi ht
    simp only [jump_resolved, Bool.and_eq_true] at hseg
    cases i with
    | zero =>
      simp only [List.getElem?_cons_zero, Option.some.injEq] at hi
      subst hi
      have h1 := hseg.1
      simp only [ht, Bool.or_eq_true] at h1
      rcases h1 with h1 | h1
      · left
        obtain ⟨y, hy, hyl⟩ := List.any_eq_true.mp h1
        obtain ⟨n, hn⟩ := List.mem_iff_getElem?.mp hy
        exact ⟨n + 1, by omega, by simp [hn, hyl]⟩
      · right
        simpa using h1
    | succ i =>
      simp only [List.getElem?_cons_succ] at hi
      rcases ih (before ++ [x]) i r l hseg.2 hi ht with ⟨j, hj, hjl⟩ | h
      · left
        exact ⟨j + 1, by omega, by simpa using hjl⟩
      · right
        simpa using h

/-- The rows that `closes_while` finds around a jump at position `i` of a function body. -/
theorem closes_while_get (body : List mcc_ir_row) (i l : Nat)
    (h : closes_while (body.take i) l (body.drop (i + 1)) = true) :
    ∃ j k, j < k ∧ k < i ∧ (body[j]?).map (fun x => is_label_row x l) = some true ∧
      (body[k]?).bind jumpfalse_target = some (l + 1) ∧
      (body[i + 1]?).map (fun x => is_label_row x (l + 1)) = some true := by
  simp only [closes_while, Bool.and_eq_true] at h
  obtain ⟨h1, h2⟩ := h
  obtain ⟨j, k, x, y, hjk, hj, hx, hk, hy⟩ := dropWhile_any_get _ _ _ h1
  have hx' : is_label_row x l = true := by simpa using hx
  have hy' : jumpfalse_target y = some (l + 1) := by simpa using hy
  have hki : k < i := by
    have := (List.getElem?_eq_some.mp hk).1
    simp only [List.length_take] at this
    omega
  have hji : j < i := by omega
  have hj' : body[j]? = some x := by
    rw [List.getElem?_take_of_lt hji] at hj
    exact hj
  have hk' : body[k]? = some y := by
    rw [List.getElem?_take_of_lt hki] at hk
    exact hk
  have hne : j ≠ k := by
    intro e
    subst e
    rw [hj'] at hk'
    cases hk'
    have h3 : x.instr = MCC_IR_INSTR_LABEL := by
      simp only [is_label_row, Bool.decide_and, Bool.and_eq_true, decide_eq_true_eq] at hx'
      exact hx'.1
    rw [jumpfalse_target_none_of_instr x (by rw [h3]; decide)] at hy'
    exact absurd hy' (by simp)
  refine ⟨j, k, by omega, hki, by simp [hj', hx'], by simp [hk', hy'], ?_⟩
  cases hd : body.drop (i + 1) with
  | nil => simp [hd] at h2
  | cons z rest =>
    rw [hd] at h2
    have hz : body[i + 1]? = some z := by
      have := congrArg (fun L => L[0]?) hd
      simpa using this
    have h3 : is_label_row z (l + 1) = true := h2
    simp [hz, h3]

theorem instr_at_append_left (A X : List mcc_ir_row) (m : Nat) (h : m < A.length) :
    instr_at (A ++ X) m = instr_at A m := by
  simp [instr_at, List.getElem?_append_left h]

theorem get_append_func_label_right (A B : List mcc_ir_row) (x : mcc_ir_row) (m : Nat) :
    (A ++ x :: B)[A.length + 1 + m]? = B[m]? := by
  rw [List.getElem?_append_right (by omega)]
  have e : A.length + 1 + m - A.length = m + 1 := by omega
  rw [e, List.getElem?_cons_succ]

/-- Behind the `FUNC_LABEL` row that opens a function there is no `FUNC_LABEL`
row among the rows of its body. -/
theorem instr_at_body (A B : List mcc_ir_row) (x : mcc_ir_row) (m : Nat)
    (hB : ∀ r, r ∈ B → r.instr ≠ MCC_IR_INSTR_FUNC_LABEL) (hm : A.length + 1 ≤ m) :
    instr_at (A ++ x :: B) m ≠ some MCC_IR_INSTR_FUNC_LABEL := by
  have e : m = A.length + 1 + (m - A.length - 1) := by omega
  rw [e, instr_at, get_append_func_label_right]
  cases hget : B[m - A.length - 1]? with
  | none => simp
  | some y =>
    simp only [Option.map_some', ne_eq, Option.some.injEq]
    exact hB y (List.getElem?_mem hget)

theorem get_append_left_of_map {β : Type} (A X : List mcc_ir_row) (j : Nat)
    (f : mcc_ir_row → β) (v : β) (h : (A[j]?).map f = some v) : (A ++ X)[j]? = A[j]? := by
  cases hg : A[j]? with
  | none => rw [hg] at h; simp at h
  | some y => rw [List.getElem?_append_left (List.getElem?_eq_some.mp hg).1, hg]

theorem get_append_left_of_bind {β : Type} (A X : List mcc_ir_row) (j : Nat)
    (f : mcc_ir_row → Option β) (v : β) (h : (A[j]?).bind f = some v) :
    (A ++ X)[j]? = A[j]? := by
  cases hg : A[j]? with
  | none => rw [hg] at h; simp at h
  | some y => rw [List.getElem?_append_left (List.getElem?_eq_some.mp hg).1, hg]

/-- Appending a function, its `FUNC_LABEL` row followed by a body that keeps the
jump discipline and the direction of jumps, keeps the jump discipline of the whole list. -/
theorem jumps_within_function_append (A B : List mcc_ir_row) (name : String)
    (hA : jumps_within_function A) (hB : jumps_closed B)
    (hJ : jump_resolved [] B = true) :
    jumps_within_function (A ++ func_label_row name :: B) := by
  obtain ⟨hB1, _, hB3⟩ := hB
  intro i r l hi
  rcases Nat.lt_trichotomy i A.length with hlt | heq | hgt
  · rw [List.getElem?_append_left hlt] at hi
    obtain ⟨h1, h2⟩ := hA i r l hi
    refine ⟨?_, ?_⟩
    · intro ht
      obtain ⟨j, hj, hjl, hbetween⟩ := h1 ht
      have hjA : j < A.length := by
        cases hg : A[j]? with
        | none => rw [hg] at hjl; simp at hjl
        | some y => exact (List.getElem?_eq_some.mp hg).1
      refine ⟨j, hj, by rw [List.getElem?_append_left hjA]; exact hjl, ?_⟩
      intro m hm1 hm2
      rw [instr_at_append_left _ _ _ (by omega)]
      exact hbetween m hm1 hm2
    · intro ht
      obtain ⟨j, hjl, hbetween, hdir⟩ := h2 ht
      have hjA : j < A.length := by
        cases hg : A[j]? with
        | none => rw [hg] at hjl; simp at hjl
        | some y => exact (List.getElem?_eq_some.mp hg).1
      refine ⟨j, by rw [List.getElem?_append_left hjA]; exact hjl, ?_, ?_⟩
      · intro m hm1 hm2
        rw [instr_at_append_left _ _ _ (by omega)]
        exact hbetween m hm1 hm2
      · rcases hdir with hdir | ⟨hji, ⟨k, hjk, hki, hk⟩, hnext⟩
        · exact Or.inl hdir
        · refine Or.inr ⟨hji, ⟨k, hjk, hki, ?_⟩, ?_⟩
          · rw [get_append_left_of_bind _ _ _ _ _ hk]
            exact hk
          · rw [get_append_left_of_map _ _ _ _ _ hnext]
            exact hnext
  · subst heq
    rw [List.getElem?_append_right (Nat.le_refl _)] at hi
    simp only [Nat.sub_self, List.getElem?_cons_zero, Option.some.injEq] at hi
    subst hi
    exact ⟨fun ht => absurd ht (by simp [jumpfalse_target, func_label_row, new_row]),
      fun ht => absurd ht (by simp [jump_target, func_label_row, new_row])⟩
  · have e : i = A.length + 1 + (i - A.length - 1) := by omega
    rw [e, get_append_func_label_right] at hi
    refine ⟨?_, ?_⟩
    · intro ht
      obtain ⟨j, hj, hjl⟩ := jumpfalse_resolved_get B _ r l hB1 hi ht
      refine ⟨A.length + 1 + j, by omega, by rw [get_append_func_label_right]; exact hjl, ?_⟩
      intro m hm1 _
      exact instr_at_body A B _ m hB3 (by omega)
    · intro ht
      rcases jump_resolved_get B [] _ r l hJ hi ht with ⟨j, hj, hjl⟩ | hcl
      · refine ⟨A.length + 1 + j, by rw [get_append_func_label_right]; exact hjl, ?_,
          Or.inl (by omega)⟩
        intro m hm1 _
        exact instr_at_body A B _ m hB3 (by omega)
      · rw [List.nil_append] at hcl
        obtain ⟨j, k, hjk, hki, hjl, hk, hnext⟩ := closes_while_get B _ l hcl
        refine ⟨A.length + 1 + j, by rw [get_append_func_label_right]; exact hjl, ?_,
          Or.inr ⟨by omega, ⟨A.length + 1 + k, by omega, by omega, ?_⟩, ?_⟩⟩
        · intro m hm1 _
          exact instr_at_body A B _ m hB3 (by omega)
        · rw [get_append_func_label_right]
          exact hk
        · have e2 : i + 1 = A.length + 1 + (i - A.length - 1 + 1) := by omega
          rw [e2, get_append_func_label_right]
          exact hnext

theorem jumps_closed_pop_assign (ps : List mcc_ast_declaration) (base : Nat) :
    jumps_closed (pop_assign_rows base ps) := by
  apply jumps_closed_plain
  intro r hr
  obtain ⟨_, h⟩ := pop_assign_rows_plain ps base r hr
  rcases h with h | h <;> simp [h]

theorem jump_resolved_pop_assign (ps : List mcc_ast_declaration) (base : Nat)
    (before : List mcc_ir_row) : jump_resolved before (pop_assign_rows base ps) = true := by
  apply jump_resolved_plain
  intro r hr
  obtain ⟨_, h⟩ := pop_assign_rows_plain ps base r hr
  apply jump_target_none_of_instr
  rcases h with h | h <;> simp [h]

theorem generate_ir_function_definition_jumps (f : mcc_ast_function_definition)
    (data : ir_generation_userdata) (h : jumps_within_function data.rows) :
    jumps_within_function (generate_ir_function_definition f data).rows := by
  rw [generate_ir_function_definition_eq, generate_ir_comp_statement_rows,
    after_parameters_rows]
  have hb := jumps_closed_append _ _
    (jumps_closed_pop_assign (declared_parameters f.parameters) (data.rows.length + 1))
    (rows_of_comp_statement_jumps f.compound_stmt (after_parameters f data))
  have hj : jump_resolved []
      (pop_assign_rows (data.rows.length + 1) (declared_parameters f.parameters)
        ++ rows_of_comp_statement f.compound_stmt (after_parameters f data)) = true :=
    jump_resolved_append _ _ _ (jump_resolved_pop_assign _ _ _)
      (rows_of_comp_statement_jump_resolved _ _ _)
  have := jumps_within_function_append data.rows _ f.identifier.identifier_name h hb hj
  simpa [List.append_assoc] using this

theorem mcc_ir_generate_loop_jumps (p : mcc_ast_program) :
    ∀ data : ir_generation_userdata, jumps_within_function data.rows →
      jumps_within_function (mcc_ir_generate_loop p data).rows := by
  induction p with
  | null => intro data h; exact h
  | node f next ih =>
    intro data h
    exact ih _ (generate_ir_function_definition_jumps f data h)

theorem number_rows_get (rows : List mcc_ir_row) (i : Nat) (r : mcc_ir_row)
    (h : rows[i]? = some r) :
    ∃ r', (number_rows rows)[i]? = some r' ∧ r'.instr = r.instr ∧ r'.arg1 = r.arg1 ∧
      r'.arg2 = r.arg2 :=
  ⟨_, number_rows_loop_get rows 0 i r h, rfl, rfl, rfl⟩

theorem instr_at_number_rows (rows : List mcc_ir_row) (m : Nat) :
    instr_at (number_rows rows) m = instr_at rows m := by
  unfold instr_at
  cases h : rows[m]? with
  | none =>
    have : (number_rows rows)[m]? = none := by
      apply List.getElem?_eq_none
      have := List.getElem?_eq_none_iff.mp h
      rw [number_rows, number_rows_loop_length]
      exact this
    rw [this]
  | some r =>
    obtain ⟨r', h1, h2, _⟩ := number_rows_get rows m r h
    rw [h1]; simp [h2]

theorem is_label_row_number_rows (rows : List mcc_ir_row) (j l : Nat)
    (h : (rows[j]?).map (fun x => is_label_row x l) = some true) :
    ((number_rows rows)[j]?).map (fun x => is_label_row x l) = some true := by
  cases hg : rows[j]? with
  | none => rw [hg] at h; simp at h
  | some r =>
    obtain ⟨r', h1, h2, h3, _⟩ := number_rows_get rows j r hg
    rw [hg] at h
    rw [h1]
    simpa [is_label_row, h2, h3] using h

theorem jumpfalse_target_number_rows (rows : List mcc_ir_row) (k l : Nat)
    (h : (rows[k]?).bind jumpfalse_target = some l) :
    ((number_rows rows)[k]?).bind jumpfalse_target = some l := by
  cases hg : rows[k]? with
  | none => rw [hg] at h; simp at h
  | some r =>
    obtain ⟨r', h1, h2, _, h4⟩ := number_rows_get rows k r hg
    rw [hg] at h
    rw [h1]
    simpa [jumpfalse_target, h2, h4] using h

/-- The numbering keeps the jump discipline. -/
theorem jumps_within_function_number_rows (rows : List mcc_ir_row)
    (h : jumps_within_function rows) : jumps_within_function (number_rows rows) := by
  intro i r l hi
  obtain ⟨r0, hr0, e0, e1, e2⟩ := number_rows_get_inv rows i r hi
  obtain ⟨h1, h2⟩ := h i r0 l hr0
  refine ⟨?_, ?_⟩
  · intro ht
    have ht0 : jumpfalse_target r0 = some l := by
      simpa [jumpfalse_target, e0, e2] using ht
    obtain ⟨j, hj, hjl, hbetween⟩ := h1 ht0
    refine ⟨j, hj, is_label_row_number_rows rows j l hjl, ?_⟩
    intro m hm1 hm2
    rw [instr_at_number_rows]
    exact hbetween m hm1 hm2
  · intro ht
    have ht0 : jump_target r0 = some l := by
      simpa [jump_target, e0, e1] using ht
    obtain ⟨j, hjl, hbetween, hdir⟩ := h2 ht0
    refine ⟨j, is_label_row_number_rows rows j l hjl, ?_, ?_⟩
    · intro m hm1 hm2
      rw [instr_at_number_rows]
      exact hbetween m hm1 hm2
    · rcases hdir with hdir | ⟨hji, ⟨k, hjk, hki, hk⟩, hnext⟩
      · exact Or.inl hdir
      · exact Or.inr ⟨hji, ⟨k, hjk, hki, jumpfalse_target_number_rows rows k (l + 1) hk⟩,
          is_label_row_number_rows rows (i + 1) (l + 1) hnext⟩

/-- C5, as stated, fails on the while example: row 7 of its IR is `JUMP L0`,
and no row behind it is `LABEL L0` (the row `LABEL L0` is row 2, the head of
the loop). -/
theorem mcc_ir_generate_jump_backwards_counterexample :
    ∃ i r l, example_while_ir[i]? = some r ∧ jump_target r = some l ∧
      (example_while_ir.drop (i + 1)).any (fun x => is_label_row x l) = false ∧
      (example_while_ir[2]?).map (fun x => is_label_row x l) = some true :=
  ⟨7, jump_row 0, 0, by decide, by decide, by decide, by decide⟩

/-- C5, amended. In the IR that `mcc_ir_generate` returns, the label of every
`JUMPFALSE` row is defined by a `LABEL` row that comes later in the same
function, and the label of every `JUMP` row is defined by a `LABEL` row of the
same function that comes later than the jump, as for the `JUMP` in front of an
else branch, or, for the `JUMP L` that closes a while loop, earlier: then the
row `LABEL L` is the head of the loop, the `JUMPFALSE` of the loop, which goes to
`L + 1`, lies between that row and the jump, and the row right behind the jump
is `LABEL L + 1`. Same function: no `FUNC_LABEL` row lies from the one row to
the other. -/
theorem mcc_ir_generate_jumps_within_function
    (mcc_ast_remove_built_ins modify_ast : mcc_ast_program → mcc_ast_program)
    (ast : mcc_ast_program) :
    jumps_within_function (mcc_ir_generate mcc_ast_remove_built_ins modify_ast ast) := by
  apply jumps_within_function_number_rows
  apply mcc_ir_generate_loop_jumps
  intro i r l hi
  simp at hi

/-- C5, amended, at the while example: `JUMPFALSE L1` at row 4 has `LABEL L1`
behind it, at row 8, and `JUMP L0` at row 7 closes the loop whose head `LABEL L0`
is row 2. -/
theorem mcc_ir_generate_jumps_within_function_witness :
    (example_while_ir[4]?).bind jumpfalse_target = some 1 ∧
    (example_while_ir[7]?).bind jump_target = some 0 ∧
    (example_while_ir[2]?).map (fun x => is_label_row x 0) = some true ∧
    (example_while_ir[8]?).map (fun x => is_label_row x 1) = some true ∧
    jumps_within_function example_while_ir :=
  ⟨by decide, by decide, by decide, by decide,
    mcc_ir_generate_jumps_within_function id id example_while_program⟩

/-! ### Declarations -/

/-- C11, as the code has it: an array declaration of any element type appends exactly one
row, with the identifier as first argument and the size literal as second argument (the
integer literal `n` for a size written `n`), and its instruction is the one tag
`MCC_IR_INSTR_ARRAY` for every element type, so none of the typed tags `ARRAY_BOOL`,
`ARRAY_INT`, `ARRAY_FLOAT`, `ARRAY_STRING`; a scalar declaration appends no row. -/
theorem generate_ir_declaration_rows (t : mcc_ast_types) (i : mcc_ast_identifier)
    (size : mcc_ast_literal) (n : Int) (data : ir_generation_userdata) :
    rows_of_statement (MCC_AST_STATEMENT_TYPE_DECLARATION
        (MCC_AST_DECLARATION_TYPE_ARRAY t i size)) data
        = [{ row_no := 0, instr := MCC_IR_INSTR_ARRAY,
             arg1 := some (MCC_IR_TYPE_IDENTIFIER i), arg2 := some (generate_arg_lit size) }]
      ∧ generate_arg_lit (MCC_AST_LITERAL_TYPE_INT n) = MCC_IR_TYPE_LIT_INT n
      ∧ MCC_IR_INSTR_ARRAY ≠ MCC_IR_INSTR_ARRAY_BOOL
      ∧ MCC_IR_INSTR_ARRAY ≠ MCC_IR_INSTR_ARRAY_INT
      ∧ MCC_IR_INSTR_ARRAY ≠ MCC_IR_INSTR_ARRAY_FLOAT
      ∧ MCC_IR_INSTR_ARRAY ≠ MCC_IR_INSTR_ARRAY_STRING
      ∧ rows_of_statement (MCC_AST_STATEMENT_TYPE_DECLARATION
          (MCC_AST_DECLARATION_TYPE_VARIABLE t i)) data = [] := by
  refine ⟨?_, rfl, by decide, by decide, by decide, by decide,
    rows_of_statement_declaration_variable t i data⟩
  rw [rows_of_statement_declaration_array]
  rfl

/-! ### Binary expressions -/

/-- C12: lowering the binary expression `lhs op rhs` appends the rows of `lhs`, then the rows
of `rhs`, then exactly one row whose instruction is the image of `op` (ADD to PLUS, SUB to
MINUS, MUL to MULTIPLY, DIV to DIVIDE, SMALLER, GREATER, SMALLEREQ and GREATEREQ to
themselves, CONJ to AND, DISJ to OR, EQUAL to EQUALS, NOTEQUAL to NOTEQUALS) and whose
arguments are the values of `lhs` and `rhs`; the value returned is the reference to that new
row; no label is consumed and no JUMP, JUMPFALSE or LABEL row is among the appended rows, for
CONJ and DISJ as for every other operator. -/
theorem generate_ir_expression_binary_op_rows (op : mcc_ast_binary_op)
    (lhs rhs : mcc_ast_expression) (data : ir_generation_userdata) :
    (generate_ir_expression (MCC_AST_EXPRESSION_TYPE_BINARY_OP op lhs rhs) data).2.rows
        = data.rows ++ rows_of_expression lhs data
          ++ rows_of_expression rhs (generate_ir_expression lhs data).2
          ++ [new_row (some (generate_ir_expression lhs data).1)
                (some (generate_ir_expression rhs (generate_ir_expression lhs data).2).1)
                (binary_op_instr op)]
      ∧ (generate_ir_expression (MCC_AST_EXPRESSION_TYPE_BINARY_OP op lhs rhs) data).1
        = MCC_IR_TYPE_ROW (data.rows.length + (rows_of_expression lhs data).length
            + (rows_of_expression rhs (generate_ir_expression lhs data).2).length)
      ∧ (generate_ir_expression (MCC_AST_EXPRESSION_TYPE_BINARY_OP op lhs rhs) data).2.label_counter
        = data.label_counter
      ∧ binary_op_instr op
        = (match op with
          | MCC_AST_BINARY_OP_ADD => MCC_IR_INSTR_PLUS
          | MCC_AST_BINARY_OP_SUB => MCC_IR_INSTR_MINUS
          | MCC_AST_BINARY_OP_MUL => MCC_IR_INSTR_MULTIPLY
          | MCC_AST_BINARY_OP_DIV => MCC_IR_INSTR_DIVIDE
          | MCC_AST_BINARY_OP_SMALLER => MCC_IR_INSTR_SMALLER
          | MCC_AST_BINARY_OP_GREATER => MCC_IR_INSTR_GREATER
          | MCC_AST_BINARY_OP_SMALLEREQ => MCC_IR_INSTR_SMALLEREQ
          | MCC_AST_BINARY_OP_GREATEREQ => MCC_IR_INSTR_GREATEREQ
          | MCC_AST_BINARY_OP_CONJ => MCC_IR_INSTR_AND
          | MCC_AST_BINARY_OP_DISJ => MCC_IR_INSTR_OR
          | MCC_AST_BINARY_OP_EQUAL => MCC_IR_INSTR_EQUALS
          | MCC_AST_BINARY_OP_NOTEQUAL => MCC_IR_INSTR_NOTEQUALS)
      ∧ ∀ r, r ∈ rows_of_expression (MCC_AST_EXPRESSION_TYPE_BINARY_OP op lhs rhs) data →
          r.instr ≠ MCC_IR_INSTR_JUMP ∧ r.instr ≠ MCC_IR_INSTR_JUMPFALSE ∧
          r.instr ≠ MCC_IR_INSTR_LABEL := by
  have hl := generate_ir_expression_rows lhs data
  have hr := generate_ir_expression_rows rhs (generate_ir_expression lhs data).2
  refine ⟨?_, ?_, ?_, ?_, ?_⟩
  · simp only [generate_ir_expression, append_row_rows]
    rw [hr, hl]
  · simp only [generate_ir_expression, new_arg_row, next_row_pointer]
    rw [hr, hl]
    simp only [List.length_append, rows_of_expression]
  · simp only [generate_ir_expression, append_row_label_counter,
      generate_ir_expression_label_counter]
  · cases op <;> rfl
  · intro r hr'
    have hk := ((rows_of_expression_kind
      (MCC_AST_EXPRESSION_TYPE_BINARY_OP op lhs rhs) data).2 r hr').1
    refine ⟨?_, ?_, ?_⟩ <;> intro h <;> rw [h] at hk <;> exact absurd hk (by decide)

/-! ### Implicit returns -/

theorem has_return_null : has_return mcc_ast_compound_statement.null = false := rfl

theorem has_return_empty (n : mcc_ast_compound_statement) :
    has_return (mcc_ast_compound_statement.empty n) = has_return n := by
  simp [has_return, top_level_statements, node_is_return]

theorem has_return_node (s : mcc_ast_statement) (n : mcc_ast_compound_statement) :
    has_return (mcc_ast_compound_statement.node s n)
      = (statement_is_return s || has_return n) := by
  simp [has_return, top_level_statements, node_is_return]

theorem cb_add_return_loop_empty (n : mcc_ast_compound_statement)
    (h : n ≠ mcc_ast_compound_statement.null) :
    cb_add_return_loop (mcc_ast_compound_statement.empty n)
      = mcc_ast_compound_statement.empty (cb_add_return_loop n) := by
  cases n with
  | null => exact absurd rfl h
  | empty m => simp [cb_add_return_loop]
  | node s m => simp [cb_add_return_loop]

theorem cb_add_return_loop_node (s : mcc_ast_statement) (n : mcc_ast_compound_statement)
    (hs : statement_is_return s = false) (h : n ≠ mcc_ast_compound_statement.null) :
    cb_add_return_loop (mcc_ast_compound_statement.node s n)
      = mcc_ast_compound_statement.node s (cb_add_return_loop n) := by
  cases n with
  | null => exact absurd rfl h
  | empty m => simp [cb_add_return_loop, hs]
  | node t m => simp [cb_add_return_loop, hs]

theorem cb_add_return_loop_node_return (s : mcc_ast_statement)
    (n : mcc_ast_compound_statement) (hs : statement_is_return s = true) :
    cb_add_return_loop (mcc_ast_compound_statement.node s n)
      = mcc_ast_compound_statement.node s n := by
  simp [cb_add_return_loop, hs]

theorem has_return_ne_null (c : mcc_ast_compound_statement) (h : has_return c = true) :
    c ≠ mcc_ast_compound_statement.null := by
  intro e
  rw [e, has_return_null] at h
  exact absurd h (by decide)

/-- A list that holds a return is left as it is. -/
theorem cb_add_return_loop_of_has_return : ∀ (c : mcc_ast_compound_statement),
    has_return c = true → cb_add_return_loop c = c
  | mcc_ast_compound_statement.null, h => rfl
  | mcc_ast_compound_statement.empty n, h => by
    rw [has_return_empty] at h
    rw [cb_add_return_loop_empty n (has_return_ne_null n h),
      cb_add_return_loop_of_has_return n h]
  | mcc_ast_compound_statement.node s n, h => by
    rw [has_return_node] at h
    cases hs : statement_is_return s with
    | true => exact cb_add_return_loop_node_return s n hs
    | false =>
      rw [hs, Bool.false_or] at h
      rw [cb_add_return_loop_node s n hs (has_return_ne_null n h),
        cb_add_return_loop_of_has_return n h]

/-- A list that holds no return gets the empty return as its new last node. -/
theorem cb_add_return_loop_of_no_return : ∀ (c : mcc_ast_compound_statement),
    c ≠ mcc_ast_compound_statement.null → has_return c = false →
    top_level_statements (cb_add_return_loop c)
      = top_level_statements c ++ [some empty_return]
  | mcc_ast_compound_statement.null, h, _ => absurd rfl h
  | mcc_ast_compound_statement.empty n, _, h => by
    rw [has_return_empty] at h
    cases n with
    | null => rfl
    | empty m =>
      rw [cb_add_return_loop_empty _ (by simp)]
      simp only [top_level_statements, List.cons_append]
      have ih := cb_add_return_loop_of_no_return (mcc_ast_compound_statement.empty m)
        (by simp) h
      simp only [top_level_statements] at ih
      rw [ih]
      rfl
    | node t m =>
      rw [cb_add_return_loop_empty _ (by simp)]
      simp only [top_level_statements, List.cons_append]
      have ih := cb_add_return_loop_of_no_return (mcc_ast_compound_statement.node t m)
        (by simp) h
      simp only [top_level_statements] at ih
      rw [ih]
      rfl
  | mcc_ast_compound_statement.node s n, _, h => by
    rw [has_return_node, Bool.or_eq_false_iff] at h
    obtain ⟨hs, hn⟩ := h
    cases n with
    | null => simp [cb_add_return_loop, hs, append_empty_return, top_level_statements]
    | empty m =>
      rw [cb_add_return_loop_node s _ hs (by simp)]
      simp only [top_level_statements, List.cons_append]
      have ih := cb_add_return_loop_of_no_return (mcc_ast_compound_statement.empty m)
        (by simp) hn
      simp only [top_level_statements] at ih
      rw [ih]
      rfl
    | node t m =>
      rw [cb_add_return_loop_node s _ hs (by simp)]
      simp only [top_level_statements, List.cons_append]
      have ih := cb_add_return_loop_of_no_return (mcc_ast_compound_statement.node t m)
        (by simp) hn
      simp only [top_level_statements] at ih
      rw [ih]
      rfl

/-- After the loop a list that is not NULL holds a return. -/
theorem has_return_cb_add_return_loop (c : mcc_ast_compound_statement)
    (h : c ≠ mcc_ast_compound_statement.null) : has_return (cb_add_return_loop c) = true := by
  cases hr : has_return c with
  | true => rw [cb_add_return_loop_of_has_return c hr]; exact hr
  | false =>
    have := cb_add_return_loop_of_no_return c h hr
    simp [has_return, this, node_is_return, empty_return, statement_is_return]

theorem cb_add_return_loop_idem (c : mcc_ast_compound_statement) :
    cb_add_return_loop (cb_add_return_loop c) = cb_add_return_loop c := by
  by_cases h : c = mcc_ast_compound_statement.null
  · rw [h]; rfl
  · exact cb_add_return_loop_of_has_return _ (has_return_cb_add_return_loop c h)

/-- C13 fails as stated: in `int main(){ int i; return 0; i = 1; }` the second statement is a
return, so `cb_add_return` leaves at once and the body stays as it is; its last statement is
the assignment `i = 1`, not a return. -/
theorem cb_add_return_last_statement_counterexample :
    example_return_first_function.compound_stmt ≠ mcc_ast_compound_statement.null ∧
    (top_level_statements (cb_add_return example_return_first_function).compound_stmt).length
      = 3 ∧
    last_statement_is_return (cb_add_return example_return_first_function).compound_stmt
      = false :=
  ⟨by simp [example_return_first_function], by decide, by decide⟩

/-- C13, amended. After `cb_add_return` the top-level statement list of the function holds a
return statement: a list that already has a return among its top-level statements, in any
position, is left unchanged, and a list without one gets exactly one new last node, holding
the empty return, so that only then the last statement is known to be a return. -/
theorem cb_add_return_has_return (d : mcc_ast_function_definition)
    (h : d.compound_stmt ≠ mcc_ast_compound_statement.null) :
    has_return (cb_add_return d).compound_stmt = true
      ∧ (has_return d.compound_stmt = true → cb_add_return d = d)
      ∧ (has_return d.compound_stmt = false →
          top_level_statements (cb_add_return d).compound_stmt
            = top_level_statements d.compound_stmt ++ [some empty_return]
          ∧ last_statement_is_return (cb_add_return d).compound_stmt = true) := by
  refine ⟨has_return_cb_add_return_loop d.compound_stmt h, ?_, ?_⟩
  · intro hr
    simp only [cb_add_return, cb_add_return_loop_of_has_return d.compound_stmt hr]
  · intro hr
    have e := cb_add_return_loop_of_no_return d.compound_stmt h hr
    refine ⟨e, ?_⟩
    simp [last_statement_is_return, cb_add_return, e, node_is_return, empty_return,
      statement_is_return]

theorem cb_add_return_has_return_witness :
    example_no_return_function.compound_stmt ≠ mcc_ast_compound_statement.null ∧
    has_return example_no_return_function.compound_stmt = false ∧
    (has_return (cb_add_return example_no_return_function).compound_stmt = true
      ∧ (has_return example_no_return_function.compound_stmt = true →
          cb_add_return example_no_return_function = example_no_return_function)
      ∧ (has_return example_no_return_function.compound_stmt = false →
          top_level_statements (cb_add_return example_no_return_function).compound_stmt
            = top_level_statements example_no_return_function.compound_stmt
              ++ [some empty_return]
          ∧ last_statement_is_return (cb_add_return example_no_return_function).compound_stmt
            = true)) :=
  ⟨by simp [example_no_return_function], by decide,
    cb_add_return_has_return example_no_return_function
      (by simp [example_no_return_function])⟩

/-- C14: `cb_add_return` is idempotent: applied to its own result it returns that result
unchanged, so the second application appends nothing. -/
theorem cb_add_return_idempotent (d : mcc_ast_function_definition) :
    cb_add_return (cb_add_return d) = cb_add_return d
      ∧ top_level_statements (cb_add_return (cb_add_return d)).compound_stmt
        = top_level_statements (cb_add_return d).compound_stmt := by
  have e : cb_add_return (cb_add_return d) = cb_add_return d := by
    simp only [cb_add_return, cb_add_return_loop_idem]
  exact ⟨e, by rw [e]⟩

/-! ### The stack annotator: per-row sizes -/

theorem outcome_bind_result {α β : Type} (x : outcome α) (f : α → outcome β) (b : β)
    (h : x.bind f = result b) : ∃ a, x = result a ∧ f a = result b := by
  cases x with
  | result a => exact ⟨a, rfl, h⟩
  | assertion_failed => simp [outcome.bind] at h
  | invalid_read => simp [outcome.bind] at h
  | out_of_fuel => simp [outcome.bind] at h

theorem outcome_bind_eq_result {α β : Type} (a : α) (f : α → outcome β) :
    (result a).bind f = f a := rfl

/-- The chain that the loop of `add_stack_sizes` builds has one node for each
row, in order, holding the size that `get_stack_frame_size` returns for it. -/
theorem add_stack_sizes_loop_spec (fuel : Nat) (ir : List mcc_ir_row) :
    ∀ (rows : List mcc_ir_row) (i : Nat) (chain : List mcc_annotated_ir),
      add_stack_sizes_loop fuel ir rows i = result chain →
      chain.length = rows.length ∧
      ∀ (k : Nat) (a : mcc_annotated_ir), chain[k]? = some a →
        a.row = i + k ∧ a.stack_position = none ∧
        get_stack_frame_size fuel ir (i + k) = result a.stack_size := by
  intro rows
  induction rows with
  | nil =>
    intro i chain h
    simp only [add_stack_sizes_loop, result.injEq] at h
    subst h
    simp
  | cons r rest ih =>
    intro i chain h
    simp only [add_stack_sizes_loop] at h
    obtain ⟨size, hs, h1⟩ := outcome_bind_result _ _ _ h
    obtain ⟨tail, ht, h2⟩ := outcome_bind_result _ _ _ h1
    simp only [result.injEq] at h2
    subst h2
    obtain ⟨hl, hk⟩ := ih (i + 1) tail ht
    refine ⟨by simp [hl], ?_⟩
    intro k a ha
    cases k with
    | zero =>
      simp only [List.getElem?_cons_zero, Option.some.injEq] at ha
      subst ha
      exact ⟨rfl, rfl, hs⟩
    | succ k =>
      simp only [List.getElem?_cons_succ] at ha
      have := hk k a ha
      have e : i + 1 + k = i + (k + 1) := by omega
      rw [e] at this
      exact this

/-- What `add_stack_sizes` returns: an extra head node for the first row with
size 0, then the chain of the loop. -/
theorem add_stack_sizes_spec (fuel : Nat) (ir : List mcc_ir_row)
    (sizes : List mcc_annotated_ir) (h : add_stack_sizes fuel ir = result sizes) :
    ∃ chain, sizes = mcc_new_annotated_ir 0 0 :: chain ∧ chain.length = ir.length ∧
      instr_at ir 0 = some MCC_IR_INSTR_FUNC_LABEL ∧
      ∀ (k : Nat) (a : mcc_annotated_ir), chain[k]? = some a →
        a.row = k ∧ a.stack_position = none ∧
        get_stack_frame_size fuel ir k = result a.stack_size := by
  cases ir with
  | nil => simp [add_stack_sizes] at h
  | cons first rest =>
    simp only [add_stack_sizes] at h
    by_cases hf : first.instr = MCC_IR_INSTR_FUNC_LABEL
    · simp only [hf, ne_eq, not_true_eq_false, if_false] at h
      obtain ⟨chain, hc, h1⟩ := outcome_bind_result _ _ _ h
      simp only [result.injEq] at h1
      obtain ⟨hl, hk⟩ := add_stack_sizes_loop_spec fuel (first :: rest) (first :: rest) 0 chain hc
      refine ⟨chain, h1.symm, hl, by simp [instr_at, hf], ?_⟩
      intro k a ha
      have := hk k a ha
      simpa using this
    · simp [hf] at h

/-! ### The stack annotator: positions -/

/-- The loop of `add_stack_positions` keeps the rows of the nodes and the
sizes of the nodes that are no FUNC_LABEL, stores `current_position - size` in
the first node and, in every later node that is no FUNC_LABEL, the offset held
after the node before it minus the size of the node. -/
theorem add_stack_positions_loop_spec (ir : List mcc_ir_row) (frame_size : Int) :
    ∀ (ns : List mcc_annotated_ir) (cur : Int) (out : List mcc_annotated_ir),
      add_stack_positions_loop ir frame_size ns cur = result out →
      out.length = ns.length ∧
      (∀ (k : Nat) (n : mcc_annotated_ir), ns[k]? = some n →
        ∃ o, out[k]? = some o ∧ o.row = n.row ∧
          (is_func_label_node ir n = false → o.stack_size = n.stack_size)) ∧
      (∀ o, out[0]? = some o → is_func_label_node ir o = false →
        o.stack_position = some (cur - o.stack_size)) ∧
      (∀ (k : Nat) (o o' : mcc_annotated_ir), out[k]? = some o → out[k + 1]? = some o' →
        is_func_label_node ir o' = false →
        ∃ p, offset_after ir o = some p ∧ o'.stack_position = some (p - o'.stack_size)) := by
  intro ns
  induction ns with
  | nil =>
    intro cur out h
    simp only [add_stack_positions_loop, result.injEq] at h
    subst h
    simp
  | cons head rest ih =>
    intro cur out h
    simp only [add_stack_positions_loop] at h
    by_cases hf : instr_at ir head.row = some MCC_IR_INSTR_FUNC_LABEL
    · simp only [hf, if_true] at h
      obtain ⟨size, _, h1⟩ := outcome_bind_result _ _ _ h
      obtain ⟨chain, hc, h2⟩ := outcome_bind_result _ _ _ h1
      simp only [result.injEq] at h2
      subst h2
      obtain ⟨hl, hrow, hfirst, hstep⟩ := ih 0 chain hc
      refine ⟨by simp [hl], ?_, ?_, ?_⟩
      · intro k n hn
        cases k with
        | zero =>
          simp only [List.getElem?_cons_zero, Option.some.injEq] at hn
          subst hn
          refine ⟨_, List.getElem?_cons_zero, rfl, ?_⟩
          intro hno
          simp [is_func_label_node, hf] at hno
        | succ k =>
          simp only [List.getElem?_cons_succ] at hn ⊢
          exact hrow k n hn
      · intro o ho hno
        simp only [List.getElem?_cons_zero, Option.some.injEq] at ho
        subst ho
        simp [is_func_label_node, hf] at hno
      · intro k o o' ho ho' hno
        cases k with
        | zero =>
          simp only [List.getElem?_cons_zero, Option.some.injEq] at ho
          simp only [List.getElem?_cons_succ] at ho'
          subst ho
          refine ⟨0, by simp [offset_after, is_func_label_node, hf], ?_⟩
          exact hfirst o' ho' hno
        | succ k =>
          simp only [List.getElem?_cons_succ] at ho ho'
          exact hstep k o o' ho ho' hno
    · simp only [hf, if_false] at h
      obtain ⟨chain, hc, h2⟩ := outcome_bind_result _ _ _ h
      simp only [result.injEq] at h2
      subst h2
      obtain ⟨hl, hrow, hfirst, hstep⟩ := ih (cur - head.stack_size) chain hc
      refine ⟨by simp [hl], ?_, ?_, ?_⟩
      · intro k n hn
        cases k with
        | zero =>
          simp only [List.getElem?_cons_zero, Option.some.injEq] at hn
          subst hn
          exact ⟨_, List.getElem?_cons_zero, rfl, fun _ => rfl⟩
        | succ k =>
          simp only [List.getElem?_cons_succ] at hn ⊢
          exact hrow k n hn
      · intro o ho _
        simp only [List.getElem?_cons_zero, Option.some.injEq] at ho
        subst ho
        rfl
      · intro k o o' ho ho' hno
        cases k with
        | zero =>
          simp only [List.getElem?_cons_zero, Option.some.injEq] at ho
          simp only [List.getElem?_cons_succ] at ho'
          subst ho
          refine ⟨cur - head.stack_size, by simp [offset_after, is_func_label_node, hf], ?_⟩
          exact hfirst o' ho' hno
        | succ k =>
          simp only [List.getElem?_cons_succ] at ho ho'
          exact hstep k o o' ho ho' hno

/-- What a returned annotated list looks like: one node more than the IR has
rows, the node at position `k + 1` pointing to row `k` and holding the size
that `get_stack_frame_size` computes for the row unless the row is a
FUNC_LABEL, the extra head node pointing to row 0, and the positions following
the running offset. -/
theorem mcc_annotate_ir_spec (fuel : Nat) (frame_size : Int) (ir : List mcc_ir_row)
    (an : List mcc_annotated_ir) (h : mcc_annotate_ir fuel frame_size ir = result an) :
    an.length = ir.length + 1 ∧
    instr_at ir 0 = some MCC_IR_INSTR_FUNC_LABEL ∧
    (∃ a, an[0]? = some a ∧ a.row = 0) ∧
    (∀ k, k < ir.length → ∃ a, an[k + 1]? = some a ∧ a.row = k ∧
      (instr_at ir k ≠ some MCC_IR_INSTR_FUNC_LABEL →
        get_stack_frame_size fuel ir k = result a.stack_size)) ∧
    (∀ (k : Nat) (o o' : mcc_annotated_ir), an[k]? = some o → an[k + 1]? = some o' →
      is_func_label_node ir o' = false →
      ∃ p, offset_after ir o = some p ∧ o'.stack_position = some (p - o'.stack_size)) := by
  cases ir with
  | nil => simp [mcc_annotate_ir] at h
  | cons first rest =>
    simp only [mcc_annotate_ir] at h
    by_cases hf : first.instr = MCC_IR_INSTR_FUNC_LABEL
    · simp only [hf, ne_eq, not_true_eq_false, if_false] at h
      obtain ⟨sizes, hs, h1⟩ := outcome_bind_result _ _ _ h
      obtain ⟨chain, hsz, hlen, h0, hchain⟩ := add_stack_sizes_spec fuel _ sizes hs
      subst hsz
      simp only [add_stack_positions, mcc_new_annotated_ir, h0, ne_eq, not_true_eq_false,
        if_false] at h1
      obtain ⟨size, _, h2⟩ := outcome_bind_result _ _ _ h1
      obtain ⟨hl, hrow, _, hstep⟩ := add_stack_positions_loop_spec _ _ _ _ _ h2
      refine ⟨by simp [hl, hlen], h0, ?_, ?_, hstep⟩
      · obtain ⟨o, ho, hr, _⟩ := hrow 0 _ List.getElem?_cons_zero
        exact ⟨o, ho, hr⟩
      · intro k hk
        have hk' : k < chain.length := by rw [hlen]; exact hk
        obtain ⟨o, ho, hr, hsize⟩ := hrow (k + 1) chain[k]
          (by rw [List.getElem?_cons_succ]; exact List.getElem?_eq_getElem hk')
        obtain ⟨e1, _, e3⟩ := hchain k chain[k] (List.getElem?_eq_getElem hk')
        refine ⟨o, ho, by rw [hr, e1], ?_⟩
        intro hno
        rw [hsize (by simp [is_func_label_node, e1, hno])]
        exact e3
    · simp [hf] at h

theorem stack_size_sum_succ (an : List mcc_annotated_ir) (lo len : Nat)
    (a : mcc_annotated_ir) (h : an[lo + len]? = some a) :
    stack_size_sum an lo (len + 1) = stack_size_sum an lo len + a.stack_size := by
  simp [stack_size_sum, h]

/-- The running offset over a stretch of nodes that are no FUNC_LABEL: the
position stored in the last node is the offset held after the node before the
stretch minus the sizes of the nodes of the stretch. -/
theorem stack_position_stretch (ir : List mcc_ir_row) (an : List mcc_annotated_ir)
    (hstep : ∀ (k : Nat) (o o' : mcc_annotated_ir), an[k]? = some o → an[k + 1]? = some o' →
      is_func_label_node ir o' = false →
      ∃ p, offset_after ir o = some p ∧ o'.stack_position = some (p - o'.stack_size))
    (a : Nat) (o : mcc_annotated_ir) (ho : an[a]? = some o) (p : Int)
    (hp : offset_after ir o = some p) :
    ∀ (len : Nat), (∀ m, a < m → m ≤ a + (len + 1) →
        ∃ n, an[m]? = some n ∧ is_func_label_node ir n = false) →
      ∃ n, an[a + (len + 1)]? = some n ∧
        n.stack_position = some (p - stack_size_sum an (a + 1) (len + 1)) := by
  intro len
  induction len with
  | zero =>
    intro hall
    obtain ⟨n, hn, hno⟩ := hall (a + 1) (by omega) (by omega)
    obtain ⟨q, hq, hpos⟩ := hstep a o n ho hn hno
    rw [hp] at hq
    simp only [Option.some.injEq] at hq
    subst hq
    refine ⟨n, hn, ?_⟩
    rw [stack_size_sum_succ an (a + 1) 0 n hn, hpos]
    simp [stack_size_sum]
  | succ len ih =>
    intro hall
    obtain ⟨n0, hn0, hpos0⟩ := ih (fun m h1 h2 => hall m h1 (by omega))
    obtain ⟨n0', hn0', hno0⟩ := hall (a + (len + 1)) (by omega) (by omega)
    rw [hn0] at hn0'
    simp only [Option.some.injEq] at hn0'
    subst hn0'
    obtain ⟨n, hn, hno⟩ := hall (a + (len + 1 + 1)) (by omega) (by omega)
    have hn' : an[a + (len + 1) + 1]? = some n := hn
    obtain ⟨q, hq, hpos⟩ := hstep (a + (len + 1)) n0 n hn0 hn' hno
    simp only [offset_after, hno0, Bool.false_eq_true, if_false] at hq
    rw [hpos0] at hq
    simp only [Option.some.injEq] at hq
    subst hq
    refine ⟨n, hn, ?_⟩
    have e : an[a + 1 + (len + 1)]? = some n := by
      have : a + 1 + (len + 1) = a + (len + 1 + 1) := by omega
      rw [this]; exact hn
    rw [stack_size_sum_succ an (a + 1) (len + 1) n e, hpos]
    congr 1
    omega

theorem first_line_of_function_loop_spec (ir : List mcc_ir_row) :
    ∀ (n f : Nat), first_line_of_function_loop ir n = some f →
      f < n ∧ instr_at ir f = some MCC_IR_INSTR_FUNC_LABEL ∧
      ∀ m, f < m → m < n → instr_at ir m ≠ some MCC_IR_INSTR_FUNC_LABEL := by
  intro n
  induction n with
  | zero => intro f h; simp [first_line_of_function_loop] at h
  | succ n ih =>
    intro f h
    simp only [first_line_of_function_loop] at h
    by_cases hf : instr_at ir n = some MCC_IR_INSTR_FUNC_LABEL
    · simp only [hf, if_true, Option.some.injEq] at h
      subst h
      exact ⟨by omega, hf, fun m h1 h2 => by omega⟩
    · simp only [hf, if_false] at h
      obtain ⟨h1, h2, h3⟩ := ih f h
      refine ⟨by omega, h2, ?_⟩
      intro m hm1 hm2
      by_cases e : m = n
      · rw [e]; exact hf
      · exact h3 m hm1 (by omega)

theorem first_line_of_function_loop_some (ir : List mcc_ir_row)
    (h0 : instr_at ir 0 = some MCC_IR_INSTR_FUNC_LABEL) :
    ∀ (n : Nat), 0 < n → ∃ f, first_line_of_function_loop ir n = some f := by
  intro n
  induction n with
  | zero => intro h; omega
  | succ n ih =>
    intro _
    simp only [first_line_of_function_loop]
    by_cases hf : instr_at ir n = some MCC_IR_INSTR_FUNC_LABEL
    · exact ⟨n, by simp [hf]⟩
    · simp only [hf, if_false]
      apply ih
      rcases Nat.eq_zero_or_pos n with e | e
      · rw [e] at hf; exact absurd h0 hf
      · exact e

/-- For a row that is no FUNC_LABEL, in a list that starts with one,
`first_line_of_function` finds the nearest FUNC_LABEL before the row. -/
theorem first_line_of_function_spec (ir : List mcc_ir_row)
    (h0 : instr_at ir 0 = some MCC_IR_INSTR_FUNC_LABEL) (i : Nat)
    (hno : instr_at ir i ≠ some MCC_IR_INSTR_FUNC_LABEL) :
    ∃ f, first_line_of_function ir i = some f ∧ f < i ∧
      instr_at ir f = some MCC_IR_INSTR_FUNC_LABEL ∧
      ∀ m, f < m → m ≤ i → instr_at ir m ≠ some MCC_IR_INSTR_FUNC_LABEL := by
  have hi : 0 < i := by
    rcases Nat.eq_zero_or_pos i with e | e
    · rw [e] at hno; exact absurd h0 hno
    · exact e
  obtain ⟨f, hf⟩ := first_line_of_function_loop_some ir h0 i hi
  obtain ⟨h1, h2, h3⟩ := first_line_of_function_loop_spec ir i f hf
  refine ⟨f, by simp [first_line_of_function, hno, hf], h1, h2, ?_⟩
  intro m hm1 hm2
  by_cases e : m = i
  · rw [e]; exact hno
  · exact h3 m hm1 (by omega)

/-- The nodes of a stretch of rows that holds no FUNC_LABEL are no FUNC_LABEL
nodes. -/
theorem annotate_nodes_of_stretch (ir : List mcc_ir_row) (an : List mcc_annotated_ir)
    (hnodes : ∀ k, k < ir.length → ∃ a, an[k + 1]? = some a ∧ a.row = k)
    (lo hi : Nat) (hhi : hi < ir.length)
    (hno : ∀ m, lo < m → m ≤ hi → instr_at ir m ≠ some MCC_IR_INSTR_FUNC_LABEL) :
    ∀ m, lo + 1 < m → m ≤ hi + 1 →
      ∃ n, an[m]? = some n ∧ is_func_label_node ir n = false := by
  intro m h1 h2
  obtain ⟨a, ha, hr⟩ := hnodes (m - 1) (by omega)
  have e : m - 1 + 1 = m := by omega
  rw [e] at ha
  refine ⟨a, ha, ?_⟩
  have := hno (m - 1) (by omega) (by omega)
  simp [is_func_label_node, hr, this]

/-- C18: in the list that `mcc_annotate_ir` returns, the node of every row `i` that is no
FUNC_LABEL (the node at position `i + 1`, which points to row `i`) holds as `stack_position`
minus the sum of the `stack_size` of the nodes of the rows from the one right after the
FUNC_LABEL `f` of the function of `i` up to and including `i`; `f` is the nearest FUNC_LABEL
before `i`, so the running offset restarts at 0 at every FUNC_LABEL. -/
theorem mcc_annotate_ir_stack_position (fuel : Nat) (frame_size : Int)
    (ir : List mcc_ir_row) (an : List mcc_annotated_ir)
    (h : mcc_annotate_ir fuel frame_size ir = result an) (i : Nat) (hi : i < ir.length)
    (hno : instr_at ir i ≠ some MCC_IR_INSTR_FUNC_LABEL) :
    ∃ f a, first_line_of_function ir i = some f ∧ f < i ∧ an[i + 1]? = some a ∧ a.row = i ∧
      a.stack_position = some (-(stack_size_sum an (f + 2) (i - f))) := by
  obtain ⟨_, h0, _, hnodes, hstep⟩ := mcc_annotate_ir_spec fuel frame_size ir an h
  obtain ⟨f, hf, hfi, hfl, hbetween⟩ := first_line_of_function_spec ir h0 i hno
  obtain ⟨o, ho, hor, _⟩ := hnodes f (by omega)
  obtain ⟨a, ha, har, _⟩ := hnodes i hi
  have hoff : offset_after ir o = some 0 := by
    simp [offset_after, is_func_label_node, hor, hfl]
  have hall := annotate_nodes_of_stretch ir an
    (fun k hk => by obtain ⟨a, h1, h2, _⟩ := hnodes k hk; exact ⟨a, h1, h2⟩) f i hi hbetween
  obtain ⟨n, hn, hpos⟩ := stack_position_stretch ir an hstep (f + 1) o ho 0 hoff (i - f - 1)
    (fun m h1 h2 => hall m h1 (by omega))
  have e1 : f + 1 + (i - f - 1 + 1) = i + 1 := by omega
  have e2 : i - f - 1 + 1 = i - f := by omega
  rw [e1] at hn
  rw [e2] at hpos
  rw [ha] at hn
  simp only [Option.some.injEq] at hn
  subst hn
  refine ⟨f, a, hf, hfi, ha, har, ?_⟩
  rw [hpos]
  simp

theorem mcc_annotate_ir_stack_position_witness :
    mcc_annotate_ir 2 0 example_reassign_ir = result example_reassign_annotated ∧
    ∃ (f : Nat) (a : mcc_annotated_ir),
      first_line_of_function example_reassign_ir 2 = some f ∧ f < 2 ∧
      example_reassign_annotated[2 + 1]? = some a ∧ a.row = 2 ∧
      a.stack_position = some (-(stack_size_sum example_reassign_annotated (f + 2) (2 - f))) :=
  ⟨by decide, mcc_annotate_ir_stack_position 2 0 example_reassign_ir
    example_reassign_annotated (by decide) 2 (by decide) (by decide)⟩

/-! ### The stack annotator: assignments -/

theorem is_named_target_name (a : Option mcc_ir_arg) (h : is_named_target a = true) :
    ∃ n, arg_identifier_name a = result n := by
  cases a with
  | none => simp [is_named_target] at h
  | some x => cases x <;> simp [is_named_target] at h <;> exact ⟨_, rfl⟩

theorem assignment_is_first_occurence_loop_eq (name : String) :
    ∀ (rows : List mcc_ir_row), assign_targets_named rows = true →
      assignment_is_first_occurence_loop name rows = result (!(rows.any (assigns_name name))) := by
  intro rows
  induction rows with
  | nil => intro _; rfl
  | cons head rest ih =>
    intro hwf
    simp only [assign_targets_named, List.all_cons, Bool.and_eq_true] at hwf
    have hrest : assign_targets_named rest = true := hwf.2
    simp only [assignment_is_first_occurence_loop, List.any_cons]
    by_cases hi : head.instr = MCC_IR_INSTR_ASSIGN
    · obtain ⟨n, hn⟩ := is_named_target_name head.arg1 (by simpa [hi] using hwf.1)
      simp only [hi, ne_eq, not_true_eq_false, if_false, hn, outcome_bind_eq_result]
      by_cases e : n = name
      · simp [assigns_name, hi, hn, e]
      · simp [assigns_name, hi, hn, e, ih hrest]
    · simp [hi, assigns_name, ih hrest]

theorem assignment_is_first_occurence_loop_false (name : String) :
    ∀ (rows : List mcc_ir_row) (b : Bool),
      assignment_is_first_occurence_loop name rows = result b →
      rows.any (assigns_name name) = true → b = false := by
  intro rows
  induction rows with
  | nil => intro b _ h; simp at h
  | cons head rest ih =>
    intro b hb hany
    simp only [assignment_is_first_occurence_loop] at hb
    by_cases hi : head.instr = MCC_IR_INSTR_ASSIGN
    · simp only [hi, ne_eq, not_true_eq_false, if_false] at hb
      obtain ⟨n, hn, h1⟩ := outcome_bind_result _ _ _ hb
      by_cases e : n = name
      · simp only [e, if_true, result.injEq] at h1
        exact h1.symm
      · simp only [e, if_false] at h1
        apply ih b h1
        simp only [List.any_cons, Bool.or_eq_true] at hany
        rcases hany with h2 | h2
        · simp [assigns_name, hn, e] at h2
        · exact h2
    · simp only [hi, ne_eq, not_false_eq_true, if_true] at hb
      apply ih b hb
      simp only [List.any_cons, Bool.or_eq_true] at hany
      rcases hany with h2 | h2
      · simp [assigns_name, hi] at h2
      · exact h2

theorem get_stack_frame_size_assign_eq (fuel : Nat) (ir : List mcc_ir_row) (i : Nat)
    (row : mcc_ir_row) (hrow : ir[i]? = some row) (hinstr : row.instr = MCC_IR_INSTR_ASSIGN) :
    get_stack_frame_size fuel ir i
      = (assignment_is_first_occurence ir (first_line_of_function ir i) i).bind fun is_first =>
          if !is_first then result 0 else argument_size fuel ir row.arg2 i := by
  simp [get_stack_frame_size, hrow, hinstr, get_var_size]

/-- C19: the size that `get_stack_frame_size` computes for an ASSIGN row `i` of the function
that starts at the FUNC_LABEL `f`, all ASSIGN rows of the function before `i` having a
variable or an array element as target: 0 if the target is an array element, 0 if an ASSIGN
row between `f` and `i` carries the same name, and else whatever `argument_size` gives for
the second argument of the row; this is the `stack_size` that the node of the row holds in
the list that `mcc_annotate_ir` returns. -/
theorem get_stack_frame_size_assign (fuel : Nat) (ir : List mcc_ir_row) (i f : Nat)
    (row : mcc_ir_row) (hrow : ir[i]? = some row) (hinstr : row.instr = MCC_IR_INSTR_ASSIGN)
    (hf : first_line_of_function ir i = some f)
    (hwf : assign_targets_named ((ir.drop f).take (i - f)) = true) :
    (∀ arr_ident index, row.arg1 = some (MCC_IR_TYPE_ARR_ELEM arr_ident index) →
        get_stack_frame_size fuel ir i = result 0)
    ∧ (∀ ident, row.arg1 = some (MCC_IR_TYPE_IDENTIFIER ident) →
        assigned_before ir f i ident.identifier_name = true →
        get_stack_frame_size fuel ir i = result 0)
    ∧ (∀ ident, row.arg1 = some (MCC_IR_TYPE_IDENTIFIER ident) →
        assigned_before ir f i ident.identifier_name = false →
        get_stack_frame_size fuel ir i = argument_size fuel ir row.arg2 i)
    ∧ (∀ frame_size an, mcc_annotate_ir fuel frame_size ir = result an →
        ∃ a, an[i + 1]? = some a ∧ a.row = i ∧
          get_stack_frame_size fuel ir i = result a.stack_size) := by
  have hi : i < ir.length := by
    by_contra hc
    rw [List.getElem?_eq_none (by omega)] at hrow
    exact absurd hrow (by simp)
  have e := get_stack_frame_size_assign_eq fuel ir i row hrow hinstr
  refine ⟨?_, ?_, ?_, ?_⟩
  · intro arr_ident index h1
    rw [e, hf]
    simp [assignment_is_first_occurence, hrow, hinstr, h1, outcome.bind]
  · intro ident h1 h2
    rw [e, hf]
    simp only [assignment_is_first_occurence, hrow, hinstr, h1, ne_eq, not_true_eq_false,
      if_false, assignment_is_first_occurence_loop_eq _ _ hwf]
    simp only [assigned_before] at h2
    simp [h2, outcome.bind]
  · intro ident h1 h2
    rw [e, hf]
    simp only [assignment_is_first_occurence, hrow, hinstr, h1, ne_eq, not_true_eq_false,
      if_false, assignment_is_first_occurence_loop_eq _ _ hwf]
    simp only [assigned_before] at h2
    simp [h2, outcome.bind]
  · intro frame_size an han
    obtain ⟨_, _, _, hnodes, _⟩ := mcc_annotate_ir_spec fuel frame_size ir an han
    obtain ⟨a, ha, har, hsize⟩ := hnodes i hi
    exact ⟨a, ha, har, hsize (by simp [instr_at, hrow, hinstr])⟩

theorem get_stack_frame_size_assign_witness :
    example_reassign_ir[3]?
      = some (new_row (some (MCC_IR_TYPE_IDENTIFIER example_x)) (some (MCC_IR_TYPE_LIT_INT 3))
          MCC_IR_INSTR_ASSIGN) ∧
    first_line_of_function example_reassign_ir 3 = some 0 ∧
    assigned_before example_reassign_ir 0 3 "x" = true ∧
    get_stack_frame_size 2 example_reassign_ir 3 = result 0 :=
  ⟨by decide, by decide, by decide,
    (get_stack_frame_size_assign 2 example_reassign_ir 3 0
      (new_row (some (MCC_IR_TYPE_IDENTIFIER example_x)) (some (MCC_IR_TYPE_LIT_INT 3))
        MCC_IR_INSTR_ASSIGN) (by decide) (by decide)
      (by decide) (by decide)).2.1 example_x rfl (by decide)⟩

/-- C17 fails as stated: in the annotated IR of
`int main(){ int x; int y; x = 1; y = 2; x = 3; return x; }` the rows 1 and 3 both assign
`x`, and their nodes hold the positions -4 and -8. -/
theorem mcc_annotate_ir_same_slot_counterexample :
    mcc_annotate_ir 2 0 example_reassign_ir = result example_reassign_annotated ∧
    (example_reassign_ir[1]?).map (fun r => (r.instr, r.arg1))
      = some (MCC_IR_INSTR_ASSIGN, some (MCC_IR_TYPE_IDENTIFIER example_x)) ∧
    (example_reassign_ir[3]?).map (fun r => (r.instr, r.arg1))
      = some (MCC_IR_INSTR_ASSIGN, some (MCC_IR_TYPE_IDENTIFIER example_x)) ∧
    (example_reassign_annotated[1 + 1]?).map (fun a => (a.row, a.stack_position))
      = some (1, some (-4)) ∧
    (example_reassign_annotated[3 + 1]?).map (fun a => (a.row, a.stack_position))
      = some (3, some (-8)) :=
  ⟨by decide, by decide, by decide, by decide, by decide⟩

/-- C17, amended. In the list that `mcc_annotate_ir` returns, of two ASSIGN rows `i < j` of
one function that write the same variable the later one has `stack_size` 0, and its
`stack_position` is the one of the earlier row minus the sum of the `stack_size` of the rows
strictly between the two: the later row carries the running offset, which is the slot of the
first assignment only if the rows in between allocate nothing in total. -/
theorem mcc_annotate_ir_reassigned_position (fuel : Nat) (frame_size : Int)
    (ir : List mcc_ir_row) (an : List mcc_annotated_ir)
    (h : mcc_annotate_ir fuel frame_size ir = result an) (i j : Nat) (hij : i < j)
    (ri rj : mcc_ir_row) (hri : ir[i]? = some ri) (hrj : ir[j]? = some rj)
    (ident : mcc_ast_identifier)
    (hia : ri.instr = MCC_IR_INSTR_ASSIGN) (hja : rj.instr = MCC_IR_INSTR_ASSIGN)
    (hix : ri.arg1 = some (MCC_IR_TYPE_IDENTIFIER ident))
    (hjx : rj.arg1 = some (MCC_IR_TYPE_IDENTIFIER ident))
    (hfun : first_line_of_function ir i = first_line_of_function ir j) :
    ∃ (a b : mcc_annotated_ir) (p : Int), an[i + 1]? = some a ∧ an[j + 1]? = some b ∧
      a.row = i ∧ b.row = j ∧ b.stack_size = 0 ∧ a.stack_position = some p ∧
      b.stack_position = some (p - stack_size_sum an (i + 2) (j - i - 1)) := by
  have hj : j < ir.length := by
    by_contra hc
    rw [List.getElem?_eq_none (by omega)] at hrj
    exact absurd hrj (by simp)
  have hi : i < ir.length := by omega
  have hnoi : instr_at ir i ≠ some MCC_IR_INSTR_FUNC_LABEL := by simp [instr_at, hri, hia]
  have hnoj : instr_at ir j ≠ some MCC_IR_INSTR_FUNC_LABEL := by simp [instr_at, hrj, hja]
  obtain ⟨_, h0, _, hnodes, hstep⟩ := mcc_annotate_ir_spec fuel frame_size ir an h
  obtain ⟨f, hf, _, _, hbetween⟩ := first_line_of_function_spec ir h0 j hnoj
  obtain ⟨f', hf', hfi', _, _⟩ := first_line_of_function_spec ir h0 i hnoi
  have hff : f' = f := by
    rw [hfun, hf] at hf'
    simp only [Option.some.injEq] at hf'
    exact hf'.symm
  subst hff
  obtain ⟨a, ha, har, _⟩ := hnodes i hi
  obtain ⟨b, hb, hbr, hbsize⟩ := hnodes j hj
  -- the later row allocates nothing
  have hb0 : b.stack_size = 0 := by
    have e := get_stack_frame_size_assign_eq fuel ir j rj hrj hja
    rw [hbsize hnoj, hf] at e
    obtain ⟨is_first, h1, h2⟩ := outcome_bind_result _ _ _ e.symm
    simp only [assignment_is_first_occurence, hrj, hja, hjx, ne_eq, not_true_eq_false,
      if_false] at h1
    have hany : ((ir.drop f').take (j - f')).any (assigns_name ident.identifier_name)
        = true := by
      rw [List.any_eq_true]
      refine ⟨ri, ?_, by simp [assigns_name, hia, hix, arg_identifier_name]⟩
      rw [List.mem_iff_getElem?]
      refine ⟨i - f', ?_⟩
      rw [List.getElem?_take_of_lt (by omega), List.getElem?_drop]
      have : f' + (i - f') = i := by omega
      rw [this]
      exact hri
    have := assignment_is_first_occurence_loop_false _ _ _ h1 hany
    rw [this] at h2
    simp only [Bool.not_false, if_true, result.injEq] at h2
    exact h2.symm
  -- the position of the earlier row
  obtain ⟨o, ho⟩ : ∃ o, an[i]? = some o := by
    rcases Nat.eq_zero_or_pos i with e | e
    · omega
    · obtain ⟨o, ho, _⟩ := hnodes (i - 1) (by omega)
      have e1 : i - 1 + 1 = i := by omega
      rw [e1] at ho
      exact ⟨o, ho⟩
  have hanf : is_func_label_node ir a = false := by simp [is_func_label_node, har, hnoi]
  obtain ⟨p0, _, hpa⟩ := hstep i o a ho ha hanf
  have hoff : offset_after ir a = some (p0 - a.stack_size) := by
    simp [offset_after, hanf, hpa]
  have hall := annotate_nodes_of_stretch ir an
    (fun k hk => by obtain ⟨a, h1, h2, _⟩ := hnodes k hk; exact ⟨a, h1, h2⟩) i j hj
    (fun m h1 h2 => hbetween m (by omega) h2)
  obtain ⟨n, hn, hpos⟩ := stack_position_stretch ir an hstep (i + 1) a ha _ hoff (j - i - 1)
    (fun m h1 h2 => hall m h1 (by omega))
  have e1 : i + 1 + (j - i - 1 + 1) = j + 1 := by omega
  rw [e1] at hn
  rw [hb] at hn
  simp only [Option.some.injEq] at hn
  subst hn
  refine ⟨a, b, p0 - a.stack_size, ha, hb, har, hbr, hb0, hpa, ?_⟩
  have e2 : an[i + 1 + 1 + (j - i - 1)]? = some b := by
    have : i + 1 + 1 + (j - i - 1) = j + 1 := by omega
    rw [this]; exact hb
  rw [hpos, stack_size_sum_succ an (i + 1 + 1) (j - i - 1) b e2, hb0]
  simp

theorem mcc_annotate_ir_reassigned_position_witness :
    mcc_annotate_ir 2 0 example_reassign_ir = result example_reassign_annotated ∧
    first_line_of_function example_reassign_ir 1 = first_line_of_function example_reassign_ir 3 ∧
    stack_size_sum example_reassign_annotated (1 + 2) (3 - 1 - 1) = 4 ∧
    ∃ (a b : mcc_annotated_ir) (p : Int), example_reassign_annotated[1 + 1]? = some a ∧
      example_reassign_annotated[3 + 1]? = some b ∧
      a.row = 1 ∧ b.row = 3 ∧ b.stack_size = 0 ∧ a.stack_position = some p ∧
      b.stack_position
        = some (p - stack_size_sum example_reassign_annotated (1 + 2) (3 - 1 - 1)) :=
  ⟨by decide, by decide, by decide,
    mcc_annotate_ir_reassigned_position 2 0 example_reassign_ir example_reassign_annotated
      (by decide) 1 3 (by decide)
      (new_row (some (MCC_IR_TYPE_IDENTIFIER example_x)) (some (MCC_IR_TYPE_LIT_INT 1))
        MCC_IR_INSTR_ASSIGN)
      (new_row (some (MCC_IR_TYPE_IDENTIFIER example_x)) (some (MCC_IR_TYPE_LIT_INT 3))
        MCC_IR_INSTR_ASSIGN)
      (by decide) (by decide) example_x rfl rfl rfl rfl (by decide)⟩

/-! ### The stack annotator: frame sizes -/

/-- C16 at two inputs, for every value `frame_size` that the uninitialised local of
`get_frame_size_of_function` may start with.  For
`int main(){ int x; int y; x = 1; y = 2; x = 3; return x; }` the rows between the FUNC_LABEL
and the end of the list have sizes that add up to 8, while the two nodes of the FUNC_LABEL
row hold `2 * frame_size + 16` (the head node, whose size is computed twice, the second time
with the first result added in) and `frame_size + 8`.  For
`int main(){ int i; return 0; i = 1; }` the sizes add up to 4, while the nodes of the
FUNC_LABEL row hold `2 * frame_size` and `frame_size`: the last row of a function is left
out of the sum. -/
theorem mcc_annotate_ir_frame_size_example (frame_size : Int) :
    (∃ (an : List mcc_annotated_ir) (head label : mcc_annotated_ir),
      mcc_annotate_ir 2 frame_size example_reassign_ir = result an ∧
      an[0]? = some head ∧ an[1]? = some label ∧ head.row = 0 ∧ label.row = 0 ∧
      head.stack_size = 2 * frame_size + 16 ∧ label.stack_size = frame_size + 8 ∧
      stack_size_sum an 2 4 = 8) ∧
    (∃ (an : List mcc_annotated_ir) (head label : mcc_annotated_ir),
      mcc_annotate_ir 2 frame_size example_return_first_ir = result an ∧
      an[0]? = some head ∧ an[1]? = some label ∧ head.row = 0 ∧ label.row = 0 ∧
      head.stack_size = 2 * frame_size ∧ label.stack_size = frame_size ∧
      stack_size_sum an 2 2 = 4) := by
  constructor
  · refine ⟨[{ stack_size := frame_size + (frame_size + 0 + 0 + 4 + 4 + 0) + 0 + 4 + 4 + 0,
               stack_position := none, row := 0 },
             { stack_size := frame_size + 0 + 4 + 4 + 0, stack_position := none, row := 0 },
             { stack_size := 4, stack_position := some (-4), row := 1 },
             { stack_size := 4, stack_position := some (-8), row := 2 },
             { stack_size := 0, stack_position := some (-8), row := 3 },
             { stack_size := 0, stack_position := some (-8), row := 4 }], _, _,
      rfl, rfl, rfl, rfl, rfl, ?_, ?_, ?_⟩
    · show frame_size + (frame_size + 0 + 0 + 4 + 4 + 0) + 0 + 4 + 4 + 0 = 2 * frame_size + 16
      omega
    · show frame_size + 0 + 4 + 4 + 0 = frame_size + 8
      omega
    · rfl
  · refine ⟨[{ stack_size := frame_size + (frame_size + 0 + 0 + 0) + 0 + 0,
               stack_position := none, row := 0 },
             { stack_size := frame_size + 0 + 0, stack_position := none, row := 0 },
             { stack_size := 0, stack_position := some 0, row := 1 },
             { stack_size := 4, stack_position := some (-4), row := 2 }], _, _,
      rfl, rfl, rfl, rfl, rfl, ?_, ?_, ?_⟩
    · show frame_size + (frame_size + 0 + 0 + 0) + 0 + 0 = 2 * frame_size
      omega
    · show frame_size + 0 + 0 = frame_size
      omega
    · rfl

/-! ### The stack annotator: argument sizes -/

theorem example_copy_ir_rows :
    example_copy_ir
      = [new_row (some (MCC_IR_TYPE_FUNC_LABEL "main")) none MCC_IR_INSTR_FUNC_LABEL,
         new_row (some (MCC_IR_TYPE_IDENTIFIER example_x)) (some (MCC_IR_TYPE_LIT_INT 1))
           MCC_IR_INSTR_ASSIGN,
         new_row (some (MCC_IR_TYPE_IDENTIFIER example_y))
           (some (MCC_IR_TYPE_IDENTIFIER example_x)) MCC_IR_INSTR_ASSIGN,
         new_row (some (MCC_IR_TYPE_IDENTIFIER example_y)) none MCC_IR_INSTR_RETURN] := by
  decide

theorem argument_size_example_copy (fuel : Nat) :
    argument_size fuel example_copy_ir (some (MCC_IR_TYPE_IDENTIFIER example_x)) 2
      = out_of_fuel := by
  induction fuel with
  | zero => rfl
  | succ fuel ih =>
    have hfind : find_first_occurence example_x.identifier_name example_copy_ir 2
        = result (some 1) := by decide
    have hrow : example_copy_ir[2]?
        = some (new_row (some (MCC_IR_TYPE_IDENTIFIER example_y))
            (some (MCC_IR_TYPE_IDENTIFIER example_x)) MCC_IR_INSTR_ASSIGN) := by decide
    simp only [argument_size, hfind, outcome_bind_eq_result, hrow, new_row]
    exact ih

theorem get_stack_frame_size_example_copy (fuel : Nat) :
    get_stack_frame_size fuel example_copy_ir 2 = out_of_fuel := by
  have hrow : example_copy_ir[2]?
      = some (new_row (some (MCC_IR_TYPE_IDENTIFIER example_y))
          (some (MCC_IR_TYPE_IDENTIFIER example_x)) MCC_IR_INSTR_ASSIGN) := by decide
  have hfirst : assignment_is_first_occurence example_copy_ir
      (first_line_of_function example_copy_ir 2) 2 = result true := by decide
  rw [get_stack_frame_size_assign_eq fuel example_copy_ir 2 _ hrow rfl, hfirst]
  exact argument_size_example_copy fuel

/-- C20 at the program `int main(){ int x; int y; x = 1; y = x; return y; }`, whose IR is
`FUNC_LABEL main`, `ASSIGN x 1`, `ASSIGN y x`, `RETURN y`.  The sizes of the literals are 4
and 8, and a row reference has the size that `get_temporary_size` computes for the referenced
row.  For the identifier `x` in row 2 the first defining row is row 1, whose second argument
is the literal 1 of size 4; `argument_size` does not go to that row but calls itself on the
second argument of row 2, which is `x` again, so that no depth of nested calls is enough, and
neither the size of row 2 nor the annotated list is ever returned. -/
theorem argument_size_identifier_example :
    (∀ (ir : List mcc_ir_row) (i fuel : Nat) (n : Int) (f : c_double) (b : Bool) (s : String),
      argument_size (fuel + 1) ir (some (MCC_IR_TYPE_LIT_INT n)) i = result 4 ∧
      argument_size (fuel + 1) ir (some (MCC_IR_TYPE_LIT_BOOL b)) i = result 4 ∧
      argument_size (fuel + 1) ir (some (MCC_IR_TYPE_LIT_STRING s)) i = result 4 ∧
      argument_size (fuel + 1) ir (some (MCC_IR_TYPE_LIT_FLOAT f)) i = result 8) ∧
    (∀ (ir : List mcc_ir_row) (i fuel row : Nat),
      argument_size (fuel + 1) ir (some (MCC_IR_TYPE_ROW row)) i
        = get_temporary_size fuel ir row) ∧
    find_first_occurence "x" example_copy_ir 2 = result (some 1) ∧
    (example_copy_ir[1]?).map (fun r => r.arg2) = some (some (MCC_IR_TYPE_LIT_INT 1)) ∧
    argument_size 1 example_copy_ir (some (MCC_IR_TYPE_LIT_INT 1)) 1 = result 4 ∧
    (∀ fuel, argument_size fuel example_copy_ir (some (MCC_IR_TYPE_IDENTIFIER example_x)) 2
      = out_of_fuel) ∧
    (∀ fuel, get_stack_frame_size fuel example_copy_ir 2 = out_of_fuel) ∧
    (∀ fuel frame_size, mcc_annotate_ir fuel frame_size example_copy_ir = out_of_fuel) := by
  refine ⟨fun ir i fuel n f b s => ⟨rfl, rfl, rfl, rfl⟩, fun ir i fuel row => rfl,
    by decide, by decide, by decide, argument_size_example_copy,
    get_stack_frame_size_example_copy, ?_⟩
  intro fuel frame_size
  have h0 : get_stack_frame_size fuel example_copy_ir 0 = result 0 := by
    simp [get_stack_frame_size, example_copy_ir_rows, new_row]
  have h2 := get_stack_frame_size_example_copy fuel
  have h1 : get_stack_frame_size fuel example_copy_ir 1 = out_of_fuel ∨
      get_stack_frame_size fuel example_copy_ir 1 = result 4 := by
    have hrow : example_copy_ir[1]?
        = some (new_row (some (MCC_IR_TYPE_IDENTIFIER example_x))
            (some (MCC_IR_TYPE_LIT_INT 1)) MCC_IR_INSTR_ASSIGN) := by decide
    have hfirst : assignment_is_first_occurence example_copy_ir
        (first_line_of_function example_copy_ir 1) 1 = result true := by decide
    rw [get_stack_frame_size_assign_eq fuel example_copy_ir 1 _ hrow rfl, hfirst]
    cases fuel with
    | zero => left; rfl
    | succ fuel => right; rfl
  rw [example_copy_ir_rows] at h0 h1 h2 ⊢
  simp only [new_row] at h0 h1 h2 ⊢
  rcases h1 with h1 | h1 <;>
    simp [mcc_annotate_ir, add_stack_sizes, add_stack_sizes_loop, h0, h1, h2, outcome.bind]

/-! ### Shadowed declarations -/

/-- C15 at the program `int main(){ int x; { int x; { int _r1; } { int x; } } return 0; }`.
The first run renames the innermost `x` to `_r0` and then the `x` of the outer block to
`_r1`, the name that the declaration nested in that block already has; the second run, its
counter starting at 0 again, finds that nested declaration shadowing and renames it to
`_r0`.  The names of the declarations after two runs differ from those after one run. -/
theorem modify_ast_twice_example :
    declared_names_program example_shadow_program = ["x", "x", "_r1", "x"] ∧
    declared_names_program (modify_ast example_shadow_program) = ["x", "_r1", "_r1", "_r0"] ∧
    declared_names_program (modify_ast (modify_ast example_shadow_program))
      = ["x", "_r1", "_r0", "_r0"] ∧
    declared_names_program (modify_ast (modify_ast example_shadow_program))
      ≠ declared_names_program (modify_ast example_shadow_program) := by
  refine ⟨by decide, by decide, by decide, by decide⟩

/-! ### The ASSIGN rows of the builder have named targets -/

theorem assign_target_named_expression (r : mcc_ir_row)
    (h : expression_instr r.instr = true) : assign_target_named r = true := by
  have : r.instr ≠ MCC_IR_INSTR_ASSIGN := by
    intro e
    rw [e] at h
    exact absurd h (by decide)
  simp [assign_target_named, this]

mutual
theorem rows_of_statement_assign_target : ∀ (s : mcc_ast_statement)
    (data : ir_generation_userdata),
    ∀ r, r ∈ rows_of_statement s data → assign_target_named r = true
  | MCC_AST_STATEMENT_TYPE_EXPRESSION e, data => by
    intro r hmem
    rw [rows_of_statement_expression] at hmem
    exact assign_target_named_expression _ ((rows_of_expression_kind e data).2 r hmem).1
  | MCC_AST_STATEMENT_TYPE_COMPOUND_STMT c, data => by
    intro r hmem
    rw [rows_of_statement_compound] at hmem
    exact rows_of_comp_statement_assign_target c data r hmem
  | MCC_AST_STATEMENT_TYPE_ASSIGNMENT (MCC_AST_ASSIGNMENT_TYPE_VARIABLE i v), data => by
    intro r hmem
    rw [rows_of_statement_assignment_variable] at hmem
    simp only [List.mem_append, List.mem_singleton] at hmem
    rcases hmem with h | h
    · exact assign_target_named_expression _ ((rows_of_expression_kind v data).2 r h).1
    · subst h; rfl
  | MCC_AST_STATEMENT_TYPE_ASSIGNMENT (MCC_AST_ASSIGNMENT_TYPE_ARRAY i index v), data => by
    intro r hmem
    rw [rows_of_statement_assignment_array] at hmem
    simp only [List.mem_append, List.mem_singleton] at hmem
    rcases hmem with (h | h) | h
    · exact assign_target_named_expression _ ((rows_of_expression_kind index data).2 r h).1
    · exact assign_target_named_expression _ ((rows_of_expression_kind v _).2 r h).1
    · subst h; rfl
  | MCC_AST_STATEMENT_TYPE_DECLARATION (MCC_AST_DECLARATION_TYPE_VARIABLE t i), data => by
    simp [rows_of_statement_declaration_variable]
  | MCC_AST_STATEMENT_TYPE_DECLARATION (MCC_AST_DECLARATION_TYPE_ARRAY t i n), data => by
    intro r hmem
    rw [rows_of_statement_declaration_array] at hmem
    simp only [List.mem_singleton] at hmem
    subst hmem; rfl
  | MCC_AST_STATEMENT_TYPE_IF_ELSE_STMT c s1 s2, data => by
    intro r hmem
    rw [rows_of_statement_if_else] at hmem
    simp only [List.mem_append, List.mem_singleton, List.mem_cons, List.mem_nil_iff,
      or_false] at hmem
    rcases hmem with ((((h | h) | h) | h) | h) | h
    · exact assign_target_named_expression _ ((rows_of_expression_kind c data).2 r h).1
    · subst h; rfl
    · exact rows_of_statement_assign_target s1 _ r h
    · rcases h with h | h <;> (subst h; rfl)
    · exact rows_of_statement_assign_target s2 _ r h
    · subst h; rfl
  | MCC_AST_STATEMENT_TYPE_IF_STMT c s1, data => by
    intro r hmem
    rw [rows_of_statement_if] at hmem
    simp only [List.mem_append, List.mem_singleton] at hmem
    rcases hmem with ((h | h) | h) | h
    · exact assign_target_named_expression _ ((rows_of_expression_kind c data).2 r h).1
    · subst h; rfl
    · exact rows_of_statement_assign_target s1 _ r h
    · subst h; rfl
  | MCC_AST_STATEMENT_TYPE_RETURN none b, data => by
    intro r hmem
    rw [rows_of_statement_return_none] at hmem
    simp only [List.mem_singleton] at hmem
    subst hmem; rfl
  | MCC_AST_STATEMENT_TYPE_RETURN (some e) b, data => by
    intro r hmem
    rw [rows_of_statement_return_some] at hmem
    simp only [List.mem_append, List.mem_singleton] at hmem
    rcases hmem with h | h
    · exact assign_target_named_expression _ ((rows_of_expression_kind e data).2 r h).1
    · subst h; rfl
  | MCC_AST_STATEMENT_TYPE_WHILE c s1, data => by
    intro r hmem
    rw [rows_of_statement_while] at hmem
    simp only [List.mem_append, List.mem_singleton, List.mem_cons, List.mem_nil_iff,
      or_false] at hmem
    rcases hmem with (((h | h) | h) | h) | h
    · subst h; rfl
    · exact assign_target_named_expression _ ((rows_of_expression_kind c _).2 r h).1
    · subst h; rfl
    · exact rows_of_statement_assign_target s1 _ r h
    · rcases h with h | h <;> (subst h; rfl)
theorem rows_of_comp_statement_assign_target : ∀ (c : mcc_ast_compound_statement)
    (data : ir_generation_userdata),
    ∀ r, r ∈ rows_of_comp_statement c data → assign_target_named r = true
  | mcc_ast_compound_statement.null, data => by simp [rows_of_comp_statement_null]
  | mcc_ast_compound_statement.empty next, data => by
    simpa [rows_of_comp_statement_empty] using rows_of_comp_statement_assign_target next data
  | mcc_ast_compound_statement.node s next, data => by
    intro r hmem
    rw [rows_of_comp_statement_node] at hmem
    simp only [List.mem_append] at hmem
    rcases hmem with h | h
    · exact rows_of_statement_assign_target s data r h
    · exact rows_of_comp_statement_assign_target next _ r h
end

theorem pop_assign_rows_assign_target (ps : List mcc_ast_declaration) :
    ∀ (base : Nat) (r : mcc_ir_row), r ∈ pop_assign_rows base ps →
      assign_target_named r = true := by
  induction ps with
  | nil => intro base r h; simp [pop_assign_rows] at h
  | cons p rest ih =>
    intro base r h
    simp only [pop_assign_rows, List.mem_cons] at h
    rcases h with h | h | h
    · subst h; rfl
    · subst h; cases p <;> rfl
    · exact ih (base + 2) r h

theorem mcc_ir_generate_loop_assign_target (p : mcc_ast_program) :
    ∀ data : ir_generation_userdata, (∀ r, r ∈ data.rows → assign_target_named r = true) →
      ∀ r, r ∈ (mcc_ir_generate_loop p data).rows → assign_target_named r = true := by
  induction p with
  | null => intro data h; exact h
  | node f next ih =>
    intro data h
    apply ih
    intro r hr
    rw [generate_ir_program, generate_ir_function_definition_eq,
      generate_ir_comp_statement_rows, after_parameters_rows] at hr
    simp only [List.mem_append, List.mem_singleton] at hr
    rcases hr with ((hr | hr) | hr) | hr
    · exact h r hr
    · subst hr; rfl
    · exact pop_assign_rows_assign_target _ _ r hr
    · exact rows_of_comp_statement_assign_target _ _ r hr

theorem number_rows_loop_assign_target : ∀ (rows : List mcc_ir_row) (i : Nat),
    (∀ r, r ∈ rows → assign_target_named r = true) →
    ∀ r, r ∈ number_rows_loop rows i → assign_target_named r = true := by
  intro rows
  induction rows with
  | nil => intro i _ r h; simp [number_rows_loop] at h
  | cons head rest ih =>
    intro i hall r h
    have hrest : ∀ r, r ∈ rest → assign_target_named r = true :=
      fun r hr => hall r (List.mem_cons_of_mem _ hr)
    have hhead := hall head (List.mem_cons_self _ _)
    simp only [number_rows_loop] at h
    split at h
    · simp only [List.mem_cons] at h
      rcases h with h | h
      · subst h; exact hhead
      · exact ih _ hrest r h
    · simp only [List.mem_cons] at h
      rcases h with h | h
      · subst h; exact hhead
      · exact ih _ hrest r h

/-- Every stretch of the IR that `mcc_ir_generate` returns meets the
requirement on the targets of ASSIGN rows. -/
theorem mcc_ir_generate_assign_targets_named
    (mcc_ast_remove_built_ins modify : mcc_ast_program → mcc_ast_program)
    (ast : mcc_ast_program) (f len : Nat) :
    assign_targets_named
      (((mcc_ir_generate mcc_ast_remove_built_ins modify ast).drop f).take len) = true := by
  simp only [assign_targets_named, List.all_eq_true]
  intro r hr
  have hmem : r ∈ mcc_ir_generate mcc_ast_remove_built_ins modify ast :=
    List.mem_of_mem_drop (List.mem_of_mem_take hr)
  exact number_rows_loop_assign_target _ 0
    (mcc_ir_generate_loop_assign_target _ _ (by simp)) r hmem

/-! ### The example inputs under the AST rewrite -/

/-- The rewrite of the AST changes nothing in the IR of the three example
programs of the stack annotator: none of them has a shadowing declaration, and
each body holds a top-level return. -/
theorem example_ir_modify_ast :
    mcc_ir_generate id modify_ast
        (mcc_ast_program.node example_return_first_function mcc_ast_program.null)
      = example_return_first_ir ∧
    mcc_ir_generate id modify_ast
        (mcc_ast_program.node example_reassign_function mcc_ast_program.null)
      = example_reassign_ir ∧
    mcc_ir_generate id modify_ast
        (mcc_ast_program.node example_copy_function mcc_ast_program.null)
      = example_copy_ir := by
  refine ⟨by decide, by decide, by decide⟩

/-! ### The main-function check -/

theorem write_error_message_to_check_of_fail (check : mcc_semantic_check) (s : String)
    (h : check.status = MCC_SEMANTIC_CHECK_FAIL) :
    (write_error_message_to_check check s).1 = check := by
  unfold write_error_message_to_check
  split
  · rfl
  · simp [h]

/-- A record that has failed leaves the loop of the main-function check with
status FAIL. -/
theorem mcc_semantic_check_run_main_function_loop_fail :
    ∀ (rest : mcc_ast_program) (n : Nat) (check : mcc_semantic_check),
      check.status = MCC_SEMANTIC_CHECK_FAIL →
      (mcc_semantic_check_run_main_function_loop rest n check).1.status
        = MCC_SEMANTIC_CHECK_FAIL := by
  intro rest
  induction rest with
  | null =>
    intro n check h
    simp only [mcc_semantic_check_run_main_function_loop]
    split
    · rw [write_error_message_to_check_of_fail check _ h]; exact h
    · exact h
  | node f next ih =>
    intro n check h
    simp only [mcc_semantic_check_run_main_function_loop]
    split
    · have ht : ∀ (t : semantic_run), t.1.status = MCC_SEMANTIC_CHECK_FAIL →
          (match t.2 with
            | result _ =>
              match parameters_is_empty f.parameters with
              | none => (t.1, invalid_read)
              | some false =>
                write_error_message_to_check t.1
                  "Main has wrong signature. Must be `int main()`"
              | some true => mcc_semantic_check_run_main_function_loop next (n + 1) t.1
            | _ => t).1.status = MCC_SEMANTIC_CHECK_FAIL := by
        intro t hts
        cases h2 : t.2 with
        | result e =>
          simp only
          cases h3 : parameters_is_empty f.parameters with
          | none => exact hts
          | some b =>
            cases b with
            | false =>
              simp only
              rw [write_error_message_to_check_of_fail _ _ hts]; exact hts
            | true => exact ih _ _ hts
        | assertion_failed => exact hts
        | invalid_read => exact hts
        | out_of_fuel => exact hts
      apply ht
      split
      · rw [write_error_message_to_check_of_fail check _ h]; exact h
      · exact h
    · exact ih n check h

/-- The loop of the main-function check, entered with a record that has not
failed after `n ≤ 1` functions named `main` without parameters: it leaves the
record untouched if, with the rest of the program, there is exactly one such
function and it has no parameters, and with status FAIL otherwise. -/
theorem mcc_semantic_check_run_main_function_loop_clean :
    ∀ (rest : mcc_ast_program) (n : Nat), n ≤ 1 → none ∉ main_parameters rest →
      (((n = 0 ∧ main_parameters rest = [some true]) ∨ (n = 1 ∧ main_parameters rest = [])) →
        mcc_semantic_check_run_main_function_loop rest n mcc_semantic_check_initialize_check
          = (mcc_semantic_check_initialize_check, result MCC_SEMANTIC_CHECK_ERROR_OK)) ∧
      (¬((n = 0 ∧ main_parameters rest = [some true]) ∨ (n = 1 ∧ main_parameters rest = [])) →
        (mcc_semantic_check_run_main_function_loop rest n
          mcc_semantic_check_initialize_check).1.status = MCC_SEMANTIC_CHECK_FAIL) := by
  intro rest
  induction rest with
  | null =>
    intro n hn _
    simp only [mcc_semantic_check_run_main_function_loop, main_parameters]
    rcases Nat.eq_zero_or_pos n with h | h
    · subst h
      refine ⟨fun hc => ?_, fun _ => by decide⟩
      simp at hc
    · have h1 : n = 1 := by omega
      subst h1
      exact ⟨fun _ => by simp, fun hc => (hc (by simp)).elim⟩
  | node f next ih =>
    intro n hn hnone
    by_cases hm : f.identifier.identifier_name = "main"
    · have hmp : main_parameters (mcc_ast_program.node f next)
          = parameters_is_empty f.parameters :: main_parameters next := by
        simp [main_parameters, hm]
      rw [hmp] at hnone ⊢
      have hnext : none ∉ main_parameters next := fun h => hnone (List.mem_cons_of_mem _ h)
      have hpar : parameters_is_empty f.parameters ≠ none :=
        fun h => hnone (by rw [h]; exact List.mem_cons_self _ _)
      simp only [mcc_semantic_check_run_main_function_loop, hm, if_true]
      rcases Nat.eq_zero_or_pos n with h | h
      · subst h
        simp only [Nat.zero_add, gt_iff_lt, Nat.lt_irrefl, if_false]
        cases hp : parameters_is_empty f.parameters with
        | none => exact absurd hp hpar
        | some b =>
          cases b with
          | false =>
            refine ⟨fun hc => ?_, fun _ => ?_⟩
            · simp at hc
            · simp [write_error_message_to_check, mcc_semantic_check_initialize_check]
          | true =>
            obtain ⟨ih1, ih2⟩ := ih 1 (by omega) hnext
            simp only
            refine ⟨fun hc => ?_, fun hc => ?_⟩
            · apply ih1
              right
              simpa using hc
            · apply ih2
              intro hc2
              apply hc
              left
              rcases hc2 with ⟨h0, _⟩ | ⟨_, h1⟩
              · omega
              · simp [h1]
      · have h1 : n = 1 := by omega
        subst h1
        refine ⟨fun hc => ?_, fun _ => ?_⟩
        · simp at hc
        · have hw : write_error_message_to_check mcc_semantic_check_initialize_check
              "Too many main functions defined."
              = ({ status := MCC_SEMANTIC_CHECK_FAIL,
                   error_buffer := some "Too many main functions defined." },
                 result MCC_SEMANTIC_CHECK_ERROR_OK) := by decide
          simp only [show (1 + 1 > 1) = True by simp, if_true, hw]
          cases hp : parameters_is_empty f.parameters with
          | none => exact absurd hp hpar
          | some b =>
            cases b with
            | false =>
              simp only
              rw [write_error_message_to_check_of_fail _ _ rfl]
            | true => exact mcc_semantic_check_run_main_function_loop_fail _ _ _ rfl
    · have hmp : main_parameters (mcc_ast_program.node f next) = main_parameters next := by
        simp [main_parameters, hm]
      rw [hmp] at hnone ⊢
      simp only [mcc_semantic_check_run_main_function_loop, hm, if_false]
      exact ih n hn hnone

/-- C21: `mcc_semantic_check_run_main_function`, entered with a record of status OK on a
program whose functions named `main` have a parameter node, leaves the record with status OK
if and only if the program has exactly one function named `main` and the parameter list of
that function is empty; then the call returns with the record untouched, and in every other
case the status is FAIL when the call ends, be it by returning or on an assertion of
`write_error_message_to_check`. -/
theorem mcc_semantic_check_run_main_function_status (ast : mcc_ast_program)
    (symbol_table : mcc_symbol_table) (check : mcc_semantic_check)
    (hast : ast ≠ mcc_ast_program.null) (hcheck : check.status = MCC_SEMANTIC_CHECK_OK)
    (hpars : none ∉ main_parameters ast) :
    ((mcc_semantic_check_run_main_function ast symbol_table check).1.status
        = MCC_SEMANTIC_CHECK_OK ↔ main_parameters ast = [some true])
    ∧ (main_parameters ast = [some true] →
        mcc_semantic_check_run_main_function ast symbol_table check
          = ({ status := MCC_SEMANTIC_CHECK_OK, error_buffer := none },
             result MCC_SEMANTIC_CHECK_ERROR_OK))
    ∧ (main_parameters ast ≠ [some true] →
        (mcc_semantic_check_run_main_function ast symbol_table check).1.status
          = MCC_SEMANTIC_CHECK_FAIL) := by
  have key : (main_parameters ast = [some true] →
        mcc_semantic_check_run_main_function ast symbol_table check
          = (mcc_semantic_check_initialize_check, result MCC_SEMANTIC_CHECK_ERROR_OK))
      ∧ (main_parameters ast ≠ [some true] →
        (mcc_semantic_check_run_main_function ast symbol_table check).1.status
          = MCC_SEMANTIC_CHECK_FAIL) := by
    cases ast with
    | null => exact absurd rfl hast
    | node f next =>
      simp only [mcc_semantic_check_run_main_function, hcheck, ne_eq, not_true_eq_false,
        if_false]
      by_cases hm : f.identifier.identifier_name = "main"
      · have hmp : main_parameters (mcc_ast_program.node f next)
            = parameters_is_empty f.parameters :: main_parameters next := by
          simp [main_parameters, hm]
        rw [hmp] at hpars ⊢
        have hnext : none ∉ main_parameters next := fun h => hpars (List.mem_cons_of_mem _ h)
        have hpar : parameters_is_empty f.parameters ≠ none :=
          fun h => hpars (by rw [h]; exact List.mem_cons_self _ _)
        simp only [hm, if_true]
        cases hp : parameters_is_empty f.parameters with
        | none => exact absurd hp hpar
        | some b =>
          cases b with
          | false =>
            refine ⟨fun hc => ?_, fun _ => ?_⟩
            · simp at hc
            · simp [write_error_message_to_check, mcc_semantic_check_initialize_check]
          | true =>
            obtain ⟨ih1, ih2⟩ :=
              mcc_semantic_check_run_main_function_loop_clean next 1 (by omega) hnext
            simp only
            refine ⟨fun hc => ?_, fun hc => ?_⟩
            · apply ih1
              right
              simpa using hc
            · apply ih2
              intro hc2
              apply hc
              rcases hc2 with ⟨h0, _⟩ | ⟨_, h1⟩
              · omega
              · simp [h1]
      · have hmp : main_parameters (mcc_ast_program.node f next) = main_parameters next := by
          simp [main_parameters, hm]
        rw [hmp] at hpars ⊢
        simp only [hm, if_false]
        obtain ⟨ih1, ih2⟩ :=
          mcc_semantic_check_run_main_function_loop_clean next 0 (by omega) hpars
        refine ⟨fun hc => ih1 (Or.inl ⟨rfl, hc⟩), fun hc => ih2 ?_⟩
        intro hc2
        rcases hc2 with ⟨_, h1⟩ | ⟨h0, _⟩
        · exact hc h1
        · omega
  refine ⟨⟨fun h => ?_, fun h => ?_⟩, key.1, key.2⟩
  · by_contra hc
    rw [key.2 hc] at h
    exact absurd h (by decide)
  · rw [key.1 h]
    rfl

theorem mcc_semantic_check_run_main_function_status_witness :
    example_two_foo_program ≠ mcc_ast_program.null ∧
    none ∉ main_parameters example_two_foo_program ∧
    main_parameters example_two_foo_program = [some true] ∧
    main_parameters example_main_parameter_program = [some false] ∧
    ((mcc_semantic_check_run_main_function example_two_foo_program example_symbol_table
        mcc_semantic_check_initialize_check).1.status
        = MCC_SEMANTIC_CHECK_OK ↔ main_parameters example_two_foo_program = [some true]) ∧
    (mcc_semantic_check_run_main_function example_main_parameter_program example_symbol_table
        mcc_semantic_check_initialize_check).1.status = MCC_SEMANTIC_CHECK_FAIL :=
  ⟨by simp [example_two_foo_program], by decide, by decide, by decide,
    (mcc_semantic_check_run_main_function_status example_two_foo_program example_symbol_table
      mcc_semantic_check_initialize_check (by simp [example_two_foo_program]) rfl
      (by decide)).1,
    by decide⟩

/-! ### Checks that read nothing of what they are named for -/

/-- C22: the return type of `main` is read by none of the checks: for every return type
`type`, `float` among them, and every symbol table, `mcc_semantic_check_run_all` on the
program `type main(){ return 0; }` returns the record with status OK and without message,
and so does `mcc_semantic_check_run_main_function` on it. -/
theorem mcc_semantic_check_run_all_main_return_type (type : mcc_ast_types)
    (symbol_table : mcc_symbol_table) :
    mcc_semantic_check_run_all
        (mcc_ast_program.node (example_main_function type) mcc_ast_program.null) symbol_table
      = result (some { status := MCC_SEMANTIC_CHECK_OK, error_buffer := none })
    ∧ mcc_semantic_check_run_main_function
        (mcc_ast_program.node (example_main_function type) mcc_ast_program.null) symbol_table
        mcc_semantic_check_initialize_check
      = ({ status := MCC_SEMANTIC_CHECK_OK, error_buffer := none },
         result MCC_SEMANTIC_CHECK_ERROR_OK)
    ∧ mcc_semantic_check_run_all example_float_main_program symbol_table
      = result (some { status := MCC_SEMANTIC_CHECK_OK, error_buffer := none }) :=
  ⟨rfl, rfl, rfl⟩

/-- C23: `mcc_semantic_check_run_multiple_function_definitions` leaves every program with
status OK and without message, whatever the record was; on the program
`void foo(){ } void foo(){ } int main(){ return 0; }`, in which two functions are named
`foo`, `mcc_semantic_check_run_all` returns the record with status OK. -/
theorem mcc_semantic_check_run_multiple_function_definitions_status (ast : mcc_ast_program)
    (symbol_table : mcc_symbol_table) (check : mcc_semantic_check) :
    mcc_semantic_check_run_multiple_function_definitions ast symbol_table check
      = ({ status := MCC_SEMANTIC_CHECK_OK, error_buffer := none },
         result MCC_SEMANTIC_CHECK_ERROR_OK)
    ∧ function_names example_two_foo_program = ["foo", "foo", "main"]
    ∧ mcc_semantic_check_run_multiple_function_definitions example_two_foo_program symbol_table
        mcc_semantic_check_initialize_check
      = ({ status := MCC_SEMANTIC_CHECK_OK, error_buffer := none },
         result MCC_SEMANTIC_CHECK_ERROR_OK)
    ∧ mcc_semantic_check_run_all example_two_foo_program symbol_table
      = result (some { status := MCC_SEMANTIC_CHECK_OK, error_buffer := none }) :=
  ⟨rfl, rfl, rfl, rfl⟩

/-- C24: `mcc_semantic_check_run_nonvoid_check` leaves every program with status OK and
without message, whatever the record was; so it does on `int main(){ if (true) return 0; }`,
whose body can end without a return, and on `int main(){ }`, and
`mcc_semantic_check_run_all` returns the record with status OK on both. -/
theorem mcc_semantic_check_run_nonvoid_check_status (ast : mcc_ast_program)
    (symbol_table : mcc_symbol_table) (check : mcc_semantic_check) :
    mcc_semantic_check_run_nonvoid_check ast symbol_table check
      = ({ status := MCC_SEMANTIC_CHECK_OK, error_buffer := none },
         result MCC_SEMANTIC_CHECK_ERROR_OK)
    ∧ function_types example_if_return_program = [mcc_ast_types.INT]
    ∧ function_types example_empty_main_program = [mcc_ast_types.INT]
    ∧ mcc_semantic_check_run_nonvoid_check example_if_return_program symbol_table
        mcc_semantic_check_initialize_check
      = ({ status := MCC_SEMANTIC_CHECK_OK, error_buffer := none },
         result MCC_SEMANTIC_CHECK_ERROR_OK)
    ∧ mcc_semantic_check_run_nonvoid_check example_empty_main_program symbol_table
        mcc_semantic_check_initialize_check
      = ({ status := MCC_SEMANTIC_CHECK_OK, error_buffer := none },
         result MCC_SEMANTIC_CHECK_ERROR_OK)
    ∧ mcc_semantic_check_run_all example_if_return_program symbol_table
      = result (some { status := MCC_SEMANTIC_CHECK_OK, error_buffer := none })
    ∧ mcc_semantic_check_run_all example_empty_main_program symbol_table
      = result (some { status := MCC_SEMANTIC_CHECK_OK, error_buffer := none }) :=
  ⟨rfl, rfl, rfl, rfl, rfl, rfl, rfl⟩

/-! ### Typing of expressions -/

theorem record_failure_status (size : Nat) (message : String) (check : mcc_semantic_check) :
    (record_failure size message check).status = MCC_SEMANTIC_CHECK_FAIL := rfl

theorem status_eq_fail_iff (check : mcc_semantic_check) :
    check.status = MCC_SEMANTIC_CHECK_FAIL ↔ check.status ≠ MCC_SEMANTIC_CHECK_OK := by
  cases h : check.status <;> simp

/-- The test of a binary expression on its operand types leaves a failed record failed. -/
theorem check_and_get_type_binary_expression_operands_fail (op : mcc_ast_binary_op)
    (lhs rhs : mcc_semantic_check_data_type) (check : mcc_semantic_check)
    (h : check.status = MCC_SEMANTIC_CHECK_FAIL) :
    (check_and_get_type_binary_expression_operands op lhs rhs check).2.status
      = MCC_SEMANTIC_CHECK_FAIL := by
  simp only [check_and_get_type_binary_expression_operands]
  split_ifs <;> first | exact record_failure_status _ _ _ | exact h

theorem check_and_get_type_unary_expression_operand_fail (u_op : mcc_ast_unary_op)
    (child : mcc_semantic_check_data_type) (check : mcc_semantic_check)
    (h : check.status = MCC_SEMANTIC_CHECK_FAIL) :
    (check_and_get_type_unary_expression_operand u_op child check).2.status
      = MCC_SEMANTIC_CHECK_FAIL := by
  simp only [check_and_get_type_unary_expression_operand]
  split_ifs <;> first | exact record_failure_status _ _ _ | exact h

theorem check_and_get_type_identifier_fail (table : mcc_symbol_table_lookup)
    (identifier : mcc_ast_identifier) (check : mcc_semantic_check)
    (h : check.status = MCC_SEMANTIC_CHECK_FAIL) :
    (check_and_get_type_identifier table identifier check).2.status
      = MCC_SEMANTIC_CHECK_FAIL := by
  simp only [check_and_get_type_identifier]
  split <;> first | exact record_failure_status _ _ _ | exact h

theorem check_and_get_type_array_element_operands_fail
    (index identifier : mcc_semantic_check_data_type) (check : mcc_semantic_check)
    (h : check.status = MCC_SEMANTIC_CHECK_FAIL) :
    (check_and_get_type_array_element_operands index identifier check).2.status
      = MCC_SEMANTIC_CHECK_FAIL := by
  simp only [check_and_get_type_array_element_operands]
  split_ifs <;> first | exact record_failure_status _ _ _ | exact h

theorem get_type_function_call_fail (table : mcc_symbol_table_lookup)
    (function_identifier : mcc_ast_identifier) (check : mcc_semantic_check)
    (h : check.status = MCC_SEMANTIC_CHECK_FAIL) :
    (get_type_function_call table function_identifier check).2.status
      = MCC_SEMANTIC_CHECK_FAIL := by
  simp only [get_type_function_call]
  split <;> first | exact record_failure_status _ _ _ | exact h

/-- Typing an expression leaves a failed record failed. -/
theorem check_and_get_type_expression_fail (table : mcc_symbol_table_lookup) :
    ∀ (expression : mcc_ast_expression) (check : mcc_semantic_check),
      check.status = MCC_SEMANTIC_CHECK_FAIL →
      (check_and_get_type_expression table expression check).2.status
        = MCC_SEMANTIC_CHECK_FAIL
  | MCC_AST_EXPRESSION_TYPE_LITERAL _, _, h => h
  | MCC_AST_EXPRESSION_TYPE_BINARY_OP op lhs rhs, check, h => by
    simp only [check_and_get_type_expression]
    exact check_and_get_type_binary_expression_operands_fail _ _ _ _
      (check_and_get_type_expression_fail table rhs _
        (check_and_get_type_expression_fail table lhs check h))
  | MCC_AST_EXPRESSION_TYPE_PARENTH expression, check, h => by
    simp only [check_and_get_type_expression]
    exact check_and_get_type_expression_fail table expression check h
  | MCC_AST_EXPRESSION_TYPE_UNARY_OP u_op child, check, h => by
    simp only [check_and_get_type_expression]
    exact check_and_get_type_unary_expression_operand_fail _ _ _
      (check_and_get_type_expression_fail table child check h)
  | MCC_AST_EXPRESSION_TYPE_VARIABLE identifier, check, h => by
    simp only [check_and_get_type_expression]
    exact check_and_get_type_identifier_fail table identifier check h
  | MCC_AST_EXPRESSION_TYPE_ARRAY_ELEMENT array_identifier index, check, h => by
    simp only [check_and_get_type_expression]
    exact check_and_get_type_array_element_operands_fail _ _ _
      (check_and_get_type_identifier_fail table array_identifier _
        (check_and_get_type_expression_fail table index check h))
  | MCC_AST_EXPRESSION_TYPE_FUNCTION_CALL function_identifier _, check, h => by
    simp only [check_and_get_type_expression]
    exact get_type_function_call_fail table function_identifier check h

/-- The record after the test of a binary expression on operand types `lhs` and `rhs`, the
left one known, from a record that has not failed: it fails exactly if the switch on the
operator gives no success or an operand is an array or a string. -/
theorem check_and_get_type_binary_expression_operands_status (op : mcc_ast_binary_op)
    (lhs rhs : mcc_semantic_check_data_type) (check : mcc_semantic_check)
    (hok : check.status = MCC_SEMANTIC_CHECK_OK)
    (hknown : lhs.type ≠ MCC_SEMANTIC_CHECK_UNKNOWN) :
    ((check_and_get_type_binary_expression_operands op lhs rhs check).2.status
        = MCC_SEMANTIC_CHECK_FAIL ↔
      (binary_op_success op lhs rhs = false ∨ lhs.is_array = true ∨ rhs.is_array = true ∨
        is_string lhs = true ∨ is_string rhs = true))
    ∧ ((check_and_get_type_binary_expression_operands op lhs rhs check).2.status
        ≠ MCC_SEMANTIC_CHECK_FAIL →
      (check_and_get_type_binary_expression_operands op lhs rhs check).2 = check) := by
  simp only [check_and_get_type_binary_expression_operands]
  by_cases hc : (!binary_op_success op lhs rhs || lhs.is_array || rhs.is_array ||
      is_string lhs || is_string rhs) = true
  · rw [if_pos hc]
    have hf : ∀ c : mcc_semantic_check, c.status = MCC_SEMANTIC_CHECK_FAIL →
        (if (binary_op_success op lhs rhs &&
            decide (({ lhs with type := MCC_SEMANTIC_CHECK_UNKNOWN } :
              mcc_semantic_check_data_type).type = MCC_SEMANTIC_CHECK_UNKNOWN)) = true
          then record_failure 50 "error: operation on unknown type" c else c).status
          = MCC_SEMANTIC_CHECK_FAIL := by
      intro c hcs
      split_ifs
      · rfl
      · exact hcs
    refine ⟨⟨fun _ => ?_, fun _ => hf _ rfl⟩, fun h => absurd (hf _ rfl) h⟩
    simpa [Bool.or_eq_true, or_assoc] using hc
  · rw [if_neg hc]
    have hk : decide (lhs.type = MCC_SEMANTIC_CHECK_UNKNOWN) = false := by simpa using hknown
    simp only [hk, Bool.and_false, Bool.false_eq_true, if_false]
    refine ⟨⟨fun h => ?_, fun h => ?_⟩, fun _ => trivial⟩
    · rw [hok] at h
      exact absurd h (by decide)
    · exfalso
      apply hc
      simpa [Bool.or_eq_true, or_assoc] using h

/-- For an arithmetic operator the switch gives `types_equal lhs rhs && !is_bool lhs`. -/
theorem binary_op_success_arithmetic (op : mcc_ast_binary_op)
    (lhs rhs : mcc_semantic_check_data_type) (hop : is_arithmetic_op op = true) :
    binary_op_success op lhs rhs = (types_equal lhs rhs && !is_bool lhs) := by
  cases op <;> first | rfl | exact absurd hop (by decide)

/-- The failure condition of an arithmetic operator in terms of the operand types. -/
theorem arithmetic_failure_iff (lhs rhs : mcc_semantic_check_data_type) :
    ((types_equal lhs rhs && !is_bool lhs) = false ∨ lhs.is_array = true ∨
        rhs.is_array = true ∨ is_string lhs = true ∨ is_string rhs = true) ↔
      (types_equal lhs rhs = false ∨ lhs.type = MCC_SEMANTIC_CHECK_BOOL ∨
        rhs.type = MCC_SEMANTIC_CHECK_BOOL ∨ lhs.is_array = true ∨ rhs.is_array = true ∨
        lhs.type = MCC_SEMANTIC_CHECK_STRING ∨ rhs.type = MCC_SEMANTIC_CHECK_STRING) := by
  obtain ⟨lt, la, ls⟩ := lhs
  obtain ⟨rt, ra, rs⟩ := rhs
  simp only [types_equal, is_bool, is_string]
  cases la <;> cases ra <;> simp
  by_cases h1 : lt = rt
  · subst h1
    by_cases h2 : ls = rs
    · simp [h2]
    · simp [h2]
  · simp [h1]

/-- The returned object of a binary expression with an arithmetic operator that does not
fail is the type of the left operand, and that of the right operand is the same. -/
theorem check_and_get_type_binary_expression_operands_arithmetic (op : mcc_ast_binary_op)
    (lhs rhs : mcc_semantic_check_data_type) (check : mcc_semantic_check)
    (hop : is_arithmetic_op op = true)
    (h : ¬(binary_op_success op lhs rhs = false ∨ lhs.is_array = true ∨ rhs.is_array = true ∨
        is_string lhs = true ∨ is_string rhs = true)) :
    (check_and_get_type_binary_expression_operands op lhs rhs check).1 = lhs ∧ lhs = rhs := by
  have hc : ¬((!binary_op_success op lhs rhs || lhs.is_array || rhs.is_array ||
      is_string lhs || is_string rhs) = true) := by
    intro hc
    apply h
    simpa [Bool.or_eq_true, or_assoc] using hc
  refine ⟨?_, ?_⟩
  · simp only [check_and_get_type_binary_expression_operands, if_neg hc, hop]
    rfl
  · rw [binary_op_success_arithmetic op lhs rhs hop] at h
    obtain ⟨lt, la, ls⟩ := lhs
    obtain ⟨rt, ra, rs⟩ := rhs
    simp only [types_equal, is_bool, is_string] at h
    cases la <;> cases ra <;> simp at h
    simp only [mcc_semantic_check_data_type.mk.injEq, true_and]
    exact ⟨h.1.1, h.1.2.1⟩

/-- C25: for a binary expression with an arithmetic operator (ADD, SUB, MUL, DIV) whose right
operand is typed, after the left one, with the record at status OK, the type of the left
operand not being the tag UNKNOWN of a failed typing, the typing sets the status to FAIL if
and only if the operand types are unequal or an operand has the tag BOOL, is an array or has
the tag STRING; when it does not fail, the returned type is the type of the left operand,
which is also that of the right operand, and the record is as the operands left it. -/
theorem check_and_get_type_binary_expression_arithmetic (table : mcc_symbol_table_lookup)
    (op : mcc_ast_binary_op) (lhs rhs : mcc_ast_expression) (check : mcc_semantic_check)
    (hop : is_arithmetic_op op = true)
    (hok : (check_and_get_type_expression table rhs
        (check_and_get_type_expression table lhs check).2).2.status = MCC_SEMANTIC_CHECK_OK)
    (hknown : (check_and_get_type_expression table lhs check).1.type
        ≠ MCC_SEMANTIC_CHECK_UNKNOWN) :
    ((check_and_get_type_expression table (MCC_AST_EXPRESSION_TYPE_BINARY_OP op lhs rhs)
        check).2.status = MCC_SEMANTIC_CHECK_FAIL ↔
      (types_equal (check_and_get_type_expression table lhs check).1
          (check_and_get_type_expression table rhs
            (check_and_get_type_expression table lhs check).2).1 = false ∨
        (check_and_get_type_expression table lhs check).1.type = MCC_SEMANTIC_CHECK_BOOL ∨
        (check_and_get_type_expression table rhs
            (check_and_get_type_expression table lhs check).2).1.type
          = MCC_SEMANTIC_CHECK_BOOL ∨
        (check_and_get_type_expression table lhs check).1.is_array = true ∨
        (check_and_get_type_expression table rhs
            (check_and_get_type_expression table lhs check).2).1.is_array = true ∨
        (check_and_get_type_expression table lhs check).1.type = MCC_SEMANTIC_CHECK_STRING ∨
        (check_and_get_type_expression table rhs
            (check_and_get_type_expression table lhs check).2).1.type
          = MCC_SEMANTIC_CHECK_STRING))
    ∧ ((check_and_get_type_expression table (MCC_AST_EXPRESSION_TYPE_BINARY_OP op lhs rhs)
        check).2.status ≠ MCC_SEMANTIC_CHECK_FAIL →
      (check_and_get_type_expression table (MCC_AST_EXPRESSION_TYPE_BINARY_OP op lhs rhs)
          check).1 = (check_and_get_type_expression table lhs check).1 ∧
      (check_and_get_type_expression table (MCC_AST_EXPRESSION_TYPE_BINARY_OP op lhs rhs)
          check).1 = (check_and_get_type_expression table rhs
            (check_and_get_type_expression table lhs check).2).1 ∧
      (check_and_get_type_expression table (MCC_AST_EXPRESSION_TYPE_BINARY_OP op lhs rhs)
          check).2 = (check_and_get_type_expression table rhs
            (check_and_get_type_expression table lhs check).2).2) := by
  simp only [check_and_get_type_expression]
  generalize (check_and_get_type_expression table rhs
    (check_and_get_type_expression table lhs check).2) = r at hok ⊢
  generalize (check_and_get_type_expression table lhs check).1 = l at hknown ⊢
  obtain ⟨hiff, hsame⟩ :=
    check_and_get_type_binary_expression_operands_status op l r.1 r.2 hok hknown
  refine ⟨?_, fun h => ?_⟩
  · rw [hiff, binary_op_success_arithmetic op l r.1 hop]
    exact arithmetic_failure_iff l r.1
  · have hn := fun hc => h (hiff.2 hc)
    obtain ⟨h1, h2⟩ :=
      check_and_get_type_binary_expression_operands_arithmetic op l r.1 r.2 hop hn
    exact ⟨h1, h1.trans h2, hsame h⟩

theorem check_and_get_type_binary_expression_arithmetic_witness :
    is_arithmetic_op MCC_AST_BINARY_OP_ADD = true ∧
    (check_and_get_type_expression (example_symbol_table.at_assignment 0)
        (MCC_AST_EXPRESSION_TYPE_BINARY_OP MCC_AST_BINARY_OP_ADD
          (MCC_AST_EXPRESSION_TYPE_LITERAL (MCC_AST_LITERAL_TYPE_INT 1))
          (MCC_AST_EXPRESSION_TYPE_LITERAL (MCC_AST_LITERAL_TYPE_BOOL true)))
        mcc_semantic_check_initialize_check).2.status = MCC_SEMANTIC_CHECK_FAIL ∧
    types_equal
        (check_and_get_type_expression (example_symbol_table.at_assignment 0)
          (MCC_AST_EXPRESSION_TYPE_LITERAL (MCC_AST_LITERAL_TYPE_INT 1))
          mcc_semantic_check_initialize_check).1
        (check_and_get_type_expression (example_symbol_table.at_assignment 0)
          (MCC_AST_EXPRESSION_TYPE_LITERAL (MCC_AST_LITERAL_TYPE_BOOL true))
          mcc_semantic_check_initialize_check).1 = false ∧
    (check_and_get_type_expression (example_symbol_table.at_assignment 0)
        (MCC_AST_EXPRESSION_TYPE_BINARY_OP MCC_AST_BINARY_OP_MUL
          (MCC_AST_EXPRESSION_TYPE_VARIABLE example_x)
          (MCC_AST_EXPRESSION_TYPE_LITERAL (MCC_AST_LITERAL_TYPE_INT 2)))
        mcc_semantic_check_initialize_check)
      = ({ type := MCC_SEMANTIC_CHECK_INT, is_array := false, array_size := -1 },
         mcc_semantic_check_initialize_check) :=
  ⟨by decide,
    (check_and_get_type_binary_expression_arithmetic (example_symbol_table.at_assignment 0)
      MCC_AST_BINARY_OP_ADD (MCC_AST_EXPRESSION_TYPE_LITERAL (MCC_AST_LITERAL_TYPE_INT 1))
      (MCC_AST_EXPRESSION_TYPE_LITERAL (MCC_AST_LITERAL_TYPE_BOOL true))
      mcc_semantic_check_initialize_check (by decide) (by decide) (by decide)).1.2
      (Or.inl (by decide)),
    by decide, by decide⟩

/-- For an equality operator the switch gives `types_equal lhs rhs`. -/
theorem binary_op_success_equality (op : mcc_ast_binary_op)
    (lhs rhs : mcc_semantic_check_data_type) (hop : is_equality_op op = true) :
    binary_op_success op lhs rhs = types_equal lhs rhs := by
  cases op <;> first | rfl | exact absurd hop (by decide)

/-- The object returned for a binary expression with an operator that is not arithmetic has
the tag BOOL. -/
theorem check_and_get_type_binary_expression_operands_bool (op : mcc_ast_binary_op)
    (lhs rhs : mcc_semantic_check_data_type) (check : mcc_semantic_check)
    (hop : is_arithmetic_op op = false) :
    (check_and_get_type_binary_expression_operands op lhs rhs check).1.type
      = MCC_SEMANTIC_CHECK_BOOL := by
  simp [check_and_get_type_binary_expression_operands, hop]

/-- The acceptance condition of an equality operator in terms of the operand types. -/
theorem equality_failure_iff (lhs rhs : mcc_semantic_check_data_type) :
    ¬(types_equal lhs rhs = false ∨ lhs.is_array = true ∨
        rhs.is_array = true ∨ is_string lhs = true ∨ is_string rhs = true) ↔
      (types_equal lhs rhs = true ∧ lhs.is_array = false ∧ rhs.is_array = false ∧
        lhs.type ≠ MCC_SEMANTIC_CHECK_STRING ∧ rhs.type ≠ MCC_SEMANTIC_CHECK_STRING) := by
  obtain ⟨lt, la, ls⟩ := lhs
  obtain ⟨rt, ra, rs⟩ := rhs
  simp only [types_equal, is_string]
  cases la <;> cases ra <;> simp

/-- C26 as the code has it: a binary expression with an equality operator (EQUAL, NOTEQUAL)
whose right operand is typed, after the left one, with the record at status OK, the type
of the left operand not being the tag UNKNOWN of a failed typing, is accepted (the status is
not set to FAIL) if and only if the operand types are equal, neither operand is an array
and neither has the tag STRING; the returned type has the tag BOOL, accepted or not. -/
theorem check_and_get_type_binary_expression_equality (table : mcc_symbol_table_lookup)
    (op : mcc_ast_binary_op) (lhs rhs : mcc_ast_expression) (check : mcc_semantic_check)
    (hop : is_equality_op op = true)
    (hok : (check_and_get_type_expression table rhs
        (check_and_get_type_expression table lhs check).2).2.status = MCC_SEMANTIC_CHECK_OK)
    (hknown : (check_and_get_type_expression table lhs check).1.type
        ≠ MCC_SEMANTIC_CHECK_UNKNOWN) :
    ((check_and_get_type_expression table (MCC_AST_EXPRESSION_TYPE_BINARY_OP op lhs rhs)
        check).2.status ≠ MCC_SEMANTIC_CHECK_FAIL ↔
      (types_equal (check_and_get_type_expression table lhs check).1
          (check_and_get_type_expression table rhs
            (check_and_get_type_expression table lhs check).2).1 = true ∧
        (check_and_get_type_expression table lhs check).1.is_array = false ∧
        (check_and_get_type_expression table rhs
            (check_and_get_type_expression table lhs check).2).1.is_array = false ∧
        (check_and_get_type_expression table lhs check).1.type ≠ MCC_SEMANTIC_CHECK_STRING ∧
        (check_and_get_type_expression table rhs
            (check_and_get_type_expression table lhs check).2).1.type
          ≠ MCC_SEMANTIC_CHECK_STRING))
    ∧ (check_and_get_type_expression table (MCC_AST_EXPRESSION_TYPE_BINARY_OP op lhs rhs)
        check).1.type = MCC_SEMANTIC_CHECK_BOOL := by
  have harith : is_arithmetic_op op = false := by
    cases op <;> first | rfl | exact absurd hop (by decide)
  simp only [check_and_get_type_expression]
  generalize (check_and_get_type_expression table rhs
    (check_and_get_type_expression table lhs check).2) = r at hok ⊢
  generalize (check_and_get_type_expression table lhs check).1 = l at hknown ⊢
  obtain ⟨hiff, _⟩ :=
    check_and_get_type_binary_expression_operands_status op l r.1 r.2 hok hknown
  refine ⟨?_, check_and_get_type_binary_expression_operands_bool op l r.1 r.2 harith⟩
  rw [binary_op_success_equality op l r.1 hop] at hiff
  exact (not_congr hiff).trans (equality_failure_iff l r.1)

theorem check_and_get_type_binary_expression_equality_witness :
    is_equality_op MCC_AST_BINARY_OP_EQUAL = true ∧
    (check_and_get_type_expression (example_symbol_table.at_assignment 0)
        (MCC_AST_EXPRESSION_TYPE_BINARY_OP MCC_AST_BINARY_OP_EQUAL
          (MCC_AST_EXPRESSION_TYPE_LITERAL (MCC_AST_LITERAL_TYPE_BOOL true))
          (MCC_AST_EXPRESSION_TYPE_LITERAL (MCC_AST_LITERAL_TYPE_BOOL false)))
        mcc_semantic_check_initialize_check).2.status ≠ MCC_SEMANTIC_CHECK_FAIL ∧
    (check_and_get_type_expression (example_symbol_table.at_assignment 0)
        (MCC_AST_EXPRESSION_TYPE_BINARY_OP MCC_AST_BINARY_OP_EQUAL
          (MCC_AST_EXPRESSION_TYPE_LITERAL (MCC_AST_LITERAL_TYPE_BOOL true))
          (MCC_AST_EXPRESSION_TYPE_LITERAL (MCC_AST_LITERAL_TYPE_BOOL false)))
        mcc_semantic_check_initialize_check).1.type = MCC_SEMANTIC_CHECK_BOOL :=
  ⟨by decide,
    (check_and_get_type_binary_expression_equality (example_symbol_table.at_assignment 0)
      MCC_AST_BINARY_OP_EQUAL (MCC_AST_EXPRESSION_TYPE_LITERAL (MCC_AST_LITERAL_TYPE_BOOL true))
      (MCC_AST_EXPRESSION_TYPE_LITERAL (MCC_AST_LITERAL_TYPE_BOOL false))
      mcc_semantic_check_initialize_check (by decide) (by decide) (by decide)).1.2
      (by decide),
    (check_and_get_type_binary_expression_equality (example_symbol_table.at_assignment 0)
      MCC_AST_BINARY_OP_EQUAL (MCC_AST_EXPRESSION_TYPE_LITERAL (MCC_AST_LITERAL_TYPE_BOOL true))
      (MCC_AST_EXPRESSION_TYPE_LITERAL (MCC_AST_LITERAL_TYPE_BOOL false))
      mcc_semantic_check_initialize_check (by decide) (by decide) (by decide)).2⟩

/-- The comparison `"a" == "b"` of two string literals, both typed without error and of the
same type, neither an array, is not accepted: the typing leaves the record with status FAIL
and the message of incompatible types. -/
theorem check_and_get_type_binary_expression_string_equality_counterexample :
    (check_and_get_type_expression (example_symbol_table.at_assignment 0)
        (MCC_AST_EXPRESSION_TYPE_LITERAL (MCC_AST_LITERAL_TYPE_STRING "a"))
        mcc_semantic_check_initialize_check)
      = ({ type := MCC_SEMANTIC_CHECK_STRING, is_array := false, array_size := -1 },
         mcc_semantic_check_initialize_check) ∧
    (check_and_get_type_expression (example_symbol_table.at_assignment 0)
        (MCC_AST_EXPRESSION_TYPE_LITERAL (MCC_AST_LITERAL_TYPE_STRING "b"))
        mcc_semantic_check_initialize_check)
      = ({ type := MCC_SEMANTIC_CHECK_STRING, is_array := false, array_size := -1 },
         mcc_semantic_check_initialize_check) ∧
    (check_and_get_type_expression (example_symbol_table.at_assignment 0)
        (MCC_AST_EXPRESSION_TYPE_BINARY_OP MCC_AST_BINARY_OP_EQUAL
          (MCC_AST_EXPRESSION_TYPE_LITERAL (MCC_AST_LITERAL_TYPE_STRING "a"))
          (MCC_AST_EXPRESSION_TYPE_LITERAL (MCC_AST_LITERAL_TYPE_STRING "b")))
        mcc_semantic_check_initialize_check).2
      = { status := MCC_SEMANTIC_CHECK_FAIL,
          error_buffer := some "operation on incompatible types 'lhs' and 'rhs'." } := by
  decide

/-! ### Assignments and calls -/

/-- C27: for the assignment `x = e` to a variable whose identifier resolves to the row `row`
and whose right-hand side is typed with the record at status OK,
`cb_type_conversion_assignment` sets the status to FAIL if and only if the type of `e` is not
equal to the type of the row or the row is that of an array; otherwise it leaves the record
as the typing of `e` left it. -/
theorem cb_type_conversion_assignment_variable (table : mcc_symbol_table_lookup)
    (x : mcc_ast_identifier) (e : mcc_ast_expression) (check : mcc_semantic_check)
    (row : mcc_symbol_table_row)
    (hrow : table.check_upwards_for_declaration x.identifier_name = some row)
    (hok : (check_and_get_type_expression table e check).2.status = MCC_SEMANTIC_CHECK_OK) :
    ((cb_type_conversion_assignment table
        (MCC_AST_STATEMENT_TYPE_ASSIGNMENT (MCC_AST_ASSIGNMENT_TYPE_VARIABLE x e)) check).status
        = MCC_SEMANTIC_CHECK_FAIL ↔
      (types_equal (get_data_type_from_row row) (check_and_get_type_expression table e check).1
          = false ∨
        (get_data_type_from_row row).is_array = true))
    ∧ ((cb_type_conversion_assignment table
        (MCC_AST_STATEMENT_TYPE_ASSIGNMENT (MCC_AST_ASSIGNMENT_TYPE_VARIABLE x e)) check).status
        ≠ MCC_SEMANTIC_CHECK_FAIL →
      cb_type_conversion_assignment table
        (MCC_AST_STATEMENT_TYPE_ASSIGNMENT (MCC_AST_ASSIGNMENT_TYPE_VARIABLE x e)) check
        = (check_and_get_type_expression table e check).2) := by
  simp only [cb_type_conversion_assignment, check_and_get_type_identifier, hrow,
    cb_type_conversion_assignment_types]
  generalize (check_and_get_type_expression table e check) = r at hok ⊢
  generalize get_data_type_from_row row = l
  cases ht : types_equal l r.1 <;> cases ha : l.is_array <;>
    simp [record_failure_status, hok]

theorem cb_type_conversion_assignment_variable_witness :
    (example_symbol_table.at_assignment 0).check_upwards_for_declaration
        example_x.identifier_name
      = some { name := "x", row_type := MCC_SYMBOL_TABLE_ROW_TYPE_INT, array_size := -1 } ∧
    (cb_type_conversion_assignment (example_symbol_table.at_assignment 0)
        (MCC_AST_STATEMENT_TYPE_ASSIGNMENT (MCC_AST_ASSIGNMENT_TYPE_VARIABLE example_x
          (MCC_AST_EXPRESSION_TYPE_LITERAL (MCC_AST_LITERAL_TYPE_BOOL true))))
        mcc_semantic_check_initialize_check).status = MCC_SEMANTIC_CHECK_FAIL ∧
    cb_type_conversion_assignment (example_symbol_table.at_assignment 0)
        (MCC_AST_STATEMENT_TYPE_ASSIGNMENT (MCC_AST_ASSIGNMENT_TYPE_VARIABLE example_x
          (MCC_AST_EXPRESSION_TYPE_LITERAL (MCC_AST_LITERAL_TYPE_INT 1))))
        mcc_semantic_check_initialize_check = mcc_semantic_check_initialize_check :=
  ⟨by decide,
    (cb_type_conversion_assignment_variable (example_symbol_table.at_assignment 0) example_x
      (MCC_AST_EXPRESSION_TYPE_LITERAL (MCC_AST_LITERAL_TYPE_BOOL true))
      mcc_semantic_check_initialize_check
      { name := "x", row_type := MCC_SYMBOL_TABLE_ROW_TYPE_INT, array_size := -1 }
      (by decide) (by decide)).1.2 (Or.inl (by decide)),
    by decide⟩

/-- C28: the type check reads nothing of the arguments of a call: typing `f(arguments)` is
`get_type_function_call` on the identifier `f`, so two calls of `f` with any two argument
lists give the same type and the same record, and for a declared `f` the type is that of
its row and the record is unchanged; with `f` declared with return type int, the assignments
`x = f()`, `x = f(1)` and `x = f(true, "s")` to the int variable `x` all leave the record
with status OK. -/
theorem get_type_function_call_ignores_arguments (table : mcc_symbol_table_lookup)
    (f : mcc_ast_identifier) (arguments other_arguments : mcc_ast_arguments)
    (check : mcc_semantic_check) :
    check_and_get_type_expression table
        (MCC_AST_EXPRESSION_TYPE_FUNCTION_CALL f arguments) check
      = check_and_get_type_expression table
        (MCC_AST_EXPRESSION_TYPE_FUNCTION_CALL f other_arguments) check
    ∧ (∀ row, table.check_for_function_declaration f.identifier_name = some row →
        check_and_get_type_expression table
          (MCC_AST_EXPRESSION_TYPE_FUNCTION_CALL f arguments) check
        = (get_data_type_from_row row, check))
    ∧ cb_type_conversion_assignment (example_symbol_table.at_assignment 0)
        (MCC_AST_STATEMENT_TYPE_ASSIGNMENT (MCC_AST_ASSIGNMENT_TYPE_VARIABLE example_x
          (MCC_AST_EXPRESSION_TYPE_FUNCTION_CALL { identifier_name := "f" }
            (mcc_ast_arguments.empty mcc_ast_arguments.null))))
        mcc_semantic_check_initialize_check = mcc_semantic_check_initialize_check
    ∧ cb_type_conversion_assignment (example_symbol_table.at_assignment 0)
        (MCC_AST_STATEMENT_TYPE_ASSIGNMENT (MCC_AST_ASSIGNMENT_TYPE_VARIABLE example_x
          (MCC_AST_EXPRESSION_TYPE_FUNCTION_CALL { identifier_name := "f" }
            (mcc_ast_arguments.node
              (MCC_AST_EXPRESSION_TYPE_LITERAL (MCC_AST_LITERAL_TYPE_INT 1))
              mcc_ast_arguments.null))))
        mcc_semantic_check_initialize_check = mcc_semantic_check_initialize_check
    ∧ cb_type_conversion_assignment (example_symbol_table.at_assignment 0)
        (MCC_AST_STATEMENT_TYPE_ASSIGNMENT (MCC_AST_ASSIGNMENT_TYPE_VARIABLE example_x
          (MCC_AST_EXPRESSION_TYPE_FUNCTION_CALL { identifier_name := "f" }
            (mcc_ast_arguments.node
              (MCC_AST_EXPRESSION_TYPE_LITERAL (MCC_AST_LITERAL_TYPE_BOOL true))
              (mcc_ast_arguments.node
                (MCC_AST_EXPRESSION_TYPE_LITERAL (MCC_AST_LITERAL_TYPE_STRING "s"))
                mcc_ast_arguments.null)))))
        mcc_semantic_check_initialize_check = mcc_semantic_check_initialize_check := by
  refine ⟨by simp only [check_and_get_type_expression], fun row hrow => ?_, by decide,
    by decide, by decide⟩
  simp only [check_and_get_type_expression, get_type_function_call, hrow]

/-! ### What the type check visits -/

mutual
/-- A statement without assignment statements leaves the record of the type check as it
is. -/
theorem type_checking_visitor_statement_without_assignment (symbol_table : mcc_symbol_table) :
    ∀ (statement : mcc_ast_statement) (k : Nat) (check : mcc_semantic_check),
      assignment_count_statement statement = 0 →
      type_checking_visitor_statement symbol_table statement k check = (k, check)
  | MCC_AST_STATEMENT_TYPE_ASSIGNMENT _, _, _, h => by
    simp [assignment_count_statement] at h
  | MCC_AST_STATEMENT_TYPE_COMPOUND_STMT compound_statement, k, check, h => by
    simp only [assignment_count_statement] at h
    simp only [type_checking_visitor_statement]
    exact type_checking_visitor_compound_statement_without_assignment symbol_table
      compound_statement k check h
  | MCC_AST_STATEMENT_TYPE_IF_ELSE_STMT _ if_else_on_true if_else_on_false, k, check, h => by
    simp only [assignment_count_statement] at h
    simp only [type_checking_visitor_statement]
    rw [type_checking_visitor_statement_without_assignment symbol_table if_else_on_true k
      check (by omega)]
    exact type_checking_visitor_statement_without_assignment symbol_table if_else_on_false k
      check (by omega)
  | MCC_AST_STATEMENT_TYPE_IF_STMT _ if_on_true, k, check, h => by
    simp only [assignment_count_statement] at h
    simp only [type_checking_visitor_statement]
    exact type_checking_visitor_statement_without_assignment symbol_table if_on_true k check h
  | MCC_AST_STATEMENT_TYPE_WHILE _ while_on_true, k, check, h => by
    simp only [assignment_count_statement] at h
    simp only [type_checking_visitor_statement]
    exact type_checking_visitor_statement_without_assignment symbol_table while_on_true k
      check h
  | MCC_AST_STATEMENT_TYPE_EXPRESSION _, _, _, _ => by
    simp only [type_checking_visitor_statement]
  | MCC_AST_STATEMENT_TYPE_DECLARATION _, _, _, _ => by
    simp only [type_checking_visitor_statement]
  | MCC_AST_STATEMENT_TYPE_RETURN _ _, _, _, _ => by
    simp only [type_checking_visitor_statement]
/-- A compound-statement list without assignment statements leaves the record of the type
check as it is. -/
theorem type_checking_visitor_compound_statement_without_assignment
    (symbol_table : mcc_symbol_table) :
    ∀ (compound_statement : mcc_ast_compound_statement) (k : Nat)
      (check : mcc_semantic_check),
      assignment_count_compound_statement compound_statement = 0 →
      type_checking_visitor_compound_statement symbol_table compound_statement k check
        = (k, check)
  | mcc_ast_compound_statement.null, _, _, _ => by
    simp only [type_checking_visitor_compound_statement]
  | mcc_ast_compound_statement.empty next_compound_statement, k, check, h => by
    simp only [assignment_count_compound_statement] at h
    simp only [type_checking_visitor_compound_statement]
    exact type_checking_visitor_compound_statement_without_assignment symbol_table
      next_compound_statement k check h
  | mcc_ast_compound_statement.node statement next_compound_statement, k, check, h => by
    simp only [assignment_count_compound_statement] at h
    simp only [type_checking_visitor_compound_statement]
    rw [type_checking_visitor_statement_without_assignment symbol_table statement k check
      (by omega)]
    exact type_checking_visitor_compound_statement_without_assignment symbol_table
      next_compound_statement k check (by omega)
end

/-- A program without assignment statements leaves the record of the type check as it
is. -/
theorem type_checking_visitor_program_without_assignment (symbol_table : mcc_symbol_table) :
    ∀ (ast : mcc_ast_program) (k : Nat) (check : mcc_semantic_check),
      assignment_count_program ast = 0 →
      type_checking_visitor_program symbol_table ast k check = (k, check) := by
  intro ast
  induction ast with
  | null => intro k check _; rfl
  | node function next_function ih =>
    intro k check h
    simp only [assignment_count_program] at h
    simp only [type_checking_visitor_program]
    rw [type_checking_visitor_compound_statement_without_assignment symbol_table
      function.compound_stmt k check (by omega)]
    exact ih k check (by omega)

/-- C29: the type check types the expressions of assignment statements only: on every
program without an assignment statement, with every symbol table,
`mcc_semantic_check_run_type_check` returns with the record at status OK and without
message, whatever expressions the conditions, return values, expression statements and call
arguments of the program are. -/
theorem mcc_semantic_check_run_type_check_without_assignment (ast : mcc_ast_program)
    (symbol_table : mcc_symbol_table) (check : mcc_semantic_check)
    (h : assignment_count_program ast = 0) :
    mcc_semantic_check_run_type_check ast symbol_table check
      = ({ status := MCC_SEMANTIC_CHECK_OK, error_buffer := none },
         result MCC_SEMANTIC_CHECK_ERROR_OK) := by
  simp only [mcc_semantic_check_run_type_check,
    type_checking_visitor_program_without_assignment symbol_table ast 0 _ h]

theorem mcc_semantic_check_run_type_check_without_assignment_witness :
    assignment_count_program example_untyped_program = 0 ∧
    (check_and_get_type_expression (example_symbol_table.at_assignment 0)
        example_one_plus_true mcc_semantic_check_initialize_check).2.status
      = MCC_SEMANTIC_CHECK_FAIL ∧
    (check_and_get_type_expression (example_symbol_table.at_assignment 0)
        (MCC_AST_EXPRESSION_TYPE_VARIABLE example_y) mcc_semantic_check_initialize_check).2.status
      = MCC_SEMANTIC_CHECK_FAIL ∧
    mcc_semantic_check_run_type_check example_untyped_program example_symbol_table
        mcc_semantic_check_initialize_check
      = ({ status := MCC_SEMANTIC_CHECK_OK, error_buffer := none },
         result MCC_SEMANTIC_CHECK_ERROR_OK) ∧
    mcc_semantic_check_run_all example_untyped_program example_symbol_table
      = result (some { status := MCC_SEMANTIC_CHECK_OK, error_buffer := none }) :=
  ⟨by decide, by decide, by decide,
    mcc_semantic_check_run_type_check_without_assignment example_untyped_program
      example_symbol_table mcc_semantic_check_initialize_check (by decide),
    by decide⟩

/-! ### Early abort -/

/-- The wrapper on a record with status FAIL returns the record as it is, with the return
code OK, whatever check it is given. -/
theorem mcc_semantic_check_early_abort_wrapper_of_fail
    (fctptr : mcc_ast_program → mcc_symbol_table → mcc_semantic_check → semantic_run)
    (ast : mcc_ast_program) (table : mcc_symbol_table) (check : mcc_semantic_check)
    (hast : ast ≠ mcc_ast_program.null) (hfail : check.status = MCC_SEMANTIC_CHECK_FAIL) :
    mcc_semantic_check_early_abort_wrapper fctptr ast table check MCC_SEMANTIC_CHECK_ERROR_OK
      = (check, result MCC_SEMANTIC_CHECK_ERROR_OK) := by
  cases ast with
  | null => exact absurd rfl hast
  | node function next_function =>
    simp [mcc_semantic_check_early_abort_wrapper, hfail]

/-- The wrapper on a record with status OK and a previous return code OK runs the check. -/
theorem mcc_semantic_check_early_abort_wrapper_of_ok
    (fctptr : mcc_ast_program → mcc_symbol_table → mcc_semantic_check → semantic_run)
    (ast : mcc_ast_program) (table : mcc_symbol_table) (check : mcc_semantic_check)
    (hast : ast ≠ mcc_ast_program.null) (hok : check.status = MCC_SEMANTIC_CHECK_OK) :
    mcc_semantic_check_early_abort_wrapper fctptr ast table check MCC_SEMANTIC_CHECK_ERROR_OK
      = fctptr ast table check := by
  cases ast with
  | null => exact absurd rfl hast
  | node function next_function =>
    simp [mcc_semantic_check_early_abort_wrapper, hok]

/-- A line of `mcc_semantic_check_run_all` reached with a record of status FAIL changes
neither the record nor the return code. -/
theorem mcc_semantic_check_run_all_step_of_fail
    (fctptr : mcc_ast_program → mcc_symbol_table → mcc_semantic_check → semantic_run)
    (ast : mcc_ast_program) (table : mcc_symbol_table) (state : semantic_run)
    (hast : ast ≠ mcc_ast_program.null) (hfail : state.1.status = MCC_SEMANTIC_CHECK_FAIL) :
    mcc_semantic_check_run_all_step fctptr ast table state = state := by
  obtain ⟨check, code⟩ := state
  cases ast with
  | null => exact absurd rfl hast
  | node function next_function =>
    cases code with
    | result error =>
      simp only [mcc_semantic_check_run_all_step, mcc_semantic_check_early_abort_wrapper]
      simp only at hfail
      by_cases he : error = MCC_SEMANTIC_CHECK_ERROR_OK
      · simp [he, hfail]
      · simp [he]
    | assertion_failed => rfl
    | invalid_read => rfl
    | out_of_fuel => rfl

/-- The type check returns with the return code OK. -/
theorem mcc_semantic_check_run_type_check_returns (ast : mcc_ast_program)
    (symbol_table : mcc_symbol_table) (check : mcc_semantic_check) :
    (mcc_semantic_check_run_type_check ast symbol_table check).2
      = result MCC_SEMANTIC_CHECK_ERROR_OK := rfl

/-- C30: `mcc_semantic_check_early_abort_wrapper`, called with a previous return code OK on a
record with status FAIL, returns OK and the record as it is, status and message, whatever
check it is given, so the check is not run; hence in `mcc_semantic_check_run_all`, if the type
check leaves status FAIL, the record after the five lines is the one the type check left,
and if the type check leaves status OK and the main-function check ends with status FAIL,
it is the one the main-function check left. -/
theorem mcc_semantic_check_early_abort_wrapper_first_failure
    (fctptr : mcc_ast_program → mcc_symbol_table → mcc_semantic_check → semantic_run)
    (ast : mcc_ast_program) (symbol_table : mcc_symbol_table) (check : mcc_semantic_check)
    (hast : ast ≠ mcc_ast_program.null) (hfail : check.status = MCC_SEMANTIC_CHECK_FAIL) :
    mcc_semantic_check_early_abort_wrapper fctptr ast symbol_table check
        MCC_SEMANTIC_CHECK_ERROR_OK = (check, result MCC_SEMANTIC_CHECK_ERROR_OK)
    ∧ ((mcc_semantic_check_run_type_check ast symbol_table
          mcc_semantic_check_initialize_check).1.status = MCC_SEMANTIC_CHECK_FAIL →
        mcc_semantic_check_run_all_checks ast symbol_table
          = mcc_semantic_check_run_type_check ast symbol_table
              mcc_semantic_check_initialize_check)
    ∧ ((mcc_semantic_check_run_type_check ast symbol_table
          mcc_semantic_check_initialize_check).1.status = MCC_SEMANTIC_CHECK_OK →
        (mcc_semantic_check_run_main_function ast symbol_table
          mcc_semantic_check_initialize_check).1.status = MCC_SEMANTIC_CHECK_FAIL →
        mcc_semantic_check_run_all_checks ast symbol_table
          = mcc_semantic_check_run_main_function ast symbol_table
              mcc_semantic_check_initialize_check) := by
  refine ⟨mcc_semantic_check_early_abort_wrapper_of_fail fctptr ast symbol_table check hast
    hfail, fun htc => ?_, fun htc hmain => ?_⟩
  · have h1 : mcc_semantic_check_run_all_step mcc_semantic_check_run_type_check ast
        symbol_table (mcc_semantic_check_initialize_check, result MCC_SEMANTIC_CHECK_ERROR_OK)
        = mcc_semantic_check_run_type_check ast symbol_table
            mcc_semantic_check_initialize_check :=
      mcc_semantic_check_early_abort_wrapper_of_ok _ ast symbol_table _ hast rfl
    simp only [mcc_semantic_check_run_all_checks, h1]
    rw [mcc_semantic_check_run_all_step_of_fail _ ast symbol_table _ hast htc,
      mcc_semantic_check_run_all_step_of_fail _ ast symbol_table _ hast htc,
      mcc_semantic_check_run_all_step_of_fail _ ast symbol_table _ hast htc,
      mcc_semantic_check_run_all_step_of_fail _ ast symbol_table _ hast htc]
  · have h1 : mcc_semantic_check_run_all_step mcc_semantic_check_run_type_check ast
        symbol_table (mcc_semantic_check_initialize_check, result MCC_SEMANTIC_CHECK_ERROR_OK)
        = mcc_semantic_check_run_type_check ast symbol_table
            mcc_semantic_check_initialize_check :=
      mcc_semantic_check_early_abort_wrapper_of_ok _ ast symbol_table _ hast rfl
    have h2 : mcc_semantic_check_run_all_step mcc_semantic_check_run_nonvoid_check ast
        symbol_table (mcc_semantic_check_run_type_check ast symbol_table
            mcc_semantic_check_initialize_check)
        = (mcc_semantic_check_initialize_check, result MCC_SEMANTIC_CHECK_ERROR_OK) := by
      simp only [mcc_semantic_check_run_all_step, mcc_semantic_check_run_type_check_returns]
      exact mcc_semantic_check_early_abort_wrapper_of_ok _ ast symbol_table _ hast htc
    have h3 : mcc_semantic_check_run_all_step mcc_semantic_check_run_main_function ast
        symbol_table (mcc_semantic_check_initialize_check, result MCC_SEMANTIC_CHECK_ERROR_OK)
        = mcc_semantic_check_run_main_function ast symbol_table
            mcc_semantic_check_initialize_check :=
      mcc_semantic_check_early_abort_wrapper_of_ok _ ast symbol_table _ hast rfl
    simp only [mcc_semantic_check_run_all_checks, h1, h2, h3]
    rw [mcc_semantic_check_run_all_step_of_fail _ ast symbol_table _ hast hmain,
      mcc_semantic_check_run_all_step_of_fail _ ast symbol_table _ hast hmain]

theorem mcc_semantic_check_early_abort_wrapper_first_failure_witness :
    example_type_error_program ≠ mcc_ast_program.null ∧
    example_failed_check.status = MCC_SEMANTIC_CHECK_FAIL ∧
    mcc_semantic_check_run_nonvoid_check example_type_error_program example_symbol_table
        example_failed_check
      = ({ status := MCC_SEMANTIC_CHECK_OK, error_buffer := none },
         result MCC_SEMANTIC_CHECK_ERROR_OK) ∧
    mcc_semantic_check_early_abort_wrapper mcc_semantic_check_run_nonvoid_check
        example_type_error_program example_symbol_table example_failed_check
        MCC_SEMANTIC_CHECK_ERROR_OK
      = (example_failed_check, result MCC_SEMANTIC_CHECK_ERROR_OK) ∧
    mcc_semantic_check_run_type_check example_type_error_program example_symbol_table
        mcc_semantic_check_initialize_check
      = ({ status := MCC_SEMANTIC_CHECK_FAIL,
           error_buffer :=
             some "implicit type conversion. Expected 'lhs_type' but was 'rhs_type'" },
         result MCC_SEMANTIC_CHECK_ERROR_OK) ∧
    (mcc_semantic_check_run_main_function example_type_error_program example_symbol_table
        mcc_semantic_check_initialize_check).1.error_buffer
      = some "No main function defined." ∧
    mcc_semantic_check_run_all_checks example_type_error_program example_symbol_table
      = mcc_semantic_check_run_type_check example_type_error_program example_symbol_table
          mcc_semantic_check_initialize_check :=
  ⟨by simp [example_type_error_program], by decide, by decide,
    (mcc_semantic_check_early_abort_wrapper_first_failure mcc_semantic_check_run_nonvoid_check
      example_type_error_program example_symbol_table example_failed_check
      (by simp [example_type_error_program]) (by decide)).1,
    by decide, by decide,
    (mcc_semantic_check_early_abort_wrapper_first_failure mcc_semantic_check_run_nonvoid_check
      example_type_error_program example_symbol_table example_failed_check
      (by simp [example_type_error_program]) (by decide)).2.1 (by decide)⟩

/-! ### String literals -/

theorem malloc_length (size : Nat) (heap : Nat → Char) : (malloc size heap).length = size := by
  simp [malloc]

theorem malloc_drop (n : Nat) (heap : Nat → Char) :
    (malloc (n + 2) heap).drop n = [heap n, heap (n + 1)] := by
  simp only [malloc, List.range_succ, List.map_append, List.map_cons, List.map_nil,
    List.append_assoc]
  rw [List.drop_left' (by simp)]
  rfl

/-- The C string read from a block that holds characters other than the terminator followed
by two more bytes. -/
theorem c_string_append_two (a b : Char) :
    ∀ (content : List Char), NUL ∉ content →
      c_string (content ++ [a, b])
        = if a = NUL then some content
          else if b = NUL then some (content ++ [a]) else none
  | [], _ => by
    by_cases ha : a = NUL
    · simp [c_string, ha]
    · by_cases hb : b = NUL
      · simp [c_string, ha, hb]
      · simp [c_string, ha, hb]
  | c :: content, h => by
    have hc : c ≠ NUL := fun e => h (by simp [e])
    have hrest : NUL ∉ content := fun e => h (List.mem_cons_of_mem _ e)
    have ih := c_string_append_two a b content hrest
    simp only [List.cons_append, c_string, if_neg hc]
    show Option.map (fun s => c :: s) (c_string (content ++ [a, b])) = _
    rw [ih]
    split_ifs <;> simp

/-- The block that `mcc_remove_quotes_from_string` returns for a string of `n + 2`
characters: the `n` characters after the first one, then the two bytes that the block held
at offsets `n` and `n + 1` when it was allocated. -/
theorem mcc_remove_quotes_from_string_block (string : List Char) (heap : Nat → Char)
    (h : 2 ≤ string.length) :
    mcc_remove_quotes_from_string string heap
      = some ((string.drop 1).take (string.length - 2)
          ++ [heap (string.length - 2), heap (string.length - 1)]) := by
  obtain ⟨n, hn⟩ : ∃ n, string.length = n + 2 := ⟨string.length - 2, by omega⟩
  have hlt : ¬(n + 2 < 2) := by omega
  have hle : ¬(n + 2 < n) := by omega
  simp only [mcc_remove_quotes_from_string, strlen, hn, hlt, if_false, strncpy, malloc_length,
    hle, Nat.add_sub_cancel, malloc_drop, List.length_drop, show n + 2 - 1 = n + 1 by omega,
    show n - (n + 1) = 0 by omega, List.replicate_zero, List.append_nil]

/-- C31: for a string-literal token of at least two characters, none of them the terminator,
`mcc_remove_quotes_from_string` returns a block that holds the token without its first and
last character followed by the two bytes that the block held at its last two offsets when
`malloc` handed it out, no terminator being written; so the value that
`mcc_ast_new_literal_string` stores is exactly the content if and only if the first of these
two bytes happens to be the terminator. -/
theorem mcc_ast_new_literal_string_value (string : List Char) (heap : Nat → Char)
    (hlen : 2 ≤ string.length) (hnul : NUL ∉ string) :
    mcc_remove_quotes_from_string string heap
      = some ((string.drop 1).take (string.length - 2)
          ++ [heap (string.length - 2), heap (string.length - 1)])
    ∧ (mcc_ast_new_literal_string string heap
        = some (MCC_AST_LITERAL_TYPE_STRING
            (String.mk ((string.drop 1).take (string.length - 2))))
      ↔ heap (string.length - 2) = NUL) := by
  have hblock := mcc_remove_quotes_from_string_block string heap hlen
  refine ⟨hblock, ?_⟩
  have hcontent : NUL ∉ (string.drop 1).take (string.length - 2) :=
    fun e => hnul (List.mem_of_mem_drop (List.mem_of_mem_take e))
  simp only [mcc_ast_new_literal_string, hblock, Option.some_bind,
    c_string_append_two _ _ _ hcontent]
  by_cases ha : heap (string.length - 2) = NUL
  · simp [ha]
  · by_cases hb : heap (string.length - 1) = NUL
    · simp only [ha, hb, if_false, if_true, Option.map_some', Option.some.injEq,
        mcc_ast_literal.MCC_AST_LITERAL_TYPE_STRING.injEq, iff_false]
      intro e
      have := congrArg String.length e
      simp [String.length] at this
    · simp [ha, hb]

theorem mcc_ast_new_literal_string_value_witness :
    2 ≤ example_string_token.length ∧ NUL ∉ example_string_token ∧
    mcc_remove_quotes_from_string example_string_token (fun _ => 'x') = some ['a', 'x', 'x'] ∧
    mcc_ast_new_literal_string example_string_token (fun _ => 'x') = none ∧
    mcc_ast_new_literal_string example_string_token (fun k => if k = 1 then 'x' else NUL)
      = some (MCC_AST_LITERAL_TYPE_STRING "ax") ∧
    ¬ (mcc_ast_new_literal_string example_string_token (fun _ => 'x')
        = some (MCC_AST_LITERAL_TYPE_STRING
            (String.mk ((example_string_token.drop 1).take
              (example_string_token.length - 2))))) :=
  ⟨by decide, by decide, by decide, by decide, by decide,
    fun h => absurd ((mcc_ast_new_literal_string_value example_string_token (fun _ => 'x')
      (by decide) (by decide)).2.1 h) (by decide)⟩

/-! ### The help option of `mc_asm` -/

/-- With the help option and an input file on the command line, and every later stage
ready to succeed, `main` of `mc_asm.c` returns `EXIT_FAILURE`, which is not 0. -/
theorem main_help_counterexample :
    example_help_command_line.options.print_help = true ∧
    main (some example_help_command_line) example_successful_calls = EXIT_FAILURE ∧
    main (some example_help_command_line) example_successful_calls ≠ 0 ∧
    main (some { example_help_command_line with
        options := { example_help_command_line.options with print_help := false } })
      example_successful_calls = EXIT_SUCCESS := by
  decide

/-- C32 as the code has it: when the command line carries the help option, `main` of
`mc_asm.c` returns `EXIT_FAILURE`, the value it returns for a command line in error,
whatever the rest of the command line is and whatever the later stages would return. -/
theorem main_help (command_line : mc_cl_parser_command_line) (calls : mc_asm_calls)
    (h : command_line.options.print_help = true) :
    main (some command_line) calls = EXIT_FAILURE ∧ EXIT_FAILURE ≠ EXIT_SUCCESS := by
  refine ⟨?_, by decide⟩
  simp [main, h]

theorem main_help_witness :
    example_help_command_line.options.print_help = true ∧
    main (some example_help_command_line) example_successful_calls = EXIT_FAILURE ∧
    EXIT_FAILURE ≠ EXIT_SUCCESS :=
  ⟨rfl, main_help example_help_command_line example_successful_calls rfl⟩

/-! ### The assertions of `write_error_message_to_check` -/

/-- C33: when the loop of `mcc_semantic_check_run_main_function` reaches a further function
named `main` with a record that has already failed, it calls
`write_error_message_to_check` on that record and the assertion of that function fails.  So
it is on `int main(){ return 0; } int main(){ return 0; } int main(){ return 0; }`, where
the message of too many mains is written at the second `main` and again at the third, and
on `int main(){ return 0; } int main(int i){ return 0; }`, where the message of the wrong
signature is written after that of too many mains; the call ends on the assertion with the
first message in the record. -/
theorem mcc_semantic_check_run_main_function_second_message :
    (∀ (function : mcc_ast_function_definition) (next_function : mcc_ast_program)
        (number_of_mains : Nat) (check : mcc_semantic_check),
      function.identifier.identifier_name = "main" →
      check.status = MCC_SEMANTIC_CHECK_FAIL →
      0 < number_of_mains →
      mcc_semantic_check_run_main_function_loop
          (mcc_ast_program.node function next_function) number_of_mains check
        = (check, assertion_failed)) ∧
    (∀ (check : mcc_semantic_check) (string : String),
      check.status = MCC_SEMANTIC_CHECK_FAIL →
      write_error_message_to_check check string = (check, assertion_failed)) ∧
    main_parameters example_three_main_program = [some true, some true, some true] ∧
    mcc_semantic_check_run_main_function example_three_main_program example_symbol_table
        mcc_semantic_check_initialize_check
      = ({ status := MCC_SEMANTIC_CHECK_FAIL,
           error_buffer := some "Too many main functions defined." }, assertion_failed) ∧
    mcc_semantic_check_run_all example_three_main_program example_symbol_table
      = assertion_failed ∧
    main_parameters example_main_main_parameter_program = [some true, some false] ∧
    mcc_semantic_check_run_main_function example_main_main_parameter_program
        example_symbol_table mcc_semantic_check_initialize_check
      = ({ status := MCC_SEMANTIC_CHECK_FAIL,
           error_buffer := some "Too many main functions defined." }, assertion_failed) ∧
    mcc_semantic_check_run_all example_main_main_parameter_program example_symbol_table
      = assertion_failed := by
  have hw : ∀ (check : mcc_semantic_check) (string : String),
      check.status = MCC_SEMANTIC_CHECK_FAIL →
      write_error_message_to_check check string = (check, assertion_failed) := by
    intro check string h
    simp only [write_error_message_to_check, h]
    split_ifs <;> first | rfl | simp_all
  refine ⟨?_, hw, by decide, by decide, by decide, by decide, by decide, by decide⟩
  intro function next_function number_of_mains check hname hfail hpos
  have hgt : number_of_mains + 1 > 1 := by omega
  simp only [mcc_semantic_check_run_main_function_loop, hname, if_true, hgt, hw check _ hfail]

/-! ### The names of renamed declarations -/

/-- The result of `floor_log10` does not depend on the fuel once the fuel reaches the
number. -/
theorem floor_log10_fuel : ∀ (fuel fuel' n : Nat), n ≤ fuel → n ≤ fuel' →
    floor_log10 fuel n = floor_log10 fuel' n := by
  intro fuel
  induction fuel with
  | zero =>
    intro fuel' n h _
    have hn : n = 0 := by omega
    subst hn
    cases fuel' <;> simp [floor_log10]
  | succ fuel ih =>
    intro fuel' n h h'
    by_cases hlt : n < 10
    · cases fuel' <;> simp [floor_log10, hlt]
    · cases fuel' with
      | zero => omega
      | succ fuel' =>
        simp only [floor_log10, hlt, if_false]
        rw [ih fuel' (n / 10) (by omega) (by omega)]

/-- The digits that `Nat.toDigitsCore` puts in front of the list it is given do not depend
on that list. -/
theorem toDigitsCore_append : ∀ (fuel n : Nat) (ds : List Char),
    Nat.toDigitsCore 10 fuel n ds = Nat.toDigitsCore 10 fuel n [] ++ ds := by
  intro fuel
  induction fuel with
  | zero => intro n ds; simp [Nat.toDigitsCore]
  | succ fuel ih =>
    intro n ds
    simp only [Nat.toDigitsCore]
    by_cases h : n / 10 = 0
    · simp [h]
    · simp only [h, if_false]
      rw [ih (n / 10) (Nat.digitChar (n % 10) :: ds), ih (n / 10) [Nat.digitChar (n % 10)]]
      simp

/-- The number of decimal digits of a number. -/
theorem toDigitsCore_length_eq : ∀ (fuel n : Nat), n < fuel →
    (Nat.toDigitsCore 10 fuel n []).length = floor_log10 fuel n + 1 := by
  intro fuel
  induction fuel with
  | zero => intro n h; omega
  | succ fuel ih =>
    intro n h
    simp only [Nat.toDigitsCore, floor_log10]
    by_cases hlt : n < 10
    · have h0 : n / 10 = 0 := by omega
      simp [h0, hlt]
    · have h0 : ¬ n / 10 = 0 := by omega
      simp only [h0, hlt, if_false]
      rw [toDigitsCore_append, List.length_append, ih (n / 10) (by omega)]
      rfl

theorem digitChar_value (k : Nat) (h : k < 10) : (Nat.digitChar k).toNat - 48 = k := by
  interval_cases k <;> rfl

theorem decimal_value_append (digits : List Char) (c : Char) :
    decimal_value (digits ++ [c]) = 10 * decimal_value digits + (c.toNat - 48) := by
  simp [decimal_value, List.foldl_append]

/-- The decimal digits of a number stand for that number. -/
theorem decimal_value_toDigitsCore : ∀ (fuel n : Nat), n < fuel →
    decimal_value (Nat.toDigitsCore 10 fuel n []) = n := by
  intro fuel
  induction fuel with
  | zero => intro n h; omega
  | succ fuel ih =>
    intro n h
    simp only [Nat.toDigitsCore]
    by_cases h0 : n / 10 = 0
    · simp only [h0, if_true]
      have := decimal_value_append [] (Nat.digitChar (n % 10))
      simp only [List.nil_append] at this
      rw [this, digitChar_value _ (Nat.mod_lt _ (by decide))]
      simp only [decimal_value, List.foldl_nil]
      omega
    · simp only [h0, if_false]
      rw [toDigitsCore_append, decimal_value_append, ih (n / 10) (by omega),
        digitChar_value _ (Nat.mod_lt _ (by decide))]
      omega

theorem length_of_int_eq (num : Nat) : length_of_int num = (Nat.toDigits 10 num).length := by
  rw [Nat.toDigits, toDigitsCore_length_eq (num + 1) num (by omega)]
  simp only [length_of_int]
  by_cases h : num = 0
  · subst h
    rfl
  · simp only [h, if_false]
    rw [floor_log10_fuel num (num + 1) num (by omega) (by omega)]

theorem renamed_name_eq (num : Nat) : renamed_name num = "_r" ++ Nat.repr num := by
  have hlen : (("_r" ++ Nat.repr num).data).length = 3 + length_of_int num - 1 := by
    rw [String.data_append, List.length_append, length_of_int_eq]
    simp only [Nat.repr, List.asString]
    show 2 + _ = _
    omega
  simp only [renamed_name]
  rw [List.take_of_length_le (by omega)]

theorem renamed_name_injective (num other : Nat)
    (h : renamed_name other = renamed_name num) : other = num := by
  rw [renamed_name_eq, renamed_name_eq] at h
  have hd := congrArg String.data h
  rw [String.data_append, String.data_append] at hd
  have hr := List.append_cancel_left hd
  simp only [Nat.repr, List.asString, Nat.toDigits] at hr
  have ho := decimal_value_toDigitsCore (other + 1) other (by omega)
  have hn := decimal_value_toDigitsCore (num + 1) num (by omega)
  rw [hr] at ho
  omega

/-- C34: for every counter value `num`, `length_of_int num` is the number of decimal digits
of `num`; the buffer of `3 + length_of_int num` bytes has room for `_r`, the digits and the
terminator, so that `rename_ident` and `rename_row` set the name to `_r` followed by the
decimal representation of `num`, which stands for `num`; two counter values with the same
name are equal, and the name for the counter value 0 is `_r0`. -/
theorem rename_ident_name (num : Nat) (ident : mcc_ast_identifier)
    (row : mcc_symbol_table_row) :
    length_of_int num = (Nat.toDigits 10 num).length
    ∧ decimal_value (Nat.toDigits 10 num) = num
    ∧ ("_r" ++ Nat.repr num).length + 1 = 3 + length_of_int num
    ∧ (rename_ident ident num).identifier_name = "_r" ++ Nat.repr num
    ∧ (rename_row row num).name = "_r" ++ Nat.repr num
    ∧ (∀ other : Nat, renamed_name other = renamed_name num → other = num)
    ∧ renamed_name 0 = "_r0"
    ∧ (rename_ident ident 0).identifier_name = "_r0" := by
  refine ⟨length_of_int_eq num, decimal_value_toDigitsCore (num + 1) num (by omega), ?_,
    renamed_name_eq num, renamed_name_eq num, fun other h => renamed_name_injective num other h,
    by decide, by show renamed_name 0 = "_r0"; decide⟩
  have hdata : ("_r" ++ Nat.repr num).data = ['_', 'r'] ++ Nat.toDigits 10 num := by
    rw [String.data_append]
    rfl
  show ("_r" ++ Nat.repr num).data.length + 1 = _
  rw [hdata, List.length_append, length_of_int_eq]
  simp only [List.length_cons, List.length_nil]
  omega

/-! ### Further example inputs of the stack annotator -/

theorem example_sum_ir_rows :
    example_sum_ir
      = [new_row (some (MCC_IR_TYPE_FUNC_LABEL "main")) none MCC_IR_INSTR_FUNC_LABEL,
         new_row (some (MCC_IR_TYPE_IDENTIFIER example_x)) (some (MCC_IR_TYPE_LIT_INT 1))
           MCC_IR_INSTR_ASSIGN,
         new_row (some (MCC_IR_TYPE_IDENTIFIER example_y)) (some (MCC_IR_TYPE_LIT_INT 2))
           MCC_IR_INSTR_ASSIGN,
         new_row (some (MCC_IR_TYPE_IDENTIFIER example_x))
           (some (MCC_IR_TYPE_IDENTIFIER example_y)) MCC_IR_INSTR_PLUS,
         new_row (some (MCC_IR_TYPE_IDENTIFIER example_x)) (some (MCC_IR_TYPE_ROW 3))
           MCC_IR_INSTR_ASSIGN,
         new_row (some (MCC_IR_TYPE_IDENTIFIER example_x)) none MCC_IR_INSTR_RETURN] := by
  decide

theorem example_negate_ir_rows :
    example_negate_ir
      = [new_row (some (MCC_IR_TYPE_FUNC_LABEL "main")) none MCC_IR_INSTR_FUNC_LABEL,
         new_row (some (MCC_IR_TYPE_IDENTIFIER example_x)) (some (MCC_IR_TYPE_LIT_INT 1))
           MCC_IR_INSTR_ASSIGN,
         new_row (some (MCC_IR_TYPE_IDENTIFIER example_x)) none MCC_IR_INSTR_NEGATIV,
         new_row (some (MCC_IR_TYPE_IDENTIFIER example_x)) (some (MCC_IR_TYPE_ROW 2))
           MCC_IR_INSTR_ASSIGN,
         new_row (some (MCC_IR_TYPE_IDENTIFIER example_x)) none MCC_IR_INSTR_RETURN] := by
  decide

theorem example_parameter_ir_rows :
    example_parameter_ir
      = [new_row (some (MCC_IR_TYPE_FUNC_LABEL "id")) none MCC_IR_INSTR_FUNC_LABEL,
         new_row none none MCC_IR_INSTR_POP,
         new_row (some (MCC_IR_TYPE_IDENTIFIER example_x)) (some (MCC_IR_TYPE_ROW 1))
           MCC_IR_INSTR_ASSIGN,
         new_row (some (MCC_IR_TYPE_IDENTIFIER example_x)) none MCC_IR_INSTR_RETURN,
         new_row (some (MCC_IR_TYPE_FUNC_LABEL "main")) none MCC_IR_INSTR_FUNC_LABEL,
         new_row (some (MCC_IR_TYPE_LIT_INT 1)) none MCC_IR_INSTR_PUSH,
         { new_row (some (MCC_IR_TYPE_IDENTIFIER { identifier_name := "id" })) none
             MCC_IR_INSTR_CALL with row_no := 1 },
         new_row (some (MCC_IR_TYPE_ROW 6)) none MCC_IR_INSTR_RETURN] := by
  decide

theorem example_call_ir_rows :
    example_call_ir
      = [new_row (some (MCC_IR_TYPE_FUNC_LABEL "f")) none MCC_IR_INSTR_FUNC_LABEL,
         new_row (some (MCC_IR_TYPE_LIT_INT 1)) none MCC_IR_INSTR_RETURN,
         new_row (some (MCC_IR_TYPE_FUNC_LABEL "main")) none MCC_IR_INSTR_FUNC_LABEL,
         new_row (some (MCC_IR_TYPE_IDENTIFIER { identifier_name := "f" })) none
           MCC_IR_INSTR_CALL,
         new_row (some (MCC_IR_TYPE_IDENTIFIER example_x)) (some (MCC_IR_TYPE_ROW 3))
           MCC_IR_INSTR_ASSIGN,
         new_row (some (MCC_IR_TYPE_IDENTIFIER example_x)) none MCC_IR_INSTR_RETURN] := by
  decide

theorem example_element_ir_rows :
    example_element_ir
      = [new_row (some (MCC_IR_TYPE_FUNC_LABEL "main")) none MCC_IR_INSTR_FUNC_LABEL,
         new_row (some (MCC_IR_TYPE_IDENTIFIER example_a)) (some (MCC_IR_TYPE_LIT_INT 10))
           MCC_IR_INSTR_ARRAY,
         new_row (some (MCC_IR_TYPE_IDENTIFIER example_x))
           (some (MCC_IR_TYPE_ARR_ELEM example_a (MCC_IR_TYPE_LIT_INT 0))) MCC_IR_INSTR_ASSIGN,
         new_row (some (MCC_IR_TYPE_IDENTIFIER example_x)) none MCC_IR_INSTR_RETURN] := by
  decide

/-- The rewrite of the AST changes nothing in the IR of these example programs: none of
them has a shadowing declaration, and each body holds a top-level return. -/
theorem example_ir_modify_ast_further :
    mcc_ir_generate id modify_ast
        (mcc_ast_program.node example_sum_function mcc_ast_program.null) = example_sum_ir ∧
    mcc_ir_generate id modify_ast
        (mcc_ast_program.node example_negate_function mcc_ast_program.null)
      = example_negate_ir ∧
    mcc_ir_generate id modify_ast example_parameter_program = example_parameter_ir ∧
    mcc_ir_generate id modify_ast example_call_program = example_call_ir ∧
    mcc_ir_generate id modify_ast
        (mcc_ast_program.node example_element_function mcc_ast_program.null)
      = example_element_ir := by
  refine ⟨by decide, by decide, by decide, by decide, by decide⟩

/-! ### Termination of the size computation -/

/-- On `example_copy_ir` the annotator runs out of every bound on the depth of the nested
calls of `argument_size`. -/
theorem mcc_annotate_ir_example_copy (fuel : Nat) (frame_size : Int) :
    mcc_annotate_ir fuel frame_size example_copy_ir = out_of_fuel := by
  have h0 : get_stack_frame_size fuel example_copy_ir 0 = result 0 := by
    simp [get_stack_frame_size, example_copy_ir_rows, new_row]
  have h2 := get_stack_frame_size_example_copy fuel
  have h1 : get_stack_frame_size fuel example_copy_ir 1 = out_of_fuel ∨
      get_stack_frame_size fuel example_copy_ir 1 = result 4 := by
    have hrow : example_copy_ir[1]?
        = some (new_row (some (MCC_IR_TYPE_IDENTIFIER example_x))
            (some (MCC_IR_TYPE_LIT_INT 1)) MCC_IR_INSTR_ASSIGN) := by decide
    have hfirst : assignment_is_first_occurence example_copy_ir
        (first_line_of_function example_copy_ir 1) 1 = result true := by decide
    rw [get_stack_frame_size_assign_eq fuel example_copy_ir 1 _ hrow rfl, hfirst]
    cases fuel with
    | zero => left; rfl
    | succ fuel => right; rfl
  rw [example_copy_ir_rows] at h0 h1 h2 ⊢
  simp only [new_row] at h0 h1 h2 ⊢
  rcases h1 with h1 | h1 <;>
    simp [mcc_annotate_ir, add_stack_sizes, add_stack_sizes_loop, h0, h1, h2, outcome.bind]

theorem argument_size_example_sum_y (fuel : Nat) :
    argument_size fuel example_sum_ir (some (MCC_IR_TYPE_IDENTIFIER example_y)) 3
      = out_of_fuel := by
  induction fuel with
  | zero => rfl
  | succ fuel ih =>
    have hfind : find_first_occurence example_y.identifier_name example_sum_ir 3
        = result (some 2) := by decide
    have hrow : example_sum_ir[3]?
        = some (new_row (some (MCC_IR_TYPE_IDENTIFIER example_x))
            (some (MCC_IR_TYPE_IDENTIFIER example_y)) MCC_IR_INSTR_PLUS) := by decide
    simp only [argument_size, hfind, outcome_bind_eq_result, hrow, new_row]
    exact ih

theorem argument_size_example_sum_x (fuel : Nat) :
    argument_size fuel example_sum_ir (some (MCC_IR_TYPE_IDENTIFIER example_x)) 3
      = out_of_fuel := by
  cases fuel with
  | zero => rfl
  | succ fuel =>
    have hfind : find_first_occurence example_x.identifier_name example_sum_ir 3
        = result (some 1) := by decide
    have hrow : example_sum_ir[3]?
        = some (new_row (some (MCC_IR_TYPE_IDENTIFIER example_x))
            (some (MCC_IR_TYPE_IDENTIFIER example_y)) MCC_IR_INSTR_PLUS) := by decide
    simp only [argument_size, hfind, outcome_bind_eq_result, hrow, new_row]
    exact argument_size_example_sum_y fuel

theorem get_stack_frame_size_example_sum (fuel : Nat) :
    get_stack_frame_size fuel example_sum_ir 3 = out_of_fuel := by
  have hrow : example_sum_ir[3]?
      = some (new_row (some (MCC_IR_TYPE_IDENTIFIER example_x))
          (some (MCC_IR_TYPE_IDENTIFIER example_y)) MCC_IR_INSTR_PLUS) := by decide
  simp only [get_stack_frame_size, hrow, new_row, get_temporary_size]
  exact argument_size_example_sum_x fuel

theorem mcc_annotate_ir_example_sum (fuel : Nat) (frame_size : Int) :
    mcc_annotate_ir fuel frame_size example_sum_ir = out_of_fuel := by
  have h0 : get_stack_frame_size fuel example_sum_ir 0 = result 0 := by
    simp [get_stack_frame_size, example_sum_ir_rows, new_row]
  have h3 := get_stack_frame_size_example_sum fuel
  have h1 : get_stack_frame_size fuel example_sum_ir 1 = out_of_fuel ∨
      get_stack_frame_size fuel example_sum_ir 1 = result 4 := by
    have hrow : example_sum_ir[1]?
        = some (new_row (some (MCC_IR_TYPE_IDENTIFIER example_x))
            (some (MCC_IR_TYPE_LIT_INT 1)) MCC_IR_INSTR_ASSIGN) := by decide
    have hfirst : assignment_is_first_occurence example_sum_ir
        (first_line_of_function example_sum_ir 1) 1 = result true := by decide
    rw [get_stack_frame_size_assign_eq fuel example_sum_ir 1 _ hrow rfl, hfirst]
    cases fuel with
    | zero => left; rfl
    | succ fuel => right; rfl
  have h2 : get_stack_frame_size fuel example_sum_ir 2 = out_of_fuel ∨
      get_stack_frame_size fuel example_sum_ir 2 = result 4 := by
    have hrow : example_sum_ir[2]?
        = some (new_row (some (MCC_IR_TYPE_IDENTIFIER example_y))
            (some (MCC_IR_TYPE_LIT_INT 2)) MCC_IR_INSTR_ASSIGN) := by decide
    have hfirst : assignment_is_first_occurence example_sum_ir
        (first_line_of_function example_sum_ir 2) 2 = result true := by decide
    rw [get_stack_frame_size_assign_eq fuel example_sum_ir 2 _ hrow rfl, hfirst]
    cases fuel with
    | zero => left; rfl
    | succ fuel => right; rfl
  rw [example_sum_ir_rows] at h0 h1 h2 h3 ⊢
  simp only [new_row] at h0 h1 h2 h3 ⊢
  rcases h1 with h1 | h1 <;> rcases h2 with h2 | h2 <;>
    simp [mcc_annotate_ir, add_stack_sizes, add_stack_sizes_loop, h0, h1, h2, h3, outcome.bind]

/-- C35: the programs `int main(){ int x; int y; x = 1; y = x; return y; }` and
`int main(){ int x; int y; x = 1; y = 2; x = x + y; return x; }` pass the semantic checks
with a symbol table that declares `x` and `y` as int, and on the IR of either one the size
computation does not terminate: for the row `ASSIGN y x` of the first and the row `PLUS x y` of
the second, `argument_size` on an identifier calls itself on the second argument of the same
row, which is an identifier again, so that every bound on the depth of the nested calls is
used up, by `get_stack_frame_size` on the row and by `mcc_annotate_ir` on the list. -/
theorem mcc_annotate_ir_termination_example :
    mcc_semantic_check_run_all
        (mcc_ast_program.node example_copy_function mcc_ast_program.null)
        example_xy_symbol_table
      = result (some { status := MCC_SEMANTIC_CHECK_OK, error_buffer := none }) ∧
    mcc_semantic_check_run_all
        (mcc_ast_program.node example_sum_function mcc_ast_program.null)
        example_xy_symbol_table
      = result (some { status := MCC_SEMANTIC_CHECK_OK, error_buffer := none }) ∧
    (example_copy_ir[2]?).map (fun r => (r.instr, r.arg1, r.arg2))
      = some (MCC_IR_INSTR_ASSIGN, some (MCC_IR_TYPE_IDENTIFIER example_y),
          some (MCC_IR_TYPE_IDENTIFIER example_x)) ∧
    (example_sum_ir[3]?).map (fun r => (r.instr, r.arg1, r.arg2))
      = some (MCC_IR_INSTR_PLUS, some (MCC_IR_TYPE_IDENTIFIER example_x),
          some (MCC_IR_TYPE_IDENTIFIER example_y)) ∧
    (∀ fuel, get_stack_frame_size fuel example_copy_ir 2 = out_of_fuel) ∧
    (∀ fuel, get_stack_frame_size fuel example_sum_ir 3 = out_of_fuel) ∧
    (∀ fuel frame_size, mcc_annotate_ir fuel frame_size example_copy_ir = out_of_fuel) ∧
    (∀ fuel frame_size, mcc_annotate_ir fuel frame_size example_sum_ir = out_of_fuel) :=
  ⟨by decide, by decide, by decide, by decide, get_stack_frame_size_example_copy,
    get_stack_frame_size_example_sum, mcc_annotate_ir_example_copy,
    mcc_annotate_ir_example_sum⟩

/-! ### The assertions of the stack annotator -/

theorem get_stack_frame_size_example_parameter (fuel : Nat) :
    get_stack_frame_size (fuel + 1) example_parameter_ir 2 = assertion_failed := by
  have hrow : example_parameter_ir[2]?
      = some (new_row (some (MCC_IR_TYPE_IDENTIFIER example_x)) (some (MCC_IR_TYPE_ROW 1))
          MCC_IR_INSTR_ASSIGN) := by decide
  have hpop : example_parameter_ir[1]? = some (new_row none none MCC_IR_INSTR_POP) := by
    decide
  have hfirst : assignment_is_first_occurence example_parameter_ir
      (first_line_of_function example_parameter_ir 2) 2 = result true := by decide
  rw [get_stack_frame_size_assign_eq (fuel + 1) example_parameter_ir 2 _ hrow rfl, hfirst]
  simp only [new_row, argument_size, hpop]
  rfl

theorem mcc_annotate_ir_example_parameter (fuel : Nat) (frame_size : Int) :
    mcc_annotate_ir (fuel + 1) frame_size example_parameter_ir = assertion_failed := by
  have h0 : get_stack_frame_size (fuel + 1) example_parameter_ir 0 = result 0 := by
    simp [get_stack_frame_size, example_parameter_ir_rows, new_row]
  have h1 : get_stack_frame_size (fuel + 1) example_parameter_ir 1 = result 0 := by
    simp [get_stack_frame_size, example_parameter_ir_rows, new_row]
  have h2 := get_stack_frame_size_example_parameter fuel
  rw [example_parameter_ir_rows] at h0 h1 h2 ⊢
  simp only [new_row] at h0 h1 h2 ⊢
  simp [mcc_annotate_ir, add_stack_sizes, add_stack_sizes_loop, h0, h1, h2, outcome.bind]

theorem get_stack_frame_size_example_negate (fuel : Nat) :
    get_stack_frame_size (fuel + 2) example_negate_ir 2 = assertion_failed := by
  have hrow : example_negate_ir[2]?
      = some (new_row (some (MCC_IR_TYPE_IDENTIFIER example_x)) none MCC_IR_INSTR_NEGATIV) := by
    decide
  have hfind : find_first_occurence example_x.identifier_name example_negate_ir 2
      = result (some 1) := by decide
  simp only [get_stack_frame_size, hrow, new_row, get_temporary_size, argument_size, hfind,
    outcome_bind_eq_result]

theorem mcc_annotate_ir_example_negate (fuel : Nat) (frame_size : Int) :
    mcc_annotate_ir (fuel + 2) frame_size example_negate_ir = assertion_failed := by
  have h0 : get_stack_frame_size (fuel + 2) example_negate_ir 0 = result 0 := by
    simp [get_stack_frame_size, example_negate_ir_rows, new_row]
  have h1 : get_stack_frame_size (fuel + 2) example_negate_ir 1 = result 4 := by
    have hrow : example_negate_ir[1]?
        = some (new_row (some (MCC_IR_TYPE_IDENTIFIER example_x))
            (some (MCC_IR_TYPE_LIT_INT 1)) MCC_IR_INSTR_ASSIGN) := by decide
    have hfirst : assignment_is_first_occurence example_negate_ir
        (first_line_of_function example_negate_ir 1) 1 = result true := by decide
    rw [get_stack_frame_size_assign_eq (fuel + 2) example_negate_ir 1 _ hrow rfl, hfirst]
    rfl
  have h2 := get_stack_frame_size_example_negate fuel
  rw [example_negate_ir_rows] at h0 h1 h2 ⊢
  simp only [new_row] at h0 h1 h2 ⊢
  simp [mcc_annotate_ir, add_stack_sizes, add_stack_sizes_loop, h0, h1, h2, outcome.bind]

/-- C36: on the IR of `int id(int x){ return x; } int main(){ return id(1); }`, whose function
`id` starts with the rows `POP` and `ASSIGN x (row 1)`, the size of the ASSIGN row is asked of
`get_temporary_size` on the POP row, which has no first argument, and the assertion
`ir->arg1` fails; on the IR of `int main(){ int x; x = 1; x = -x; return x; }` the size of the
row `NEGATIV x` is asked of `argument_size` on the second argument of that row, which is
NULL, and the assertion `arg` fails.  `mcc_annotate_ir` ends on the assertion for every
bound on the depth of the nested calls that lets it get that far, and every start value of
the uninitialised local. -/
theorem mcc_annotate_ir_assertion_example (fuel : Nat) (frame_size : Int) :
    (example_parameter_ir[1]?).map (fun r => (r.instr, r.arg1, r.arg2))
      = some (MCC_IR_INSTR_POP, none, none) ∧
    (example_parameter_ir[2]?).map (fun r => (r.instr, r.arg1, r.arg2))
      = some (MCC_IR_INSTR_ASSIGN, some (MCC_IR_TYPE_IDENTIFIER example_x),
          some (MCC_IR_TYPE_ROW 1)) ∧
    get_temporary_size (fuel + 1) example_parameter_ir 1 = assertion_failed ∧
    get_stack_frame_size (fuel + 1) example_parameter_ir 2 = assertion_failed ∧
    mcc_annotate_ir (fuel + 1) frame_size example_parameter_ir = assertion_failed ∧
    (example_negate_ir[2]?).map (fun r => (r.instr, r.arg1, r.arg2))
      = some (MCC_IR_INSTR_NEGATIV, some (MCC_IR_TYPE_IDENTIFIER example_x), none) ∧
    argument_size (fuel + 1) example_negate_ir none 2 = assertion_failed ∧
    get_stack_frame_size (fuel + 2) example_negate_ir 2 = assertion_failed ∧
    mcc_annotate_ir (fuel + 2) frame_size example_negate_ir = assertion_failed := by
  refine ⟨by decide, by decide, ?_, get_stack_frame_size_example_parameter fuel,
    mcc_annotate_ir_example_parameter fuel frame_size, by decide, rfl,
    get_stack_frame_size_example_negate fuel, mcc_annotate_ir_example_negate fuel frame_size⟩
  have hpop : example_parameter_ir[1]? = some (new_row none none MCC_IR_INSTR_POP) := by
    decide
  simp only [get_temporary_size, hpop, new_row]

/-! ### The size of the first assignment to a variable -/

theorem get_stack_frame_size_example_call (fuel : Nat) :
    get_stack_frame_size (fuel + 2) example_call_ir 4 = result 0 := by
  have hrow : example_call_ir[4]?
      = some (new_row (some (MCC_IR_TYPE_IDENTIFIER example_x)) (some (MCC_IR_TYPE_ROW 3))
          MCC_IR_INSTR_ASSIGN) := by decide
  have hcall : example_call_ir[3]?
      = some (new_row (some (MCC_IR_TYPE_IDENTIFIER { identifier_name := "f" })) none
          MCC_IR_INSTR_CALL) := by decide
  have hfind : find_first_occurence "f" example_call_ir 3 = result none := by
    decide
  have hfirst : assignment_is_first_occurence example_call_ir
      (first_line_of_function example_call_ir 4) 4 = result true := by decide
  rw [get_stack_frame_size_assign_eq (fuel + 2) example_call_ir 4 _ hrow rfl, hfirst]
  simp only [new_row, argument_size, hcall, hfind, outcome_bind_eq_result]
  rfl

theorem get_stack_frame_size_example_call_label (fuel : Nat) :
    get_stack_frame_size (fuel + 2) example_call_label_ir 4 = result 0 := by
  have hrow : example_call_label_ir[4]?
      = some (new_row (some (MCC_IR_TYPE_IDENTIFIER example_x)) (some (MCC_IR_TYPE_ROW 3))
          MCC_IR_INSTR_ASSIGN) := by decide
  have hcall : example_call_label_ir[3]?
      = some (new_row (some (MCC_IR_TYPE_FUNC_LABEL "f")) none MCC_IR_INSTR_CALL) := by decide
  have hfirst : assignment_is_first_occurence example_call_label_ir
      (first_line_of_function example_call_label_ir 4) 4 = result true := by decide
  rw [get_stack_frame_size_assign_eq (fuel + 2) example_call_label_ir 4 _ hrow rfl, hfirst]
  simp only [new_row, argument_size, hcall]
  rfl

theorem get_stack_frame_size_example_element (fuel : Nat) :
    get_stack_frame_size (fuel + 1) example_element_ir 2 = result 0 := by
  have hrow : example_element_ir[2]?
      = some (new_row (some (MCC_IR_TYPE_IDENTIFIER example_x))
          (some (MCC_IR_TYPE_ARR_ELEM example_a (MCC_IR_TYPE_LIT_INT 0)))
          MCC_IR_INSTR_ASSIGN) := by decide
  have hfind : find_first_occurence example_a.identifier_name example_element_ir 2
      = result none := by decide
  have hfirst : assignment_is_first_occurence example_element_ir
      (first_line_of_function example_element_ir 2) 2 = result true := by decide
  rw [get_stack_frame_size_assign_eq (fuel + 1) example_element_ir 2 _ hrow rfl, hfirst]
  simp only [new_row, argument_size, hfind, outcome_bind_eq_result]
  rfl

theorem get_stack_frame_size_example_typed_element (fuel : Nat) :
    get_stack_frame_size (fuel + 1) example_typed_element_ir 2 = result 40 := by
  have hrow : example_typed_element_ir[2]?
      = some (new_row (some (MCC_IR_TYPE_IDENTIFIER example_x))
          (some (MCC_IR_TYPE_ARR_ELEM example_a (MCC_IR_TYPE_LIT_INT 0)))
          MCC_IR_INSTR_ASSIGN) := by decide
  have hfind : find_first_occurence example_a.identifier_name example_typed_element_ir 2
      = result (some 1) := by decide
  have hsize : get_array_type_size example_typed_element_ir 1 = result 40 := by decide
  have hfirst : assignment_is_first_occurence example_typed_element_ir
      (first_line_of_function example_typed_element_ir 2) 2 = result true := by decide
  rw [get_stack_frame_size_assign_eq (fuel + 1) example_typed_element_ir 2 _ hrow rfl, hfirst]
  simp only [new_row, argument_size, hfind, outcome_bind_eq_result, hsize]
  rfl

/-- C37 at three inputs.  In the IR of `int f(){ return 1; } int main(){ int x; x = f();
return x; }` the first assignment to `x` takes its size from the first argument of the CALL
row, the identifier of the callee, which no row of `main` defines, so that `argument_size`
returns 0 (with the callee given as a function label the size is 0 as well, `argument_size`
having no case for it).  In the IR of
`int main(){ int a[10]; int x; x = a[0]; return x; }` it takes its size from the defining row
of the array, which `find_first_occurence` does not find, the builder emitting the untyped
ARRAY row, so that the size is 0; with the typed row `ARRAY_INT a 10` in its place the size is
that of the whole array, 40.  In each case the first ASSIGN row of `x` has a size that is
neither 4 nor 8, by `get_stack_frame_size` for every sufficient bound on the depth of the
nested calls and in the list that `mcc_annotate_ir` returns. -/
theorem get_stack_frame_size_first_assign_example (fuel : Nat) :
    (∀ (ir : List mcc_ir_row) (i : Nat) (name : String),
      argument_size (fuel + 1) ir (some (MCC_IR_TYPE_FUNC_LABEL name)) i = result 0) ∧
    assignment_is_first_occurence example_call_ir
      (first_line_of_function example_call_ir 4) 4 = result true ∧
    get_stack_frame_size (fuel + 2) example_call_ir 4 = result 0 ∧
    get_stack_frame_size (fuel + 2) example_call_label_ir 4 = result 0 ∧
    mcc_annotate_ir 2 0 example_call_ir
      = result [{ stack_size := 0, stack_position := none, row := 0 },
                { stack_size := 0, stack_position := none, row := 0 },
                { stack_size := 0, stack_position := some 0, row := 1 },
                { stack_size := 0, stack_position := none, row := 2 },
                { stack_size := 0, stack_position := some 0, row := 3 },
                { stack_size := 0, stack_position := some 0, row := 4 },
                { stack_size := 0, stack_position := some 0, row := 5 }] ∧
    assignment_is_first_occurence example_element_ir
      (first_line_of_function example_element_ir 2) 2 = result true ∧
    get_stack_frame_size (fuel + 1) example_element_ir 2 = result 0 ∧
    mcc_annotate_ir 2 0 example_element_ir
      = result [{ stack_size := 0, stack_position := none, row := 0 },
                { stack_size := 0, stack_position := none, row := 0 },
                { stack_size := 0, stack_position := some 0, row := 1 },
                { stack_size := 0, stack_position := some 0, row := 2 },
                { stack_size := 0, stack_position := some 0, row := 3 }] ∧
    get_stack_frame_size (fuel + 1) example_typed_element_ir 2 = result 40 ∧
    mcc_annotate_ir 2 0 example_typed_element_ir
      = result [{ stack_size := 160, stack_position := none, row := 0 },
                { stack_size := 80, stack_position := none, row := 0 },
                { stack_size := 40, stack_position := some (-40), row := 1 },
                { stack_size := 40, stack_position := some (-80), row := 2 },
                { stack_size := 0, stack_position := some (-80), row := 3 }] :=
  ⟨fun _ _ _ => rfl, by decide, get_stack_frame_size_example_call fuel,
    get_stack_frame_size_example_call_label fuel, by decide, by decide,
    get_stack_frame_size_example_element fuel, by decide,
    get_stack_frame_size_example_typed_element fuel, by decide⟩

/-! ### The number of nodes of the annotated list -/

/-- C38: a list that `mcc_annotate_ir` returns for an IR list of `n` rows has `n + 1` nodes:
the head node and the node after it both point to the first row, and for every `k` the node
at position `k + 1` points to row `k`; so the FUNC_LABEL row at the head of the list is
annotated twice, and the node at position `k` points to row `k` only for `k = 0`. -/
theorem mcc_annotate_ir_node_count (fuel : Nat) (frame_size : Int) (ir : List mcc_ir_row)
    (an : List mcc_annotated_ir) (h : mcc_annotate_ir fuel frame_size ir = result an) :
    an.length = ir.length + 1
    ∧ an.length ≠ ir.length
    ∧ (∃ head second : mcc_annotated_ir,
        an[0]? = some head ∧ an[1]? = some second ∧ head.row = 0 ∧ second.row = 0)
    ∧ (∀ k, k < ir.length → ∃ a, an[k + 1]? = some a ∧ a.row = k)
    ∧ (∀ (k : Nat) (a : mcc_annotated_ir), 0 < k → an[k]? = some a → a.row ≠ k) := by
  obtain ⟨hlen, hfirst, ⟨head, hhead, hrow⟩, hnodes, _⟩ :=
    mcc_annotate_ir_spec fuel frame_size ir an h
  have hpos : 0 < ir.length := by
    cases ir with
    | nil => simp [instr_at] at hfirst
    | cons r rest => simp
  obtain ⟨second, hsecond, hsrow, _⟩ := hnodes 0 hpos
  refine ⟨hlen, by omega, ⟨head, second, hhead, hsecond, hrow, hsrow⟩,
    fun k hk => ?_, fun k a hk ha => ?_⟩
  · obtain ⟨a, ha, hr, _⟩ := hnodes k hk
    exact ⟨a, ha, hr⟩
  · obtain ⟨j, rfl⟩ : ∃ j, k = j + 1 := ⟨k - 1, by omega⟩
    have hj : j < ir.length := by
      have := (List.getElem?_eq_some_iff.1 ha).1
      omega
    obtain ⟨b, hb, hr, _⟩ := hnodes j hj
    rw [ha] at hb
    cases hb
    omega

theorem mcc_annotate_ir_node_count_witness :
    mcc_annotate_ir 2 0 example_reassign_ir = result example_reassign_annotated ∧
    example_reassign_ir.length = 5 ∧
    example_reassign_annotated.length = 6 ∧
    example_reassign_annotated.map (fun a => a.row) = [0, 0, 1, 2, 3, 4] ∧
    example_reassign_annotated.length = example_reassign_ir.length + 1 :=
  ⟨by decide, by decide, by decide, by decide,
    (mcc_annotate_ir_node_count 2 0 example_reassign_ir example_reassign_annotated
      (by decide)).1⟩

/-! ### Indexed assignment to a scalar -/

/-- C39: for the indexed assignment `x[i] = e` to an identifier that resolves to the row of a
scalar (`array_size` is -1), with `e` and then `i` typed with the record at status OK, `i` of
type int and `e` of the type of the row, `cb_type_conversion_assignment` leaves the record as
the typing of `i` left it, with status OK: it does not test that `x` is an array.  The
array-element expression `x[i]` on the same `x` sets the status to FAIL. -/
theorem cb_type_conversion_assignment_array_scalar (table : mcc_symbol_table_lookup)
    (x : mcc_ast_identifier) (i e : mcc_ast_expression) (check : mcc_semantic_check)
    (row : mcc_symbol_table_row)
    (hrow : table.check_upwards_for_declaration x.identifier_name = some row)
    (hscalar : row.array_size = -1)
    (hok : (check_and_get_type_expression table i
        (check_and_get_type_expression table e check).2).2.status = MCC_SEMANTIC_CHECK_OK)
    (hint : is_int (check_and_get_type_expression table i
        (check_and_get_type_expression table e check).2).1 = true)
    (heq : types_equal (get_data_type_from_row row)
        (check_and_get_type_expression table e check).1 = true) :
    cb_type_conversion_assignment table
        (MCC_AST_STATEMENT_TYPE_ASSIGNMENT (MCC_AST_ASSIGNMENT_TYPE_ARRAY x i e)) check
      = (check_and_get_type_expression table i
          (check_and_get_type_expression table e check).2).2
    ∧ (cb_type_conversion_assignment table
        (MCC_AST_STATEMENT_TYPE_ASSIGNMENT (MCC_AST_ASSIGNMENT_TYPE_ARRAY x i e)) check).status
      = MCC_SEMANTIC_CHECK_OK
    ∧ (check_and_get_type_expression table (MCC_AST_EXPRESSION_TYPE_ARRAY_ELEMENT x i)
        check).2.status = MCC_SEMANTIC_CHECK_FAIL := by
  have hsame : ({ get_data_type_from_row row with is_array := false, array_size := -1 } :
      mcc_semantic_check_data_type) = get_data_type_from_row row := by
    simp [get_data_type_from_row, hscalar]
  have hres : cb_type_conversion_assignment table
        (MCC_AST_STATEMENT_TYPE_ASSIGNMENT (MCC_AST_ASSIGNMENT_TYPE_ARRAY x i e)) check
      = (check_and_get_type_expression table i
          (check_and_get_type_expression table e check).2).2 := by
    simp only [cb_type_conversion_assignment, check_and_get_type_identifier, hrow, hsame,
      cb_type_conversion_assignment_types, hint, heq]
    simp [get_data_type_from_row, hscalar]
  refine ⟨hres, by rw [hres]; exact hok, ?_⟩
  simp only [check_and_get_type_expression, check_and_get_type_identifier, hrow,
    check_and_get_type_array_element_operands]
  have harr : (get_data_type_from_row row).is_array = false := by
    simp [get_data_type_from_row, hscalar]
  split_ifs <;> simp_all [record_failure_status]

theorem cb_type_conversion_assignment_array_scalar_witness :
    (example_symbol_table.at_assignment 0).check_upwards_for_declaration
        example_x.identifier_name
      = some { name := "x", row_type := MCC_SYMBOL_TABLE_ROW_TYPE_INT, array_size := -1 } ∧
    cb_type_conversion_assignment (example_symbol_table.at_assignment 0)
        (MCC_AST_STATEMENT_TYPE_ASSIGNMENT (MCC_AST_ASSIGNMENT_TYPE_ARRAY example_x
          (MCC_AST_EXPRESSION_TYPE_LITERAL (MCC_AST_LITERAL_TYPE_INT 0))
          (MCC_AST_EXPRESSION_TYPE_LITERAL (MCC_AST_LITERAL_TYPE_INT 1))))
        mcc_semantic_check_initialize_check = mcc_semantic_check_initialize_check ∧
    (check_and_get_type_expression (example_symbol_table.at_assignment 0)
        (MCC_AST_EXPRESSION_TYPE_ARRAY_ELEMENT example_x
          (MCC_AST_EXPRESSION_TYPE_LITERAL (MCC_AST_LITERAL_TYPE_INT 0)))
        mcc_semantic_check_initialize_check).2
      = { status := MCC_SEMANTIC_CHECK_FAIL,
          error_buffer := some "subscripted value 'name' is not an array." } :=
  ⟨by decide,
    (cb_type_conversion_assignment_array_scalar (example_symbol_table.at_assignment 0)
      example_x (MCC_AST_EXPRESSION_TYPE_LITERAL (MCC_AST_LITERAL_TYPE_INT 0))
      (MCC_AST_EXPRESSION_TYPE_LITERAL (MCC_AST_LITERAL_TYPE_INT 1))
      mcc_semantic_check_initialize_check
      { name := "x", row_type := MCC_SYMBOL_TABLE_ROW_TYPE_INT, array_size := -1 }
      (by decide) (by decide) (by decide) (by decide) (by decide)).1,
    by decide⟩

/-! ### The tag UNKNOWN and the status of the record -/

theorem record_failure_error_buffer (size : Nat) (string message : String)
    (check : mcc_semantic_check) (h : check.error_buffer = some message) :
    (record_failure size string check).error_buffer = some message := by
  simp [record_failure, h]

theorem get_data_type_from_row_known (row : mcc_symbol_table_row)
    (h : row_type_named row.row_type = true) :
    (get_data_type_from_row row).type ≠ MCC_SEMANTIC_CHECK_UNKNOWN := by
  simp only [get_data_type_from_row]
  cases hr : row.row_type <;> simp_all [row_type_named]

/-- Typing an expression keeps a message that the record already holds. -/
theorem check_and_get_type_expression_error_buffer (table : mcc_symbol_table_lookup)
    (message : String) :
    ∀ (expression : mcc_ast_expression) (check : mcc_semantic_check),
      check.error_buffer = some message →
      (check_and_get_type_expression table expression check).2.error_buffer = some message
  | MCC_AST_EXPRESSION_TYPE_LITERAL _, _, h => h
  | MCC_AST_EXPRESSION_TYPE_BINARY_OP op lhs rhs, check, h => by
    have hr := check_and_get_type_expression_error_buffer table message rhs _
      (check_and_get_type_expression_error_buffer table message lhs check h)
    simp only [check_and_get_type_expression, check_and_get_type_binary_expression_operands]
    split_ifs <;> first
      | exact hr
      | exact record_failure_error_buffer _ _ _ _ hr
      | exact record_failure_error_buffer _ _ _ _ (record_failure_error_buffer _ _ _ _ hr)
  | MCC_AST_EXPRESSION_TYPE_PARENTH expression, check, h => by
    simp only [check_and_get_type_expression]
    exact check_and_get_type_expression_error_buffer table message expression check h
  | MCC_AST_EXPRESSION_TYPE_UNARY_OP u_op child, check, h => by
    have hc := check_and_get_type_expression_error_buffer table message child check h
    simp only [check_and_get_type_expression, check_and_get_type_unary_expression_operand]
    split_ifs <;> first
      | exact hc
      | exact record_failure_error_buffer _ _ _ _ hc
  | MCC_AST_EXPRESSION_TYPE_VARIABLE identifier, check, h => by
    simp only [check_and_get_type_expression, check_and_get_type_identifier]
    split <;> first
      | exact h
      | exact record_failure_error_buffer _ _ _ _ h
  | MCC_AST_EXPRESSION_TYPE_ARRAY_ELEMENT array_identifier index, check, h => by
    have hi := check_and_get_type_expression_error_buffer table message index check h
    have ha : (check_and_get_type_identifier table array_identifier
        (check_and_get_type_expression table index check).2).2.error_buffer = some message := by
      simp only [check_and_get_type_identifier]
      split <;> first
        | exact hi
        | exact record_failure_error_buffer _ _ _ _ hi
    simp only [check_and_get_type_expression, check_and_get_type_array_element_operands]
    split_ifs <;> first
      | exact ha
      | exact record_failure_error_buffer _ _ _ _ ha
      | exact record_failure_error_buffer _ _ _ _ (record_failure_error_buffer _ _ _ _ ha)
  | MCC_AST_EXPRESSION_TYPE_FUNCTION_CALL function_identifier _, check, h => by
    simp only [check_and_get_type_expression, get_type_function_call]
    split <;> first
      | exact h
      | exact record_failure_error_buffer _ _ _ _ h

/-- With rows of the five named types only, an expression whose type has the tag UNKNOWN
leaves the record with status FAIL. -/
theorem check_and_get_type_expression_unknown_fail (table : mcc_symbol_table_lookup)
    (hvar : ∀ name row, table.check_upwards_for_declaration name = some row →
      row_type_named row.row_type = true)
    (hfun : ∀ name row, table.check_for_function_declaration name = some row →
      row_type_named row.row_type = true) :
    ∀ (expression : mcc_ast_expression) (check : mcc_semantic_check),
      (check_and_get_type_expression table expression check).1.type
        = MCC_SEMANTIC_CHECK_UNKNOWN →
      (check_and_get_type_expression table expression check).2.status
        = MCC_SEMANTIC_CHECK_FAIL
  | MCC_AST_EXPRESSION_TYPE_LITERAL literal, check, h => by
    simp only [check_and_get_type_expression] at h
    cases literal <;> simp [check_and_get_type_literal, get_new_data_type] at h
  | MCC_AST_EXPRESSION_TYPE_BINARY_OP op lhs rhs, check, h => by
    have hl := check_and_get_type_expression_unknown_fail table hvar hfun lhs check
    have hr := check_and_get_type_expression_fail table rhs
      (check_and_get_type_expression table lhs check).2
    simp only [check_and_get_type_expression] at h ⊢
    generalize check_and_get_type_expression table rhs
      (check_and_get_type_expression table lhs check).2 = r at h hr ⊢
    generalize check_and_get_type_expression table lhs check = l at h hl hr ⊢
    by_cases hlu : l.1.type = MCC_SEMANTIC_CHECK_UNKNOWN
    · exact check_and_get_type_binary_expression_operands_fail _ _ _ _ (hr (hl hlu))
    · simp only [check_and_get_type_binary_expression_operands] at h ⊢
      split_ifs at h ⊢ <;> simp_all [record_failure_status]
  | MCC_AST_EXPRESSION_TYPE_PARENTH expression, check, h => by
    simp only [check_and_get_type_expression] at h ⊢
    exact check_and_get_type_expression_unknown_fail table hvar hfun expression check h
  | MCC_AST_EXPRESSION_TYPE_UNARY_OP u_op child, check, h => by
    have hc := check_and_get_type_expression_unknown_fail table hvar hfun child check
    simp only [check_and_get_type_expression] at h ⊢
    generalize check_and_get_type_expression table child check = c at h hc ⊢
    by_cases hcu : c.1.type = MCC_SEMANTIC_CHECK_UNKNOWN
    · exact check_and_get_type_unary_expression_operand_fail _ _ _ (hc hcu)
    · simp only [check_and_get_type_unary_expression_operand] at h ⊢
      split_ifs at h ⊢ <;> simp_all [record_failure_status]
  | MCC_AST_EXPRESSION_TYPE_VARIABLE identifier, check, h => by
    simp only [check_and_get_type_expression, check_and_get_type_identifier] at h ⊢
    cases hrow : table.check_upwards_for_declaration identifier.identifier_name with
    | none => simp [hrow, record_failure_status]
    | some row =>
      simp only [hrow] at h
      exact absurd h (get_data_type_from_row_known row (hvar _ row hrow))
  | MCC_AST_EXPRESSION_TYPE_ARRAY_ELEMENT array_identifier index, check, h => by
    simp only [check_and_get_type_expression, check_and_get_type_identifier] at h ⊢
    generalize check_and_get_type_expression table index check = i at h ⊢
    cases hrow : table.check_upwards_for_declaration array_identifier.identifier_name with
    | none =>
      simp only [hrow]
      exact check_and_get_type_array_element_operands_fail _ _ _ (record_failure_status _ _ _)
    | some row =>
      have hk := get_data_type_from_row_known row (hvar _ row hrow)
      simp only [hrow, check_and_get_type_array_element_operands] at h ⊢
      split_ifs at h ⊢ <;> simp_all [record_failure_status]
  | MCC_AST_EXPRESSION_TYPE_FUNCTION_CALL function_identifier _, check, h => by
    simp only [check_and_get_type_expression, get_type_function_call] at h ⊢
    cases hrow : table.check_for_function_declaration function_identifier.identifier_name with
    | none => simp [hrow, record_failure_status]
    | some row =>
      simp only [hrow] at h
      exact absurd h (get_data_type_from_row_known row (hfun _ row hrow))

/-- C40: with a symbol table whose rows all have one of the five row types INT, FLOAT, BOOL,
STRING, VOID, for every expression and every record: if the type that
`check_and_get_type_expression` returns has the tag UNKNOWN, the record has status FAIL
after the call; a record that has status FAIL before the call has status FAIL after it; and
a message that the record holds before the call is the message it holds after it. -/
theorem check_and_get_type_expression_unknown (table : mcc_symbol_table_lookup)
    (expression : mcc_ast_expression) (check : mcc_semantic_check)
    (hvar : ∀ name row, table.check_upwards_for_declaration name = some row →
      row_type_named row.row_type = true)
    (hfun : ∀ name row, table.check_for_function_declaration name = some row →
      row_type_named row.row_type = true) :
    ((check_and_get_type_expression table expression check).1.type
        = MCC_SEMANTIC_CHECK_UNKNOWN →
      (check_and_get_type_expression table expression check).2.status
        = MCC_SEMANTIC_CHECK_FAIL)
    ∧ (check.status = MCC_SEMANTIC_CHECK_FAIL →
      (check_and_get_type_expression table expression check).2.status
        = MCC_SEMANTIC_CHECK_FAIL)
    ∧ (∀ message : String, check.error_buffer = some message →
      (check_and_get_type_expression table expression check).2.error_buffer = some message) :=
  ⟨check_and_get_type_expression_unknown_fail table hvar hfun expression check,
    check_and_get_type_expression_fail table expression check,
    fun message h => check_and_get_type_expression_error_buffer table message expression check h⟩

theorem check_and_get_type_expression_unknown_witness :
    (∀ name row, (example_symbol_table.at_assignment 0).check_upwards_for_declaration name
        = some row → row_type_named row.row_type = true) ∧
    (∀ name row, (example_symbol_table.at_assignment 0).check_for_function_declaration name
        = some row → row_type_named row.row_type = true) ∧
    (check_and_get_type_expression (example_symbol_table.at_assignment 0) example_one_plus_true
        mcc_semantic_check_initialize_check).1.type = MCC_SEMANTIC_CHECK_UNKNOWN ∧
    (check_and_get_type_expression (example_symbol_table.at_assignment 0) example_one_plus_true
        mcc_semantic_check_initialize_check).2.status = MCC_SEMANTIC_CHECK_FAIL ∧
    (check_and_get_type_expression (example_symbol_table.at_assignment 0) example_one_plus_true
        example_failed_check).2 = example_failed_check := by
  have hvar : ∀ name row,
      (example_symbol_table.at_assignment 0).check_upwards_for_declaration name = some row →
      row_type_named row.row_type = true := by
    intro name row h
    simp only [example_symbol_table] at h
    split_ifs at h <;> (cases h; rfl)
  have hfun : ∀ name row,
      (example_symbol_table.at_assignment 0).check_for_function_declaration name = some row →
      row_type_named row.row_type = true := by
    intro name row h
    simp only [example_symbol_table] at h
    split_ifs at h
    cases h
    rfl
  exact ⟨hvar, hfun, by decide,
    (check_and_get_type_expression_unknown (example_symbol_table.at_assignment 0)
      example_one_plus_true mcc_semantic_check_initialize_check hvar hfun).1 (by decide),
    by decide⟩

end Mcc
